import Mathlib

/-!
Adaptive loop filter: classification, coefficient reconstruction and filtering.

A shallow embedding of `source/Lib/CommonLib/AdaptiveLoopFilter.cpp` and
`AdaptiveLoopFilter.h`, followed by theorems about it.

Conventions of the embedding.

* A sample buffer addressed through a base pointer and a stride is a function from a row
  and a column to a sample: the pointer `buf + y * stride + x` is the pair `(y, x)`.
* Signed `int` arithmetic on positions, indices and block sums is arithmetic in `Int`.
  The accumulator `int sum` of `filterBlk`, which coefficients and samples of the 16-bit
  types can drive out of the 32-bit range, wraps in two's complement (`toInt32`), as the
  compiled code does. Conversions to the 16-bit sample type, to `uint8_t` and to
  `uint32_t` are explicit wrap-arounds.
* The compile-time switches of `TypeDef.h` are the ones the specification describes:
  boundary padding through `alfBryList` (`JVET_O0625_ALF_PADDING`), chroma filter
  alternatives (`JVET_O0090_ALF_CHROMA_FILTER_ALTERNATIVES_CTB`), no PCM handling
  (`JVET_O0525_REMOVE_PCM`) and no coefficient prediction
  (`JVET_O0669_REMOVE_ALF_COEFF_PRED`).
* The constant `ALF_NONE_BOUNDARY` is declared outside the files at hand; every
  definition that uses it takes it as its first argument.
* A `CHECK` that fires, and a division by zero, end the call with an error.
-/

namespace AdaptiveLoopFilter

/-! ## Loops -/

/-- Counted loop: runs `body 0`, `body 1`, ..., `body (n - 1)` in this order. -/
def loopN {σ : Type} : Nat → (Nat → σ → σ) → σ → σ
  | 0, _, s => s
  | n + 1, body, s => body n (loopN n body s)

/-- The loop `for (i = 0; i < bound; i += step) body(i)`. -/
def forStep {σ : Type} (bound step : Nat) (body : Nat → σ → σ) (s : σ) : σ :=
  loopN ((bound + step - 1) / step) (fun k => body (k * step)) s

/-! ## Data model -/

/-- Sample plane: row, then column. -/
abbrev Plane := Int → Int → Int

/-- Store of one sample. -/
def setPel (p : Plane) (y x v : Int) : Plane :=
  fun y' x' => if y' = y ∧ x' = x then v else p y' x'

inductive ComponentID where
  | COMPONENT_Y
  | COMPONENT_Cb
  | COMPONENT_Cr
  deriving DecidableEq, Repr

inductive ChannelType where
  | CHANNEL_TYPE_LUMA
  | CHANNEL_TYPE_CHROMA
  deriving DecidableEq, Repr

inductive ChromaFormat where
  | CHROMA_400
  | CHROMA_420
  | CHROMA_422
  | CHROMA_444
  deriving DecidableEq, Repr

inductive AlfFilterType where
  | ALF_FILTER_5
  | ALF_FILTER_7
  deriving DecidableEq, Repr

/-- A picture buffer with one plane per component (`PelUnitBuf`, `CPelUnitBuf`). -/
abbrev PelUnitBuf := ComponentID → Plane

/-- Rectangle `Area`: position of the top-left corner and size. -/
structure Area where
  x : Int
  y : Int
  width : Nat
  height : Nat

/-- Clipping range of a component: the two bounds `ClipPel` uses. -/
structure ClpRng where
  min : Int
  max : Int

/-- Entry of the classification map (`struct AlfClassifier`, two `uint8_t`). -/
structure AlfClassifier where
  classIdx : Nat
  transposeIdx : Nat
  deriving DecidableEq, Repr

/-- The constructor `AlfClassifier( cIdx, tIdx )` called with two `int`: both are
converted to `uint8_t`. -/
def AlfClassifier.ofInt (cIdx tIdx : Int) : AlfClassifier :=
  ⟨(cIdx % 256).toNat, (tIdx % 256).toNat⟩

/-- Classification map `AlfClassifier **classifier`: row, then column. -/
abbrev ClassMap := Int → Int → AlfClassifier

/-- Modelled from the spec: the table sizes of `CommonDef.h` (not among the files at
hand), "up to 25 classes x 13 taps" for luma. -/
def MAX_NUM_ALF_LUMA_COEFF : Nat := 13

/-- Modelled from the spec: "up to N alternatives x 7 taps" for chroma. -/
def MAX_NUM_ALF_CHROMA_COEFF : Nat := 7

/-- Modelled from the spec: the number of luma classes, 25. -/
def MAX_NUM_ALF_CLASSES : Nat := 25

/-- Fixed-point precision `m_NUM_BITS` of the header. -/
def m_NUM_BITS : Nat := 8

/-- Size of the classification tile, `m_CLASSIFICATION_BLK_SIZE` of the header. -/
def m_CLASSIFICATION_BLK_SIZE : Nat := 32

/-- Modelled from the spec: `isChroma` of a component (`ChromaFormat.h`, not among the
files at hand): every component but luma. -/
def isChroma (compId : ComponentID) : Bool :=
  compId != ComponentID.COMPONENT_Y

/-- Modelled from the spec: vertical subsampling shift of a component
(`getComponentScaleY`, not among the files at hand): 1 for chroma in 4:2:0, else 0. -/
def getComponentScaleY (compId : ComponentID) (fmt : ChromaFormat) : Nat :=
  if compId = ComponentID.COMPONENT_Y ∨ fmt ≠ ChromaFormat.CHROMA_420 then 0 else 1

/-- Modelled from the spec: horizontal subsampling shift of a component
(`getComponentScaleX`, not among the files at hand): 0 for luma and for 4:4:4, else 1. -/
def getComponentScaleX (compId : ComponentID) (fmt : ChromaFormat) : Nat :=
  if compId = ComponentID.COMPONENT_Y ∨ fmt = ChromaFormat.CHROMA_444 then 0 else 1

/-- Modelled from the spec: `Clip3` of `CommonDef.h` (not among the files at hand),
"clip to ±(the tap's clip bound)": `min (max minVal a) maxVal`. -/
def Clip3 (minVal maxVal a : Int) : Int :=
  min (max minVal a) maxVal

/-- Modelled from the spec: `ClipPel` of `CommonDef.h` (not among the files at hand),
"clip to the valid sample range". -/
def ClipPel (a : Int) (clpRng : ClpRng) : Int :=
  min (max clpRng.min a) clpRng.max

/-- Modelled from the spec: conversion of an `int` to the sample type `Pel`, a signed
16-bit integer (`TypeDef.h`, not among the files at hand). -/
def toPel (a : Int) : Int :=
  (a + 32768) % 65536 - 32768

/-- Conversion of an `int` to `uint32_t`. -/
def toUInt32 (a : Int) : Int :=
  a % 4294967296

/-- The value of an integer expression in a 32-bit `int`: the result of an addition or a
multiplication of two `int` that leaves the range is reduced modulo `2 ^ 32` to the range
`-2 ^ 31 .. 2 ^ 31 - 1` (two's complement, what the compiled code does). -/
def toInt32 (a : Int) : Int :=
  (a + 2147483648) % 4294967296 - 2147483648

/-- The statement `sum += coef * v` on the 32-bit `int sum`, with `coef` and `v` of type
`int`. -/
def mulAdd32 (sum coef v : Int) : Int :=
  toInt32 (sum + toInt32 (coef * v))

/-- The bitwise and of two `int`. -/
def bitAnd (a b : Int) : Int :=
  Int.land a b

/-- The remainder `a % b` of C++ (truncated division). -/
def cRem (a b : Int) : Int :=
  Int.tmod a b

/-- The left shift `a << n` of an `int`. -/
def shl (a : Int) (n : Nat) : Int :=
  a * 2 ^ n

/-- The right shift `a >> n` of an `int` (arithmetic shift). -/
def shr (a : Int) (n : Nat) : Int :=
  a >>> n

/-! ## The filter: `clipALF` and `filterBlk` -/

/-- The function `clipALF` of the header. -/
def clipALF (clip ref val0 val1 : Int) : Int :=
  Clip3 (-clip) clip (val0 - ref) + Clip3 (-clip) clip (val1 - ref)

/-- The tap reordering of `filterBlk`: the braced lists assigned to `filterCoeff` and to
`filterClipp` for the given filter type and transpose index. -/
def transposeRow (filtType : AlfFilterType) (transposeIdx : Nat) (coef : Nat → Int) :
    List Int :=
  match filtType with
  | AlfFilterType.ALF_FILTER_7 =>
    if transposeIdx = 1 then
      [coef 9, coef 4, coef 10, coef 8, coef 1, coef 5, coef 11, coef 7, coef 3, coef 0,
        coef 2, coef 6, coef 12]
    else if transposeIdx = 2 then
      [coef 0, coef 3, coef 2, coef 1, coef 8, coef 7, coef 6, coef 5, coef 4, coef 9,
        coef 10, coef 11, coef 12]
    else if transposeIdx = 3 then
      [coef 9, coef 8, coef 10, coef 4, coef 3, coef 7, coef 11, coef 5, coef 1, coef 0,
        coef 2, coef 6, coef 12]
    else
      [coef 0, coef 1, coef 2, coef 3, coef 4, coef 5, coef 6, coef 7, coef 8, coef 9,
        coef 10, coef 11, coef 12]
  | AlfFilterType.ALF_FILTER_5 =>
    if transposeIdx = 1 then
      [coef 4, coef 1, coef 5, coef 3, coef 0, coef 2, coef 6]
    else if transposeIdx = 2 then
      [coef 0, coef 3, coef 2, coef 1, coef 4, coef 5, coef 6]
    else if transposeIdx = 3 then
      [coef 4, coef 3, coef 5, coef 1, coef 0, coef 2, coef 6]
    else
      [coef 0, coef 1, coef 2, coef 3, coef 4, coef 5, coef 6]

/-- Entry `k` of a `std::array<int, 13>` that was assigned a braced list (entries the
list does not give are zero). -/
def arrayAt (row : List Int) (k : Nat) : Int :=
  row.getD k 0

/-- The boundary positions `filterBlk` derives from `alfBryList` before its loops. -/
structure BryPos where
  alfTopBryPos : Int
  alfBotBryPos : Int
  alfLeftBryPos : Int
  alfRightBryPos : Int
  botBryLines : Int

/-- Lines 1362-1369 of `filterBlk`. -/
def bryPos (ALF_NONE_BOUNDARY : Int) (bChroma : Bool) (fmt : ChromaFormat)
    (vbCTUHeight vbPos : Int) (alfBryList : Nat → Int) : BryPos :=
  let comp := if bChroma then ComponentID.COMPONENT_Cb else ComponentID.COMPONENT_Y
  let chromaScaleY := getComponentScaleY comp fmt
  let chromaScaleX := getComponentScaleX comp fmt
  let alfTopBryPos :=
    if alfBryList 0 ≠ ALF_NONE_BOUNDARY then shr (alfBryList 0) chromaScaleY
    else ALF_NONE_BOUNDARY
  let alfBotBryPos :=
    if alfBryList 1 ≠ ALF_NONE_BOUNDARY then shr (alfBryList 1) chromaScaleY
    else ALF_NONE_BOUNDARY
  let alfLeftBryPos :=
    if alfBryList 2 ≠ ALF_NONE_BOUNDARY then shr (alfBryList 2) chromaScaleX
    else ALF_NONE_BOUNDARY
  let alfRightBryPos :=
    if alfBryList 3 ≠ ALF_NONE_BOUNDARY then shr (alfBryList 3) chromaScaleX
    else ALF_NONE_BOUNDARY
  let botBryLines : Int :=
    if cRem (alfBotBryPos - shr 4 chromaScaleY) vbCTUHeight = vbPos
        ∧ alfBotBryPos ≠ ALF_NONE_BOUNDARY then 2 else 4
  ⟨alfTopBryPos, alfBotBryPos, alfLeftBryPos, alfRightBryPos, botBryLines⟩

/-- The seven row pointers `pImg0` ... `pImg6` of one pixel row, as row numbers of the
source plane (they all point at the same column). -/
structure RowPtrs where
  pImg0 : Int
  pImg1 : Int
  pImg2 : Int
  pImg3 : Int
  pImg4 : Int
  pImg5 : Int
  pImg6 : Int

/-- The substitution pattern shared by the four padding blocks of lines 1501-1544:
with `r` the row of `pImg0`,
`pImg1 = c1 ? pImg0 : pImg1; pImg3 = c2 ? pImg1 : pImg3; pImg5 = c3 ? pImg3 : pImg5;`
and the same for `pImg2`, `pImg4`, `pImg6` (the two triples do not depend on each other,
so their order in the source is immaterial). -/
def padRows (r : Int) (c1 c2 c3 : Bool) : RowPtrs :=
  let pImg0 := r
  let pImg1 := if c1 then pImg0 else r + 1
  let pImg3 := if c2 then pImg1 else r + 2
  let pImg5 := if c3 then pImg3 else r + 3
  let pImg2 := if c1 then pImg0 else r - 1
  let pImg4 := if c2 then pImg2 else r - 2
  let pImg6 := if c3 then pImg4 else r - 3
  ⟨pImg0, pImg1, pImg2, pImg3, pImg4, pImg5, pImg6⟩

/-- Lines 1487-1544 of `filterBlk`: the row pointers of the pixel row with source row
`r` and picture row `pixYPos`, after the substitutions at the virtual boundary and at
the top and bottom boundaries. -/
def rowPtrs (ALF_NONE_BOUNDARY : Int) (bChroma : Bool) (vbCTUHeight vbPos : Int)
    (b : BryPos) (pixYPos r : Int) : RowPtrs :=
  let yVb := bitAnd pixYPos (vbCTUHeight - 1)
  if yVb < vbPos ∧ yVb ≥ vbPos - (if bChroma then 2 else 4) then
    padRows r (decide (yVb = vbPos - 1)) (decide (yVb ≥ vbPos - 2)) (decide (yVb ≥ vbPos - 3))
  else if b.alfBotBryPos ≠ ALF_NONE_BOUNDARY ∧ pixYPos < b.alfBotBryPos
      ∧ pixYPos ≥ b.alfBotBryPos - (if bChroma then shr b.botBryLines 1 else b.botBryLines) then
    padRows r (decide (pixYPos = b.alfBotBryPos - 1)) (decide (pixYPos ≥ b.alfBotBryPos - 2))
      (decide (pixYPos ≥ b.alfBotBryPos - 3))
  else if b.alfTopBryPos ≠ ALF_NONE_BOUNDARY ∧ pixYPos ≥ b.alfTopBryPos
      ∧ pixYPos ≤ b.alfTopBryPos + (if bChroma then 1 else 2) then
    padRows r (decide (pixYPos = b.alfTopBryPos)) (decide (pixYPos ≤ b.alfTopBryPos + 1))
      (decide (pixYPos ≤ b.alfTopBryPos + 2))
  else if yVb ≥ vbPos ∧ yVb ≤ vbPos + (if bChroma then 1 else 3) then
    padRows r (decide (yVb = vbPos)) (decide (yVb ≤ vbPos + 1)) (decide (yVb ≤ vbPos + 2))
  else
    padRows r false false false

/-- The column offsets `idx1`, `idx2`, `idx3` of one pixel. -/
structure ColIdx where
  idx1 : Int
  idx2 : Int
  idx3 : Int

/-- The pattern shared by the two padding blocks of lines 1573-1586:
`idx1 = c1 ? 0 : 1; idx2 = c2 ? idx1 : 2; idx3 = c3 ? idx2 : 3;`. -/
def padCols (c1 c2 c3 : Bool) : ColIdx :=
  let idx1 : Int := if c1 then 0 else 1
  let idx2 : Int := if c2 then idx1 else 2
  let idx3 : Int := if c3 then idx2 else 3
  ⟨idx1, idx2, idx3⟩

/-- Lines 1570-1586 of `filterBlk`: the column offsets of the pixel in picture column
`pixXPos`, after the padding at the left and right boundaries. -/
def colIdx (ALF_NONE_BOUNDARY : Int) (bChroma : Bool) (b : BryPos) (pixXPos : Int) :
    ColIdx :=
  if b.alfLeftBryPos ≠ ALF_NONE_BOUNDARY ∧ pixXPos ≥ b.alfLeftBryPos
      ∧ pixXPos ≤ b.alfLeftBryPos + (if bChroma then 1 else 2) then
    padCols (decide (pixXPos = b.alfLeftBryPos)) (decide (pixXPos ≤ b.alfLeftBryPos + 1))
      (decide (pixXPos ≤ b.alfLeftBryPos + 2))
  else if b.alfRightBryPos ≠ ALF_NONE_BOUNDARY ∧ pixXPos < b.alfRightBryPos
      ∧ pixXPos ≥ b.alfRightBryPos - (if bChroma then 2 else 4) then
    padCols (decide (pixXPos = b.alfRightBryPos - 1)) (decide (pixXPos ≥ b.alfRightBryPos - 2))
      (decide (pixXPos ≥ b.alfRightBryPos - 3))
  else
    padCols false false false

/-- Lines 1567-1616 of `filterBlk`: the weighted sum of the clipped differences of one
pixel, whose row pointers are `p` and whose source column is `c`: the value of the 32-bit
`int sum` after `sum = 0` and the statements `sum += filterCoeff[k] * clipALF(...)`. -/
def tapSum (filtType : AlfFilterType) (src : Plane) (filterCoeff filterClipp : List Int)
    (p : RowPtrs) (c : Int) (ix : ColIdx) : Int :=
  let curr := src p.pImg0 c
  let sum : Int := 0
  match filtType with
  | AlfFilterType.ALF_FILTER_7 =>
    let sum := mulAdd32 sum (arrayAt filterCoeff 0)
      (clipALF (arrayAt filterClipp 0) curr (src p.pImg5 c) (src p.pImg6 c))
    let sum := mulAdd32 sum (arrayAt filterCoeff 1)
      (clipALF (arrayAt filterClipp 1) curr (src p.pImg3 (c + ix.idx1)) (src p.pImg4 (c - ix.idx1)))
    let sum := mulAdd32 sum (arrayAt filterCoeff 2)
      (clipALF (arrayAt filterClipp 2) curr (src p.pImg3 c) (src p.pImg4 c))
    let sum := mulAdd32 sum (arrayAt filterCoeff 3)
      (clipALF (arrayAt filterClipp 3) curr (src p.pImg3 (c - ix.idx1)) (src p.pImg4 (c + ix.idx1)))
    let sum := mulAdd32 sum (arrayAt filterCoeff 4)
      (clipALF (arrayAt filterClipp 4) curr (src p.pImg1 (c + ix.idx2)) (src p.pImg2 (c - ix.idx2)))
    let sum := mulAdd32 sum (arrayAt filterCoeff 5)
      (clipALF (arrayAt filterClipp 5) curr (src p.pImg1 (c + ix.idx1)) (src p.pImg2 (c - ix.idx1)))
    let sum := mulAdd32 sum (arrayAt filterCoeff 6)
      (clipALF (arrayAt filterClipp 6) curr (src p.pImg1 c) (src p.pImg2 c))
    let sum := mulAdd32 sum (arrayAt filterCoeff 7)
      (clipALF (arrayAt filterClipp 7) curr (src p.pImg1 (c - ix.idx1)) (src p.pImg2 (c + ix.idx1)))
    let sum := mulAdd32 sum (arrayAt filterCoeff 8)
      (clipALF (arrayAt filterClipp 8) curr (src p.pImg1 (c - ix.idx2)) (src p.pImg2 (c + ix.idx2)))
    let sum := mulAdd32 sum (arrayAt filterCoeff 9)
      (clipALF (arrayAt filterClipp 9) curr (src p.pImg0 (c + ix.idx3)) (src p.pImg0 (c - ix.idx3)))
    let sum := mulAdd32 sum (arrayAt filterCoeff 10)
      (clipALF (arrayAt filterClipp 10) curr (src p.pImg0 (c + ix.idx2)) (src p.pImg0 (c - ix.idx2)))
    let sum := mulAdd32 sum (arrayAt filterCoeff 11)
      (clipALF (arrayAt filterClipp 11) curr (src p.pImg0 (c + ix.idx1)) (src p.pImg0 (c - ix.idx1)))
    sum
  | AlfFilterType.ALF_FILTER_5 =>
    let sum := mulAdd32 sum (arrayAt filterCoeff 0)
      (clipALF (arrayAt filterClipp 0) curr (src p.pImg3 c) (src p.pImg4 c))
    let sum := mulAdd32 sum (arrayAt filterCoeff 1)
      (clipALF (arrayAt filterClipp 1) curr (src p.pImg1 (c + ix.idx1)) (src p.pImg2 (c - ix.idx1)))
    let sum := mulAdd32 sum (arrayAt filterCoeff 2)
      (clipALF (arrayAt filterClipp 2) curr (src p.pImg1 c) (src p.pImg2 c))
    let sum := mulAdd32 sum (arrayAt filterCoeff 3)
      (clipALF (arrayAt filterClipp 3) curr (src p.pImg1 (c - ix.idx1)) (src p.pImg2 (c + ix.idx1)))
    let sum := mulAdd32 sum (arrayAt filterCoeff 4)
      (clipALF (arrayAt filterClipp 4) curr (src p.pImg0 (c + ix.idx2)) (src p.pImg0 (c - ix.idx2)))
    let sum := mulAdd32 sum (arrayAt filterCoeff 5)
      (clipALF (arrayAt filterClipp 5) curr (src p.pImg0 (c + ix.idx1)) (src p.pImg0 (c - ix.idx1)))
    sum

/-- The sum of the products `filterCoeff[k] * clipALF(...)` of lines 1590-1615 in unbounded
integers (helper for the statements: `tapSum` is this value reduced to 32 bits). -/
def tapProducts (filtType : AlfFilterType) (src : Plane) (filterCoeff filterClipp : List Int)
    (p : RowPtrs) (c : Int) (ix : ColIdx) : Int :=
  let curr := src p.pImg0 c
  match filtType with
  | AlfFilterType.ALF_FILTER_7 =>
    arrayAt filterCoeff 0 * clipALF (arrayAt filterClipp 0) curr (src p.pImg5 c) (src p.pImg6 c)
    + arrayAt filterCoeff 1
        * clipALF (arrayAt filterClipp 1) curr (src p.pImg3 (c + ix.idx1)) (src p.pImg4 (c - ix.idx1))
    + arrayAt filterCoeff 2 * clipALF (arrayAt filterClipp 2) curr (src p.pImg3 c) (src p.pImg4 c)
    + arrayAt filterCoeff 3
        * clipALF (arrayAt filterClipp 3) curr (src p.pImg3 (c - ix.idx1)) (src p.pImg4 (c + ix.idx1))
    + arrayAt filterCoeff 4
        * clipALF (arrayAt filterClipp 4) curr (src p.pImg1 (c + ix.idx2)) (src p.pImg2 (c - ix.idx2))
    + arrayAt filterCoeff 5
        * clipALF (arrayAt filterClipp 5) curr (src p.pImg1 (c + ix.idx1)) (src p.pImg2 (c - ix.idx1))
    + arrayAt filterCoeff 6 * clipALF (arrayAt filterClipp 6) curr (src p.pImg1 c) (src p.pImg2 c)
    + arrayAt filterCoeff 7
        * clipALF (arrayAt filterClipp 7) curr (src p.pImg1 (c - ix.idx1)) (src p.pImg2 (c + ix.idx1))
    + arrayAt filterCoeff 8
        * clipALF (arrayAt filterClipp 8) curr (src p.pImg1 (c - ix.idx2)) (src p.pImg2 (c + ix.idx2))
    + arrayAt filterCoeff 9
        * clipALF (arrayAt filterClipp 9) curr (src p.pImg0 (c + ix.idx3)) (src p.pImg0 (c - ix.idx3))
    + arrayAt filterCoeff 10
        * clipALF (arrayAt filterClipp 10) curr (src p.pImg0 (c + ix.idx2)) (src p.pImg0 (c - ix.idx2))
    + arrayAt filterCoeff 11
        * clipALF (arrayAt filterClipp 11) curr (src p.pImg0 (c + ix.idx1)) (src p.pImg0 (c - ix.idx1))
  | AlfFilterType.ALF_FILTER_5 =>
    arrayAt filterCoeff 0 * clipALF (arrayAt filterClipp 0) curr (src p.pImg3 c) (src p.pImg4 c)
    + arrayAt filterCoeff 1
        * clipALF (arrayAt filterClipp 1) curr (src p.pImg1 (c + ix.idx1)) (src p.pImg2 (c - ix.idx1))
    + arrayAt filterCoeff 2 * clipALF (arrayAt filterClipp 2) curr (src p.pImg1 c) (src p.pImg2 c)
    + arrayAt filterCoeff 3
        * clipALF (arrayAt filterClipp 3) curr (src p.pImg1 (c - ix.idx1)) (src p.pImg2 (c + ix.idx1))
    + arrayAt filterCoeff 4
        * clipALF (arrayAt filterClipp 4) curr (src p.pImg0 (c + ix.idx2)) (src p.pImg0 (c - ix.idx2))
    + arrayAt filterCoeff 5
        * clipALF (arrayAt filterClipp 5) curr (src p.pImg0 (c + ix.idx1)) (src p.pImg0 (c - ix.idx1))

/-- Lines 1391-1403 of `filterBlk`: the transpose index and the offset of the coefficient
row of a 4x4 block: those of the classifier entry `pClass[j]` at the block's top-left
corner `(clsY, clsX)` for luma, `0` and the start of the table for chroma. -/
def blockClass (classifier : ClassMap) (bChroma : Bool) (clsY clsX : Int) : Nat × Nat :=
  if bChroma then (0, 0)
  else
    let cl := classifier clsY clsX
    (cl.transposeIdx, cl.classIdx * MAX_NUM_ALF_LUMA_COEFF)

/-- Lines 1438-1650 of `filterBlk` for one pixel: `cls` is the transpose index and the
row offset of its block, `(pixYPos, pixXPos)` its position in the picture and `(r, c)`
its position in the source plane. The variable `sum` is a 32-bit `int`; after the shift
its absolute value is at most `2 ^ 24`, so that adding the sample `curr` does not leave
the range. -/
def pixelValue (ALF_NONE_BOUNDARY : Int) (filtType : AlfFilterType) (src : Plane)
    (bChroma : Bool) (filterSet fClipSet : Nat → Int) (clpRng : ClpRng)
    (vbCTUHeight vbPos : Int) (b : BryPos) (cls : Nat × Nat) (pixYPos pixXPos r c : Int) :
    Int :=
  let filterCoeff := transposeRow filtType cls.1 (fun k => filterSet (cls.2 + k))
  let filterClipp := transposeRow filtType cls.1 (fun k => fClipSet (cls.2 + k))
  let p := rowPtrs ALF_NONE_BOUNDARY bChroma vbCTUHeight vbPos b pixYPos r
  let ix := colIdx ALF_NONE_BOUNDARY bChroma b pixXPos
  let curr := src p.pImg0 c
  let shift := m_NUM_BITS - 1
  let offset : Int := shl 1 (shift - 1)
  let sum := tapSum filtType src filterCoeff filterClipp p c ix
  let sum := shr (toInt32 (sum + offset)) shift
  let sum := sum + curr
  ClipPel sum clpRng

/-- The sample `filterBlk` stores for the pixel `(ii, jj)` of the 4x4 block at offset
`(i, j)` of the rectangle (lines 1386-1650): the block's class is read at
`classifier[blkDst.y + i][blkDst.x + j]`, the pixel is at row `blkDst.y + i + ii` and
column `blkDst.x + j + jj` of the picture and at row `blk.y + i + ii` and column
`blk.x + j + jj` of the source. -/
def filterPixel (ALF_NONE_BOUNDARY : Int) (filtType : AlfFilterType) (classifier : ClassMap)
    (src : Plane) (blkDst blk : Area) (bChroma : Bool) (filterSet fClipSet : Nat → Int)
    (clpRng : ClpRng) (vbCTUHeight vbPos : Int) (b : BryPos) (i j ii jj : Nat) : Int :=
  pixelValue ALF_NONE_BOUNDARY filtType src bChroma filterSet fClipSet clpRng vbCTUHeight
    vbPos b (blockClass classifier bChroma (blkDst.y + i) (blkDst.x + j))
    (blkDst.y + i + ii) (blkDst.x + j + jj) (blk.y + i + ii) (blk.x + j + jj)

/-- The four nested loops of `filterBlk` (lines 1382-1673) on the destination plane. -/
def filterLoops (ALF_NONE_BOUNDARY : Int) (filtType : AlfFilterType) (classifier : ClassMap)
    (dst src : Plane) (blkDst blk : Area) (bChroma : Bool) (filterSet fClipSet : Nat → Int)
    (clpRng : ClpRng) (vbCTUHeight vbPos : Int) (b : BryPos) : Plane :=
  forStep blk.height 4 (fun i dst =>
    forStep blk.width 4 (fun j dst =>
      loopN 4 (fun ii dst =>
        loopN 4 (fun jj dst =>
          setPel dst (blkDst.y + i + ii) (blkDst.x + j + jj)
            (filterPixel ALF_NONE_BOUNDARY filtType classifier src blkDst blk bChroma filterSet
              fClipSet clpRng vbCTUHeight vbPos b i j ii jj)) dst) dst) dst) dst

/-- The function `filterBlk<filtType>`: the checks, then the loops on the plane of
`compId`. The boundary positions (with their `% vbCTUHeight`) are computed after the
checks and before the loops. The source `recSrc` and the destination `recDst` are
distinct buffers (every caller passes a copy of the picture as source). -/
def filterBlk (ALF_NONE_BOUNDARY : Int) (filtType : AlfFilterType) (classifier : ClassMap)
    (recDst recSrc : PelUnitBuf) (blkDst blk : Area) (compId : ComponentID)
    (filterSet fClipSet : Nat → Int) (clpRng : ClpRng) (fmt : ChromaFormat)
    (vbCTUHeight vbPos : Int) (alfBryList : Nat → Int) : Except String PelUnitBuf :=
  if bitAnd vbCTUHeight (vbCTUHeight - 1) ≠ 0 then
    Except.error "vbCTUHeight must be a power of 2"
  else if isChroma compId = true ∧ filtType ≠ AlfFilterType.ALF_FILTER_5 then
    Except.error "Chroma needs to have filtType == 0"
  else if cRem blk.y 4 ≠ 0 then
    Except.error "Wrong startHeight in filtering"
  else if cRem blk.x 4 ≠ 0 then
    Except.error "Wrong startWidth in filtering"
  else if blk.height % 4 ≠ 0 then
    Except.error "Wrong endHeight in filtering"
  else if blk.width % 4 ≠ 0 then
    Except.error "Wrong endWidth in filtering"
  else if vbCTUHeight = 0 then
    Except.error "division by zero"
  else
    let b := bryPos ALF_NONE_BOUNDARY (isChroma compId) fmt vbCTUHeight vbPos alfBryList
    let dst := filterLoops ALF_NONE_BOUNDARY filtType classifier (recDst compId) (recSrc compId)
      blkDst blk (isChroma compId) filterSet fClipSet clpRng vbCTUHeight vbPos b
    Except.ok (fun c => if c = compId then dst else recDst c)

/-- The sample the loops of `filterBlk` store at row `y` and column `x` of the
destination, for a position of the rectangle: the one of the 4x4 block and of the pixel
of that block the position belongs to. -/
def filterVal (ALF_NONE_BOUNDARY : Int) (filtType : AlfFilterType) (classifier : ClassMap)
    (src : Plane) (blkDst blk : Area) (bChroma : Bool) (filterSet fClipSet : Nat → Int)
    (clpRng : ClpRng) (vbCTUHeight vbPos : Int) (b : BryPos) (y x : Int) : Int :=
  filterPixel ALF_NONE_BOUNDARY filtType classifier src blkDst blk bChroma filterSet fClipSet
    clpRng vbCTUHeight vbPos b ((y - blkDst.y).toNat / 4 * 4) ((x - blkDst.x).toNat / 4 * 4)
    ((y - blkDst.y).toNat % 4) ((x - blkDst.x).toNat % 4)

/-! ## The classifier: `deriveClassificationBlk` -/

inductive Direction where
  | HOR
  | VER
  | DIAG0
  | DIAG1
  deriving DecidableEq, Repr

/-- The scratch accumulators `int **laplacian[NUM_DIRECTIONS]`: direction, row, column. -/
abbrev Laplacian := Direction → Nat → Nat → Int

/-- Store of the four entries `laplacian[d][i][j]`, one per direction. -/
def setLap (lap : Laplacian) (i j : Nat) (v : Direction → Int) : Laplacian :=
  fun d i' j' => if i' = i ∧ j' = j then v d else lap d i' j'

/-- Lines 1040-1046: the four second-difference magnitudes of one 2x2 position, where
`r0`, `r1`, `r2`, `r3` are the rows of `src0` (`pYdown`), `src1` (`pY`), `src2` (`pYup`),
`src3` (`pYup2`) and `c` is the column of `pY[0]`. -/
def lapCell (src : Plane) (r0 r1 r2 r3 c : Int) (d : Direction) : Int :=
  let y0 := toPel (shl (src r1 c) 1)
  let yup1 := toPel (shl (src r2 (c + 1)) 1)
  match d with
  | Direction.VER => |y0 - src r0 c - src r2 c| + |yup1 - src r1 (c + 1) - src r3 (c + 1)|
  | Direction.HOR => |y0 - src r1 (c + 1) - src r1 (c - 1)| + |yup1 - src r2 (c + 2) - src r2 c|
  | Direction.DIAG0 =>
    |y0 - src r0 (c - 1) - src r2 (c + 1)| + |yup1 - src r1 c - src r3 (c + 2)|
  | Direction.DIAG1 =>
    |y0 - src r2 (c - 1) - src r0 (c + 1)| + |yup1 - src r3 c - src r1 (c + 2)|

/-- Lines 1012-1026: the rows of `src0`, `src1`, `src2`, `src3` for the scratch row `i`,
after the substitutions next to the virtual boundary. -/
def lapRows (blkDst blk : Area) (vbCTUHeight vbPos : Int) (i : Nat) : Int × Int × Int × Int :=
  let r1 : Int := i + 1 + (blk.y - 3)
  let y : Int := blkDst.y - 2 + i
  if y > 0 ∧ bitAnd y (vbCTUHeight - 1) = vbPos - 2 then
    (r1 - 1, r1, r1 + 1, r1 + 1)
  else if y > 0 ∧ bitAnd y (vbCTUHeight - 1) = vbPos then
    (r1, r1, r1 + 1, r1 + 2)
  else
    (r1 - 1, r1, r1 + 1, r1 + 2)

/-- Lines 1034-1046: the four magnitudes stored at the scratch position `(i, j)`. -/
def lapCellAt (src : Plane) (blkDst blk : Area) (vbCTUHeight vbPos : Int) (i j : Nat)
    (d : Direction) : Int :=
  let rows := lapRows blkDst blk vbCTUHeight vbPos i
  let pixY : Int := j + 1 + blk.x
  lapCell src rows.1 rows.2.1 rows.2.2.1 rows.2.2.2 (pixY - 3) d

/-- Lines 1034-1081: the body of the inner loop of the first pass, for the scratch
position `(i, j)`: the four magnitudes are stored, and every fourth column the entries
of the four columns of a block are added up in place. -/
def lapStep (src : Plane) (blkDst blk : Area) (vbCTUHeight vbPos : Int)
    (alfBryList : Nat → Int) (i j : Nat) (lap : Laplacian) : Laplacian :=
  let lap := setLap lap i j (lapCellAt src blkDst blk vbCTUHeight vbPos i j)
  if j > 4 ∧ cRem ((j : Int) - 6) 4 = 0 then
    let jM6 := j - 6
    let jM4 := j - 4
    let jM2 := j - 2
    if blkDst.x + j - 2 > 0 ∧ blkDst.x + j - 2 = alfBryList 3 then
      setLap lap i jM6 (fun d => lap d i jM6 + (lap d i jM4 + lap d i jM2))
    else if blkDst.x + jM6 > 0 ∧ blkDst.x + jM6 = alfBryList 2 then
      setLap lap i jM6 (fun d => lap d i jM4 + lap d i jM2 + lap d i j)
    else
      setLap lap i jM6 (fun d => lap d i jM6 + (lap d i jM4 + lap d i jM2 + lap d i j))
  else
    lap

/-- Lines 1010-1083: the first pass of `deriveClassificationBlk`. -/
def lapPass (src : Plane) (blkDst blk : Area) (vbCTUHeight vbPos : Int)
    (alfBryList : Nat → Int) (lap : Laplacian) : Laplacian :=
  forStep (blk.height + 4) 2 (fun i lap =>
    forStep (blk.width + 4) 2 (fun j lap =>
      lapStep src blkDst blk vbCTUHeight vbPos alfBryList i j lap) lap) lap

/-- Lines 1117-1121: the horizontal footprint of the block at column offset `j`. -/
def horBlkStride (ALF_NONE_BOUNDARY : Int) (blkDst : Area) (alfBryList : Nat → Int)
    (j : Nat) : Int :=
  if (alfBryList 2 ≠ ALF_NONE_BOUNDARY ∧ j + blkDst.x = alfBryList 2)
      ∨ (alfBryList 3 ≠ ALF_NONE_BOUNDARY ∧ j + blkDst.x = alfBryList 3 - 4) then 6 else 8

/-- The condition of line 1123: the block at row offset `i` starts at the top boundary. -/
def atTopBry (ALF_NONE_BOUNDARY : Int) (blkDst : Area) (alfBryList : Nat → Int)
    (i : Nat) : Prop :=
  alfBryList 0 ≠ ALF_NONE_BOUNDARY ∧ i + blkDst.y = alfBryList 0

instance (NB : Int) (blkDst : Area) (alfBryList : Nat → Int) (i : Nat) :
    Decidable (atTopBry NB blkDst alfBryList i) := by
  unfold atTopBry
  infer_instance

/-- Lines 1123-1178: the rows of the scratch buffer added up for the block at row offset
`i` (whether the rows `i`, `i + 2`, `i + 4`, `i + 6` take part) and the vertical
footprint `verBlkStride`. -/
def verRows (ALF_NONE_BOUNDARY : Int) (blkDst : Area) (vbCTUHeight vbPos : Int)
    (alfBryList : Nat → Int) (i : Nat) : (Bool × Bool × Bool × Bool) × Int :=
  if atTopBry ALF_NONE_BOUNDARY blkDst alfBryList i then
    ((false, true, true, true), 6)
  else if alfBryList 1 ≠ ALF_NONE_BOUNDARY ∧ i + blkDst.y = alfBryList 1 - 4 then
    if cRem (alfBryList 1 - 4) vbCTUHeight = vbPos then
      ((false, true, true, false), 4)
    else
      ((true, true, true, false), 6)
  else if cRem (i + blkDst.y) vbCTUHeight = vbPos - 4 then
    ((true, true, true, false), 6)
  else if cRem (i + blkDst.y) vbCTUHeight = vbPos then
    ((false, true, true, true), 6)
  else
    ((true, true, true, true), 8)

/-- The sum `sumV`, `sumH`, `sumD0` or `sumD1` of the block at scratch position `(i, j)`:
the entries of column `j` in the rows selected by `verRows`, in the order of the source. -/
def blockSum (lap : Laplacian) (rows : Bool × Bool × Bool × Bool) (i j : Nat)
    (d : Direction) : Int :=
  match rows with
  | (false, true, true, true) => lap d (i + 2) j + lap d (i + 4) j + lap d (i + 6) j
  | (false, true, true, false) => lap d (i + 2) j + lap d (i + 4) j
  | (true, true, true, false) => lap d i j + lap d (i + 2) j + lap d (i + 4) j
  | _ => lap d i j + lap d (i + 2) j + lap d (i + 4) j + lap d (i + 6) j

/-- Lines 1180-1204: the activity of a block from `tempAct = sumV + sumH` and the
footprint `alfArea`. -/
def blockActivity (alfArea tempAct : Int) (shift : Nat) : Int :=
  let maxActivity : Int := 15
  if alfArea = 64 then toPel (Clip3 0 maxActivity (shr (tempAct * 64) shift))
  else if alfArea = 48 then toPel (Clip3 0 maxActivity (shr (tempAct * 96) shift))
  else if alfArea = 36 then toPel (Clip3 0 maxActivity (shr (tempAct * 112) shift))
  else if alfArea = 32 then toPel (Clip3 0 maxActivity (shr (tempAct * 128) shift))
  else if alfArea = 24 then toPel (Clip3 0 maxActivity (shr (tempAct * 192) shift))
  else 0

/-- The table `th` of `deriveClassificationBlk`. -/
def th : List Int := [0, 1, 2, 2, 2, 2, 2, 3, 3, 3, 3, 3, 3, 3, 3, 4]

/-- The table `transposeTable` of `deriveClassificationBlk`. -/
def transposeTable : List Int := [0, 1, 0, 2, 2, 3, 1, 3]

/-- The directional analysis of a block (lines 1218-1267). -/
structure DirInfo where
  hvd1 : Int
  hvd0 : Int
  mainDirection : Int
  secondaryDirection : Int
  directionStrength : Int

/-- Lines 1218-1267: dominant directions and direction strength from the four sums. -/
def dirInfo (sumV sumH sumD0 sumD1 : Int) : DirInfo :=
  let hv1 := if sumV > sumH then sumV else sumH
  let hv0 := if sumV > sumH then sumH else sumV
  let dirTempHV : Int := if sumV > sumH then 1 else 3
  let d1 := if sumD0 > sumD1 then sumD0 else sumD1
  let d0 := if sumD0 > sumD1 then sumD1 else sumD0
  let dirTempD : Int := if sumD0 > sumD1 then 0 else 2
  let diag : Prop :=
    toUInt32 (toUInt32 d1 * toUInt32 hv0) > toUInt32 (toUInt32 hv1 * toUInt32 d0)
  let hvd1 := if diag then d1 else hv1
  let hvd0 := if diag then d0 else hv0
  let mainDirection := if diag then dirTempD else dirTempHV
  let secondaryDirection := if diag then dirTempHV else dirTempD
  let directionStrength : Int := if hvd1 > 2 * hvd0 then 1 else 0
  let directionStrength : Int := if hvd1 * 2 > 9 * hvd0 then 2 else directionStrength
  ⟨hvd1, hvd0, mainDirection, secondaryDirection, directionStrength⟩

/-- The index into `transposeTable` (line 1275). -/
def transposeTableIdx (di : DirInfo) : Int :=
  di.mainDirection * 2 + shr di.secondaryDirection 1

/-- Lines 1216-1275: the class index and the transpose index (both still `int`) of a
block from its activity and its four sums. -/
def classOf (activity sumV sumH sumD0 sumD1 : Int) : Int × Int :=
  let classIdx := th.getD activity.toNat 0
  let di := dirInfo sumV sumH sumD0 sumD1
  let classIdx :=
    if di.directionStrength ≠ 0 then
      classIdx + (shl (bitAnd di.mainDirection 1) 1 + di.directionStrength) * 5
    else classIdx
  let transposeIdx := transposeTable.getD (transposeTableIdx di).toNat 0
  (classIdx, transposeIdx)

/-- Lines 1113-1275: the classifier entry of the 4x4 block at offset `(i, j)`, computed
from the scratch buffer the first pass left. -/
def blockClassifier (ALF_NONE_BOUNDARY : Int) (lap : Laplacian) (blkDst : Area) (shift : Nat)
    (vbCTUHeight vbPos : Int) (alfBryList : Nat → Int) (i j : Nat) : AlfClassifier :=
  let vr := verRows ALF_NONE_BOUNDARY blkDst vbCTUHeight vbPos alfBryList i
  let sumV := blockSum lap vr.1 i j Direction.VER
  let sumH := blockSum lap vr.1 i j Direction.HOR
  let sumD0 := blockSum lap vr.1 i j Direction.DIAG0
  let sumD1 := blockSum lap vr.1 i j Direction.DIAG1
  let tempAct := sumV + sumH
  let alfArea := horBlkStride ALF_NONE_BOUNDARY blkDst alfBryList j * vr.2
  let activity := blockActivity alfArea tempAct shift
  let c := classOf activity sumV sumH sumD0 sumD1
  AlfClassifier.ofInt c.1 c.2

/-- Lines 1277-1284: the store of one entry into the sixteen positions of the block whose
top-left corner is `(yOffset, xOffset)`. -/
def setClassBlock (classifier : ClassMap) (yOffset xOffset : Int) (v : AlfClassifier) :
    ClassMap :=
  fun y x =>
    if yOffset ≤ y ∧ y < yOffset + 4 ∧ xOffset ≤ x ∧ x < xOffset + 4 then v
    else classifier y x

/-- Lines 1089-1286: the second pass of `deriveClassificationBlk`. -/
def classPass (ALF_NONE_BOUNDARY : Int) (lap : Laplacian) (blkDst blk : Area) (shift : Nat)
    (vbCTUHeight vbPos : Int) (alfBryList : Nat → Int) (classifier : ClassMap) : ClassMap :=
  forStep blk.height 4 (fun i classifier =>
    forStep blk.width 4 (fun j classifier =>
      setClassBlock classifier (i + blkDst.y) (j + blkDst.x)
        (blockClassifier ALF_NONE_BOUNDARY lap blkDst shift vbCTUHeight vbPos alfBryList i j))
      classifier) classifier

/-- Whether the second pass evaluates a `% vbCTUHeight`: it does for every block that
does not start at the top boundary. -/
def usesVbRem (ALF_NONE_BOUNDARY : Int) (blkDst blk : Area) (alfBryList : Nat → Int) : Bool :=
  decide (0 < blk.width) &&
    (List.range ((blk.height + 4 - 1) / 4)).any
      (fun k => !decide (atTopBry ALF_NONE_BOUNDARY blkDst alfBryList (k * 4)))

/-- The function `deriveClassificationBlk`: the check, then the two passes; the result is
the classification map and the scratch buffer. -/
def deriveClassificationBlk (ALF_NONE_BOUNDARY : Int) (classifier : ClassMap)
    (laplacian : Laplacian) (srcLuma : Plane) (blkDst blk : Area) (shift : Nat)
    (vbCTUHeight vbPos : Int) (alfBryList : Nat → Int) :
    Except String (ClassMap × Laplacian) :=
  if bitAnd vbCTUHeight (vbCTUHeight - 1) ≠ 0 then
    Except.error "vbCTUHeight must be a power of 2"
  else if vbCTUHeight = 0 ∧ usesVbRem ALF_NONE_BOUNDARY blkDst blk alfBryList = true then
    Except.error "division by zero"
  else
    let lap := lapPass srcLuma blkDst blk vbCTUHeight vbPos alfBryList laplacian
    Except.ok (classPass ALF_NONE_BOUNDARY lap blkDst blk shift vbCTUHeight vbPos alfBryList
      classifier, lap)

/-! ## Predicates used in the statements -/

/-- The bounds of the row pointers of a pixel row whose centre row is `r`. -/
def RowsNear (r : Int) (p : RowPtrs) : Prop :=
  p.pImg0 = r ∧ r ≤ p.pImg1 ∧ p.pImg1 ≤ r + 1 ∧ r - 1 ≤ p.pImg2 ∧ p.pImg2 ≤ r ∧
  r ≤ p.pImg3 ∧ p.pImg3 ≤ r + 2 ∧ r - 2 ≤ p.pImg4 ∧ p.pImg4 ≤ r ∧
  r ≤ p.pImg5 ∧ p.pImg5 ≤ r + 3 ∧ r - 3 ≤ p.pImg6 ∧ p.pImg6 ≤ r

/-- The bounds of the column offsets. -/
def ColsNear (ix : ColIdx) : Prop :=
  0 ≤ ix.idx1 ∧ ix.idx1 ≤ 1 ∧ 0 ≤ ix.idx2 ∧ ix.idx2 ≤ 2 ∧ 0 ≤ ix.idx3 ∧ ix.idx3 ≤ 3

/-- The number of rows and columns around a pixel the filter of the given type may read:
3 for the 7x7 diamond, 2 for the 5x5 diamond. -/
def filterReach (filtType : AlfFilterType) : Int :=
  match filtType with
  | AlfFilterType.ALF_FILTER_7 => 3
  | AlfFilterType.ALF_FILTER_5 => 2


/-! ## Fixed filter bank and `create` -/

/-- Modelled from the spec: the number of fixed filter sets, 16 (`CommonDef.h`, not among
the files at hand; it is the number of rows of `m_classToFilterMapping`). -/
def NUM_FIXED_FILTER_SETS : Nat := 16

/-- Modelled from the spec: the number of fixed filters, 64 (`CommonDef.h`, not among the
files at hand; it is the number of rows of `m_fixedFilterSetCoeff`). -/
def ALF_FIXED_FILTER_NUM : Nat := 64

set_option maxHeartbeats 2000000 in
/-- The table `m_fixedFilterSetCoeff`. -/
def m_fixedFilterSetCoeff : List (List Int) :=
  [
    [0, 0, 2, -3, 1, -4, 1, 7, -1, 1, -1, 5, 0],
    [0, 0, 0, 0, 0, -1, 0, 1, 0, 0, -1, 2, 0],
    [0, 0, 0, 0, 0, 0, 0, 1, 0, 0, 0, 0, 0],
    [0, 0, 0, 0, 0, 0, 0, 0, 0, 0, -1, 1, 0],
    [2, 2, -7, -3, 0, -5, 13, 22, 12, -3, -3, 17, 0],
    [-1, 0, 6, -8, 1, -5, 1, 23, 0, 2, -5, 10, 0],
    [0, 0, -1, -1, 0, -1, 2, 1, 0, 0, -1, 4, 0],
    [0, 0, 3, -11, 1, 0, -1, 35, 5, 2, -9, 9, 0],
    [0, 0, 8, -8, -2, -7, 4, 4, 2, 1, -1, 25, 0],
    [0, 0, 1, -1, 0, -3, 1, 3, -1, 1, -1, 3, 0],
    [0, 0, 3, -3, 0, -6, 5, -1, 2, 1, -4, 21, 0],
    [-7, 1, 5, 4, -3, 5, 11, 13, 12, -8, 11, 12, 0],
    [-5, -3, 6, -2, -3, 8, 14, 15, 2, -7, 11, 16, 0],
    [2, -1, -6, -5, -2, -2, 20, 14, -4, 0, -3, 25, 0],
    [3, 1, -8, -4, 0, -8, 22, 5, -3, 2, -10, 29, 0],
    [2, 1, -7, -1, 2, -11, 23, -5, 0, 2, -10, 29, 0],
    [-6, -3, 8, 9, -4, 8, 9, 7, 14, -2, 8, 9, 0],
    [2, 1, -4, -7, 0, -8, 17, 22, 1, -1, -4, 23, 0],
    [3, 0, -5, -7, 0, -7, 15, 18, -5, 0, -5, 27, 0],
    [2, 0, 0, -7, 1, -10, 13, 13, -4, 2, -7, 24, 0],
    [3, 3, -13, 4, -2, -5, 9, 21, 25, -2, -3, 12, 0],
    [-5, -2, 7, -3, -7, 9, 8, 9, 16, -2, 15, 12, 0],
    [0, -1, 0, -7, -5, 4, 11, 11, 8, -6, 12, 21, 0],
    [3, -2, -3, -8, -4, -1, 16, 15, -2, -3, 3, 26, 0],
    [2, 1, -5, -4, -1, -8, 16, 4, -2, 1, -7, 33, 0],
    [2, 1, -4, -2, 1, -10, 17, -2, 0, 2, -11, 33, 0],
    [1, -2, 7, -15, -16, 10, 8, 8, 20, 11, 14, 11, 0],
    [2, 2, 3, -13, -13, 4, 8, 12, 2, -3, 16, 24, 0],
    [1, 4, 0, -7, -8, -4, 9, 9, -2, -2, 8, 29, 0],
    [1, 1, 2, -4, -1, -6, 6, 3, -1, -1, -3, 30, 0],
    [-7, 3, 2, 10, -2, 3, 7, 11, 19, -7, 8, 10, 0],
    [0, -2, -5, -3, -2, 4, 20, 15, -1, -3, -1, 22, 0],
    [3, -1, -8, -4, -1, -4, 22, 8, -4, 2, -8, 28, 0],
    [0, 3, -14, 3, 0, 1, 19, 17, 8, -3, -7, 20, 0],
    [0, 2, -1, -8, 3, -6, 5, 21, 1, 1, -9, 13, 0],
    [-4, -2, 8, 20, -2, 2, 3, 5, 21, 4, 6, 1, 0],
    [2, -2, -3, -9, -4, 2, 14, 16, 3, -6, 8, 24, 0],
    [2, 1, 5, -16, -7, 2, 3, 11, 15, -3, 11, 22, 0],
    [1, 2, 3, -11, -2, -5, 4, 8, 9, -3, -2, 26, 0],
    [0, -1, 10, -9, -1, -8, 2, 3, 4, 0, 0, 29, 0],
    [1, 2, 0, -5, 1, -9, 9, 3, 0, 1, -7, 20, 0],
    [-2, 8, -6, -4, 3, -9, -8, 45, 14, 2, -13, 7, 0],
    [1, -1, 16, -19, -8, -4, -3, 2, 19, 0, 4, 30, 0],
    [1, 1, -3, 0, 2, -11, 15, -5, 1, 2, -9, 24, 0],
    [0, 1, -2, 0, 1, -4, 4, 0, 0, 1, -4, 7, 0],
    [0, 1, 2, -5, 1, -6, 4, 10, -2, 1, -4, 10, 0],
    [3, 0, -3, -6, -2, -6, 14, 8, -1, -1, -3, 31, 0],
    [0, 1, 0, -2, 1, -6, 5, 1, 0, 1, -5, 13, 0],
    [3, 1, 9, -19, -21, 9, 7, 6, 13, 5, 15, 21, 0],
    [2, 4, 3, -12, -13, 1, 7, 8, 3, 0, 12, 26, 0],
    [3, 1, -8, -2, 0, -6, 18, 2, -2, 3, -10, 23, 0],
    [1, 1, -4, -1, 1, -5, 8, 1, -1, 2, -5, 10, 0],
    [0, 1, -1, 0, 0, -2, 2, 0, 0, 1, -2, 3, 0],
    [1, 1, -2, -7, 1, -7, 14, 18, 0, 0, -7, 21, 0],
    [0, 1, 0, -2, 0, -7, 8, 1, -2, 0, -3, 24, 0],
    [0, 1, 1, -2, 2, -10, 10, 0, -2, 1, -7, 23, 0],
    [0, 2, 2, -11, 2, -4, -3, 39, 7, 1, -10, 9, 0],
    [1, 0, 13, -16, -5, -6, -1, 8, 6, 0, 6, 29, 0],
    [1, 3, 1, -6, -4, -7, 9, 6, -3, -2, 3, 33, 0],
    [4, 0, -17, -1, -1, 5, 26, 8, -2, 3, -15, 30, 0],
    [0, 1, -2, 0, 2, -8, 12, -6, 1, 1, -6, 16, 0],
    [0, 0, 0, -1, 1, -4, 4, 0, 0, 0, -3, 11, 0],
    [0, 1, 2, -8, 2, -6, 5, 15, 0, 2, -7, 9, 0],
    [1, -1, 12, -15, -7, -2, 3, 6, 6, -1, 7, 30, 0]]

set_option maxHeartbeats 2000000 in
/-- The table `m_classToFilterMapping`. -/
def m_classToFilterMapping : List (List Int) :=
  [
    [8, 2, 2, 2, 3, 4, 53, 9, 9, 52, 4, 4, 5, 9, 2, 8, 10, 9, 1, 3, 39, 39, 10, 9, 52],
    [11, 12, 13, 14, 15, 30, 11, 17, 18, 19, 16, 20, 20, 4, 53, 21, 22, 23, 14, 25, 26, 26, 27, 28, 10],
    [16, 12, 31, 32, 14, 16, 30, 33, 53, 34, 35, 16, 20, 4, 7, 16, 21, 36, 18, 19, 21, 26, 37, 38, 39],
    [35, 11, 13, 14, 43, 35, 16, 4, 34, 62, 35, 35, 30, 56, 7, 35, 21, 38, 24, 40, 16, 21, 48, 57, 39],
    [11, 31, 32, 43, 44, 16, 4, 17, 34, 45, 30, 20, 20, 7, 5, 21, 22, 46, 40, 47, 26, 48, 63, 58, 10],
    [12, 13, 50, 51, 52, 11, 17, 53, 45, 9, 30, 4, 53, 19, 0, 22, 23, 25, 43, 44, 37, 27, 28, 10, 55],
    [30, 33, 62, 51, 44, 20, 41, 56, 34, 45, 20, 41, 41, 56, 5, 30, 56, 38, 40, 47, 11, 37, 42, 57, 8],
    [35, 11, 23, 32, 14, 35, 20, 4, 17, 18, 21, 20, 20, 20, 4, 16, 21, 36, 46, 25, 41, 26, 48, 49, 58],
    [12, 31, 59, 59, 3, 33, 33, 59, 59, 52, 4, 33, 17, 59, 55, 22, 36, 59, 59, 60, 22, 36, 59, 25, 55],
    [31, 25, 15, 60, 60, 22, 17, 19, 55, 55, 20, 20, 53, 19, 55, 22, 46, 25, 43, 60, 37, 28, 10, 55, 52],
    [12, 31, 32, 50, 51, 11, 33, 53, 19, 45, 16, 4, 4, 53, 5, 22, 36, 18, 25, 43, 26, 27, 27, 28, 10],
    [5, 2, 44, 52, 3, 4, 53, 45, 9, 3, 4, 56, 5, 0, 2, 5, 10, 47, 52, 3, 63, 39, 10, 9, 52],
    [12, 34, 44, 44, 3, 56, 56, 62, 45, 9, 56, 56, 7, 5, 0, 22, 38, 40, 47, 52, 48, 57, 39, 10, 9],
    [35, 11, 23, 14, 51, 35, 20, 41, 56, 62, 16, 20, 41, 56, 7, 16, 21, 38, 24, 40, 26, 26, 42, 57, 39],
    [33, 34, 51, 51, 52, 41, 41, 34, 62, 0, 41, 41, 56, 7, 5, 56, 38, 38, 40, 44, 37, 42, 57, 39, 10],
    [16, 31, 32, 15, 60, 30, 4, 17, 19, 25, 22, 20, 4, 53, 19, 21, 22, 46, 25, 55, 26, 48, 63, 58, 55]]

/-- Entry `t[a][b]` of a constant two-dimensional table. -/
def tableAt (t : List (List Int)) (a b : Nat) : Int :=
  (t.getD a []).getD b 0

/-- Store into a two-dimensional array of `short`. -/
def setAt2 (t : Nat → Nat → Int) (a b : Nat) (v : Int) : Nat → Nat → Int :=
  fun a' b' => if a' = a ∧ b' = b then v else t a' b'

/-- Lines 857-868 of `create`: the expansion of the fixed filter bank into
`m_fixedFilterSetCoeffDec`. -/
def createFixedFilterSets (m_fixedFilterSetCoeffDec : Nat → Nat → Int) : Nat → Nat → Int :=
  loopN NUM_FIXED_FILTER_SETS (fun filterSetIndex dec =>
    loopN MAX_NUM_ALF_CLASSES (fun classIdx dec =>
      let fixedFilterIdx := tableAt m_classToFilterMapping filterSetIndex classIdx
      let dec := loopN (MAX_NUM_ALF_LUMA_COEFF - 1) (fun i dec =>
        setAt2 dec filterSetIndex (classIdx * MAX_NUM_ALF_LUMA_COEFF + i)
          (tableAt m_fixedFilterSetCoeff fixedFilterIdx.toNat i)) dec
      setAt2 dec filterSetIndex (classIdx * MAX_NUM_ALF_LUMA_COEFF + MAX_NUM_ALF_LUMA_COEFF - 1)
        (shl 1 (m_NUM_BITS - 1))) dec) m_fixedFilterSetCoeffDec

/-- Lines 813-821 of `create` for `i = 0`: the first luma clipping value
`m_alfClippingValues[CHANNEL_TYPE_LUMA][0]`. With `AlfNumClippingValues = 4` the exponent
`double(bitDepth * 4) / 4` is the integer `bitDepth`, so that `std::pow(2., ...)` and
`std::round` give `2 ^ bitDepth` exactly; the cast `(Pel)` then narrows this value to the
16-bit sample type. -/
def lumaClippingValue0 (inputBitDepth : Nat) : Int :=
  toPel (2 ^ inputBitDepth)

/-- Lines 869-872 of `create`: every entry of `m_clipDefault` is the first luma clipping
value. -/
def createClipDefault (lumaClip0 : Int) (m_clipDefault : Nat → Int) : Nat → Int :=
  loopN (MAX_NUM_ALF_LUMA_COEFF * MAX_NUM_ALF_CLASSES) (fun i clip =>
    fun n => if n = i then lumaClip0 else clip n) m_clipDefault

/-- The twelve pairs of offsets (row, column) of the 7x7 diamond, in the order of the
taps: the first entry of a pair is the offset of the first neighbour, the second entry
the offset of its partner on the opposite side of the centre. This follows the words of
the specification of the interior pixel, not the source. -/
def diamondTaps : List ((Int × Int) × (Int × Int)) :=
  [((3, 0), (-3, 0)), ((2, 1), (-2, -1)), ((2, 0), (-2, 0)), ((2, -1), (-2, 1)),
   ((1, 2), (-1, -2)), ((1, 1), (-1, -1)), ((1, 0), (-1, 0)), ((1, -1), (-1, 1)),
   ((1, -2), (-1, 2)), ((0, 3), (0, -3)), ((0, 2), (0, -2)), ((0, 1), (0, -1))]

/-- The sum `S` of the specification of an interior luma pixel at row `r`, column `c`:
the sum over the twelve taps `k` of
`f[k] * (Clip3(-q[k], q[k], a_k - curr) + Clip3(-q[k], q[k], b_k - curr))`. -/
def interiorSum (src : Plane) (f q : Nat → Int) (r c : Int) : Int :=
  ((List.range 12).map (fun k =>
    let t := diamondTaps.getD k ((0, 0), (0, 0))
    f k * (Clip3 (-(q k)) (q k) (src (r + t.1.1) (c + t.1.2) - src r c)
      + Clip3 (-(q k)) (q k) (src (r + t.2.1) (c + t.2.2) - src r c)))).sum

/-- The value the specification gives for an interior luma pixel:
`ClipPel(curr + floor((S + 64) / 128))`. -/
def interiorPixel (src : Plane) (f q : Nat → Int) (clpRng : ClpRng) (r c : Int) : Int :=
  ClipPel (src r c + (interiorSum src f q r c + 64) / 128) clpRng

/-- All seven row pointers lie within `d` rows of the centre row `r`. -/
def RowsWithin (r d : Int) (p : RowPtrs) : Prop :=
  p.pImg0 = r ∧ r - d ≤ p.pImg1 ∧ p.pImg1 ≤ r + d ∧ r - d ≤ p.pImg2 ∧ p.pImg2 ≤ r + d ∧
  r - d ≤ p.pImg3 ∧ p.pImg3 ≤ r + d ∧ r - d ≤ p.pImg4 ∧ p.pImg4 ≤ r + d ∧
  r - d ≤ p.pImg5 ∧ p.pImg5 ≤ r + d ∧ r - d ≤ p.pImg6 ∧ p.pImg6 ≤ r + d

/-- The array `alfBryList` with the given entries: 0 top, 1 bottom, 2 left, 3 right. -/
def mkBryList (top bottom left right : Int) : Nat → Int :=
  fun n => match n with
    | 0 => top
    | 1 => bottom
    | 2 => left
    | _ => right

/-- A sub-rectangle of a filtering rectangle: offsets of its top-left corner from the
corner of the rectangle, and its size. -/
structure SubRect where
  ox : Nat
  oy : Nat
  w : Nat
  h : Nat

/-- The area `a` restricted to the sub-rectangle `s`: the corner is displaced by the
offsets of `s`, the size is that of `s`. -/
def subArea (a : Area) (s : SubRect) : Area :=
  ⟨a.x + s.ox, a.y + s.oy, s.w, s.h⟩

/-- One call of `filterBlk` per sub-rectangle of the list, in order, each on the
destination the previous call left; `blk` and `blkDst` are displaced alike. -/
def filterSubRects (ALF_NONE_BOUNDARY : Int) (filtType : AlfFilterType) (classifier : ClassMap)
    (recSrc : PelUnitBuf) (blkDst blk : Area) (compId : ComponentID)
    (filterSet fClipSet : Nat → Int) (clpRng : ClpRng) (fmt : ChromaFormat)
    (vbCTUHeight vbPos : Int) (alfBryList : Nat → Int) (subs : List SubRect)
    (recDst : PelUnitBuf) : Except String PelUnitBuf :=
  subs.foldlM (fun dst s =>
    filterBlk ALF_NONE_BOUNDARY filtType classifier dst recSrc (subArea blkDst s) (subArea blk s)
      compId filterSet fClipSet clpRng fmt vbCTUHeight vbPos alfBryList) recDst

/-- The sub-rectangle is aligned to the 4x4 grid of the rectangle and lies inside it. -/
def SubRect.Aligned (s : SubRect) (blk : Area) : Prop :=
  s.ox % 4 = 0 ∧ s.oy % 4 = 0 ∧ s.w % 4 = 0 ∧ s.h % 4 = 0 ∧
  s.ox + s.w ≤ blk.width ∧ s.oy + s.h ≤ blk.height

/-- The pixel at offset `(dx, dy)` of the rectangle lies in the sub-rectangle. -/
def SubRect.Covers (s : SubRect) (dx dy : Nat) : Prop :=
  s.ox ≤ dx ∧ dx < s.ox + s.w ∧ s.oy ≤ dy ∧ dy < s.oy + s.h

/-! ## The coefficient reconstructor: `reconstructCoeff` -/

/-- Modelled from the spec: `isLuma` of a channel type (`ChromaFormat.h`, not among the
files at hand). -/
def ChannelType.isLuma (channel : ChannelType) : Bool :=
  channel == ChannelType.CHANNEL_TYPE_LUMA

/-- Modelled from the spec: `isChroma` of a channel type (`ChromaFormat.h`, not among the
files at hand). -/
def ChannelType.isChroma (channel : ChannelType) : Bool :=
  channel != ChannelType.CHANNEL_TYPE_LUMA

/-- Modelled from the spec: the fields of `AlfParam` (declared in `CommonDef.h`, not among
the files at hand) that `reconstructCoeff` uses: "coefficient deltas, clip-index per tap,
per-class filter-selection indices, non-linear-clipping enable flags, number of chroma
alternatives". Arrays of `short` are functions of the index. -/
structure AlfParam where
  numLumaFilters : Int
  numAlternativesChroma : Int
  lumaCoeff : Int → Int
  lumaClipp : Int → Int
  chromaCoeff : Nat → Int → Int
  chromaClipp : Nat → Int → Int
  filterCoeffDeltaIdx : Nat → Int
  nonLinearFlag : ChannelType → Nat → Bool

/-- The members of `AdaptiveLoopFilter` that `reconstructCoeff` writes. -/
structure AlfTables where
  m_coeffFinal : Nat → Int
  m_clippFinal : Nat → Int
  m_chromaCoeffFinal : Nat → Nat → Int
  m_chromaClippFinal : Nat → Nat → Int

/-- Store into an array indexed by an `int`. -/
def setAtI (t : Int → Int) (n v : Int) : Int → Int :=
  fun n' => if n' = n then v else t n'

/-- Store into an array indexed by a loop counter. -/
def setAtN (t : Nat → Int) (n : Nat) (v : Int) : Nat → Int :=
  fun n' => if n' = n then v else t n'

/-- The entry `coeff[n]` of the row that the pointer `coeff` of lines 616 designates:
`alfParam.lumaCoeff` for luma, `alfParam.chromaCoeff[altIdx]` for chroma. -/
def AlfParam.coeff (alfParam : AlfParam) (channel : ChannelType) (altIdx : Nat) (n : Int) :
    Int :=
  if channel.isLuma then alfParam.lumaCoeff n else alfParam.chromaCoeff altIdx n

/-- The entry `clipp[n]` of the row that the pointer `clipp` of line 617 designates. -/
def AlfParam.clipp (alfParam : AlfParam) (channel : ChannelType) (altIdx : Nat) (n : Int) :
    Int :=
  if channel.isLuma then alfParam.lumaClipp n else alfParam.chromaClipp altIdx n

/-- The store `coeff[n] = v` through the pointer `coeff`. -/
def AlfParam.setCoeff (alfParam : AlfParam) (channel : ChannelType) (altIdx : Nat) (n v : Int) :
    AlfParam :=
  if channel.isLuma then
    { alfParam with lumaCoeff := setAtI alfParam.lumaCoeff n v }
  else
    let row := setAtI (alfParam.chromaCoeff altIdx) n v
    { alfParam with chromaCoeff := fun a => if a = altIdx then row else alfParam.chromaCoeff a }

/-- Lines 632-635: the last tap of every signalled filter is set to `factor`. -/
def storeFactor (alfParam : AlfParam) (channel : ChannelType) (altIdx : Nat)
    (numFilters : Int) (numCoeffMinus1 : Nat) (factor : Int) : AlfParam :=
  loopN numFilters.toNat (fun filterIdx alfParam =>
    alfParam.setCoeff channel altIdx
      ((filterIdx : Int) * MAX_NUM_ALF_LUMA_COEFF + numCoeffMinus1) factor) alfParam

/-- Lines 637-648: the row of the chroma alternative `altIdx`. -/
def chromaRow (m_alfClippingValues : ChannelType → Int → Int) (alfParam : AlfParam)
    (channel : ChannelType) (isRdo : Bool) (altIdx numCoeffMinus1 : Nat) (factor : Int)
    (t : AlfTables) : AlfTables :=
  let t := loopN numCoeffMinus1 (fun coeffIdx t =>
    let c := alfParam.coeff channel altIdx coeffIdx
    let t := { t with m_chromaCoeffFinal := setAt2 t.m_chromaCoeffFinal altIdx coeffIdx c }
    let clipIdx : Int :=
      if alfParam.nonLinearFlag channel altIdx then alfParam.clipp channel altIdx coeffIdx
      else 0
    let q := if isRdo then clipIdx else m_alfClippingValues channel clipIdx
    { t with m_chromaClippFinal := setAt2 t.m_chromaClippFinal altIdx coeffIdx q }) t
  let t := { t with m_chromaCoeffFinal := setAt2 t.m_chromaCoeffFinal altIdx numCoeffMinus1 factor }
  let q0 := if isRdo then 0 else m_alfClippingValues channel 0
  { t with m_chromaClippFinal := setAt2 t.m_chromaClippFinal altIdx numCoeffMinus1 q0 }

/-- Lines 651-683: the rows of `m_coeffFinal` and `m_clippFinal` of the class
`classIdx`. -/
def classRow (m_alfClippingValues : ChannelType → Int → Int) (alfParam : AlfParam)
    (channel : ChannelType) (isRdo : Bool) (altIdx numCoeffMinus1 : Nat) (factor : Int)
    (classIdx : Nat) (t : AlfTables) : AlfTables :=
  let filterIdx : Int := alfParam.filterCoeffDeltaIdx classIdx
  let row := classIdx * MAX_NUM_ALF_LUMA_COEFF
  let t := loopN numCoeffMinus1 (fun coeffIdx t =>
    let c := alfParam.coeff channel altIdx (filterIdx * MAX_NUM_ALF_LUMA_COEFF + coeffIdx)
    { t with m_coeffFinal := setAtN t.m_coeffFinal (row + coeffIdx) c }) t
  let t := { t with m_coeffFinal := setAtN t.m_coeffFinal (row + numCoeffMinus1) factor }
  let q0 := if isRdo then 0 else m_alfClippingValues channel 0
  let t := { t with m_clippFinal := setAtN t.m_clippFinal (row + numCoeffMinus1) q0 }
  let t := loopN numCoeffMinus1 (fun coeffIdx t =>
    let clipIdx : Int :=
      if alfParam.nonLinearFlag channel altIdx
      then alfParam.clipp channel altIdx (filterIdx * MAX_NUM_ALF_LUMA_COEFF + coeffIdx)
      else 0
    let q := if isRdo then clipIdx else m_alfClippingValues channel clipIdx
    { t with m_clippFinal := setAtN t.m_clippFinal (row + coeffIdx) q }) t
  { t with m_clippFinal := setAtN t.m_clippFinal (row + numCoeffMinus1) q0 }

/-- Lines 613-685: the body of the loop over the alternatives. -/
def reconstructAlt (m_alfClippingValues : ChannelType → Int → Int) (channel : ChannelType)
    (isRdo : Bool) (numClasses numCoeffMinus1 : Nat) (factor : Int) (altIdx : Nat)
    (s : AlfParam × AlfTables) : AlfParam × AlfTables :=
  let numFilters : Int := if channel.isLuma then s.1.numLumaFilters else 1
  let alfParam := storeFactor s.1 channel altIdx numFilters numCoeffMinus1 factor
  if channel.isChroma then
    (alfParam, chromaRow m_alfClippingValues alfParam channel isRdo altIdx numCoeffMinus1
      factor s.2)
  else
    (alfParam, loopN numClasses (fun classIdx t =>
      classRow m_alfClippingValues alfParam channel isRdo altIdx numCoeffMinus1 factor
        classIdx t) s.2)

/-- The function `reconstructCoeff` (the variant with chroma alternatives and without
coefficient prediction): it updates the parameter object `alfParam` and the tables of
the filter object; `m_alfClippingValues` is only read. The flag `isRedo` is not used by
this variant. -/
def reconstructCoeff (m_alfClippingValues : ChannelType → Int → Int) (t : AlfTables)
    (alfParam : AlfParam) (channel : ChannelType) (isRdo : Bool) (_isRedo : Bool) :
    AlfParam × AlfTables :=
  let factor : Int := if isRdo then 0 else shl 1 (m_NUM_BITS - 1)
  let filterType :=
    if channel.isLuma then AlfFilterType.ALF_FILTER_7 else AlfFilterType.ALF_FILTER_5
  let numClasses : Nat := if channel.isLuma then MAX_NUM_ALF_CLASSES else 1
  let numCoeff : Nat := if filterType = AlfFilterType.ALF_FILTER_5 then 7 else 13
  let numCoeffMinus1 := numCoeff - 1
  let numAlts : Int := if channel.isLuma then 1 else alfParam.numAlternativesChroma
  loopN numAlts.toNat (fun altIdx s =>
    reconstructAlt m_alfClippingValues channel isRdo numClasses numCoeffMinus1 factor altIdx s)
    (alfParam, t)

/-- The entry `n` of `m_coeffFinal` that a luma run of `reconstructCoeff` stores for the
parameter object `q` (as it is after the stores of the last taps): `factor` at the last
tap of a class row, else the tap of the filter the class selects. -/
def lumaCoeffEntry (q : AlfParam) (factor : Int) (n : Nat) : Int :=
  if n % 13 = 12 then factor
  else q.lumaCoeff (q.filterCoeffDeltaIdx (n / 13) * MAX_NUM_ALF_LUMA_COEFF + ↑(n % 13))

/-- The entry `n` of `m_clippFinal` that a luma run of `reconstructCoeff` stores. -/
def lumaClippEntry (m_alfClippingValues : ChannelType → Int → Int) (q : AlfParam)
    (isRdo : Bool) (n : Nat) : Int :=
  if n % 13 = 12 then
    (if isRdo then 0 else m_alfClippingValues ChannelType.CHANNEL_TYPE_LUMA 0)
  else
    let clipIdx : Int :=
      if q.nonLinearFlag ChannelType.CHANNEL_TYPE_LUMA 0
      then q.lumaClipp (q.filterCoeffDeltaIdx (n / 13) * MAX_NUM_ALF_LUMA_COEFF + ↑(n % 13))
      else 0
    if isRdo then clipIdx else m_alfClippingValues ChannelType.CHANNEL_TYPE_LUMA clipIdx

/-- The parameter object after the stores of lines 632-635 in a luma run: the last tap
of each of the first `numLumaFilters` filters holds `factor`. -/
def lumaParamAfter (p : AlfParam) (factor : Int) : AlfParam :=
  { p with lumaCoeff := fun n =>
      if 0 ≤ n ∧ n % 13 = 12 ∧ n / 13 < p.numLumaFilters.toNat then factor
      else p.lumaCoeff n }

/-- The value of `factor` in `reconstructCoeff`. -/
def coeffFactor (isRdo : Bool) : Int :=
  if isRdo then 0 else shl 1 (m_NUM_BITS - 1)

/-- The parameter object after `m` iterations of the loop over the chroma alternatives:
the last tap of the first `m` alternatives holds `factor`. -/
def chromaParamAfter (p : AlfParam) (factor : Int) (m : Nat) : AlfParam :=
  { p with chromaCoeff := fun a n => if a < m ∧ n = 6 then factor else p.chromaCoeff a n }

/-- The entry `[a][k]` of `m_chromaCoeffFinal` that a chroma run stores. -/
def chromaCoeffEntry (p : AlfParam) (factor : Int) (a k : Nat) : Int :=
  if k = 6 then factor else p.chromaCoeff a k

/-- The entry `[a][k]` of `m_chromaClippFinal` that a chroma run stores. -/
def chromaClippEntry (m_alfClippingValues : ChannelType → Int → Int) (p : AlfParam)
    (isRdo : Bool) (a k : Nat) : Int :=
  if k = 6 then
    (if isRdo then 0 else m_alfClippingValues ChannelType.CHANNEL_TYPE_CHROMA 0)
  else
    let clipIdx : Int :=
      if p.nonLinearFlag ChannelType.CHANNEL_TYPE_CHROMA a then p.chromaClipp a k else 0
    if isRdo then clipIdx else m_alfClippingValues ChannelType.CHANNEL_TYPE_CHROMA clipIdx


/-! ## Sample inputs -/

/-- A parameter object with three luma filters and two chroma alternatives, used to
evaluate `reconstructCoeff` on a concrete input. -/
def exampleAlfParam : AlfParam :=
  { numLumaFilters := 3
    numAlternativesChroma := 2
    lumaCoeff := fun n => 2 * n - 7
    lumaClipp := fun n => n % 4
    chromaCoeff := fun a n => 3 * n - a
    chromaClipp := fun a n => (n + a) % 4
    filterCoeffDeltaIdx := fun c => c % 3
    nonLinearFlag := fun _ _ => true }

/-- Tables with every entry zero. -/
def zeroTables : AlfTables :=
  { m_coeffFinal := fun _ => 0
    m_clippFinal := fun _ => 0
    m_chromaCoeffFinal := fun _ _ => 0
    m_chromaClippFinal := fun _ _ => 0 }

/-- Clipping values of a 10-bit picture: 1024, 181, 32, 6 for luma and 1024, 161, 25, 4
for chroma. -/
def exampleClippingValues (channel : ChannelType) (i : Int) : Int :=
  match channel with
  | ChannelType.CHANNEL_TYPE_LUMA => [1024, 181, 32, 6].getD i.toNat 0
  | ChannelType.CHANNEL_TYPE_CHROMA => [1024, 161, 25, 4].getD i.toNat 0


/-! ## The tables `create` builds -/

/-- The entry `[s][n]` of `m_fixedFilterSetCoeffDec` after the expansion of the fixed
filter bank: the normalisation constant at the last tap of a class row, else the tap of
the fixed filter that `m_classToFilterMapping` gives for the set and the class. -/
def fixedFilterEntry (s n : Nat) : Int :=
  if n % 13 = 12 then 128
  else tableAt m_fixedFilterSetCoeff (tableAt m_classToFilterMapping s (n / 13)).toNat (n % 13)

/-- Lines 835-873 of `create`, as far as `m_fixedFilterSetCoeffDec`, `m_clipDefault` and
`m_created` are concerned: nothing is done when the object is already created, else the
two tables are filled and the object is marked as created. The argument `lumaClip0` is
`m_alfClippingValues[CHANNEL_TYPE_LUMA][0]`. -/
def createTables (m_created : Bool) (lumaClip0 : Int)
    (m_fixedFilterSetCoeffDec : Nat → Nat → Int) (m_clipDefault : Nat → Int) :
    Bool × (Nat → Nat → Int) × (Nat → Int) :=
  if m_created then
    (m_created, m_fixedFilterSetCoeffDec, m_clipDefault)
  else
    (true, createFixedFilterSets m_fixedFilterSetCoeffDec,
      createClipDefault lumaClip0 m_clipDefault)


/-! ## Boundaries of a CTU -/

/-- Modelled from the spec: what the boundary functions read from the picture parameter
set (class `PPS` of `Slice.h`, not among the files at hand): the two flags, the numbers
of signalled virtual boundaries and their positions. The positions are unsigned in the
source; they are integers here and every comparison is the comparison of integers,
which agrees with the source for non-negative positions. -/
structure PPS where
  loopFilterAcrossBricksEnabledFlag : Bool
  loopFilterAcrossVirtualBoundariesDisabledFlag : Bool
  numHorVirtualBoundaries : Nat
  numVerVirtualBoundaries : Nat
  virtualBoundariesPosY : Nat → Int
  virtualBoundariesPosX : Nat → Int

/-- Modelled from the spec: what `getAlfBoundary` reads from the coding structure
(`CodingStructure.h`, `Slice.h`, `UnitTools.h`, not among the files at hand): the CTU
size of the sequence, the luma size of the picture, the flag of the slice, the picture
parameter set, and the relations "the coding units at the luma positions `(x1, y1)` and
`(x2, y2)` are in the same slice" and "are in the same brick"
(`CU::isSameSlice(*cs.getCU(p1), *cs.getCU(p2))`, `CU::isSameBrick`). -/
structure CodingStructure where
  ctuSize : Int
  lumaWidth : Int
  lumaHeight : Int
  lfCrossSliceBoundaryFlag : Bool
  pps : PPS
  isSameSlice : Int → Int → Int → Int → Bool
  isSameBrick : Int → Int → Int → Int → Bool

/-- The four outputs `topBry`, `botBry`, `leftBry`, `rightBry` of `getAlfBoundary`. -/
structure AlfBry where
  topBry : Int
  botBry : Int
  leftBry : Int
  rightBry : Int
  deriving DecidableEq, Repr

/-- Lines 94-102 of `getAlfBoundary` (and the same two tests of the other three sides):
the side towards the neighbouring CTU at `(nx, ny)` is set to `v` when slices must not be
crossed and the neighbour is in another slice, and when bricks must not be crossed and
the neighbour is in another brick. -/
def sideTests (cs : CodingStructure) (posX posY nx ny : Int) (v : Int) (bry : Int) : Int :=
  let bry :=
    if (!cs.lfCrossSliceBoundaryFlag && !cs.isSameSlice posX posY nx ny) = true then v
    else bry
  let bry :=
    if (!cs.pps.loopFilterAcrossBricksEnabledFlag && !cs.isSameBrick posX posY nx ny) = true
    then v
    else bry
  bry

/-- Lines 160-170 of `getAlfBoundary`: the loop over the horizontal virtual
boundaries. -/
def horVirtualBoundaryLoop (pps : PPS) (posY ctuSize : Int) (b : AlfBry) : AlfBry :=
  loopN pps.numHorVirtualBoundaries (fun i b =>
    if pps.virtualBoundariesPosY i = posY then
      { b with topBry := posY }
    else if pps.virtualBoundariesPosY i = posY + ctuSize then
      { b with botBry := posY + ctuSize }
    else b) b

/-- Lines 172-182 of `getAlfBoundary`: the loop over the vertical virtual boundaries. -/
def verVirtualBoundaryLoop (pps : PPS) (posX ctuSize : Int) (b : AlfBry) : AlfBry :=
  loopN pps.numVerVirtualBoundaries (fun i b =>
    if pps.virtualBoundariesPosX i = posX then
      { b with leftBry := posX }
    else if pps.virtualBoundariesPosX i = posX + ctuSize then
      { b with rightBry := posX + ctuSize }
    else b) b

/-- The function `getAlfBoundary`: the positions of the sides of the CTU at
`(posX, posY)` that filtering must not cross, `ALF_NONE_BOUNDARY` (the argument `NB`) for
a side that may be crossed. -/
def getAlfBoundary (NB : Int) (cs : CodingStructure) (posX posY : Int) : AlfBry :=
  let ctuSize := cs.ctuSize
  let topBry := NB
  let botBry := NB
  let leftBry := NB
  let rightBry := NB
  let topBry :=
    if posY > ctuSize then sideTests cs posX posY posX (posY - ctuSize) posY topBry
    else topBry
  let botBry :=
    if posY + ctuSize < cs.lumaHeight then
      sideTests cs posX posY posX (posY + ctuSize) (posY + ctuSize) botBry
    else botBry
  let leftBry :=
    if posX > ctuSize then sideTests cs posX posY (posX - ctuSize) posY posX leftBry
    else leftBry
  let rightBry :=
    if posX + ctuSize < cs.lumaWidth then
      sideTests cs posX posY (posX + ctuSize) posY (posX + ctuSize) rightBry
    else rightBry
  let b : AlfBry := ⟨topBry, botBry, leftBry, rightBry⟩
  if cs.pps.loopFilterAcrossVirtualBoundariesDisabledFlag then
    verVirtualBoundaryLoop cs.pps posX ctuSize (horVirtualBoundaryLoop cs.pps posY ctuSize b)
  else b

/-- The outputs of `isCrossedByVirtualBoundaries`: the returned flag, the four sides, and
the two counts with the two arrays of collected positions. -/
structure CrossedResult where
  crossed : Bool
  bry : AlfBry
  numHorVirBndry : Nat
  numVerVirBndry : Nat
  horVirBndryPos : Nat → Int
  verVirBndryPos : Nat → Int

/-- Lines 192-198 and 199-205 of `isCrossedByVirtualBoundaries`: the loop that collects
the positions `p` among the first `n` signalled ones with `lo < p < lo + len`, starting
from the count 0 and the array as the caller passed it. -/
def collectVirBndry (n : Nat) (pos : Nat → Int) (lo len : Int) (arr : Nat → Int) :
    Nat × (Nat → Int) :=
  loopN n (fun i s =>
    if lo < pos i ∧ pos i < lo + len then
      (s.1 + 1, setAtN s.2 s.1 (pos i))
    else s) (0, arr)

/-- The function `isCrossedByVirtualBoundaries`. The arrays `horVirBndryPos` and
`verVirBndryPos` of the caller are maps from the index to the entry. -/
def isCrossedByVirtualBoundaries (NB : Int) (cs : CodingStructure)
    (xPos yPos width height : Int) (horVirBndryPos verVirBndryPos : Nat → Int) (pps : PPS) :
    CrossedResult :=
  let hor :=
    if pps.loopFilterAcrossVirtualBoundariesDisabledFlag then
      collectVirBndry pps.numHorVirtualBoundaries pps.virtualBoundariesPosY yPos height
        horVirBndryPos
    else (0, horVirBndryPos)
  let ver :=
    if pps.loopFilterAcrossVirtualBoundariesDisabledFlag then
      collectVirBndry pps.numVerVirtualBoundaries pps.virtualBoundariesPosX xPos width
        verVirBndryPos
    else (0, verVirBndryPos)
  let bry := getAlfBoundary NB cs xPos yPos
  { crossed := decide (hor.1 > 0) || decide (ver.1 > 0) || decide (bry.topBry ≠ NB) ||
      decide (bry.botBry ≠ NB) || decide (bry.leftBry ≠ NB) || decide (bry.rightBry ≠ NB)
    bry := bry
    numHorVirBndry := hor.1
    numVerVirBndry := ver.1
    horVirBndryPos := hor.2
    verVirBndryPos := ver.2 }

/-- Lines 382-386 of `ALFProcess`: the flag `ctuEnableFlag` of a CTU, from the entries of
the three arrays `m_ctuEnableFlag[compIdx]` at the CTU (bytes). -/
def ctuEnableFlag (enY enCb enCr : Nat) : Bool :=
  let ctuEnableFlag := decide (enY ≠ 0)
  let ctuEnableFlag := ctuEnableFlag || decide (enCb > 0)
  ctuEnableFlag || decide (enCr > 0)

/-- Lines 387-397 and 490 of `ALFProcess`: whether the CTU takes the path that splits it
at the boundaries (the first branch of the `if`) rather than the path that filters the
whole CTU in one piece. The second operand of `&&` is evaluated only when the first is
true. -/
def ctuIsSplit (NB : Int) (cs : CodingStructure) (enY enCb enCr : Nat)
    (xPos yPos width height : Int) (horVirBndryPos verVirBndryPos : Nat → Int) : Bool :=
  ctuEnableFlag enY enCb enCr &&
    (isCrossedByVirtualBoundaries NB cs xPos yPos width height horVirBndryPos verVirBndryPos
      cs.pps).crossed

/-- A picture of 256x256 luma samples with CTUs of 128x128: the two CTU rows are two
slices, the two CTU columns are two bricks, filtering across slices and across bricks is
not allowed, no virtual boundary is signalled. -/
def fourCtuPicture : CodingStructure :=
  { ctuSize := 128
    lumaWidth := 256
    lumaHeight := 256
    lfCrossSliceBoundaryFlag := false
    pps :=
      { loopFilterAcrossBricksEnabledFlag := false
        loopFilterAcrossVirtualBoundariesDisabledFlag := false
        numHorVirtualBoundaries := 0
        numVerVirtualBoundaries := 0
        virtualBoundariesPosY := fun _ => 0
        virtualBoundariesPosX := fun _ => 0 }
    isSameSlice := fun _ y1 _ y2 => decide (y1 / 128 = y2 / 128)
    isSameBrick := fun x1 _ x2 _ => decide (x1 / 128 = x2 / 128) }

/-- The signalled positions `p` among the first `n` with `lo < p < lo + len`, in the
signalled order. This follows the words of the specification, not the source. -/
def interiorPositions (n : Nat) (pos : Nat → Int) (lo len : Int) : List Int :=
  ((List.range n).map pos).filter (fun p => decide (lo < p ∧ p < lo + len))

/-- The first `n` entries of an array. -/
def firstEntries (n : Nat) (arr : Nat → Int) : List Int :=
  (List.range n).map arr

/-- A picture parameter set with filtering across virtual boundaries disabled and the
horizontal virtual boundaries 8, 200, 64 and the vertical virtual boundary 32. -/
def examplePPS : PPS :=
  { loopFilterAcrossBricksEnabledFlag := true
    loopFilterAcrossVirtualBoundariesDisabledFlag := true
    numHorVirtualBoundaries := 3
    numVerVirtualBoundaries := 1
    virtualBoundariesPosY := fun i => [8, 200, 64].getD i 0
    virtualBoundariesPosX := fun i => [32].getD i 0 }

/-- A picture of 256x256 luma samples with CTUs of 128x128 in one slice and one brick,
with the virtual boundaries of `examplePPS`. -/
def virtualBoundaryPicture : CodingStructure :=
  { ctuSize := 128
    lumaWidth := 256
    lumaHeight := 256
    lfCrossSliceBoundaryFlag := true
    pps := examplePPS
    isSameSlice := fun _ _ _ _ => true
    isSameBrick := fun _ _ _ _ => true }


/-! ## Reconstruction of the tables of a slice -/

/-- How a call ends when it does not return: a `CHECK` that fires (an exception that
carries the message), or the dereference of a null pointer, which the language leaves
undefined. -/
inductive Failure where
  | check (msg : String)
  | nullDereference
  deriving DecidableEq, Repr

/-- Modelled from the spec: what `reconstructCoeffAPSs` reads from the slice (`Slice.h`,
not among the files at hand): the array of APS pointers `getAlfAPSs()` (`none` is the
null pointer, an APS is given by its ALF parameters `getAlfAPSParam()`), the number of
luma APSs `getTileGroupNumAps()`, their ids `getTileGroupApsIdLuma()` and the id of the
chroma APS `getTileGroupApsIdChroma()`. -/
structure SliceAps where
  alfAPSs : Int → Option AlfParam
  tileGroupNumAps : Int
  tileGroupApsIdLuma : Nat → Int
  tileGroupApsIdChroma : Int

/-- The members of `AdaptiveLoopFilter` that `reconstructCoeffAPSs` writes: the tables of
`reconstructCoeff`, the per-APS copies of the luma tables, and the pointer
`m_alfParamChroma`, given by the APS slot it points into. -/
structure ApsTables where
  tables : AlfTables
  m_coeffApsLuma : Nat → Nat → Int
  m_clippApsLuma : Nat → Nat → Int
  m_alfParamChroma : Option Int

/-- The call `memcpy(dst[i], src, sizeof(src))` for a table `src` of
`MAX_NUM_ALF_CLASSES * MAX_NUM_ALF_LUMA_COEFF` entries. -/
def copyRow (dst : Nat → Nat → Int) (i : Nat) (src : Nat → Int) : Nat → Nat → Int :=
  fun a n => if a = i ∧ n < MAX_NUM_ALF_CLASSES * MAX_NUM_ALF_LUMA_COEFF then src n else dst a n

/-- Lines 573-579 of `reconstructCoeffAPSs`: the body of the loop over the luma APSs.
The parameters are reconstructed on the copy `alfParamTmp`, which is dropped. -/
def lumaApsStep (m_alfClippingValues : ChannelType → Int → Int) (slice : SliceAps)
    (isRdo : Bool) (i : Nat) (s : ApsTables) : Except Failure ApsTables :=
  let apsIdx := slice.tileGroupApsIdLuma i
  match slice.alfAPSs apsIdx with
  | none => Except.error (Failure.check "invalid APS")
  | some alfParamTmp =>
    let t := (reconstructCoeff m_alfClippingValues s.tables alfParamTmp
      ChannelType.CHANNEL_TYPE_LUMA isRdo true).2
    Except.ok { s with
      tables := t
      m_coeffApsLuma := copyRow s.m_coeffApsLuma i t.m_coeffFinal
      m_clippApsLuma := copyRow s.m_clippApsLuma i t.m_clippFinal }

/-- Lines 571-580: the first `n` iterations of the loop over the luma APSs; a failing
iteration ends the loop. -/
def lumaApsLoop (m_alfClippingValues : ChannelType → Int → Int) (slice : SliceAps)
    (isRdo : Bool) : Nat → ApsTables → Except Failure ApsTables
  | 0, s => Except.ok s
  | n + 1, s =>
    match lumaApsLoop m_alfClippingValues slice isRdo n s with
    | Except.error e => Except.error e
    | Except.ok s => lumaApsStep m_alfClippingValues slice isRdo n s

/-- Lines 584-595: the chroma part. The pointer `curAPS` is dereferenced without a
test. -/
def chromaAps (m_alfClippingValues : ChannelType → Int → Int) (slice : SliceAps)
    (isRdo : Bool) (s : ApsTables) : Except Failure ApsTables :=
  let apsIdxChroma := slice.tileGroupApsIdChroma
  match slice.alfAPSs apsIdxChroma with
  | none => Except.error Failure.nullDereference
  | some alfParamTmp =>
    Except.ok { s with
      tables := (reconstructCoeff m_alfClippingValues s.tables alfParamTmp
        ChannelType.CHANNEL_TYPE_CHROMA isRdo true).2
      m_alfParamChroma := some apsIdxChroma }

/-- The function `reconstructCoeffAPSs`. -/
def reconstructCoeffAPSs (m_alfClippingValues : ChannelType → Int → Int) (slice : SliceAps)
    (s : ApsTables) (luma chroma isRdo : Bool) : Except Failure ApsTables :=
  let afterLuma :=
    if luma then lumaApsLoop m_alfClippingValues slice isRdo slice.tileGroupNumAps.toNat s
    else Except.ok s
  match afterLuma with
  | Except.error e => Except.error e
  | Except.ok s =>
    if chroma then chromaAps m_alfClippingValues slice isRdo s
    else Except.ok s

/-- A slice with two luma APS ids, 0 and 5, and the chroma APS id 3; the APS slot 0
holds `exampleAlfParam`, every other slot is empty. -/
def sliceWithAbsentAps : SliceAps :=
  { alfAPSs := fun i => if i = 0 then some exampleAlfParam else none
    tileGroupNumAps := 2
    tileGroupApsIdLuma := fun i => if i = 0 then 0 else 5
    tileGroupApsIdChroma := 3 }

/-- Filter tables with every entry zero and `m_alfParamChroma` null. -/
def zeroApsTables : ApsTables :=
  { tables := zeroTables
    m_coeffApsLuma := fun _ _ => 0
    m_clippApsLuma := fun _ _ => 0
    m_alfParamChroma := none }


/-! ## NAL unit payload: `write` of `NALwrite.cpp`

Bytes are natural numbers (the values of `uint8_t` are those below 256). -/

/-- The constant `emulation_prevention_three_byte`. -/
def emulation_prevention_three_byte : Nat := 3

/-- The local state of the loop of `write`: the bytes stored so far in `outputBuffer`
(the entries `0 .. outputAmount - 1`, so `outputAmount` is the length of the list) and
`zeroCount`. -/
structure EscapeState where
  outputBuffer : List Nat
  zeroCount : Nat
  deriving DecidableEq, Repr

/-- Lines 111-127 of `NALwrite.cpp`: the body of the loop over the bytes of the RBSP;
a store `outputBuffer[outputAmount++] = b` appends `b`. -/
def escapeByte (s : EscapeState) (v : Nat) : EscapeState :=
  let s : EscapeState :=
    if s.zeroCount = 2 ∧ v ≤ 3 then
      ⟨s.outputBuffer ++ [emulation_prevention_three_byte], 0⟩
    else s
  let zeroCount := if v = 0 then s.zeroCount + 1 else 0
  ⟨s.outputBuffer ++ [v], zeroCount⟩

/-- Lines 107-128: the loop over the bytes of the RBSP, from the empty buffer and
`zeroCount = 0`. -/
def escapeLoop (rbsp : List Nat) : EscapeState :=
  rbsp.foldl escapeByte ⟨[], 0⟩

/-- Lines 103-138 of `write`: the escaped payload, the bytes of `outputBuffer` that
`out.write` emits after the header: the result of the loop, and a final byte 3 when
the RBSP ends in a zero byte. -/
def escapedPayload (rbsp : List Nat) : List Nat :=
  let s := escapeLoop rbsp
  if s.zeroCount > 0 then s.outputBuffer ++ [emulation_prevention_three_byte]
  else s.outputBuffer

/-- The function `write`: the bytes appended to the stream `out` are the bytes `header`
that `writeNalUnitHeader` writes (its bit writer is not among the files at hand, so they
are an argument) and the escaped payload. -/
def write (out header rbsp : List Nat) : List Nat :=
  out ++ header ++ escapedPayload rbsp

/-- The size `rbsp.size() * 2 + 1` the buffer is resized to (line 106). -/
def outputBufferSize (rbsp : List Nat) : Nat :=
  rbsp.length * 2 + 1

/-- The invariant of the loop of `write`, on the stored bytes read backwards (`r` is the
buffer reversed, so its head is the last byte stored): no byte below 3 follows two zero
bytes, the byte after `0 0 3` is at most 3, `zeroCount` is the number of zero bytes at
the end of the buffer, which is at most two, and the buffer does not end in `0 0 3`
between two iterations. -/
def EscapeInv (s : EscapeState) : Prop :=
  (∀ x, [x, 0, 0] <:+: s.outputBuffer.reverse → 3 ≤ x) ∧
  (∀ y, [y, 3, 0, 0] <:+: s.outputBuffer.reverse → y ≤ 3) ∧
  s.zeroCount ≤ 2 ∧
  ([0] <+: s.outputBuffer.reverse ↔ 0 < s.zeroCount) ∧
  ([0, 0] <+: s.outputBuffer.reverse ↔ s.zeroCount = 2) ∧
  ¬ [3, 0, 0] <+: s.outputBuffer.reverse


/-- The entry of column `2 * k` of a scratch row once the first `n` columns `0, 2, ...,
2 * (n - 1)` of the row have been processed by the inner loop of the first pass, given
the magnitudes `cell q` stored for the columns `2 * q`: the columns `2 * k` with `k`
even hold the sum over a block as soon as the column `2 * k + 6` has been processed
(the three cases of lines 1053-1073, with `j = 2 * k + 6`), every other column holds
its own magnitude. -/
def lapRowEntry (blkDst : Area) (alfBryList : Nat → Int) (cell : Nat → Int) (n k : Nat) :
    Int :=
  if k % 2 = 0 ∧ k + 3 < n then
    let j := (k + 3) * 2
    if blkDst.x + j - 2 > 0 ∧ blkDst.x + j - 2 = alfBryList 3 then
      cell k + (cell (k + 1) + cell (k + 2))
    else if blkDst.x + (j - 6 : Nat) > 0 ∧ blkDst.x + (j - 6 : Nat) = alfBryList 2 then
      cell (k + 1) + cell (k + 2) + cell (k + 3)
    else
      cell k + (cell (k + 1) + cell (k + 2) + cell (k + 3))
  else cell k



/-! ## The naive Laplacian sums of a block -/

/-- Spec-side definition, written from the specification and not from the source: the
two-sample second-difference magnitude of direction `d` at the luma position `(x, y)` of
the plane `p` (indexed row first), in unbounded integers. The first term is centred at
`(x, y)`, the second at `(x + 1, y + 1)`; the neighbours are the vertical ones for `VER`,
the horizontal ones for `HOR`, `(x - 1, y - 1)`, `(x + 1, y + 1)` for `DIAG0` and
`(x - 1, y + 1)`, `(x + 1, y - 1)` for `DIAG1`. -/
def specCell (p : Plane) (d : Direction) (x y : Int) : Int :=
  match d with
  | Direction.VER =>
    |2 * p y x - p (y - 1) x - p (y + 1) x|
      + |2 * p (y + 1) (x + 1) - p y (x + 1) - p (y + 2) (x + 1)|
  | Direction.HOR =>
    |2 * p y x - p y (x + 1) - p y (x - 1)|
      + |2 * p (y + 1) (x + 1) - p (y + 1) (x + 2) - p (y + 1) x|
  | Direction.DIAG0 =>
    |2 * p y x - p (y - 1) (x - 1) - p (y + 1) (x + 1)|
      + |2 * p (y + 1) (x + 1) - p y x - p (y + 2) (x + 2)|
  | Direction.DIAG1 =>
    |2 * p y x - p (y + 1) (x - 1) - p (y - 1) (x + 1)|
      + |2 * p (y + 1) (x + 1) - p (y + 2) x - p y (x + 2)|

/-- Spec-side definition, written from the specification and not from the source: the
naive sum of the 16 cells `specCell p d (x0 - 2 + 2 n) (y0 - 2 + 2 m)`, `m, n` in `0..3`,
of the 8x8 window around the block with top-left luma position `(x0, y0)`. -/
def specBlockSum (p : Plane) (d : Direction) (x0 y0 : Int) : Int :=
  Finset.sum (Finset.range 4) (fun m =>
    Finset.sum (Finset.range 4) (fun n =>
      specCell p d (x0 - 2 + 2 * (n : Int)) (y0 - 2 + 2 * (m : Int))))


/-! ## The filter without clipping -/

/-- Spec-side definition, written from the specification and not from the source: the
unclipped linear filter sum of one pixel, the sum over the taps of the coefficient times
`(a + b - 2 * curr)` for the two neighbours `a`, `b` of the tap, with the row pointers
`p` and the column offsets `ix` of the pixel. -/
def linearTapSum (filtType : AlfFilterType) (src : Plane) (filterCoeff : List Int)
    (p : RowPtrs) (c : Int) (ix : ColIdx) : Int :=
  let curr := src p.pImg0 c
  match filtType with
  | AlfFilterType.ALF_FILTER_7 =>
    arrayAt filterCoeff 0 * (src p.pImg5 c + src p.pImg6 c - 2 * curr)
    + arrayAt filterCoeff 1 * (src p.pImg3 (c + ix.idx1) + src p.pImg4 (c - ix.idx1) - 2 * curr)
    + arrayAt filterCoeff 2 * (src p.pImg3 c + src p.pImg4 c - 2 * curr)
    + arrayAt filterCoeff 3 * (src p.pImg3 (c - ix.idx1) + src p.pImg4 (c + ix.idx1) - 2 * curr)
    + arrayAt filterCoeff 4 * (src p.pImg1 (c + ix.idx2) + src p.pImg2 (c - ix.idx2) - 2 * curr)
    + arrayAt filterCoeff 5 * (src p.pImg1 (c + ix.idx1) + src p.pImg2 (c - ix.idx1) - 2 * curr)
    + arrayAt filterCoeff 6 * (src p.pImg1 c + src p.pImg2 c - 2 * curr)
    + arrayAt filterCoeff 7 * (src p.pImg1 (c - ix.idx1) + src p.pImg2 (c + ix.idx1) - 2 * curr)
    + arrayAt filterCoeff 8 * (src p.pImg1 (c - ix.idx2) + src p.pImg2 (c + ix.idx2) - 2 * curr)
    + arrayAt filterCoeff 9 * (src p.pImg0 (c + ix.idx3) + src p.pImg0 (c - ix.idx3) - 2 * curr)
    + arrayAt filterCoeff 10 * (src p.pImg0 (c + ix.idx2) + src p.pImg0 (c - ix.idx2) - 2 * curr)
    + arrayAt filterCoeff 11 * (src p.pImg0 (c + ix.idx1) + src p.pImg0 (c - ix.idx1) - 2 * curr)
  | AlfFilterType.ALF_FILTER_5 =>
    arrayAt filterCoeff 0 * (src p.pImg3 c + src p.pImg4 c - 2 * curr)
    + arrayAt filterCoeff 1 * (src p.pImg1 (c + ix.idx1) + src p.pImg2 (c - ix.idx1) - 2 * curr)
    + arrayAt filterCoeff 2 * (src p.pImg1 c + src p.pImg2 c - 2 * curr)
    + arrayAt filterCoeff 3 * (src p.pImg1 (c - ix.idx1) + src p.pImg2 (c + ix.idx1) - 2 * curr)
    + arrayAt filterCoeff 4 * (src p.pImg0 (c + ix.idx2) + src p.pImg0 (c - ix.idx2) - 2 * curr)
    + arrayAt filterCoeff 5 * (src p.pImg0 (c + ix.idx1) + src p.pImg0 (c - ix.idx1) - 2 * curr)

/-- Spec-side definition, written from the specification and not from the source: the
unclipped linear filter sum of the pixel at `(pixYPos, pixXPos)` of the picture and
`(r, c)` of the source plane, with the coefficient row of the block reordered by its
transpose index and the row pointers and column offsets of the pixel. -/
def linearSumAt (NB : Int) (filtType : AlfFilterType) (src : Plane) (bChroma : Bool)
    (filterSet : Nat → Int) (vbCTUHeight vbPos : Int) (b : BryPos)
    (cls : Nat × Nat) (pixYPos pixXPos r c : Int) : Int :=
  let filterCoeff := transposeRow filtType cls.1 (fun k => filterSet (cls.2 + k))
  let p := rowPtrs NB bChroma vbCTUHeight vbPos b pixYPos r
  let ix := colIdx NB bChroma b pixXPos
  linearTapSum filtType src filterCoeff p c ix

/-- Spec-side definition, written from the specification and not from the source: the
sample of a pixel when its filter sum is the unclipped linear one,
`ClipPel(curr + ((linear sum + 64) >> 7))`, the shift taken on the exact sum. -/
def linearPixelValue (NB : Int) (filtType : AlfFilterType) (src : Plane) (bChroma : Bool)
    (filterSet : Nat → Int) (clpRng : ClpRng) (vbCTUHeight vbPos : Int) (b : BryPos)
    (cls : Nat × Nat) (pixYPos pixXPos r c : Int) : Int :=
  let p := rowPtrs NB bChroma vbCTUHeight vbPos b pixYPos r
  ClipPel (shr (linearSumAt NB filtType src bChroma filterSet vbCTUHeight vbPos b cls
    pixYPos pixXPos r c + 64) 7 + src p.pImg0 c) clpRng


/-! ## Index form of the tap reordering -/

/-- The number of entries of the braced lists assigned to `filterCoeff` and `filterClipp`:
`MAX_NUM_ALF_LUMA_COEFF` for the 7x7 filter, `MAX_NUM_ALF_CHROMA_COEFF` for the 5x5
filter. -/
def tapRowLength (filtType : AlfFilterType) : Nat :=
  match filtType with
  | AlfFilterType.ALF_FILTER_7 => MAX_NUM_ALF_LUMA_COEFF
  | AlfFilterType.ALF_FILTER_5 => MAX_NUM_ALF_CHROMA_COEFF

/-- The indices into `coef` (and `clip`) of the braced lists of lines 1438-1483, read off
entry by entry: position `k` of the reordered row holds the entry `tapOrder[k]` of the
row. -/
def tapOrder (filtType : AlfFilterType) (transposeIdx : Nat) : List Nat :=
  match filtType with
  | AlfFilterType.ALF_FILTER_7 =>
    if transposeIdx = 1 then [9, 4, 10, 8, 1, 5, 11, 7, 3, 0, 2, 6, 12]
    else if transposeIdx = 2 then [0, 3, 2, 1, 8, 7, 6, 5, 4, 9, 10, 11, 12]
    else if transposeIdx = 3 then [9, 8, 10, 4, 3, 7, 11, 5, 1, 0, 2, 6, 12]
    else [0, 1, 2, 3, 4, 5, 6, 7, 8, 9, 10, 11, 12]
  | AlfFilterType.ALF_FILTER_5 =>
    if transposeIdx = 1 then [4, 1, 5, 3, 0, 2, 6]
    else if transposeIdx = 2 then [0, 3, 2, 1, 4, 5, 6]
    else if transposeIdx = 3 then [4, 3, 5, 1, 0, 2, 6]
    else [0, 1, 2, 3, 4, 5, 6]


/-! ## Geometric transforms of a picture -/

/-- Spec-side definition, written from the specification and not from the source: the
picture `I` transformed for the transpose index `t`: transposed (rows and columns
exchanged) for 1, horizontally mirrored (column `b` holds the column `m - b` of `I`) for
2, transposed and then horizontally mirrored for 3, unchanged otherwise. -/
def geomImage (t : Nat) (m : Int) (I : Plane) : Plane :=
  fun a b =>
    if t = 1 then I b a
    else if t = 2 then I a (m - b)
    else if t = 3 then I (m - b) a
    else I a b

/-- Spec-side definition, written from the specification and not from the source: the
position (row, column) in `geomImage t m I` of the sample at row `r` and column `x` of
`I`. -/
def geomPos (t : Nat) (m : Int) (r x : Int) : Int × Int :=
  if t = 1 then (x, r)
  else if t = 2 then (r, m - x)
  else if t = 3 then (x, m - r)
  else (r, x)


/-! ## Removal of the emulation prevention bytes -/

/-- Spec-side definition, written from the specification and not from the source: one
step of the removal of the emulation prevention bytes. The state is the bytes kept so far
and the number of zero bytes seen in a row; a byte 3 that immediately follows two zero
bytes is dropped and the count is reset, every other byte is kept. -/
def unescapeByte (s : List Nat × Nat) (v : Nat) : List Nat × Nat :=
  if 2 ≤ s.2 ∧ v = 3 then (s.1, 0)
  else (s.1 ++ [v], if v = 0 then s.2 + 1 else 0)

/-- Spec-side definition, written from the specification and not from the source: the
payload with every byte 3 removed that immediately follows two consecutive zero bytes. -/
def unescape (payload : List Nat) : List Nat :=
  (payload.foldl unescapeByte ([], 0)).1


/-! ## The split path of `ALFProcess` -/

/-- Modelled from the spec: the constant `MAX_ALF_PADDING_SIZE` of `CommonDef.h` (not
among the files at hand), the number of samples a local buffer of the split path is
extended by on a side that is not clipped. -/
def MAX_ALF_PADDING_SIZE : Int := 4

/-- What one iteration of the inner loop of the split path of `ALFProcess` works on
(lines 398-427): the loop indices `i` and `j`, the sub-rectangle `(xStart, yStart, w, h)`,
the four clip flags and the size `wBuf x hBuf` of the local buffer taken from
`m_tempBuf2`. -/
structure SubBlock where
  i : Nat
  j : Nat
  xStart : Int
  yStart : Int
  w : Int
  h : Int
  clipL : Bool
  clipR : Bool
  clipT : Bool
  clipB : Bool
  wBuf : Int
  hBuf : Int

/-- Lines 409-494 of `ALFProcess`: the inner loop `for (j = 0; j <= numVerVirBndry; j++)`
of the row `i` of sub-rectangles; the state is `xStart` and the list of the sub-blocks
visited so far. -/
def splitColumns (NB : Int) (lumaWidth xPos width : Int) (c : CrossedResult)
    (i : Nat) (yStart h : Int) (clipT clipB : Bool) (visited : List SubBlock) :
    Int × List SubBlock :=
  loopN (c.numVerVirBndry + 1) (fun j s =>
    let xStart := s.1
    let xEnd := if j = c.numVerVirBndry then xPos + width else c.verVirBndryPos j
    let w := xEnd - xStart
    let clipL := decide (j = 0 ∧ c.bry.leftBry ≠ NB) || decide (j > 0) || decide (xStart = 0)
    let clipR := decide (j = c.numVerVirBndry ∧ c.bry.rightBry ≠ NB)
      || decide (j < c.numVerVirBndry) || decide (xEnd = lumaWidth)
    let wBuf := w + (if clipL then 0 else MAX_ALF_PADDING_SIZE)
      + (if clipR then 0 else MAX_ALF_PADDING_SIZE)
    let hBuf := h + (if clipT then 0 else MAX_ALF_PADDING_SIZE)
      + (if clipB then 0 else MAX_ALF_PADDING_SIZE)
    (xEnd, s.2 ++ [⟨i, j, xStart, yStart, w, h, clipL, clipR, clipT, clipB, wBuf, hBuf⟩]))
    (xPos, visited)

/-- Lines 398-497 of `ALFProcess`: the two nested loops of the split path of the CTU
`(xPos, yPos, width, height)`, with the outputs `c` of `isCrossedByVirtualBoundaries`;
the result is the list of the sub-blocks in the order they are visited. -/
def splitCtu (NB : Int) (lumaWidth lumaHeight xPos yPos width height : Int)
    (c : CrossedResult) : List SubBlock :=
  (loopN (c.numHorVirBndry + 1) (fun i (s : Int × List SubBlock) =>
    let yStart := s.1
    let yEnd := if i = c.numHorVirBndry then yPos + height else c.horVirBndryPos i
    let h := yEnd - yStart
    let clipT := decide (i = 0 ∧ c.bry.topBry ≠ NB) || decide (i > 0) || decide (yStart = 0)
    let clipB := decide (i = c.numHorVirBndry ∧ c.bry.botBry ≠ NB)
      || decide (i < c.numHorVirBndry) || decide (yEnd = lumaHeight)
    (yEnd, (splitColumns NB lumaWidth xPos width c i yStart h clipT clipB s.2).2))
    (yPos, [])).2

/-- The end of the segment `k` of an axis cut at the `n` positions `pos 0 .. pos (n - 1)`:
the position `k`, or the end `lo + len` of the CTU for the last segment. -/
def segEnd (lo len : Int) (n : Nat) (pos : Nat → Int) (k : Nat) : Int :=
  if k = n then lo + len else pos k

/-- The start of the segment `k`: the start `lo` of the CTU for the first segment, the
end of the segment before for the others. -/
def segStart (lo len : Int) (n : Nat) (pos : Nat → Int) (k : Nat) : Int :=
  match k with
  | 0 => lo
  | k + 1 => segEnd lo len n pos k

/-- The sample `(x, y)` lies in the sub-rectangle of the sub-block. -/
def SubBlock.Contains (b : SubBlock) (x y : Int) : Prop :=
  b.xStart ≤ x ∧ x < b.xStart + b.w ∧ b.yStart ≤ y ∧ y < b.yStart + b.h

/-- A picture parameter set with filtering across virtual boundaries disabled and three
horizontal and three vertical virtual boundaries at 8, 16 and 24. -/
def threeBoundariesPPS : PPS :=
  { loopFilterAcrossBricksEnabledFlag := true
    loopFilterAcrossVirtualBoundariesDisabledFlag := true
    numHorVirtualBoundaries := 3
    numVerVirtualBoundaries := 3
    virtualBoundariesPosY := fun i => [8, 16, 24].getD i 0
    virtualBoundariesPosX := fun i => [8, 16, 24].getD i 0 }

/-- A picture of 256x256 luma samples with CTUs of 128x128 in one slice and one brick,
with the virtual boundaries of `threeBoundariesPPS`. -/
def threeBoundariesPicture : CodingStructure :=
  { ctuSize := 128
    lumaWidth := 256
    lumaHeight := 256
    lfCrossSliceBoundaryFlag := true
    pps := threeBoundariesPPS
    isSameSlice := fun _ _ _ _ => true
    isSameBrick := fun _ _ _ _ => true }

/-- The sub-block the inner loop of the split path visits at the column index `j`, in
terms of the segment `j` of the horizontal axis (the body of the loop with
`xStart = segStart j`; helper for the statements). -/
def colBlock (NB : Int) (lumaWidth xPos width : Int) (c : CrossedResult)
    (i : Nat) (yStart h : Int) (clipT clipB : Bool) (j : Nat) : SubBlock :=
  let xStart := segStart xPos width c.numVerVirBndry c.verVirBndryPos j
  let xEnd := segEnd xPos width c.numVerVirBndry c.verVirBndryPos j
  let w := xEnd - xStart
  let clipL := decide (j = 0 ∧ c.bry.leftBry ≠ NB) || decide (j > 0) || decide (xStart = 0)
  let clipR := decide (j = c.numVerVirBndry ∧ c.bry.rightBry ≠ NB)
    || decide (j < c.numVerVirBndry) || decide (xEnd = lumaWidth)
  let wBuf := w + (if clipL then 0 else MAX_ALF_PADDING_SIZE)
    + (if clipR then 0 else MAX_ALF_PADDING_SIZE)
  let hBuf := h + (if clipT then 0 else MAX_ALF_PADDING_SIZE)
    + (if clipB then 0 else MAX_ALF_PADDING_SIZE)
  ⟨i, j, xStart, yStart, w, h, clipL, clipR, clipT, clipB, wBuf, hBuf⟩

/-- The sub-block the split path visits at the row index `i` and the column index `j`, in
terms of the segments of the two axes (helper for the statements). -/
def subBlockAt (NB : Int) (lumaWidth lumaHeight xPos yPos width height : Int)
    (c : CrossedResult) (i j : Nat) : SubBlock :=
  let yStart := segStart yPos height c.numHorVirBndry c.horVirBndryPos i
  let yEnd := segEnd yPos height c.numHorVirBndry c.horVirBndryPos i
  let h := yEnd - yStart
  let clipT := decide (i = 0 ∧ c.bry.topBry ≠ NB) || decide (i > 0) || decide (yStart = 0)
  let clipB := decide (i = c.numHorVirBndry ∧ c.bry.botBry ≠ NB)
    || decide (i < c.numHorVirBndry) || decide (yEnd = lumaHeight)
  colBlock NB lumaWidth xPos width c i yStart h clipT clipB j
/-! ## Lemmas on the loops -/

theorem loopN_pointwise {β : Type} (n : Nat) (body : Nat → (Int → Int → β) → (Int → Int → β))
    (S : Nat → Int → Int → Prop) (T : Int → Int → Prop) (val : Int → Int → β)
    (hin : ∀ k p y x, k < n → S k y x → body k p y x = val y x)
    (hout : ∀ k p y x, k < n → ¬ S k y x → body k p y x = p y x)
    (hT : ∀ y x, T y x ↔ ∃ k, k < n ∧ S k y x) (p : Int → Int → β) (y x : Int) :
    (T y x → loopN n body p y x = val y x) ∧ (¬ T y x → loopN n body p y x = p y x) := by
  have key : ∀ m, m ≤ n →
      ((∃ k, k < m ∧ S k y x) → loopN m body p y x = val y x) ∧
      ((¬ ∃ k, k < m ∧ S k y x) → loopN m body p y x = p y x) := by
    intro m
    induction m with
    | zero =>
      intro _
      refine ⟨?_, fun _ => rfl⟩
      rintro ⟨k, hk, _⟩
      omega
    | succ m ih =>
      intro hm
      have ih' := ih (by omega)
      show (_ → body m (loopN m body p) y x = _) ∧ (_ → body m (loopN m body p) y x = _)
      by_cases hS : S m y x
      · refine ⟨fun _ => hin m _ y x (by omega) hS, fun h => ?_⟩
        exact absurd ⟨m, by omega, hS⟩ h
      · rw [hout m _ y x (by omega) hS]
        constructor
        · rintro ⟨k, hk, hSk⟩
          apply ih'.1
          refine ⟨k, ?_, hSk⟩
          rcases Nat.lt_succ_iff_lt_or_eq.mp hk with h | h
          · exact h
          · subst h; exact absurd hSk hS
        · intro h
          apply ih'.2
          rintro ⟨k, hk, hSk⟩
          exact h ⟨k, by omega, hSk⟩
  have := key n le_rfl
  constructor
  · intro h; exact this.1 ((hT y x).mp h)
  · intro h; exact this.2 (fun h' => h ((hT y x).mpr h'))


section FilterLoops

variable (NB : Int) (filtType : AlfFilterType) (classifier : ClassMap) (src : Plane)
  (blkDst blk : Area) (bChroma : Bool) (filterSet fClipSet : Nat → Int) (clpRng : ClpRng)
  (vbCTUHeight vbPos : Int) (b : BryPos)

theorem filterVal_at (ki kj ii jj : Nat) (hii : ii < 4) (hjj : jj < 4) :
    filterVal NB filtType classifier src blkDst blk bChroma filterSet fClipSet clpRng
      vbCTUHeight vbPos b (blkDst.y + ↑(ki * 4) + ↑ii) (blkDst.x + ↑(kj * 4) + ↑jj)
    = filterPixel NB filtType classifier src blkDst blk bChroma filterSet fClipSet clpRng
      vbCTUHeight vbPos b (ki * 4) (kj * 4) ii jj := by
  have h1 : (blkDst.y + ↑(ki * 4) + ↑ii - blkDst.y).toNat / 4 * 4 = ki * 4 := by omega
  have h2 : (blkDst.y + ↑(ki * 4) + ↑ii - blkDst.y).toNat % 4 = ii := by omega
  have h3 : (blkDst.x + ↑(kj * 4) + ↑jj - blkDst.x).toNat / 4 * 4 = kj * 4 := by omega
  have h4 : (blkDst.x + ↑(kj * 4) + ↑jj - blkDst.x).toNat % 4 = jj := by omega
  unfold filterVal
  rw [h1, h2, h3, h4]

theorem filterLoops_jj (ki kj ii : Nat) (hii : ii < 4) (p : Plane) (y x : Int) :
    ((y = blkDst.y + ↑(ki * 4) + ↑ii ∧ blkDst.x + ↑(kj * 4) ≤ x ∧ x < blkDst.x + ↑(kj * 4) + 4) →
      loopN 4 (fun jj dst =>
        setPel dst (blkDst.y + ↑(ki * 4) + ↑ii) (blkDst.x + ↑(kj * 4) + ↑jj)
          (filterPixel NB filtType classifier src blkDst blk bChroma filterSet fClipSet clpRng
            vbCTUHeight vbPos b (ki * 4) (kj * 4) ii jj)) p y x
      = filterVal NB filtType classifier src blkDst blk bChroma filterSet fClipSet clpRng
          vbCTUHeight vbPos b y x) ∧
    (¬ (y = blkDst.y + ↑(ki * 4) + ↑ii ∧ blkDst.x + ↑(kj * 4) ≤ x ∧ x < blkDst.x + ↑(kj * 4) + 4) →
      loopN 4 (fun jj dst =>
        setPel dst (blkDst.y + ↑(ki * 4) + ↑ii) (blkDst.x + ↑(kj * 4) + ↑jj)
          (filterPixel NB filtType classifier src blkDst blk bChroma filterSet fClipSet clpRng
            vbCTUHeight vbPos b (ki * 4) (kj * 4) ii jj)) p y x = p y x) := by
  refine loopN_pointwise 4 _
    (fun jj y x => y = blkDst.y + ↑(ki * 4) + ↑ii ∧ x = blkDst.x + ↑(kj * 4) + ↑jj)
    (fun y x => y = blkDst.y + ↑(ki * 4) + ↑ii ∧ blkDst.x + ↑(kj * 4) ≤ x
      ∧ x < blkDst.x + ↑(kj * 4) + 4)
    (filterVal NB filtType classifier src blkDst blk bChroma filterSet fClipSet clpRng
      vbCTUHeight vbPos b) ?_ ?_ ?_ p y x
  · intro jj p y x hjj hS
    obtain ⟨hy, hx⟩ := hS
    subst hy hx
    rw [filterVal_at _ _ _ _ _ _ _ _ _ _ _ _ _ ki kj ii jj hii hjj]
    simp [setPel]
  · intro jj p y x _ hS
    simp only [setPel]
    rw [if_neg hS]
  · intro y x
    constructor
    · rintro ⟨hy, h1, h2⟩
      exact ⟨(x - (blkDst.x + ↑(kj * 4))).toNat, by omega, hy, by omega⟩
    · rintro ⟨jj, hjj, hy, hx⟩
      exact ⟨hy, by omega, by omega⟩

theorem filterLoops_ii (ki kj : Nat) (p : Plane) (y x : Int) :
    ((blkDst.y + ↑(ki * 4) ≤ y ∧ y < blkDst.y + ↑(ki * 4) + 4
        ∧ blkDst.x + ↑(kj * 4) ≤ x ∧ x < blkDst.x + ↑(kj * 4) + 4) →
      loopN 4 (fun ii dst => loopN 4 (fun jj dst =>
        setPel dst (blkDst.y + ↑(ki * 4) + ↑ii) (blkDst.x + ↑(kj * 4) + ↑jj)
          (filterPixel NB filtType classifier src blkDst blk bChroma filterSet fClipSet clpRng
            vbCTUHeight vbPos b (ki * 4) (kj * 4) ii jj)) dst) p y x
      = filterVal NB filtType classifier src blkDst blk bChroma filterSet fClipSet clpRng
          vbCTUHeight vbPos b y x) ∧
    (¬ (blkDst.y + ↑(ki * 4) ≤ y ∧ y < blkDst.y + ↑(ki * 4) + 4
        ∧ blkDst.x + ↑(kj * 4) ≤ x ∧ x < blkDst.x + ↑(kj * 4) + 4) →
      loopN 4 (fun ii dst => loopN 4 (fun jj dst =>
        setPel dst (blkDst.y + ↑(ki * 4) + ↑ii) (blkDst.x + ↑(kj * 4) + ↑jj)
          (filterPixel NB filtType classifier src blkDst blk bChroma filterSet fClipSet clpRng
            vbCTUHeight vbPos b (ki * 4) (kj * 4) ii jj)) dst) p y x = p y x) := by
  refine loopN_pointwise 4 _
    (fun ii y x => y = blkDst.y + ↑(ki * 4) + ↑ii ∧ blkDst.x + ↑(kj * 4) ≤ x
      ∧ x < blkDst.x + ↑(kj * 4) + 4)
    (fun y x => blkDst.y + ↑(ki * 4) ≤ y ∧ y < blkDst.y + ↑(ki * 4) + 4
        ∧ blkDst.x + ↑(kj * 4) ≤ x ∧ x < blkDst.x + ↑(kj * 4) + 4)
    (filterVal NB filtType classifier src blkDst blk bChroma filterSet fClipSet clpRng
      vbCTUHeight vbPos b) ?_ ?_ ?_ p y x
  · intro ii p y x hii hS
    exact (filterLoops_jj NB filtType classifier src blkDst blk bChroma filterSet fClipSet
      clpRng vbCTUHeight vbPos b ki kj ii hii p y x).1 hS
  · intro ii p y x hii hS
    exact (filterLoops_jj NB filtType classifier src blkDst blk bChroma filterSet fClipSet
      clpRng vbCTUHeight vbPos b ki kj ii hii p y x).2 hS
  · intro y x
    constructor
    · rintro ⟨h1, h2, h3, h4⟩
      exact ⟨(y - (blkDst.y + ↑(ki * 4))).toNat, by omega, by omega, h3, h4⟩
    · rintro ⟨ii, hii, hy, h3, h4⟩
      exact ⟨by omega, by omega, h3, h4⟩

theorem filterLoops_j (ki : Nat) (p : Plane) (y x : Int) :
    ((blkDst.y + ↑(ki * 4) ≤ y ∧ y < blkDst.y + ↑(ki * 4) + 4
        ∧ blkDst.x ≤ x ∧ x < blkDst.x + ↑((blk.width + 4 - 1) / 4 * 4)) →
      forStep blk.width 4 (fun j dst => loopN 4 (fun ii dst => loopN 4 (fun jj dst =>
        setPel dst (blkDst.y + ↑(ki * 4) + ↑ii) (blkDst.x + ↑j + ↑jj)
          (filterPixel NB filtType classifier src blkDst blk bChroma filterSet fClipSet clpRng
            vbCTUHeight vbPos b (ki * 4) j ii jj)) dst) dst) p y x
      = filterVal NB filtType classifier src blkDst blk bChroma filterSet fClipSet clpRng
          vbCTUHeight vbPos b y x) ∧
    (¬ (blkDst.y + ↑(ki * 4) ≤ y ∧ y < blkDst.y + ↑(ki * 4) + 4
        ∧ blkDst.x ≤ x ∧ x < blkDst.x + ↑((blk.width + 4 - 1) / 4 * 4)) →
      forStep blk.width 4 (fun j dst => loopN 4 (fun ii dst => loopN 4 (fun jj dst =>
        setPel dst (blkDst.y + ↑(ki * 4) + ↑ii) (blkDst.x + ↑j + ↑jj)
          (filterPixel NB filtType classifier src blkDst blk bChroma filterSet fClipSet clpRng
            vbCTUHeight vbPos b (ki * 4) j ii jj)) dst) dst) p y x = p y x) := by
  unfold forStep
  refine loopN_pointwise ((blk.width + 4 - 1) / 4) _
    (fun kj y x => blkDst.y + ↑(ki * 4) ≤ y ∧ y < blkDst.y + ↑(ki * 4) + 4
        ∧ blkDst.x + ↑(kj * 4) ≤ x ∧ x < blkDst.x + ↑(kj * 4) + 4)
    (fun y x => blkDst.y + ↑(ki * 4) ≤ y ∧ y < blkDst.y + ↑(ki * 4) + 4
        ∧ blkDst.x ≤ x ∧ x < blkDst.x + ↑((blk.width + 4 - 1) / 4 * 4))
    (filterVal NB filtType classifier src blkDst blk bChroma filterSet fClipSet clpRng
      vbCTUHeight vbPos b) ?_ ?_ ?_ p y x
  · intro kj p y x _ hS
    exact (filterLoops_ii NB filtType classifier src blkDst blk bChroma filterSet fClipSet
      clpRng vbCTUHeight vbPos b ki kj p y x).1 hS
  · intro kj p y x _ hS
    exact (filterLoops_ii NB filtType classifier src blkDst blk bChroma filterSet fClipSet
      clpRng vbCTUHeight vbPos b ki kj p y x).2 hS
  · intro y x
    constructor
    · rintro ⟨h1, h2, h3, h4⟩
      exact ⟨(x - blkDst.x).toNat / 4, by omega, h1, h2, by omega, by omega⟩
    · rintro ⟨kj, hkj, h1, h2, h3, h4⟩
      exact ⟨h1, h2, by omega, by omega⟩

theorem filterLoops_spec (dst : Plane) (y x : Int) :
    ((blkDst.y ≤ y ∧ y < blkDst.y + ↑((blk.height + 4 - 1) / 4 * 4)
        ∧ blkDst.x ≤ x ∧ x < blkDst.x + ↑((blk.width + 4 - 1) / 4 * 4)) →
      filterLoops NB filtType classifier dst src blkDst blk bChroma filterSet fClipSet clpRng
        vbCTUHeight vbPos b y x
      = filterVal NB filtType classifier src blkDst blk bChroma filterSet fClipSet clpRng
          vbCTUHeight vbPos b y x) ∧
    (¬ (blkDst.y ≤ y ∧ y < blkDst.y + ↑((blk.height + 4 - 1) / 4 * 4)
        ∧ blkDst.x ≤ x ∧ x < blkDst.x + ↑((blk.width + 4 - 1) / 4 * 4)) →
      filterLoops NB filtType classifier dst src blkDst blk bChroma filterSet fClipSet clpRng
        vbCTUHeight vbPos b y x = dst y x) := by
  unfold filterLoops forStep
  refine loopN_pointwise ((blk.height + 4 - 1) / 4) _
    (fun ki y x => blkDst.y + ↑(ki * 4) ≤ y ∧ y < blkDst.y + ↑(ki * 4) + 4
        ∧ blkDst.x ≤ x ∧ x < blkDst.x + ↑((blk.width + 4 - 1) / 4 * 4))
    (fun y x => blkDst.y ≤ y ∧ y < blkDst.y + ↑((blk.height + 4 - 1) / 4 * 4)
        ∧ blkDst.x ≤ x ∧ x < blkDst.x + ↑((blk.width + 4 - 1) / 4 * 4))
    (filterVal NB filtType classifier src blkDst blk bChroma filterSet fClipSet clpRng
      vbCTUHeight vbPos b) ?_ ?_ ?_ dst y x
  · intro ki p y x _ hS
    exact (filterLoops_j NB filtType classifier src blkDst blk bChroma filterSet fClipSet
      clpRng vbCTUHeight vbPos b ki p y x).1 hS
  · intro ki p y x _ hS
    exact (filterLoops_j NB filtType classifier src blkDst blk bChroma filterSet fClipSet
      clpRng vbCTUHeight vbPos b ki p y x).2 hS
  · intro y x
    constructor
    · rintro ⟨h1, h2, h3, h4⟩
      exact ⟨(y - blkDst.y).toNat / 4, by omega, by omega, by omega, h3, h4⟩
    · rintro ⟨ki, hki, h1, h2, h3, h4⟩
      exact ⟨by omega, by omega, h3, h4⟩

end FilterLoops

/-! ## Arithmetic helpers -/

theorem cRem_four_eq_zero_iff (a : Int) : cRem a 4 = 0 ↔ a % 4 = 0 := by
  unfold cRem
  constructor
  · intro h
    exact Int.emod_eq_zero_of_dvd (Int.dvd_of_tmod_eq_zero h)
  · intro h
    exact Int.tmod_eq_zero_of_dvd (Int.dvd_of_emod_eq_zero h)

theorem land_natCast_pow_two (a k : Nat) :
    Int.land (a : Int) ((2 ^ k - 1 : Nat) : Int) = ((a % 2 ^ k : Nat) : Int) := by
  show ((a &&& (2 ^ k - 1) : Nat) : Int) = _
  rw [Nat.and_pow_two_sub_one_eq_mod]

theorem ldiff_pow_two (m k : Nat) : Nat.ldiff (2 ^ k - 1) m = 2 ^ k - (m % 2 ^ k + 1) := by
  apply Nat.eq_of_testBit_eq
  intro i
  rw [Nat.testBit_ldiff, Nat.testBit_two_pow_sub_one,
    Nat.testBit_two_pow_sub_succ (Nat.mod_lt _ (by positivity)), Nat.testBit_mod_two_pow]
  by_cases h : i < k <;> simp [h]

theorem land_negSucc_pow_two (m k : Nat) :
    Int.land (Int.negSucc m) ((2 ^ k - 1 : Nat) : Int) = (Int.negSucc m) % ((2 ^ k : Nat) : Int) := by
  show ((Nat.ldiff (2 ^ k - 1) m : Nat) : Int) = _
  rw [ldiff_pow_two]
  have hpos : 0 < 2 ^ k := by positivity
  have hlt : m % 2 ^ k < 2 ^ k := Nat.mod_lt _ hpos
  rw [Int.negSucc_emod m (by exact_mod_cast hpos)]
  have h3 : ((2 ^ k - (m % 2 ^ k + 1) : Nat) : Int) = ((2 ^ k : Nat) : Int) - ((m % 2 ^ k : Nat) : Int) - 1 := by
    omega
  rw [h3]
  push_cast
  ring

/-- For a power of two `2 ^ k`, the mask `& (2 ^ k - 1)` is the non-negative remainder. -/
theorem bitAnd_pow_two (y : Int) (k : Nat) : bitAnd y (2 ^ k - 1) = y % 2 ^ k := by
  have h1 : ((2 : Int) ^ k - 1) = ((2 ^ k - 1 : Nat) : Int) := by
    have : 1 ≤ 2 ^ k := Nat.one_le_two_pow
    push_cast [this]
    rfl
  have h2 : ((2 : Int) ^ k) = ((2 ^ k : Nat) : Int) := by push_cast; rfl
  unfold bitAnd
  rw [h1, h2]
  cases y with
  | ofNat a =>
    rw [show Int.ofNat a = (a : Int) from rfl, land_natCast_pow_two]
    push_cast
    rfl
  | negSucc m => exact land_negSucc_pow_two m k

theorem bitAnd_pow_two_self (k : Nat) : bitAnd (2 ^ k) (2 ^ k - 1) = 0 := by
  rw [bitAnd_pow_two]
  exact Int.emod_self

theorem shr_eq_div (a : Int) (n : Nat) : shr a n = a / 2 ^ n := by
  unfold shr
  rw [Int.shiftRight_eq_div_pow]
  push_cast
  rfl

theorem Clip3_zero (c : Int) (hc : 0 ≤ c) : Clip3 (-c) c 0 = 0 := by
  unfold Clip3
  rw [max_eq_right (by omega), min_eq_left hc]

theorem clipALF_same (c v : Int) (hc : 0 ≤ c) : clipALF c v v v = 0 := by
  unfold clipALF
  rw [sub_self, Clip3_zero c hc]
  rfl

theorem ClipPel_mem (a : Int) (clpRng : ClpRng) (h : clpRng.min ≤ clpRng.max) :
    clpRng.min ≤ ClipPel a clpRng ∧ ClipPel a clpRng ≤ clpRng.max := by
  unfold ClipPel
  constructor
  · exact le_min (le_max_left _ _) h
  · exact min_le_right _ _

theorem ClipPel_of_mem (a : Int) (clpRng : ClpRng) (h1 : clpRng.min ≤ a) (h2 : a ≤ clpRng.max) :
    ClipPel a clpRng = a := by
  unfold ClipPel
  rw [max_eq_right h1, min_eq_left h2]

/-! ## `filterBlk`: result of a call -/

theorem round_up_four (n : Nat) (h : n % 4 = 0) : (n + 4 - 1) / 4 * 4 = n := by
  omega

/-- When no check fires, `filterBlk` returns the destination after the loops. -/
theorem filterBlk_ok (NB : Int) (filtType : AlfFilterType) (classifier : ClassMap)
    (recDst recSrc : PelUnitBuf) (blkDst blk : Area) (compId : ComponentID)
    (filterSet fClipSet : Nat → Int) (clpRng : ClpRng) (fmt : ChromaFormat)
    (vbCTUHeight vbPos : Int) (alfBryList : Nat → Int) (k : Nat)
    (hvb : vbCTUHeight = 2 ^ k)
    (hc : isChroma compId = true → filtType = AlfFilterType.ALF_FILTER_5)
    (hy : blk.y % 4 = 0) (hx : blk.x % 4 = 0) (hh : blk.height % 4 = 0)
    (hw : blk.width % 4 = 0) :
    filterBlk NB filtType classifier recDst recSrc blkDst blk compId filterSet fClipSet clpRng
      fmt vbCTUHeight vbPos alfBryList
    = Except.ok (fun c => if c = compId then
        filterLoops NB filtType classifier (recDst compId) (recSrc compId) blkDst blk
          (isChroma compId) filterSet fClipSet clpRng vbCTUHeight vbPos
          (bryPos NB (isChroma compId) fmt vbCTUHeight vbPos alfBryList)
        else recDst c) := by
  have h1 : bitAnd vbCTUHeight (vbCTUHeight - 1) = 0 := by
    rw [hvb]; exact bitAnd_pow_two_self k
  have h2 : ¬ (isChroma compId = true ∧ filtType ≠ AlfFilterType.ALF_FILTER_5) := by
    rintro ⟨h, h'⟩; exact h' (hc h)
  have h3 : cRem blk.y 4 = 0 := (cRem_four_eq_zero_iff _).mpr hy
  have h4 : cRem blk.x 4 = 0 := (cRem_four_eq_zero_iff _).mpr hx
  have h5 : vbCTUHeight ≠ 0 := by
    rw [hvb]; positivity
  unfold filterBlk
  rw [if_neg (by simpa using h1), if_neg h2, if_neg (by simpa using h3),
    if_neg (by simpa using h4), if_neg (by simpa using hh), if_neg (by simpa using hw),
    if_neg h5]

/-- Pointwise description of the result of `filterBlk`: inside the rectangle the plane
of `compId` holds `filterVal`, everything else is as before. -/
theorem filterBlk_apply (NB : Int) (filtType : AlfFilterType) (classifier : ClassMap)
    (recDst recSrc : PelUnitBuf) (blkDst blk : Area) (compId : ComponentID)
    (filterSet fClipSet : Nat → Int) (clpRng : ClpRng) (fmt : ChromaFormat)
    (vbCTUHeight vbPos : Int) (alfBryList : Nat → Int) (k : Nat)
    (hvb : vbCTUHeight = 2 ^ k)
    (hc : isChroma compId = true → filtType = AlfFilterType.ALF_FILTER_5)
    (hy : blk.y % 4 = 0) (hx : blk.x % 4 = 0) (hh : blk.height % 4 = 0)
    (hw : blk.width % 4 = 0) :
    ∃ out, filterBlk NB filtType classifier recDst recSrc blkDst blk compId filterSet fClipSet
        clpRng fmt vbCTUHeight vbPos alfBryList = Except.ok out ∧
      (∀ y x, blkDst.y ≤ y → y < blkDst.y + blk.height → blkDst.x ≤ x →
        x < blkDst.x + blk.width →
        out compId y x = filterVal NB filtType classifier (recSrc compId) blkDst blk
          (isChroma compId) filterSet fClipSet clpRng vbCTUHeight vbPos
          (bryPos NB (isChroma compId) fmt vbCTUHeight vbPos alfBryList) y x) ∧
      (∀ y x, ¬ (blkDst.y ≤ y ∧ y < blkDst.y + blk.height ∧ blkDst.x ≤ x ∧
        x < blkDst.x + blk.width) → out compId y x = recDst compId y x) ∧
      (∀ c, c ≠ compId → out c = recDst c) := by
  refine ⟨_, filterBlk_ok NB filtType classifier recDst recSrc blkDst blk compId filterSet
    fClipSet clpRng fmt vbCTUHeight vbPos alfBryList k hvb hc hy hx hh hw, ?_, ?_, ?_⟩
  · intro y x h1 h2 h3 h4
    have := (filterLoops_spec NB filtType classifier (recSrc compId) blkDst blk
      (isChroma compId) filterSet fClipSet clpRng vbCTUHeight vbPos
      (bryPos NB (isChroma compId) fmt vbCTUHeight vbPos alfBryList) (recDst compId) y x).1
    rw [round_up_four _ hh, round_up_four _ hw] at this
    simp only [if_true]
    exact this ⟨h1, h2, h3, h4⟩
  · intro y x h
    have := (filterLoops_spec NB filtType classifier (recSrc compId) blkDst blk
      (isChroma compId) filterSet fClipSet clpRng vbCTUHeight vbPos
      (bryPos NB (isChroma compId) fmt vbCTUHeight vbPos alfBryList) (recDst compId) y x).2
    rw [round_up_four _ hh, round_up_four _ hw] at this
    simp only [if_true]
    exact this h
  · intro c hc'
    simp only [if_neg hc']

/-! ## Row pointers and column offsets stay inside the diamond -/

theorem padRows_near (r : Int) (c1 c2 c3 : Bool) : RowsNear r (padRows r c1 c2 c3) := by
  unfold RowsNear padRows
  cases c1 <;> cases c2 <;> cases c3 <;> simp <;> omega

theorem rowPtrs_near (NB : Int) (bChroma : Bool) (vbCTUHeight vbPos : Int) (b : BryPos)
    (pixYPos r : Int) : RowsNear r (rowPtrs NB bChroma vbCTUHeight vbPos b pixYPos r) := by
  unfold rowPtrs
  dsimp only
  split_ifs <;> exact padRows_near _ _ _ _

theorem padCols_near (c1 c2 c3 : Bool) : ColsNear (padCols c1 c2 c3) := by
  unfold ColsNear padCols
  cases c1 <;> cases c2 <;> cases c3 <;> simp

theorem colIdx_near (NB : Int) (bChroma : Bool) (b : BryPos) (pixXPos : Int) :
    ColsNear (colIdx NB bChroma b pixXPos) := by
  unfold colIdx
  split_ifs <;> exact padCols_near _ _ _

/-! ## Flat input -/

theorem arrayAt_mem_or_zero (l : List Int) (k : Nat) : arrayAt l k ∈ l ∨ arrayAt l k = 0 := by
  unfold arrayAt
  by_cases h : k < l.length
  · left
    rw [List.getD_eq_getElem _ _ h]
    exact List.getElem_mem h
  · right
    exact List.getD_eq_default _ _ (by omega)

theorem transposeRow_nonneg (filtType : AlfFilterType) (t : Nat) (f : Nat → Int)
    (hf : ∀ n, 0 ≤ f n) (k : Nat) : 0 ≤ arrayAt (transposeRow filtType t f) k := by
  have hall : ∀ x ∈ transposeRow filtType t f, 0 ≤ x := by
    unfold transposeRow
    cases filtType <;> dsimp only <;> split_ifs <;> simp [hf]
  rcases arrayAt_mem_or_zero (transposeRow filtType t f) k with h | h
  · exact hall _ h
  · rw [h]

/-! ## The 32-bit accumulator -/

theorem toInt32_zero : toInt32 0 = 0 := by decide

theorem toInt32_of_fits (a : Int) (h0 : -2147483648 ≤ a) (h1 : a < 2147483648) :
    toInt32 a = a := by
  unfold toInt32
  omega

theorem toInt32_range (a : Int) : -2147483648 ≤ toInt32 a ∧ toInt32 a < 2147483648 := by
  unfold toInt32
  omega

theorem toInt32_add_toInt32 (a b : Int) : toInt32 (toInt32 a + b) = toInt32 (a + b) := by
  unfold toInt32
  omega

theorem mulAdd32_zero (coef v : Int) : mulAdd32 0 coef v = toInt32 (coef * v) := by
  unfold mulAdd32
  generalize coef * v = w
  unfold toInt32
  omega

theorem mulAdd32_toInt32 (s coef v : Int) :
    mulAdd32 (toInt32 s) coef v = toInt32 (s + coef * v) := by
  unfold mulAdd32
  generalize coef * v = w
  unfold toInt32
  omega

/-- The 32-bit accumulator holds the exact sum of the products reduced to 32 bits. -/
theorem tapSum_eq_toInt32 (filtType : AlfFilterType) (src : Plane) (fC fQ : List Int)
    (p : RowPtrs) (c : Int) (ix : ColIdx) :
    tapSum filtType src fC fQ p c ix = toInt32 (tapProducts filtType src fC fQ p c ix) := by
  cases filtType <;> simp only [tapSum, tapProducts, mulAdd32_zero, mulAdd32_toInt32]

theorem tapProducts_flat (filtType : AlfFilterType) (src : Plane) (fC fQ : List Int)
    (p : RowPtrs) (r c : Int) (ix : ColIdx) (v : Int) (hq : ∀ k, 0 ≤ arrayAt fQ k)
    (hp : RowsNear r p) (hix : ColsNear ix)
    (hsrc : ∀ y x, r - filterReach filtType ≤ y → y ≤ r + filterReach filtType →
      c - filterReach filtType ≤ x → x ≤ c + filterReach filtType → src y x = v) :
    tapProducts filtType src fC fQ p c ix = 0 := by
  obtain ⟨h0, h1, h1', h2, h2', h3, h3', h4, h4', h5, h5', h6, h6'⟩ := hp
  obtain ⟨i1, i1', i2, i2', i3, i3'⟩ := hix
  cases filtType <;> simp only [filterReach] at hsrc <;> simp only [tapProducts] <;>
    simp (disch := omega) only [hsrc] <;>
    simp only [clipALF_same _ _ (hq _), mul_zero, add_zero]

theorem tapSum_flat (filtType : AlfFilterType) (src : Plane) (fC fQ : List Int) (p : RowPtrs)
    (r c : Int) (ix : ColIdx) (v : Int) (hq : ∀ k, 0 ≤ arrayAt fQ k) (hp : RowsNear r p)
    (hix : ColsNear ix)
    (hsrc : ∀ y x, r - filterReach filtType ≤ y → y ≤ r + filterReach filtType →
      c - filterReach filtType ≤ x → x ≤ c + filterReach filtType → src y x = v) :
    tapSum filtType src fC fQ p c ix = 0 := by
  rw [tapSum_eq_toInt32, tapProducts_flat filtType src fC fQ p r c ix v hq hp hix hsrc]
  exact toInt32_zero

theorem filterPixel_flat (NB : Int) (filtType : AlfFilterType) (classifier : ClassMap)
    (src : Plane) (blkDst blk : Area) (bChroma : Bool) (filterSet fClipSet : Nat → Int)
    (clpRng : ClpRng) (vbCTUHeight vbPos : Int) (b : BryPos) (i j ii jj : Nat) (v : Int)
    (hclip : ∀ n, 0 ≤ fClipSet n) (hmin : clpRng.min ≤ v) (hmax : v ≤ clpRng.max)
    (hsrc : ∀ y x, blk.y + i + ii - filterReach filtType ≤ y →
      y ≤ blk.y + i + ii + filterReach filtType →
      blk.x + j + jj - filterReach filtType ≤ x →
      x ≤ blk.x + j + jj + filterReach filtType → src y x = v) :
    filterPixel NB filtType classifier src blkDst blk bChroma filterSet fClipSet clpRng
      vbCTUHeight vbPos b i j ii jj = v := by
  have hp := rowPtrs_near NB bChroma vbCTUHeight vbPos b (blkDst.y + i + ii) (blk.y + i + ii)
  have hix := colIdx_near NB bChroma b (blkDst.x + j + jj)
  have hcurr : src (rowPtrs NB bChroma vbCTUHeight vbPos b (blkDst.y + i + ii)
      (blk.y + i + ii)).pImg0 (blk.x + j + jj) = v := by
    rw [hp.1]
    apply hsrc <;> cases filtType <;> simp [filterReach]
  simp only [filterPixel, pixelValue]
  rw [tapSum_flat filtType src _ _ _ (blk.y + i + ii) (blk.x + j + jj) _ v
    (fun k => transposeRow_nonneg filtType _ _ (fun n => hclip _) k) hp hix hsrc, hcurr]
  have h0 : shr (toInt32 (0 + shl 1 (m_NUM_BITS - 1 - 1))) (m_NUM_BITS - 1) = 0 := by decide
  rw [h0, zero_add]
  exact ClipPel_of_mem v clpRng hmin hmax

/-- C1. If every source sample in the window `filterBlk` reads (the rectangle and
`filterReach` rows and columns around it: 7x7 windows for `ALF_FILTER_7`, 5x5 windows for
`ALF_FILTER_5`) equals one value `v` of the clipping range, and the clip table has no
negative entry, then the call succeeds and every destination sample of the rectangle
equals `v`, for every coefficient table, classifier content (hence every transpose
index), virtual-boundary position and boundary list. -/
theorem filterBlk_flat_is_identity (NB : Int) (filtType : AlfFilterType)
    (classifier : ClassMap) (recDst recSrc : PelUnitBuf) (blkDst blk : Area)
    (compId : ComponentID) (filterSet fClipSet : Nat → Int) (clpRng : ClpRng)
    (fmt : ChromaFormat) (vbCTUHeight vbPos : Int) (alfBryList : Nat → Int) (k : Nat)
    (v : Int) (hvb : vbCTUHeight = 2 ^ k)
    (hc : isChroma compId = true → filtType = AlfFilterType.ALF_FILTER_5)
    (hy : blk.y % 4 = 0) (hx : blk.x % 4 = 0) (hh : blk.height % 4 = 0)
    (hw : blk.width % 4 = 0) (hclip : ∀ n, 0 ≤ fClipSet n)
    (hmin : clpRng.min ≤ v) (hmax : v ≤ clpRng.max)
    (hflat : ∀ y x, blk.y - filterReach filtType ≤ y →
      y < blk.y + blk.height + filterReach filtType →
      blk.x - filterReach filtType ≤ x →
      x < blk.x + blk.width + filterReach filtType → recSrc compId y x = v) :
    ∃ out, filterBlk NB filtType classifier recDst recSrc blkDst blk compId filterSet fClipSet
        clpRng fmt vbCTUHeight vbPos alfBryList = Except.ok out ∧
      ∀ y x, blkDst.y ≤ y → y < blkDst.y + blk.height → blkDst.x ≤ x →
        x < blkDst.x + blk.width → out compId y x = v := by
  obtain ⟨out, hout, hin, -, -⟩ := filterBlk_apply NB filtType classifier recDst recSrc blkDst
    blk compId filterSet fClipSet clpRng fmt vbCTUHeight vbPos alfBryList k hvb hc hy hx hh hw
  refine ⟨out, hout, ?_⟩
  intro y x h1 h2 h3 h4
  rw [hin y x h1 h2 h3 h4]
  unfold filterVal
  apply filterPixel_flat NB filtType classifier (recSrc compId) blkDst blk _ filterSet fClipSet
    clpRng vbCTUHeight vbPos _ _ _ _ _ v hclip hmin hmax
  intro y' x' g1 g2 g3 g4
  have hr : 0 ≤ filterReach filtType := by cases filtType <;> simp [filterReach]
  apply hflat y' x' <;> omega

/-- C1, witness: a 64x64 CTU of value 512 at bit depth 10 (clipping range 0..1023, clip
value 1024), filtered with the luma filter of fixed filter set 0, comes out unchanged. -/
theorem filterBlk_flat_is_identity_witness :
    ∃ out, filterBlk (-128) AlfFilterType.ALF_FILTER_7 (fun _ _ => ⟨0, 3⟩) (fun _ _ _ => 0)
        (fun _ _ _ => 512) ⟨0, 0, 64, 64⟩ ⟨0, 0, 64, 64⟩ ComponentID.COMPONENT_Y
        (createFixedFilterSets (fun _ _ => 0) 0) (createClipDefault 1024 (fun _ => 0))
        ⟨0, 1023⟩ ChromaFormat.CHROMA_420 64 60 (fun _ => -128) = Except.ok out ∧
      ∀ y x, (0 : Int) ≤ y → y < (0 : Int) + (64 : Nat) → (0 : Int) ≤ x →
        x < (0 : Int) + (64 : Nat) → out ComponentID.COMPONENT_Y y x = 512 :=
  filterBlk_flat_is_identity (-128) AlfFilterType.ALF_FILTER_7 (fun _ _ => ⟨0, 3⟩)
    (fun _ _ _ => 0) (fun _ _ _ => 512) ⟨0, 0, 64, 64⟩ ⟨0, 0, 64, 64⟩ ComponentID.COMPONENT_Y
    (createFixedFilterSets (fun _ _ => 0) 0) (createClipDefault 1024 (fun _ => 0))
    ⟨0, 1023⟩ ChromaFormat.CHROMA_420 64 60 (fun _ => -128) 6 512 (by norm_num)
    (by decide) (by decide) (by decide) (by decide) (by decide)
    (by
      intro n
      have key : ∀ m (c : Nat → Int), (∀ n, 0 ≤ c n) →
          ∀ n, 0 ≤ loopN m (fun i clip => fun n => if n = i then (1024 : Int) else clip n) c n := by
        intro m
        induction m with
        | zero => intro c hc n; exact hc n
        | succ m ih =>
          intro c hc n
          show 0 ≤ (if n = m then (1024 : Int) else _)
          split_ifs
          · norm_num
          · exact ih c hc n
      exact key _ _ (fun _ => le_refl _) n)
    (by decide) (by decide) (fun _ _ _ _ _ _ => rfl)

/-- C3. Given `clpRng.min ≤ clpRng.max`, every sample `filterBlk` writes lies in the
clipping range, for all coefficients, clip values, classifier contents and source
samples. -/
theorem filterBlk_output_in_clip_range (NB : Int) (filtType : AlfFilterType)
    (classifier : ClassMap) (recDst recSrc : PelUnitBuf) (blkDst blk : Area)
    (compId : ComponentID) (filterSet fClipSet : Nat → Int) (clpRng : ClpRng)
    (fmt : ChromaFormat) (vbCTUHeight vbPos : Int) (alfBryList : Nat → Int) (k : Nat)
    (hvb : vbCTUHeight = 2 ^ k)
    (hc : isChroma compId = true → filtType = AlfFilterType.ALF_FILTER_5)
    (hy : blk.y % 4 = 0) (hx : blk.x % 4 = 0) (hh : blk.height % 4 = 0)
    (hw : blk.width % 4 = 0) (hrng : clpRng.min ≤ clpRng.max) :
    ∃ out, filterBlk NB filtType classifier recDst recSrc blkDst blk compId filterSet fClipSet
        clpRng fmt vbCTUHeight vbPos alfBryList = Except.ok out ∧
      ∀ y x, blkDst.y ≤ y → y < blkDst.y + blk.height → blkDst.x ≤ x →
        x < blkDst.x + blk.width →
        clpRng.min ≤ out compId y x ∧ out compId y x ≤ clpRng.max := by
  obtain ⟨out, hout, hin, -, -⟩ := filterBlk_apply NB filtType classifier recDst recSrc blkDst
    blk compId filterSet fClipSet clpRng fmt vbCTUHeight vbPos alfBryList k hvb hc hy hx hh hw
  refine ⟨out, hout, ?_⟩
  intro y x h1 h2 h3 h4
  rw [hin y x h1 h2 h3 h4]
  unfold filterVal filterPixel pixelValue
  exact ClipPel_mem _ clpRng hrng

/-- C3, witness: an 8x8 luma rectangle of a ramp image, 10-bit clipping range. -/
theorem filterBlk_output_in_clip_range_witness :
    ∃ out, filterBlk (-128) AlfFilterType.ALF_FILTER_7 (fun _ _ => ⟨0, 0⟩) (fun _ _ _ => 0)
        (fun _ y x => 100 * y + x) ⟨0, 0, 8, 8⟩ ⟨0, 0, 8, 8⟩ ComponentID.COMPONENT_Y
        (fun _ => 20) (fun _ => 1024) ⟨0, 1023⟩ ChromaFormat.CHROMA_420 64 60
        (fun _ => -128) = Except.ok out ∧
      ∀ y x, (0 : Int) ≤ y → y < (0 : Int) + (8 : Nat) → (0 : Int) ≤ x →
        x < (0 : Int) + (8 : Nat) →
        (0 : Int) ≤ out ComponentID.COMPONENT_Y y x ∧ out ComponentID.COMPONENT_Y y x ≤ 1023 :=
  filterBlk_output_in_clip_range (-128) AlfFilterType.ALF_FILTER_7 (fun _ _ => ⟨0, 0⟩)
    (fun _ _ _ => 0) (fun _ y x => 100 * y + x) ⟨0, 0, 8, 8⟩ ⟨0, 0, 8, 8⟩
    ComponentID.COMPONENT_Y (fun _ => 20) (fun _ => 1024) ⟨0, 1023⟩ ChromaFormat.CHROMA_420
    64 60 (fun _ => -128) 6 (by norm_num) (by decide) (by decide) (by decide) (by decide)
    (by decide) (by decide)

/-! ## Tap reordering -/

/-- C9, counterexample: on the row `0, 1, ..., 12` the reordering of transpose index 1
followed by the reordering of transpose index 3 does not give the row back. -/
theorem transpose_one_then_three_not_identity :
    transposeRow AlfFilterType.ALF_FILTER_7 3
      (arrayAt (transposeRow AlfFilterType.ALF_FILTER_7 1 (fun k => (k : Int))))
    ≠ [0, 1, 2, 3, 4, 5, 6, 7, 8, 9, 10, 11, 12] := by
  decide

/-- C9, amended. For every 13-entry coefficient row, the reordering of transpose index 1
followed by the reordering of transpose index 3 is the reordering of transpose index 2
of the original row; the reordering that undoes index 1 is index 1 itself: applied
twice it returns the original row. -/
theorem transpose_one_then_three_is_two (row : Nat → Int) :
    transposeRow AlfFilterType.ALF_FILTER_7 3
        (arrayAt (transposeRow AlfFilterType.ALF_FILTER_7 1 row))
      = transposeRow AlfFilterType.ALF_FILTER_7 2 row ∧
    transposeRow AlfFilterType.ALF_FILTER_7 1
        (arrayAt (transposeRow AlfFilterType.ALF_FILTER_7 1 row))
      = [row 0, row 1, row 2, row 3, row 4, row 5, row 6, row 7, row 8, row 9, row 10,
          row 11, row 12] := by
  constructor <;> rfl

/-! ## Interior pixels -/

theorem padRows_of_not (r : Int) (P1 P2 P3 : Prop) [Decidable P1] [Decidable P2]
    [Decidable P3] (h1 : ¬ P1) (h2 : ¬ P2) (h3 : ¬ P3) :
    padRows r (decide P1) (decide P2) (decide P3) = padRows r false false false := by
  simp [h1, h2, h3]

theorem padCols_of_not (P1 P2 P3 : Prop) [Decidable P1] [Decidable P2]
    [Decidable P3] (h1 : ¬ P1) (h2 : ¬ P2) (h3 : ¬ P3) :
    padCols (decide P1) (decide P2) (decide P3) = padCols false false false := by
  simp [h1, h2, h3]

theorem bryPos_luma (NB : Int) (fmt : ChromaFormat) (vbCTUHeight vbPos : Int)
    (alfBryList : Nat → Int) :
    let b := bryPos NB false fmt vbCTUHeight vbPos alfBryList
    b.alfTopBryPos = alfBryList 0 ∧ b.alfBotBryPos = alfBryList 1 ∧
    b.alfLeftBryPos = alfBryList 2 ∧ b.alfRightBryPos = alfBryList 3 ∧
    (b.botBryLines = 2 ∨ b.botBryLines = 4) ∧
    (b.botBryLines = 2 ↔
      (cRem (alfBryList 1 - 4) vbCTUHeight = vbPos ∧ alfBryList 1 ≠ NB)) := by
  have hs : ∀ a : Int, shr a 0 = a := by
    intro a; rw [shr_eq_div]; simp
  simp only [bryPos, getComponentScaleY, getComponentScaleX, Bool.false_eq_true, if_false,
    true_or, if_true, hs]
  refine ⟨?_, ?_, ?_, ?_, ?_, ?_⟩
  · split_ifs with h
    · rfl
    · push_neg at h; exact h.symm
  · split_ifs with h
    · rfl
    · push_neg at h; exact h.symm
  · split_ifs with h
    · rfl
    · push_neg at h; exact h.symm
  · split_ifs with h
    · rfl
    · push_neg at h; exact h.symm
  · by_cases h1 : alfBryList 1 ≠ NB
    · simp only [h1, if_true, ne_eq, not_false_eq_true, and_true]
      split_ifs <;> simp
    · push_neg at h1
      simp [h1]
  · by_cases h1 : alfBryList 1 ≠ NB
    · simp only [h1, if_true, ne_eq, not_false_eq_true, and_true]
      split_ifs with h <;> simp [h]
    · push_neg at h1
      simp [h1]

theorem rowPtrs_interior (NB : Int) (vbCTUHeight vbPos : Int) (b : BryPos) (pixYPos r : Int)
    (hVB : bitAnd pixYPos (vbCTUHeight - 1) ≤ vbPos - 4
      ∨ vbPos + 3 ≤ bitAnd pixYPos (vbCTUHeight - 1))
    (hT : b.alfTopBryPos = NB ∨ pixYPos < b.alfTopBryPos ∨ b.alfTopBryPos + 3 ≤ pixYPos)
    (hB : b.alfBotBryPos = NB ∨ b.alfBotBryPos ≤ pixYPos ∨ pixYPos ≤ b.alfBotBryPos - 4) :
    rowPtrs NB false vbCTUHeight vbPos b pixYPos r = padRows r false false false := by
  unfold rowPtrs
  simp only [Bool.false_eq_true, if_false]
  split_ifs with h1 h2 h3 h4
  · exact padRows_of_not r _ _ _ (by omega) (by omega) (by omega)
  · exact padRows_of_not r _ _ _ (by omega) (by omega) (by omega)
  · exact padRows_of_not r _ _ _ (by omega) (by omega) (by omega)
  · exact padRows_of_not r _ _ _ (by omega) (by omega) (by omega)
  · rfl

theorem colIdx_interior (NB : Int) (b : BryPos) (pixXPos : Int)
    (hL : b.alfLeftBryPos = NB ∨ pixXPos < b.alfLeftBryPos ∨ b.alfLeftBryPos + 3 ≤ pixXPos)
    (hR : b.alfRightBryPos = NB ∨ b.alfRightBryPos ≤ pixXPos
      ∨ pixXPos ≤ b.alfRightBryPos - 4) :
    colIdx NB false b pixXPos = padCols false false false := by
  unfold colIdx
  simp only [Bool.false_eq_true, if_false]
  split_ifs with h1 h2
  · exact padCols_of_not _ _ _ (by omega) (by omega) (by omega)
  · exact padCols_of_not _ _ _ (by omega) (by omega) (by omega)
  · rfl

theorem tapProducts_interior (src : Plane) (fC fQ : List Int) (r c : Int) :
    tapProducts AlfFilterType.ALF_FILTER_7 src fC fQ (padRows r false false false) c
      (padCols false false false)
    = interiorSum src (arrayAt fC) (arrayAt fQ) r c := by
  simp only [tapProducts, padRows, padCols, interiorSum, clipALF, diamondTaps, List.range,
    List.range.loop, List.map, List.sum_cons, List.sum_nil, List.getD_cons_zero,
    List.getD_cons_succ, Bool.false_eq_true, if_false]
  simp only [add_zero, sub_eq_add_neg, add_assoc]

theorem tapSum_interior (src : Plane) (fC fQ : List Int) (r c : Int) :
    tapSum AlfFilterType.ALF_FILTER_7 src fC fQ (padRows r false false false) c
      (padCols false false false)
    = toInt32 (interiorSum src (arrayAt fC) (arrayAt fQ) r c) := by
  rw [tapSum_eq_toInt32, tapProducts_interior]

/-- The sample `filterBlk<ALF_FILTER_7>` stores at a luma pixel at which no row
substitution and no column clamping applies, in terms of the filter sum of the source. -/
theorem filterBlk_interior_value (NB : Int) (classifier : ClassMap)
    (recDst recSrc : PelUnitBuf) (blkDst blk : Area) (filterSet fClipSet : Nat → Int)
    (clpRng : ClpRng) (fmt : ChromaFormat) (vbCTUHeight vbPos : Int)
    (alfBryList : Nat → Int) (k : Nat) (y x : Int) (hvb : vbCTUHeight = 2 ^ k)
    (hy : blk.y % 4 = 0) (hx : blk.x % 4 = 0) (hh : blk.height % 4 = 0)
    (hw : blk.width % 4 = 0)
    (hy1 : blkDst.y ≤ y) (hy2 : y < blkDst.y + blk.height)
    (hx1 : blkDst.x ≤ x) (hx2 : x < blkDst.x + blk.width)
    (hVB : bitAnd y (vbCTUHeight - 1) ≤ vbPos - 4 ∨ vbPos + 3 ≤ bitAnd y (vbCTUHeight - 1))
    (hT : alfBryList 0 = NB ∨ y < alfBryList 0 ∨ alfBryList 0 + 3 ≤ y)
    (hB : alfBryList 1 = NB ∨ alfBryList 1 ≤ y ∨ y ≤ alfBryList 1 - 4)
    (hL : alfBryList 2 = NB ∨ x < alfBryList 2 ∨ alfBryList 2 + 3 ≤ x)
    (hR : alfBryList 3 = NB ∨ alfBryList 3 ≤ x ∨ x ≤ alfBryList 3 - 4) :
    ∃ out, filterBlk NB AlfFilterType.ALF_FILTER_7 classifier recDst recSrc blkDst blk
        ComponentID.COMPONENT_Y filterSet fClipSet clpRng fmt vbCTUHeight vbPos alfBryList
        = Except.ok out ∧
      out ComponentID.COMPONENT_Y y x =
        ClipPel (shr (toInt32 (tapSum AlfFilterType.ALF_FILTER_7 (recSrc ComponentID.COMPONENT_Y)
            (transposeRow AlfFilterType.ALF_FILTER_7
              (classifier (y - ↑((y - blkDst.y).toNat % 4))
                (x - ↑((x - blkDst.x).toNat % 4))).transposeIdx
              (fun n => filterSet ((classifier (y - ↑((y - blkDst.y).toNat % 4))
                (x - ↑((x - blkDst.x).toNat % 4))).classIdx * MAX_NUM_ALF_LUMA_COEFF + n)))
            (transposeRow AlfFilterType.ALF_FILTER_7
              (classifier (y - ↑((y - blkDst.y).toNat % 4))
                (x - ↑((x - blkDst.x).toNat % 4))).transposeIdx
              (fun n => fClipSet ((classifier (y - ↑((y - blkDst.y).toNat % 4))
                (x - ↑((x - blkDst.x).toNat % 4))).classIdx * MAX_NUM_ALF_LUMA_COEFF + n)))
            (padRows (y - blkDst.y + blk.y) false false false) (x - blkDst.x + blk.x)
            (padCols false false false) + 64)) 7
          + recSrc ComponentID.COMPONENT_Y (y - blkDst.y + blk.y) (x - blkDst.x + blk.x))
          clpRng := by
  obtain ⟨out, hout, hin, -, -⟩ := filterBlk_apply NB AlfFilterType.ALF_FILTER_7 classifier
    recDst recSrc blkDst blk ComponentID.COMPONENT_Y filterSet fClipSet clpRng fmt vbCTUHeight
    vbPos alfBryList k hvb (by decide) hy hx hh hw
  refine ⟨out, hout, ?_⟩
  rw [hin y x hy1 hy2 hx1 hx2]
  have hchr : isChroma ComponentID.COMPONENT_Y = false := by decide
  rw [hchr]
  obtain ⟨bT, bB, bL, bR, bl, -⟩ := bryPos_luma NB fmt vbCTUHeight vbPos alfBryList
  have e1 : blkDst.y + ↑((y - blkDst.y).toNat / 4 * 4) + ↑((y - blkDst.y).toNat % 4) = y := by
    omega
  have e2 : blkDst.x + ↑((x - blkDst.x).toNat / 4 * 4) + ↑((x - blkDst.x).toNat % 4) = x := by
    omega
  have e3 : blk.y + ↑((y - blkDst.y).toNat / 4 * 4) + ↑((y - blkDst.y).toNat % 4)
      = y - blkDst.y + blk.y := by omega
  have e4 : blk.x + ↑((x - blkDst.x).toNat / 4 * 4) + ↑((x - blkDst.x).toNat % 4)
      = x - blkDst.x + blk.x := by omega
  have e5 : blkDst.y + ↑((y - blkDst.y).toNat / 4 * 4) = y - ↑((y - blkDst.y).toNat % 4) := by
    omega
  have e6 : blkDst.x + ↑((x - blkDst.x).toNat / 4 * 4) = x - ↑((x - blkDst.x).toNat % 4) := by
    omega
  unfold filterVal filterPixel
  rw [e1, e2, e3, e4, e5, e6]
  simp only [pixelValue, blockClass, Bool.false_eq_true, if_false]
  rw [rowPtrs_interior NB vbCTUHeight vbPos _ y _ hVB
      (by rw [bT]; exact hT) (by rw [bB]; exact hB),
    colIdx_interior NB _ x (by rw [bL]; exact hL) (by rw [bR]; exact hR)]
  have h64 : shl 1 (m_NUM_BITS - 1 - 1) = 64 := by decide
  have h7 : m_NUM_BITS - 1 = 7 := by decide
  rw [h64, h7]
  simp only [padRows, Bool.false_eq_true, if_false]

/-- C6, counterexample: on the checkerboard of the samples 32767 and -32768, with every
coefficient and every clip value 32767, the exact sum `S` of the pixel (0, 0) is
-17178820624, which does not fit the 32-bit `int sum`: the accumulator holds 1048560 and
`filterBlk` stores 1023, where `ClipPel(curr + floor((S + 64) / 128))` is 0. -/
theorem interior_pixel_sum_wraps :
    ∃ out, filterBlk (-128) AlfFilterType.ALF_FILTER_7 (fun _ _ => ⟨0, 0⟩) (fun _ _ _ => 0)
        (fun _ y x => if (y + x) % 2 = 0 then 32767 else -32768) ⟨0, 0, 8, 8⟩ ⟨0, 0, 8, 8⟩
        ComponentID.COMPONENT_Y (fun _ => 32767) (fun _ => 32767) ⟨0, 1023⟩
        ChromaFormat.CHROMA_420 (2 ^ 6) 60 (fun _ => -128) = Except.ok out ∧
      out ComponentID.COMPONENT_Y 0 0 = 1023 ∧
      interiorSum (fun y x => if (y + x) % 2 = 0 then 32767 else -32768)
        (arrayAt (transposeRow AlfFilterType.ALF_FILTER_7 0 (fun _ => 32767)))
        (arrayAt (transposeRow AlfFilterType.ALF_FILTER_7 0 (fun _ => 32767))) 0 0
        = -17178820624 ∧
      interiorPixel (fun y x => if (y + x) % 2 = 0 then 32767 else -32768)
        (arrayAt (transposeRow AlfFilterType.ALF_FILTER_7 0 (fun _ => 32767)))
        (arrayAt (transposeRow AlfFilterType.ALF_FILTER_7 0 (fun _ => 32767))) ⟨0, 1023⟩ 0 0
        = 0 := by
  have hS : interiorSum (fun y x => if (y + x) % 2 = 0 then (32767 : Int) else -32768)
      (arrayAt (transposeRow AlfFilterType.ALF_FILTER_7 0 (fun _ => 32767)))
      (arrayAt (transposeRow AlfFilterType.ALF_FILTER_7 0 (fun _ => 32767))) 0 0
      = -17178820624 := by
    decide
  obtain ⟨out, hout, hv⟩ := filterBlk_interior_value (-128) (fun _ _ => ⟨0, 0⟩)
    (fun _ _ _ => 0) (fun _ y x => if (y + x) % 2 = 0 then 32767 else -32768) ⟨0, 0, 8, 8⟩
    ⟨0, 0, 8, 8⟩ (fun _ => 32767) (fun _ => 32767) ⟨0, 1023⟩ ChromaFormat.CHROMA_420 (2 ^ 6)
    60 (fun _ => -128) 6 0 0 rfl (by decide) (by decide) (by decide) (by decide) (by decide)
    (by decide) (by decide) (by decide) (Or.inl (by rw [bitAnd_pow_two]; decide))
    (Or.inl rfl) (Or.inl rfl) (Or.inl rfl) (Or.inl rfl)
  refine ⟨out, hout, ?_, hS, ?_⟩
  · rw [hv, tapSum_interior]
    simp only [sub_zero, add_zero]
    rw [hS]
    decide
  · unfold interiorPixel
    rw [hS]
    decide

/-- C6. For a luma pixel of the rectangle at which no row substitution and no
column clamping applies (its row is not one of the three rows above or below the virtual
boundary row, not one of the three rows next to a flagged top or bottom boundary, its
column not one of the three columns next to a flagged left or right boundary) and whose
sum `S` satisfies `-2^31 <= S` and `S + 64 < 2^31` (it fits the 32-bit `int sum`),
`filterBlk<ALF_FILTER_7>` stores `ClipPel(curr + floor((S + 64) / 128))`, where `S` is
the sum over the twelve taps of the 7x7 diamond of the coefficient times the two clipped
differences, with the coefficient and clip rows of the block's class reordered by its
transpose index. The source position of the picture position `(y, x)` is
`(y - blkDst.y + blk.y, x - blkDst.x + blk.x)`. -/
theorem filterBlk_interior_pixel (NB : Int) (classifier : ClassMap)
    (recDst recSrc : PelUnitBuf) (blkDst blk : Area) (filterSet fClipSet : Nat → Int)
    (clpRng : ClpRng) (fmt : ChromaFormat) (vbCTUHeight vbPos : Int)
    (alfBryList : Nat → Int) (k : Nat) (y x : Int) (hvb : vbCTUHeight = 2 ^ k)
    (hy : blk.y % 4 = 0) (hx : blk.x % 4 = 0) (hh : blk.height % 4 = 0)
    (hw : blk.width % 4 = 0)
    (hy1 : blkDst.y ≤ y) (hy2 : y < blkDst.y + blk.height)
    (hx1 : blkDst.x ≤ x) (hx2 : x < blkDst.x + blk.width)
    (hVB : bitAnd y (vbCTUHeight - 1) ≤ vbPos - 4 ∨ vbPos + 3 ≤ bitAnd y (vbCTUHeight - 1))
    (hT : alfBryList 0 = NB ∨ y < alfBryList 0 ∨ alfBryList 0 + 3 ≤ y)
    (hB : alfBryList 1 = NB ∨ alfBryList 1 ≤ y ∨ y ≤ alfBryList 1 - 4)
    (hL : alfBryList 2 = NB ∨ x < alfBryList 2 ∨ alfBryList 2 + 3 ≤ x)
    (hR : alfBryList 3 = NB ∨ alfBryList 3 ≤ x ∨ x ≤ alfBryList 3 - 4)
    (hfit0 : -2147483648 ≤ interiorSum (recSrc ComponentID.COMPONENT_Y)
        (arrayAt (transposeRow AlfFilterType.ALF_FILTER_7 (classifier (y - ↑((y - blkDst.y).toNat % 4)) (x - ↑((x - blkDst.x).toNat % 4))).transposeIdx
          (fun n => filterSet ((classifier (y - ↑((y - blkDst.y).toNat % 4)) (x - ↑((x - blkDst.x).toNat % 4))).classIdx * MAX_NUM_ALF_LUMA_COEFF + n))))
        (arrayAt (transposeRow AlfFilterType.ALF_FILTER_7 (classifier (y - ↑((y - blkDst.y).toNat % 4)) (x - ↑((x - blkDst.x).toNat % 4))).transposeIdx
          (fun n => fClipSet ((classifier (y - ↑((y - blkDst.y).toNat % 4)) (x - ↑((x - blkDst.x).toNat % 4))).classIdx * MAX_NUM_ALF_LUMA_COEFF + n))))
        (y - blkDst.y + blk.y) (x - blkDst.x + blk.x))
    (hfit1 : interiorSum (recSrc ComponentID.COMPONENT_Y)
        (arrayAt (transposeRow AlfFilterType.ALF_FILTER_7 (classifier (y - ↑((y - blkDst.y).toNat % 4)) (x - ↑((x - blkDst.x).toNat % 4))).transposeIdx
          (fun n => filterSet ((classifier (y - ↑((y - blkDst.y).toNat % 4)) (x - ↑((x - blkDst.x).toNat % 4))).classIdx * MAX_NUM_ALF_LUMA_COEFF + n))))
        (arrayAt (transposeRow AlfFilterType.ALF_FILTER_7 (classifier (y - ↑((y - blkDst.y).toNat % 4)) (x - ↑((x - blkDst.x).toNat % 4))).transposeIdx
          (fun n => fClipSet ((classifier (y - ↑((y - blkDst.y).toNat % 4)) (x - ↑((x - blkDst.x).toNat % 4))).classIdx * MAX_NUM_ALF_LUMA_COEFF + n))))
        (y - blkDst.y + blk.y) (x - blkDst.x + blk.x) + 64 < 2147483648) :
    ∃ out, filterBlk NB AlfFilterType.ALF_FILTER_7 classifier recDst recSrc blkDst blk
        ComponentID.COMPONENT_Y filterSet fClipSet clpRng fmt vbCTUHeight vbPos alfBryList
        = Except.ok out ∧
      out ComponentID.COMPONENT_Y y x =
        (let cl := classifier (y - ((y - blkDst.y).toNat % 4 : Nat))
            (x - ((x - blkDst.x).toNat % 4 : Nat))
         let f := arrayAt (transposeRow AlfFilterType.ALF_FILTER_7 cl.transposeIdx
            (fun n => filterSet (cl.classIdx * MAX_NUM_ALF_LUMA_COEFF + n)))
         let q := arrayAt (transposeRow AlfFilterType.ALF_FILTER_7 cl.transposeIdx
            (fun n => fClipSet (cl.classIdx * MAX_NUM_ALF_LUMA_COEFF + n)))
         interiorPixel (recSrc ComponentID.COMPONENT_Y) f q clpRng
            (y - blkDst.y + blk.y) (x - blkDst.x + blk.x)) := by
  obtain ⟨out, hout, hv⟩ := filterBlk_interior_value NB classifier recDst recSrc blkDst blk
    filterSet fClipSet clpRng fmt vbCTUHeight vbPos alfBryList k y x hvb hy hx hh hw hy1 hy2
    hx1 hx2 hVB hT hB hL hR
  refine ⟨out, hout, ?_⟩
  rw [hv, tapSum_interior, toInt32_of_fits _ hfit0 (by omega), toInt32_of_fits _ (by omega) hfit1,
    shr_eq_div]
  simp only [interiorPixel]
  rw [add_comm (recSrc ComponentID.COMPONENT_Y (y - blkDst.y + blk.y) (x - blkDst.x + blk.x))]
  norm_num

/-! ## Rows read next to a top or bottom boundary -/

theorem padRows_within (r d : Int) (hd : 0 ≤ d) (P1 P2 P3 : Prop) [Decidable P1]
    [Decidable P2] [Decidable P3] (h1 : P1 ↔ d = 0) (h2 : P2 ↔ d ≤ 1) (h3 : P3 ↔ d ≤ 2) :
    RowsWithin r d (padRows r (decide P1) (decide P2) (decide P3)) := by
  by_cases g1 : P1 <;> by_cases g2 : P2 <;> by_cases g3 : P3 <;>
    simp only [RowsWithin, padRows, g1, g2, g3, decide_True, decide_False, if_true,
      Bool.false_eq_true, if_false] <;>
    simp only [g1, g2, g3, true_iff, false_iff] at h1 h2 h3 <;>
    refine ⟨trivial, ?_, ?_, ?_, ?_, ?_, ?_, ?_, ?_, ?_, ?_, ?_, ?_⟩ <;> omega

theorem le_base_of_dvd (H T y : Int) (hH : 0 < H) (hT : T % H = 0) (h : T ≤ y) :
    T ≤ y - y % H := by
  have h1 : T / H ≤ y / H := Int.ediv_le_ediv hH h
  have h2 : H * (T / H) = T := Int.mul_ediv_cancel' (Int.dvd_of_emod_eq_zero hT)
  have h3 : H * (y / H) + y % H = y := Int.ediv_add_emod y H
  have h4 : H * (T / H) ≤ H * (y / H) := Int.mul_le_mul_of_nonneg_left h1 (le_of_lt hH)
  omega

theorem base_add_le_of_dvd (H B y : Int) (hH : 0 < H) (hB : B % H = 0) (h : y < B) :
    y - y % H + H ≤ B ∧ (B = y - y % H + H ∨ y - y % H + 2 * H ≤ B) := by
  have h2 : H * (B / H) = B := Int.mul_ediv_cancel' (Int.dvd_of_emod_eq_zero hB)
  have h3 : H * (y / H) + y % H = y := Int.ediv_add_emod y H
  have h5 : 0 ≤ y % H := Int.emod_nonneg y (ne_of_gt hH)
  have h1 : y / H < B / H := by
    by_contra hc
    push_neg at hc
    have := Int.mul_le_mul_of_nonneg_left hc (le_of_lt hH)
    omega
  have h4 : H * (y / H + 1) ≤ H * (B / H) := Int.mul_le_mul_of_nonneg_left h1 (le_of_lt hH)
  have h6 : H * (y / H + 1) = H * (y / H) + H := by ring
  refine ⟨by omega, ?_⟩
  rcases eq_or_lt_of_le h1 with h7 | h7
  · left
    rw [← h2, ← h7, h6]
    omega
  · right
    have h8 : H * (y / H + 2) ≤ H * (B / H) :=
      Int.mul_le_mul_of_nonneg_left (by omega) (le_of_lt hH)
    have h9 : H * (y / H + 2) = H * (y / H) + 2 * H := by ring
    omega

theorem pow_two_ge_sixteen (k : Nat) (hk : 4 ≤ k) : (16 : Int) ≤ 2 ^ k := by
  have : (2 : Int) ^ 4 ≤ 2 ^ k := pow_le_pow_right₀ (by norm_num) hk
  norm_num at this
  exact this

theorem rowPtrs_within (NB : Int) (k : Nat) (hk : 4 ≤ k) (b : BryPos) (y r T B : Int)
    (hbT : b.alfTopBryPos = T) (hbB : b.alfBotBryPos = B)
    (hbl : b.botBryLines = 2 ∨ b.botBryLines = 4)
    (hT : T = NB ∨ T % 2 ^ k = 0) (hB : B = NB ∨ B % 2 ^ k = 0)
    (hyT : T ≠ NB → T ≤ y) (hyB : B ≠ NB → y < B) :
    ∃ d, RowsWithin r d (rowPtrs NB false (2 ^ k) (2 ^ k - 4) b y r) ∧
      (T ≠ NB → T ≤ y - d) ∧ (B ≠ NB → y + d < B) := by
  have hH : (16 : Int) ≤ 2 ^ k := pow_two_ge_sixteen k hk
  have hpos : (0 : Int) < 2 ^ k := by omega
  have hm1 : 0 ≤ y % 2 ^ k := Int.emod_nonneg y (ne_of_gt hpos)
  have hm2 : y % 2 ^ k < 2 ^ k := Int.emod_lt_of_pos y hpos
  have fT : T ≠ NB → T ≤ y - y % 2 ^ k := by
    intro h
    rcases hT with h' | h'
    · exact absurd h' h
    · exact le_base_of_dvd _ _ _ hpos h' (hyT h)
  have fB : B ≠ NB → (y - y % 2 ^ k + 2 ^ k ≤ B ∧
      (B = y - y % 2 ^ k + 2 ^ k ∨ y - y % 2 ^ k + 2 * 2 ^ k ≤ B)) := by
    intro h
    rcases hB with h' | h'
    · exact absurd h' h
    · exact base_add_le_of_dvd _ _ _ hpos h' (hyB h)
  have fT' : T = NB ∨ T ≤ y - y % 2 ^ k := by
    by_cases h : T = NB
    · exact Or.inl h
    · exact Or.inr (fT h)
  have fB' : B = NB ∨ (y - y % 2 ^ k + 2 ^ k ≤ B ∧
      (B = y - y % 2 ^ k + 2 ^ k ∨ y - y % 2 ^ k + 2 * 2 ^ k ≤ B)) := by
    by_cases h : B = NB
    · exact Or.inl h
    · exact Or.inr (fB h)
  have gT : T = NB ∨ T ≤ y := by
    by_cases h : T = NB
    · exact Or.inl h
    · exact Or.inr (hyT h)
  have gB : B = NB ∨ y < B := by
    by_cases h : B = NB
    · exact Or.inl h
    · exact Or.inr (hyB h)
  clear fT fB hyT hyB hT hB
  unfold rowPtrs
  simp only [Bool.false_eq_true, if_false, bitAnd_pow_two, hbT, hbB]
  generalize y % 2 ^ k = yVb at *
  generalize (2 : Int) ^ k = H at *
  generalize b.botBryLines = bl at *
  split_ifs
  · exact ⟨H - 4 - 1 - yVb, padRows_within r _ (by omega) _ _ _ (by omega) (by omega)
      (by omega), fun _ => by omega, fun _ => by omega⟩
  · exact ⟨B - 1 - y, padRows_within r _ (by omega) _ _ _ (by omega) (by omega)
      (by omega), fun _ => by omega, fun _ => by omega⟩
  · exact ⟨y - T, padRows_within r _ (by omega) _ _ _ (by omega) (by omega)
      (by omega), fun _ => by omega, fun _ => by omega⟩
  · exact ⟨yVb - (H - 4), padRows_within r _ (by omega) _ _ _ (by omega) (by omega)
      (by omega), fun _ => by omega, fun _ => by omega⟩
  · refine ⟨3, ?_, fun _ => by omega, fun _ => by omega⟩
    simp only [RowsWithin, padRows, Bool.false_eq_true, if_false]
    refine ⟨trivial, ?_, ?_, ?_, ?_, ?_, ?_, ?_, ?_, ?_, ?_, ?_, ?_⟩ <;> omega

theorem tapSum_congr (filtType : AlfFilterType) (src1 src2 : Plane) (fC fQ : List Int)
    (p : RowPtrs) (c : Int) (ix : ColIdx)
    (h0 : ∀ x, src1 p.pImg0 x = src2 p.pImg0 x) (h1 : ∀ x, src1 p.pImg1 x = src2 p.pImg1 x)
    (h2 : ∀ x, src1 p.pImg2 x = src2 p.pImg2 x) (h3 : ∀ x, src1 p.pImg3 x = src2 p.pImg3 x)
    (h4 : ∀ x, src1 p.pImg4 x = src2 p.pImg4 x) (h5 : ∀ x, src1 p.pImg5 x = src2 p.pImg5 x)
    (h6 : ∀ x, src1 p.pImg6 x = src2 p.pImg6 x) :
    tapSum filtType src1 fC fQ p c ix = tapSum filtType src2 fC fQ p c ix := by
  cases filtType <;> simp only [tapSum, h0, h1, h2, h3, h4, h5, h6]

/-- C8. Luma `filterBlk` with `vbCTUHeight = 2 ^ k >= 16`, `vbPos = vbCTUHeight - 4` and a
top boundary `alfBryList[0]` and/or a bottom boundary `alfBryList[1]` that are multiples
of `vbCTUHeight`: if two source planes agree on all picture rows between the flagged
boundaries (rows `y` with `alfBryList[0] <= y` when the top one is set, `y < alfBryList[1]`
when the bottom one is set; the picture row `y` is the source row `y - blkDst.y + blk.y`),
then both calls succeed and store the same sample at every pixel of the rectangle in
those rows. -/
theorem filterBlk_never_reads_across_rows (NB : Int) (filtType : AlfFilterType)
    (classifier : ClassMap) (recDst recSrc1 recSrc2 : PelUnitBuf) (blkDst blk : Area)
    (filterSet fClipSet : Nat → Int) (clpRng : ClpRng) (fmt : ChromaFormat)
    (alfBryList : Nat → Int) (k : Nat) (hk : 4 ≤ k)
    (hy : blk.y % 4 = 0) (hx : blk.x % 4 = 0) (hh : blk.height % 4 = 0)
    (hw : blk.width % 4 = 0)
    (hT : alfBryList 0 = NB ∨ alfBryList 0 % 2 ^ k = 0)
    (hB : alfBryList 1 = NB ∨ alfBryList 1 % 2 ^ k = 0)
    (hagree : ∀ y x, (alfBryList 0 ≠ NB → alfBryList 0 ≤ y) →
      (alfBryList 1 ≠ NB → y < alfBryList 1) →
      recSrc1 ComponentID.COMPONENT_Y (y - blkDst.y + blk.y) x
        = recSrc2 ComponentID.COMPONENT_Y (y - blkDst.y + blk.y) x) :
    ∃ out1 out2,
      filterBlk NB filtType classifier recDst recSrc1 blkDst blk ComponentID.COMPONENT_Y
        filterSet fClipSet clpRng fmt (2 ^ k) (2 ^ k - 4) alfBryList = Except.ok out1 ∧
      filterBlk NB filtType classifier recDst recSrc2 blkDst blk ComponentID.COMPONENT_Y
        filterSet fClipSet clpRng fmt (2 ^ k) (2 ^ k - 4) alfBryList = Except.ok out2 ∧
      ∀ y x, blkDst.y ≤ y → y < blkDst.y + blk.height → blkDst.x ≤ x →
        x < blkDst.x + blk.width → (alfBryList 0 ≠ NB → alfBryList 0 ≤ y) →
        (alfBryList 1 ≠ NB → y < alfBryList 1) →
        out1 ComponentID.COMPONENT_Y y x = out2 ComponentID.COMPONENT_Y y x := by
  obtain ⟨out1, hout1, hin1, -, -⟩ := filterBlk_apply NB filtType classifier recDst recSrc1
    blkDst blk ComponentID.COMPONENT_Y filterSet fClipSet clpRng fmt (2 ^ k) (2 ^ k - 4)
    alfBryList k rfl (by intro h; exact absurd h (by decide)) hy hx hh hw
  obtain ⟨out2, hout2, hin2, -, -⟩ := filterBlk_apply NB filtType classifier recDst recSrc2
    blkDst blk ComponentID.COMPONENT_Y filterSet fClipSet clpRng fmt (2 ^ k) (2 ^ k - 4)
    alfBryList k rfl (by intro h; exact absurd h (by decide)) hy hx hh hw
  refine ⟨out1, out2, hout1, hout2, ?_⟩
  intro y x h1 h2 h3 h4 hyT hyB
  rw [hin1 y x h1 h2 h3 h4, hin2 y x h1 h2 h3 h4]
  have hchr : isChroma ComponentID.COMPONENT_Y = false := by decide
  rw [hchr]
  obtain ⟨bT, bB, -, -, bl, -⟩ := bryPos_luma NB fmt (2 ^ k) (2 ^ k - 4) alfBryList
  have e1 : blkDst.y + ↑((y - blkDst.y).toNat / 4 * 4) + ↑((y - blkDst.y).toNat % 4) = y := by
    omega
  have e3 : blk.y + ↑((y - blkDst.y).toNat / 4 * 4) + ↑((y - blkDst.y).toNat % 4)
      = y - blkDst.y + blk.y := by omega
  unfold filterVal filterPixel
  rw [e1, e3]
  obtain ⟨d, hd, hdT, hdB⟩ := rowPtrs_within NB k hk
    (bryPos NB false fmt (2 ^ k) (2 ^ k - 4) alfBryList) y (y - blkDst.y + blk.y)
    (alfBryList 0) (alfBryList 1) bT bB bl hT hB hyT hyB
  have hrow : ∀ row x', y - blkDst.y + blk.y - d ≤ row → row ≤ y - blkDst.y + blk.y + d →
      recSrc1 ComponentID.COMPONENT_Y row x' = recSrc2 ComponentID.COMPONENT_Y row x' := by
    intro row x' g1 g2
    have := hagree (row - blk.y + blkDst.y) x' (fun h => by have := hdT h; omega)
      (fun h => by have := hdB h; omega)
    have e : row - blk.y + blkDst.y - blkDst.y + blk.y = row := by ring
    rw [e] at this
    exact this
  obtain ⟨r0, r1, r1', r2, r2', r3, r3', r4, r4', r5, r5', r6, r6'⟩ := hd
  have hd0 : 0 ≤ d := by omega
  simp only [pixelValue]
  rw [tapSum_congr filtType (recSrc1 ComponentID.COMPONENT_Y) (recSrc2 ComponentID.COMPONENT_Y)
    _ _ _ _ _ (fun x' => hrow _ x' (by omega) (by omega)) (fun x' => hrow _ x' r1 r1')
    (fun x' => hrow _ x' r2 r2') (fun x' => hrow _ x' r3 r3') (fun x' => hrow _ x' r4 r4')
    (fun x' => hrow _ x' r5 r5') (fun x' => hrow _ x' r6 r6'),
    hrow _ _ (by omega) (by omega)]

/-- C8, witness: CTU height 64, rectangle of rows 64..71, top boundary at row 64 and
bottom boundary at row 128; the two sources differ only above row 64. -/
theorem filterBlk_never_reads_across_rows_witness :
    ∃ out1 out2,
      filterBlk (-128) AlfFilterType.ALF_FILTER_7 (fun _ _ => ⟨0, 0⟩) (fun _ _ _ => 0)
        (fun _ y x => if y < 64 then 0 else 3 * y + x) ⟨0, 64, 8, 8⟩ ⟨0, 64, 8, 8⟩
        ComponentID.COMPONENT_Y (fun _ => 20) (fun _ => 1024) ⟨0, 1023⟩
        ChromaFormat.CHROMA_420 (2 ^ 6) (2 ^ 6 - 4) (mkBryList 64 128 (-128) (-128))
        = Except.ok out1 ∧
      filterBlk (-128) AlfFilterType.ALF_FILTER_7 (fun _ _ => ⟨0, 0⟩) (fun _ _ _ => 0)
        (fun _ y x => if y < 64 then 1023 else 3 * y + x) ⟨0, 64, 8, 8⟩ ⟨0, 64, 8, 8⟩
        ComponentID.COMPONENT_Y (fun _ => 20) (fun _ => 1024) ⟨0, 1023⟩
        ChromaFormat.CHROMA_420 (2 ^ 6) (2 ^ 6 - 4) (mkBryList 64 128 (-128) (-128))
        = Except.ok out2 ∧
      ∀ y x, (64 : Int) ≤ y → y < (64 : Int) + (8 : Nat) → (0 : Int) ≤ x →
        x < (0 : Int) + (8 : Nat) →
        (mkBryList 64 128 (-128) (-128) 0 ≠ -128 → mkBryList 64 128 (-128) (-128) 0 ≤ y) →
        (mkBryList 64 128 (-128) (-128) 1 ≠ -128 → y < mkBryList 64 128 (-128) (-128) 1) →
        out1 ComponentID.COMPONENT_Y y x = out2 ComponentID.COMPONENT_Y y x :=
  filterBlk_never_reads_across_rows (-128) AlfFilterType.ALF_FILTER_7 (fun _ _ => ⟨0, 0⟩)
    (fun _ _ _ => 0) (fun _ y x => if y < 64 then 0 else 3 * y + x)
    (fun _ y x => if y < 64 then 1023 else 3 * y + x) ⟨0, 64, 8, 8⟩ ⟨0, 64, 8, 8⟩
    (fun _ => 20) (fun _ => 1024) ⟨0, 1023⟩ ChromaFormat.CHROMA_420
    (mkBryList 64 128 (-128) (-128)) 6 (by decide) (by decide)
    (by decide) (by decide) (by decide) (Or.inr (by decide)) (Or.inr (by decide))
    (by
      intro y x h1 _
      have h64 : (64 : Int) ≤ y := h1 (by decide)
      have e : y - 64 + 64 = y := by ring
      show (if y - 64 + 64 < 64 then (0 : Int) else 3 * (y - 64 + 64) + x)
        = (if y - 64 + 64 < 64 then (1023 : Int) else 3 * (y - 64 + 64) + x)
      rw [e, if_neg (by omega), if_neg (by omega)])

/-- C6, witness: pixel (4, 4) of an 8x8 luma rectangle at the picture origin, CTU height
64 with the virtual boundary at row 60 and no flagged boundary, on the picture of the
samples `(y * y + 3 * x * x) mod 1024` with the coefficients `0, 1, 2, ...`. -/
theorem filterBlk_interior_pixel_witness :
    ∃ out, filterBlk (-128) AlfFilterType.ALF_FILTER_7 (fun _ _ => ⟨0, 1⟩) (fun _ _ _ => 0)
        (fun _ y x => (y * y + 3 * x * x) % 1024) ⟨0, 0, 8, 8⟩ ⟨0, 0, 8, 8⟩
        ComponentID.COMPONENT_Y (fun n => n) (fun _ => 1024) ⟨0, 1023⟩
        ChromaFormat.CHROMA_420 64 60 (mkBryList (-128) (-128) (-128) (-128)) = Except.ok out ∧
      out ComponentID.COMPONENT_Y 4 4 =
        (let cl := (fun (_ _ : Int) => (⟨0, 1⟩ : AlfClassifier))
            ((4 : Int) - (((4 : Int) - 0).toNat % 4 : Nat))
            ((4 : Int) - (((4 : Int) - 0).toNat % 4 : Nat))
         let f := arrayAt (transposeRow AlfFilterType.ALF_FILTER_7 cl.transposeIdx
            (fun n => (fun (m : Nat) => (m : Int)) (cl.classIdx * MAX_NUM_ALF_LUMA_COEFF + n)))
         let q := arrayAt (transposeRow AlfFilterType.ALF_FILTER_7 cl.transposeIdx
            (fun n => (fun (_ : Nat) => (1024 : Int)) (cl.classIdx * MAX_NUM_ALF_LUMA_COEFF + n)))
         interiorPixel ((fun (_ : ComponentID) (y x : Int) => (y * y + 3 * x * x) % 1024)
            ComponentID.COMPONENT_Y) f q ⟨0, 1023⟩ ((4 : Int) - 0 + 0) ((4 : Int) - 0 + 0)) :=
  filterBlk_interior_pixel (-128) (fun _ _ => ⟨0, 1⟩) (fun _ _ _ => 0)
    (fun _ y x => (y * y + 3 * x * x) % 1024) ⟨0, 0, 8, 8⟩ ⟨0, 0, 8, 8⟩ (fun n => n)
    (fun _ => 1024) ⟨0, 1023⟩ ChromaFormat.CHROMA_420 64 60
    (mkBryList (-128) (-128) (-128) (-128)) 6 4 4
    (by norm_num) (by decide) (by decide) (by decide) (by decide) (by decide) (by decide)
    (by decide) (by decide) (Or.inl (by decide)) (Or.inl rfl) (Or.inl rfl) (Or.inl rfl)
    (Or.inl rfl) (by decide) (by decide)

/-! ## Filtering a rectangle piece by piece -/

theorem filterVal_subArea (NB : Int) (filtType : AlfFilterType) (classifier : ClassMap)
    (src : Plane) (blkDst blk : Area) (bChroma : Bool) (filterSet fClipSet : Nat → Int)
    (clpRng : ClpRng) (vbCTUHeight vbPos : Int) (b : BryPos) (s : SubRect)
    (hal : s.Aligned blk) (y x : Int)
    (h1 : blkDst.y + s.oy ≤ y) (h3 : blkDst.x + s.ox ≤ x) :
    filterVal NB filtType classifier src (subArea blkDst s) (subArea blk s) bChroma filterSet
      fClipSet clpRng vbCTUHeight vbPos b y x
    = filterVal NB filtType classifier src blkDst blk bChroma filterSet fClipSet clpRng
      vbCTUHeight vbPos b y x := by
  obtain ⟨a1, a2, -, -, -, -⟩ := hal
  have eA : (blkDst.y + (s.oy : Int)) + ↑((y - (blkDst.y + (s.oy : Int))).toNat / 4 * 4)
      = blkDst.y + ↑((y - blkDst.y).toNat / 4 * 4) := by omega
  have eB : (y - (blkDst.y + (s.oy : Int))).toNat % 4 = (y - blkDst.y).toNat % 4 := by omega
  have eC : (blk.y + (s.oy : Int)) + ↑((y - (blkDst.y + (s.oy : Int))).toNat / 4 * 4)
      = blk.y + ↑((y - blkDst.y).toNat / 4 * 4) := by omega
  have eD : (blkDst.x + (s.ox : Int)) + ↑((x - (blkDst.x + (s.ox : Int))).toNat / 4 * 4)
      = blkDst.x + ↑((x - blkDst.x).toNat / 4 * 4) := by omega
  have eE : (x - (blkDst.x + (s.ox : Int))).toNat % 4 = (x - blkDst.x).toNat % 4 := by omega
  have eF : (blk.x + (s.ox : Int)) + ↑((x - (blkDst.x + (s.ox : Int))).toNat / 4 * 4)
      = blk.x + ↑((x - blkDst.x).toNat / 4 * 4) := by omega
  simp only [filterVal, filterPixel, subArea]
  rw [eA, eB, eC, eD, eE, eF]

/-- The picture position `(y, x)` lies in the sub-rectangle `s` of the rectangle at
`blkDst`. -/
theorem inSub_iff (blkDst : Area) (s : SubRect) (y x : Int) :
    ((subArea blkDst s).y ≤ y ∧ y < (subArea blkDst s).y + (subArea blkDst s).height ∧
      (subArea blkDst s).x ≤ x ∧ x < (subArea blkDst s).x + (subArea blkDst s).width)
    ↔ (blkDst.y ≤ y ∧ blkDst.x ≤ x ∧ s.Covers (x - blkDst.x).toNat (y - blkDst.y).toNat) := by
  simp only [subArea, SubRect.Covers]
  constructor
  · rintro ⟨h1, h2, h3, h4⟩
    refine ⟨by omega, by omega, by omega, by omega, by omega, by omega⟩
  · rintro ⟨h1, h2, h3, h4, h5, h6⟩
    refine ⟨by omega, by omega, by omega, by omega⟩

theorem filterSubRects_spec (NB : Int) (filtType : AlfFilterType) (classifier : ClassMap)
    (recSrc : PelUnitBuf) (blkDst blk : Area) (compId : ComponentID)
    (filterSet fClipSet : Nat → Int) (clpRng : ClpRng) (fmt : ChromaFormat)
    (vbCTUHeight vbPos : Int) (alfBryList : Nat → Int) (k : Nat)
    (hvb : vbCTUHeight = 2 ^ k)
    (hc : isChroma compId = true → filtType = AlfFilterType.ALF_FILTER_5)
    (hy : blk.y % 4 = 0) (hx : blk.x % 4 = 0) (subs : List SubRect) :
    (∀ s ∈ subs, s.Aligned blk) → ∀ recDst : PelUnitBuf,
    ∃ out, filterSubRects NB filtType classifier recSrc blkDst blk compId filterSet fClipSet
        clpRng fmt vbCTUHeight vbPos alfBryList subs recDst = Except.ok out ∧
      (∀ y x, (∃ s ∈ subs, blkDst.y ≤ y ∧ blkDst.x ≤ x ∧
          s.Covers (x - blkDst.x).toNat (y - blkDst.y).toNat) →
        out compId y x = filterVal NB filtType classifier (recSrc compId) blkDst blk
          (isChroma compId) filterSet fClipSet clpRng vbCTUHeight vbPos
          (bryPos NB (isChroma compId) fmt vbCTUHeight vbPos alfBryList) y x) ∧
      (∀ y x, (¬ ∃ s ∈ subs, blkDst.y ≤ y ∧ blkDst.x ≤ x ∧
          s.Covers (x - blkDst.x).toNat (y - blkDst.y).toNat) →
        out compId y x = recDst compId y x) ∧
      (∀ c, c ≠ compId → out c = recDst c) := by
  induction subs with
  | nil =>
    intro _ recDst
    refine ⟨recDst, rfl, ?_, fun _ _ _ => rfl, fun _ _ => rfl⟩
    rintro y x ⟨s, hs, -⟩
    simp at hs
  | cons s rest ih =>
    intro hal recDst
    have hs : s.Aligned blk := hal s (List.mem_cons_self _ _)
    have hrest : ∀ t ∈ rest, t.Aligned blk := fun t ht => hal t (List.mem_cons_of_mem _ ht)
    obtain ⟨a1, a2, a3, a4, a5, a6⟩ := hs
    obtain ⟨out1, hout1, hin1, hout1', hc1⟩ := filterBlk_apply NB filtType classifier recDst
      recSrc (subArea blkDst s) (subArea blk s) compId filterSet fClipSet clpRng fmt
      vbCTUHeight vbPos alfBryList k hvb hc
      (by simp only [subArea]; omega) (by simp only [subArea]; omega)
      (by simp only [subArea]; omega) (by simp only [subArea]; omega)
    obtain ⟨out2, hout2, hin2, hout2', hc2⟩ := ih hrest out1
    refine ⟨out2, ?_, ?_, ?_, ?_⟩
    · unfold filterSubRects at hout2 ⊢
      rw [List.foldlM_cons, hout1]
      exact hout2
    · rintro y x ⟨t, ht, hty, htx, hcov⟩
      by_cases hr : ∃ s ∈ rest, blkDst.y ≤ y ∧ blkDst.x ≤ x ∧
          s.Covers (x - blkDst.x).toNat (y - blkDst.y).toNat
      · exact hin2 y x hr
      · rw [hout2' y x hr]
        have hts : t = s := by
          rcases List.mem_cons.mp ht with h | h
          · exact h
          · exact absurd ⟨t, h, hty, htx, hcov⟩ hr
        subst hts
        have hin := (inSub_iff blkDst t y x).mpr ⟨hty, htx, hcov⟩
        rw [hin1 y x hin.1 hin.2.1 hin.2.2.1 hin.2.2.2]
        have hy' : blkDst.y + (t.oy : Int) ≤ y := hin.1
        have hx' : blkDst.x + (t.ox : Int) ≤ x := hin.2.2.1
        exact filterVal_subArea NB filtType classifier (recSrc compId) blkDst blk _ filterSet
          fClipSet clpRng vbCTUHeight vbPos _ t ⟨a1, a2, a3, a4, a5, a6⟩ y x hy' hx'
    · intro y x hn
      have hr : ¬ ∃ s ∈ rest, blkDst.y ≤ y ∧ blkDst.x ≤ x ∧
          s.Covers (x - blkDst.x).toNat (y - blkDst.y).toNat := by
        rintro ⟨t, ht, h⟩
        exact hn ⟨t, List.mem_cons_of_mem _ ht, h⟩
      rw [hout2' y x hr]
      apply hout1'
      intro hin
      exact hn ⟨s, List.mem_cons_self _ _, (inSub_iff blkDst s y x).mp hin⟩
    · intro c hcne
      rw [hc2 c hcne, hc1 c hcne]

/-- C7. For a rectangle whose origin and size are multiples of 4 and a list of 4-aligned
sub-rectangles inside it that together cover it (in particular every partition of it
into 4-aligned sub-rectangles), one `filterBlk` call per sub-rectangle (same source,
classifier, tables, `vbCTUHeight`, `vbPos` and boundary list; `blk` and `blkDst`
displaced by the same offsets) leaves the destination exactly as the single call on the
whole rectangle does. -/
theorem filterBlk_split_equals_whole (NB : Int) (filtType : AlfFilterType)
    (classifier : ClassMap) (recDst recSrc : PelUnitBuf) (blkDst blk : Area)
    (compId : ComponentID) (filterSet fClipSet : Nat → Int) (clpRng : ClpRng)
    (fmt : ChromaFormat) (vbCTUHeight vbPos : Int) (alfBryList : Nat → Int) (k : Nat)
    (subs : List SubRect) (hvb : vbCTUHeight = 2 ^ k)
    (hc : isChroma compId = true → filtType = AlfFilterType.ALF_FILTER_5)
    (hy : blk.y % 4 = 0) (hx : blk.x % 4 = 0) (hh : blk.height % 4 = 0)
    (hw : blk.width % 4 = 0) (hal : ∀ s ∈ subs, s.Aligned blk)
    (hcover : ∀ dx dy, dx < blk.width → dy < blk.height → ∃ s ∈ subs, s.Covers dx dy) :
    (∃ out, filterBlk NB filtType classifier recDst recSrc blkDst blk compId filterSet
        fClipSet clpRng fmt vbCTUHeight vbPos alfBryList = Except.ok out) ∧
    filterSubRects NB filtType classifier recSrc blkDst blk compId filterSet fClipSet clpRng
        fmt vbCTUHeight vbPos alfBryList subs recDst
      = filterBlk NB filtType classifier recDst recSrc blkDst blk compId filterSet fClipSet
        clpRng fmt vbCTUHeight vbPos alfBryList := by
  obtain ⟨outR, houtR, hinR, hoR, hcR⟩ := filterBlk_apply NB filtType classifier recDst recSrc
    blkDst blk compId filterSet fClipSet clpRng fmt vbCTUHeight vbPos alfBryList k hvb hc hy
    hx hh hw
  obtain ⟨outS, houtS, hinS, hoS, hcS⟩ := filterSubRects_spec NB filtType classifier recSrc
    blkDst blk compId filterSet fClipSet clpRng fmt vbCTUHeight vbPos alfBryList k hvb hc hy
    hx subs hal recDst
  refine ⟨⟨outR, houtR⟩, ?_⟩
  rw [houtS, houtR]
  congr 1
  funext c
  by_cases hcc : c = compId
  · subst hcc
    funext y x
    by_cases hin : blkDst.y ≤ y ∧ y < blkDst.y + blk.height ∧ blkDst.x ≤ x ∧
        x < blkDst.x + blk.width
    · obtain ⟨h1, h2, h3, h4⟩ := hin
      rw [hinR y x h1 h2 h3 h4]
      obtain ⟨s, hs, hcov⟩ := hcover (x - blkDst.x).toNat (y - blkDst.y).toNat (by omega)
        (by omega)
      exact hinS y x ⟨s, hs, h1, h3, hcov⟩
    · rw [hoR y x hin]
      apply hoS
      rintro ⟨s, hs, h1, h3, hcov⟩
      obtain ⟨-, -, -, -, a5, a6⟩ := hal s hs
      obtain ⟨c1, c2, c3, c4⟩ := hcov
      apply hin
      refine ⟨h1, by omega, h3, by omega⟩
  · rw [hcR c hcc, hcS c hcc]

/-- C7, witness: an 8x8 luma rectangle at (16, 8) of the picture, read at (4, 4) of the
source, split into its left and right halves. -/
theorem filterBlk_split_equals_whole_witness :
    (∃ out, filterBlk (-128) AlfFilterType.ALF_FILTER_7 (fun _ _ => ⟨2, 1⟩) (fun _ _ _ => 0)
        (fun _ y x => 5 * y + 3 * x) ⟨16, 8, 8, 8⟩ ⟨4, 4, 8, 8⟩ ComponentID.COMPONENT_Y
        (fun n => n) (fun _ => 1024) ⟨0, 1023⟩ ChromaFormat.CHROMA_420 64 60
        (mkBryList (-128) (-128) 16 (-128)) = Except.ok out) ∧
    filterSubRects (-128) AlfFilterType.ALF_FILTER_7 (fun _ _ => ⟨2, 1⟩)
        (fun _ y x => 5 * y + 3 * x) ⟨16, 8, 8, 8⟩ ⟨4, 4, 8, 8⟩ ComponentID.COMPONENT_Y
        (fun n => n) (fun _ => 1024) ⟨0, 1023⟩ ChromaFormat.CHROMA_420 64 60
        (mkBryList (-128) (-128) 16 (-128)) [⟨0, 0, 4, 8⟩, ⟨4, 0, 4, 8⟩] (fun _ _ _ => 0)
      = filterBlk (-128) AlfFilterType.ALF_FILTER_7 (fun _ _ => ⟨2, 1⟩) (fun _ _ _ => 0)
        (fun _ y x => 5 * y + 3 * x) ⟨16, 8, 8, 8⟩ ⟨4, 4, 8, 8⟩ ComponentID.COMPONENT_Y
        (fun n => n) (fun _ => 1024) ⟨0, 1023⟩ ChromaFormat.CHROMA_420 64 60
        (mkBryList (-128) (-128) 16 (-128)) :=
  filterBlk_split_equals_whole (-128) AlfFilterType.ALF_FILTER_7 (fun _ _ => ⟨2, 1⟩)
    (fun _ _ _ => 0) (fun _ y x => 5 * y + 3 * x) ⟨16, 8, 8, 8⟩ ⟨4, 4, 8, 8⟩
    ComponentID.COMPONENT_Y (fun n => n) (fun _ => 1024) ⟨0, 1023⟩ ChromaFormat.CHROMA_420
    64 60 (mkBryList (-128) (-128) 16 (-128)) 6 [⟨0, 0, 4, 8⟩, ⟨4, 0, 4, 8⟩]
    (by norm_num) (by decide) (by decide) (by decide) (by decide) (by decide)
    (by
      intro s hs
      simp only [List.mem_cons, List.mem_singleton, List.not_mem_nil, or_false] at hs
      rcases hs with rfl | rfl <;> simp [SubRect.Aligned])
    (by
      intro dx dy h1 h2
      simp only at h1 h2
      by_cases h : dx < 4
      · exact ⟨⟨0, 0, 4, 8⟩, by simp, by simp only [SubRect.Covers]; omega⟩
      · exact ⟨⟨4, 0, 4, 8⟩, by simp, by simp only [SubRect.Covers]; omega⟩)

/-! ## The classifier: second pass -/

theorem classPass_j (NB : Int) (lap : Laplacian) (blkDst blk : Area) (shift : Nat)
    (vbCTUHeight vbPos : Int) (alfBryList : Nat → Int) (ki : Nat) (cm : ClassMap)
    (y x : Int) :
    ((blkDst.y + ↑(ki * 4) ≤ y ∧ y < blkDst.y + ↑(ki * 4) + 4 ∧ blkDst.x ≤ x
        ∧ x < blkDst.x + ↑((blk.width + 4 - 1) / 4 * 4)) →
      forStep blk.width 4 (fun j classifier =>
        setClassBlock classifier (↑(ki * 4) + blkDst.y) (↑j + blkDst.x)
          (blockClassifier NB lap blkDst shift vbCTUHeight vbPos alfBryList (ki * 4) j)) cm y x
      = blockClassifier NB lap blkDst shift vbCTUHeight vbPos alfBryList
          ((y - blkDst.y).toNat / 4 * 4) ((x - blkDst.x).toNat / 4 * 4)) ∧
    (¬ (blkDst.y + ↑(ki * 4) ≤ y ∧ y < blkDst.y + ↑(ki * 4) + 4 ∧ blkDst.x ≤ x
        ∧ x < blkDst.x + ↑((blk.width + 4 - 1) / 4 * 4)) →
      forStep blk.width 4 (fun j classifier =>
        setClassBlock classifier (↑(ki * 4) + blkDst.y) (↑j + blkDst.x)
          (blockClassifier NB lap blkDst shift vbCTUHeight vbPos alfBryList (ki * 4) j)) cm y x
      = cm y x) := by
  unfold forStep
  refine loopN_pointwise ((blk.width + 4 - 1) / 4) _
    (fun kj y x => blkDst.y + ↑(ki * 4) ≤ y ∧ y < blkDst.y + ↑(ki * 4) + 4
        ∧ blkDst.x + ↑(kj * 4) ≤ x ∧ x < blkDst.x + ↑(kj * 4) + 4)
    (fun y x => blkDst.y + ↑(ki * 4) ≤ y ∧ y < blkDst.y + ↑(ki * 4) + 4 ∧ blkDst.x ≤ x
        ∧ x < blkDst.x + ↑((blk.width + 4 - 1) / 4 * 4))
    (fun y x => blockClassifier NB lap blkDst shift vbCTUHeight vbPos alfBryList
          ((y - blkDst.y).toNat / 4 * 4) ((x - blkDst.x).toNat / 4 * 4)) ?_ ?_ ?_ cm y x
  · intro kj p y x _ hS
    obtain ⟨h1, h2, h3, h4⟩ := hS
    have e1 : (y - blkDst.y).toNat / 4 * 4 = ki * 4 := by omega
    have e2 : (x - blkDst.x).toNat / 4 * 4 = kj * 4 := by omega
    simp only [setClassBlock]
    rw [if_pos (by omega), e1, e2]
  · intro kj p y x _ hS
    simp only [setClassBlock]
    rw [if_neg (by omega)]
  · intro y x
    constructor
    · rintro ⟨h1, h2, h3, h4⟩
      exact ⟨(x - blkDst.x).toNat / 4, by omega, h1, h2, by omega, by omega⟩
    · rintro ⟨kj, hkj, h1, h2, h3, h4⟩
      exact ⟨h1, h2, by omega, by omega⟩

/-- Pointwise description of the second pass: inside the rectangle every position holds
the entry computed for its 4x4 block, outside the map is unchanged. -/
theorem classPass_spec (NB : Int) (lap : Laplacian) (blkDst blk : Area) (shift : Nat)
    (vbCTUHeight vbPos : Int) (alfBryList : Nat → Int) (cm : ClassMap) (y x : Int) :
    ((blkDst.y ≤ y ∧ y < blkDst.y + ↑((blk.height + 4 - 1) / 4 * 4) ∧ blkDst.x ≤ x
        ∧ x < blkDst.x + ↑((blk.width + 4 - 1) / 4 * 4)) →
      classPass NB lap blkDst blk shift vbCTUHeight vbPos alfBryList cm y x
      = blockClassifier NB lap blkDst shift vbCTUHeight vbPos alfBryList
          ((y - blkDst.y).toNat / 4 * 4) ((x - blkDst.x).toNat / 4 * 4)) ∧
    (¬ (blkDst.y ≤ y ∧ y < blkDst.y + ↑((blk.height + 4 - 1) / 4 * 4) ∧ blkDst.x ≤ x
        ∧ x < blkDst.x + ↑((blk.width + 4 - 1) / 4 * 4)) →
      classPass NB lap blkDst blk shift vbCTUHeight vbPos alfBryList cm y x = cm y x) := by
  unfold classPass
  unfold forStep
  refine loopN_pointwise ((blk.height + 4 - 1) / 4) _
    (fun ki y x => blkDst.y + ↑(ki * 4) ≤ y ∧ y < blkDst.y + ↑(ki * 4) + 4 ∧ blkDst.x ≤ x
        ∧ x < blkDst.x + ↑((blk.width + 4 - 1) / 4 * 4))
    (fun y x => blkDst.y ≤ y ∧ y < blkDst.y + ↑((blk.height + 4 - 1) / 4 * 4) ∧ blkDst.x ≤ x
        ∧ x < blkDst.x + ↑((blk.width + 4 - 1) / 4 * 4))
    (fun y x => blockClassifier NB lap blkDst shift vbCTUHeight vbPos alfBryList
          ((y - blkDst.y).toNat / 4 * 4) ((x - blkDst.x).toNat / 4 * 4)) ?_ ?_ ?_ cm y x
  · intro ki p y x _ hS
    have := (classPass_j NB lap blkDst blk shift vbCTUHeight vbPos alfBryList ki p y x).1 hS
    unfold forStep at this
    exact this
  · intro ki p y x _ hS
    have := (classPass_j NB lap blkDst blk shift vbCTUHeight vbPos alfBryList ki p y x).2 hS
    unfold forStep at this
    exact this
  · intro y x
    constructor
    · rintro ⟨h1, h2, h3, h4⟩
      exact ⟨(y - blkDst.y).toNat / 4, by omega, by omega, by omega, h3, h4⟩
    · rintro ⟨ki, hki, h1, h2, h3, h4⟩
      exact ⟨by omega, by omega, h3, h4⟩

/-- When the check passes, `deriveClassificationBlk` returns the map after the second
pass and the scratch buffer after the first. -/
theorem deriveClassificationBlk_ok (NB : Int) (classifier : ClassMap) (laplacian : Laplacian)
    (srcLuma : Plane) (blkDst blk : Area) (shift : Nat) (vbCTUHeight vbPos : Int)
    (alfBryList : Nat → Int) (k : Nat) (hvb : vbCTUHeight = 2 ^ k) :
    deriveClassificationBlk NB classifier laplacian srcLuma blkDst blk shift vbCTUHeight vbPos
      alfBryList
    = Except.ok (classPass NB (lapPass srcLuma blkDst blk vbCTUHeight vbPos alfBryList laplacian)
        blkDst blk shift vbCTUHeight vbPos alfBryList classifier,
      lapPass srcLuma blkDst blk vbCTUHeight vbPos alfBryList laplacian) := by
  have h1 : bitAnd vbCTUHeight (vbCTUHeight - 1) = 0 := by
    rw [hvb]; exact bitAnd_pow_two_self k
  have h5 : vbCTUHeight ≠ 0 := by
    rw [hvb]; positivity
  unfold deriveClassificationBlk
  rw [if_neg (by simpa using h1), if_neg (by rintro ⟨h, -⟩; exact h5 h)]

/-- The map `deriveClassificationBlk` returns holds, at every position of the destination
rectangle, the pair of the 4x4 block that contains the position. -/
theorem deriveClassificationBlk_blocks (NB : Int) (classifier : ClassMap)
    (laplacian : Laplacian) (srcLuma : Plane) (blkDst blk : Area) (shift : Nat)
    (vbCTUHeight vbPos : Int) (alfBryList : Nat → Int) (k : Nat)
    (hvb : vbCTUHeight = 2 ^ k) (hh : blk.height % 4 = 0) (hw : blk.width % 4 = 0) :
    ∃ out, deriveClassificationBlk NB classifier laplacian srcLuma blkDst blk shift
        vbCTUHeight vbPos alfBryList = Except.ok out ∧
      ∀ dy dx : Nat, dy < blk.height → dx < blk.width →
        out.1 (blkDst.y + dy) (blkDst.x + dx)
          = blockClassifier NB out.2 blkDst shift vbCTUHeight vbPos alfBryList
              (dy / 4 * 4) (dx / 4 * 4) := by
  refine ⟨_, deriveClassificationBlk_ok NB classifier laplacian srcLuma blkDst blk shift
    vbCTUHeight vbPos alfBryList k hvb, ?_⟩
  intro dy dx hdy hdx
  have := (classPass_spec NB (lapPass srcLuma blkDst blk vbCTUHeight vbPos alfBryList laplacian)
    blkDst blk shift vbCTUHeight vbPos alfBryList classifier (blkDst.y + dy) (blkDst.x + dx)).1
  rw [round_up_four _ hh, round_up_four _ hw] at this
  have e1 : (blkDst.y + (dy : Int) - blkDst.y).toNat = dy := by omega
  have e2 : (blkDst.x + (dx : Int) - blkDst.x).toNat = dx := by omega
  rw [e1, e2] at this
  exact this ⟨by omega, by omega, by omega, by omega⟩

/-- C4. After `deriveClassificationBlk` on a rectangle whose width and height are
multiples of 4, every position of the destination rectangle holds the pair computed by
this call (from the scratch buffer of its first pass) for the 4x4 block, aligned to the
rectangle origin, that contains the position; so the 16 positions of a block hold the
same pair. -/
theorem deriveClassificationBlk_fills_blocks (NB : Int) (classifier : ClassMap)
    (laplacian : Laplacian) (srcLuma : Plane) (blkDst blk : Area) (shift : Nat)
    (vbCTUHeight vbPos : Int) (alfBryList : Nat → Int) (k : Nat)
    (hvb : vbCTUHeight = 2 ^ k) (hh : blk.height % 4 = 0) (hw : blk.width % 4 = 0) :
    ∃ out, deriveClassificationBlk NB classifier laplacian srcLuma blkDst blk shift
        vbCTUHeight vbPos alfBryList = Except.ok out ∧
      ∀ dy dx : Nat, dy < blk.height → dx < blk.width →
        out.1 (blkDst.y + dy) (blkDst.x + dx)
          = blockClassifier NB out.2 blkDst shift vbCTUHeight vbPos alfBryList
              (dy / 4 * 4) (dx / 4 * 4) :=
  deriveClassificationBlk_blocks NB classifier laplacian srcLuma blkDst blk shift vbCTUHeight
    vbPos alfBryList k hvb hh hw

/-- C4, witness: a 8x4 rectangle at (8, 4) of a ramp picture, CTU height 64. -/
theorem deriveClassificationBlk_fills_blocks_witness :
    ∃ out, deriveClassificationBlk (-128) (fun _ _ => ⟨255, 255⟩) (fun _ _ _ => 0)
        (fun y x => y * x) ⟨8, 4, 8, 4⟩ ⟨8, 4, 8, 4⟩ 14 64 60
        (mkBryList (-128) (-128) (-128) (-128)) = Except.ok out ∧
      ∀ dy dx : Nat, dy < 4 → dx < 8 →
        out.1 ((4 : Int) + dy) ((8 : Int) + dx)
          = blockClassifier (-128) out.2 ⟨8, 4, 8, 4⟩ 14 64 60
              (mkBryList (-128) (-128) (-128) (-128)) (dy / 4 * 4) (dx / 4 * 4) :=
  deriveClassificationBlk_fills_blocks (-128) (fun _ _ => ⟨255, 255⟩) (fun _ _ _ => 0)
    (fun y x => y * x) ⟨8, 4, 8, 4⟩ ⟨8, 4, 8, 4⟩ 14 64 60
    (mkBryList (-128) (-128) (-128) (-128)) 6 (by norm_num) (by decide) (by decide)

/-! ## The classifier: ranges of the class and transpose indices -/

theorem toPel_of_small (a : Int) (h0 : -32768 ≤ a) (h1 : a < 32768) : toPel a = a := by
  unfold toPel
  omega

theorem Clip3_mem (lo hi a : Int) (h : lo ≤ hi) : lo ≤ Clip3 lo hi a ∧ Clip3 lo hi a ≤ hi := by
  unfold Clip3
  exact ⟨le_min (le_max_left _ _) h, min_le_right _ _⟩

theorem blockActivity_range (alfArea tempAct : Int) (shift : Nat) :
    0 ≤ blockActivity alfArea tempAct shift ∧ blockActivity alfArea tempAct shift ≤ 15 := by
  have key : ∀ a : Int, 0 ≤ toPel (Clip3 0 15 a) ∧ toPel (Clip3 0 15 a) ≤ 15 := by
    intro a
    obtain ⟨h0, h1⟩ := Clip3_mem 0 15 a (by norm_num)
    rw [toPel_of_small _ (by omega) (by omega)]
    exact ⟨h0, h1⟩
  unfold blockActivity
  dsimp only
  split_ifs
  · exact key _
  · exact key _
  · exact key _
  · exact key _
  · exact key _
  · exact ⟨le_refl _, by norm_num⟩

theorem th_range (n : Nat) : 0 ≤ th.getD n 0 ∧ th.getD n 0 ≤ 4 := by
  by_cases h : n < 16
  · interval_cases n <;> decide
  · rw [List.getD_eq_default _ _ (by simp [th]; omega)]
    exact ⟨le_refl _, by norm_num⟩

theorem transposeTable_range (n : Nat) :
    0 ≤ transposeTable.getD n 0 ∧ transposeTable.getD n 0 ≤ 3 := by
  by_cases h : n < 8
  · interval_cases n <;> decide
  · rw [List.getD_eq_default _ _ (by simp [transposeTable]; omega)]
    exact ⟨le_refl _, by norm_num⟩

/-- The four possible outcomes of the directional analysis. -/
theorem dirInfo_cases (sumV sumH sumD0 sumD1 : Int) :
    let di := dirInfo sumV sumH sumD0 sumD1
    ((di.mainDirection = 0 ∨ di.mainDirection = 2) ∧
        (di.secondaryDirection = 1 ∨ di.secondaryDirection = 3) ∨
      (di.mainDirection = 1 ∨ di.mainDirection = 3) ∧
        (di.secondaryDirection = 0 ∨ di.secondaryDirection = 2)) ∧
    (di.directionStrength = 0 ∨ di.directionStrength = 1 ∨ di.directionStrength = 2) := by
  intro di
  simp only [di, dirInfo]
  constructor
  · by_cases hd : toUInt32 (toUInt32 (if sumD0 > sumD1 then sumD0 else sumD1)
        * toUInt32 (if sumV > sumH then sumH else sumV))
        > toUInt32 (toUInt32 (if sumV > sumH then sumV else sumH)
        * toUInt32 (if sumD0 > sumD1 then sumD1 else sumD0))
    · simp only [hd, if_true]
      left
      constructor <;> split_ifs <;> simp
    · simp only [hd, if_false]
      right
      constructor <;> split_ifs <;> simp
  · split_ifs <;> simp

theorem transposeTableIdx_range (sumV sumH sumD0 sumD1 : Int) :
    0 ≤ transposeTableIdx (dirInfo sumV sumH sumD0 sumD1) ∧
      transposeTableIdx (dirInfo sumV sumH sumD0 sumD1) ≤ 7 := by
  obtain ⟨h, -⟩ := dirInfo_cases sumV sumH sumD0 sumD1
  unfold transposeTableIdx
  rw [shr_eq_div]
  rcases h with ⟨hm | hm, hs | hs⟩ | ⟨hm | hm, hs | hs⟩ <;> rw [hm, hs] <;> norm_num

theorem classOf_range (activity sumV sumH sumD0 sumD1 : Int) :
    0 ≤ (classOf activity sumV sumH sumD0 sumD1).1 ∧
      (classOf activity sumV sumH sumD0 sumD1).1 ≤ 24 ∧
    0 ≤ (classOf activity sumV sumH sumD0 sumD1).2 ∧
      (classOf activity sumV sumH sumD0 sumD1).2 ≤ 3 := by
  obtain ⟨hdir, hds⟩ := dirInfo_cases sumV sumH sumD0 sumD1
  obtain ⟨t0, t1⟩ := th_range activity.toNat
  obtain ⟨u0, u1⟩ := transposeTable_range
    (transposeTableIdx (dirInfo sumV sumH sumD0 sumD1)).toNat
  have hb : shl (bitAnd (dirInfo sumV sumH sumD0 sumD1).mainDirection 1) 1 = 0 ∨
      shl (bitAnd (dirInfo sumV sumH sumD0 sumD1).mainDirection 1) 1 = 2 := by
    rcases hdir with ⟨hm | hm, -⟩ | ⟨hm | hm, -⟩ <;> rw [hm]
    · left; decide
    · left; decide
    · right; decide
    · right; decide
  simp only [classOf]
  refine ⟨?_, ?_, u0, u1⟩
  · split_ifs <;> omega
  · split_ifs <;> omega

theorem ofInt_small (c t : Int) (hc0 : 0 ≤ c) (hc1 : c ≤ 24) (ht0 : 0 ≤ t) (ht1 : t ≤ 3) :
    (AlfClassifier.ofInt c t).classIdx = c.toNat ∧ (AlfClassifier.ofInt c t).transposeIdx = t.toNat
    ∧ (AlfClassifier.ofInt c t).classIdx ≤ 24 ∧ (AlfClassifier.ofInt c t).transposeIdx ≤ 3 := by
  simp only [AlfClassifier.ofInt]
  refine ⟨by omega, by omega, by omega, by omega⟩

theorem blockClassifier_range (NB : Int) (lap : Laplacian) (blkDst : Area) (shift : Nat)
    (vbCTUHeight vbPos : Int) (alfBryList : Nat → Int) (i j : Nat) :
    (blockClassifier NB lap blkDst shift vbCTUHeight vbPos alfBryList i j).classIdx ≤ 24 ∧
    (blockClassifier NB lap blkDst shift vbCTUHeight vbPos alfBryList i j).transposeIdx ≤ 3 := by
  simp only [blockClassifier]
  obtain ⟨c0, c1, t0, t1⟩ := classOf_range
    (blockActivity (horBlkStride NB blkDst alfBryList j
        * (verRows NB blkDst vbCTUHeight vbPos alfBryList i).2)
      (blockSum lap (verRows NB blkDst vbCTUHeight vbPos alfBryList i).1 i j Direction.VER
        + blockSum lap (verRows NB blkDst vbCTUHeight vbPos alfBryList i).1 i j Direction.HOR)
      shift)
    (blockSum lap (verRows NB blkDst vbCTUHeight vbPos alfBryList i).1 i j Direction.VER)
    (blockSum lap (verRows NB blkDst vbCTUHeight vbPos alfBryList i).1 i j Direction.HOR)
    (blockSum lap (verRows NB blkDst vbCTUHeight vbPos alfBryList i).1 i j Direction.DIAG0)
    (blockSum lap (verRows NB blkDst vbCTUHeight vbPos alfBryList i).1 i j Direction.DIAG1)
  obtain ⟨-, -, h3, h4⟩ := ofInt_small _ _ c0 c1 t0 t1
  exact ⟨h3, h4⟩

/-- C5. Every pair `deriveClassificationBlk` stores satisfies `classIdx <= 24` and
`transposeIdx <= 3`, for all source samples, scratch contents, shifts and boundary
configurations; on the way the index into `th` is within 0..15 and the index into
`transposeTable` within 0..7, and `classIdx * 13 + k` with `k < 13` is an index of a
25x13 table. -/
theorem deriveClassificationBlk_index_ranges (NB : Int) (classifier : ClassMap)
    (laplacian : Laplacian) (srcLuma : Plane) (blkDst blk : Area) (shift : Nat)
    (vbCTUHeight vbPos : Int) (alfBryList : Nat → Int) (k : Nat)
    (hvb : vbCTUHeight = 2 ^ k) (hh : blk.height % 4 = 0) (hw : blk.width % 4 = 0) :
    (∃ out, deriveClassificationBlk NB classifier laplacian srcLuma blkDst blk shift
        vbCTUHeight vbPos alfBryList = Except.ok out ∧
      ∀ dy dx : Nat, dy < blk.height → dx < blk.width →
        (out.1 (blkDst.y + dy) (blkDst.x + dx)).classIdx ≤ 24 ∧
        (out.1 (blkDst.y + dy) (blkDst.x + dx)).transposeIdx ≤ 3 ∧
        ∀ n, n < 13 → (out.1 (blkDst.y + dy) (blkDst.x + dx)).classIdx
          * MAX_NUM_ALF_LUMA_COEFF + n < MAX_NUM_ALF_CLASSES * MAX_NUM_ALF_LUMA_COEFF) ∧
    (∀ alfArea tempAct : Int, 0 ≤ blockActivity alfArea tempAct shift ∧
      blockActivity alfArea tempAct shift ≤ 15) ∧
    (∀ sumV sumH sumD0 sumD1 : Int, 0 ≤ transposeTableIdx (dirInfo sumV sumH sumD0 sumD1) ∧
      transposeTableIdx (dirInfo sumV sumH sumD0 sumD1) ≤ 7) := by
  refine ⟨?_, fun a t => blockActivity_range a t shift, transposeTableIdx_range⟩
  obtain ⟨out, hout, hfill⟩ := deriveClassificationBlk_blocks NB classifier laplacian
    srcLuma blkDst blk shift vbCTUHeight vbPos alfBryList k hvb hh hw
  refine ⟨out, hout, ?_⟩
  intro dy dx hdy hdx
  rw [hfill dy dx hdy hdx]
  obtain ⟨h1, h2⟩ := blockClassifier_range NB out.2 blkDst shift vbCTUHeight vbPos alfBryList
    (dy / 4 * 4) (dx / 4 * 4)
  refine ⟨h1, h2, ?_⟩
  intro n hn
  simp only [MAX_NUM_ALF_LUMA_COEFF, MAX_NUM_ALF_CLASSES]
  omega

/-- C5, witness: a 16x16 rectangle of a textured picture with a left boundary. -/
theorem deriveClassificationBlk_index_ranges_witness :
    (∃ out, deriveClassificationBlk (-128) (fun _ _ => ⟨255, 255⟩) (fun _ _ _ => 0)
        (fun y x => (y * y * 7 + x * x * 3) % 1024) ⟨64, 0, 16, 16⟩ ⟨64, 0, 16, 16⟩ 14 64 60
        (mkBryList (-128) (-128) 64 (-128)) = Except.ok out ∧
      ∀ dy dx : Nat, dy < 16 → dx < 16 →
        (out.1 ((0 : Int) + dy) ((64 : Int) + dx)).classIdx ≤ 24 ∧
        (out.1 ((0 : Int) + dy) ((64 : Int) + dx)).transposeIdx ≤ 3 ∧
        ∀ n, n < 13 → (out.1 ((0 : Int) + dy) ((64 : Int) + dx)).classIdx
          * MAX_NUM_ALF_LUMA_COEFF + n < MAX_NUM_ALF_CLASSES * MAX_NUM_ALF_LUMA_COEFF) ∧
    (∀ alfArea tempAct : Int, 0 ≤ blockActivity alfArea tempAct 14 ∧
      blockActivity alfArea tempAct 14 ≤ 15) ∧
    (∀ sumV sumH sumD0 sumD1 : Int, 0 ≤ transposeTableIdx (dirInfo sumV sumH sumD0 sumD1) ∧
      transposeTableIdx (dirInfo sumV sumH sumD0 sumD1) ≤ 7) :=
  deriveClassificationBlk_index_ranges (-128) (fun _ _ => ⟨255, 255⟩) (fun _ _ _ => 0)
    (fun y x => (y * y * 7 + x * x * 3) % 1024) ⟨64, 0, 16, 16⟩ ⟨64, 0, 16, 16⟩ 14 64 60
    (mkBryList (-128) (-128) 64 (-128)) 6 (by norm_num) (by decide) (by decide)

/-! ## The classifier on a flat picture -/

theorem lapRows_range (blkDst blk : Area) (vbCTUHeight vbPos : Int) (i : Nat) :
    let rows := lapRows blkDst blk vbCTUHeight vbPos i
    (blk.y + i - 3 ≤ rows.1 ∧ rows.1 ≤ blk.y + i) ∧
    (blk.y + i - 3 ≤ rows.2.1 ∧ rows.2.1 ≤ blk.y + i) ∧
    (blk.y + i - 3 ≤ rows.2.2.1 ∧ rows.2.2.1 ≤ blk.y + i) ∧
    (blk.y + i - 3 ≤ rows.2.2.2 ∧ rows.2.2.2 ≤ blk.y + i) := by
  intro rows
  simp only [rows, lapRows]
  split_ifs <;> dsimp only <;> omega

theorem lapCell_flat (src : Plane) (r0 r1 r2 r3 c v : Int) (d : Direction)
    (hv0 : -16384 ≤ v) (hv1 : v < 16384)
    (h0 : ∀ x, c - 1 ≤ x → x ≤ c + 2 → src r0 x = v)
    (h1 : ∀ x, c - 1 ≤ x → x ≤ c + 2 → src r1 x = v)
    (h2 : ∀ x, c - 1 ≤ x → x ≤ c + 2 → src r2 x = v)
    (h3 : ∀ x, c - 1 ≤ x → x ≤ c + 2 → src r3 x = v) :
    lapCell src r0 r1 r2 r3 c d = 0 := by
  have e : toPel (shl v 1) = 2 * v := by
    unfold shl
    rw [toPel_of_small _ (by omega) (by omega)]
    ring
  have z : |2 * v - v - v| = 0 := by
    have : 2 * v - v - v = 0 := by ring
    rw [this]; rfl
  unfold lapCell
  simp (disch := omega) only [h0, h1, h2, h3]
  cases d <;> simp only [e, z, add_zero]

theorem lapCellAt_flat (src : Plane) (blkDst blk : Area) (vbCTUHeight vbPos : Int)
    (i j : Nat) (d : Direction) (v : Int) (hv0 : -16384 ≤ v) (hv1 : v < 16384)
    (hi : i ≤ blk.height + 2) (hj : j ≤ blk.width + 2)
    (hflat : ∀ y x, blk.y - 3 ≤ y → y < blk.y + blk.height + 3 → blk.x - 3 ≤ x →
      x < blk.x + blk.width + 3 → src y x = v) :
    lapCellAt src blkDst blk vbCTUHeight vbPos i j d = 0 := by
  obtain ⟨⟨a0, a0'⟩, ⟨a1, a1'⟩, ⟨a2, a2'⟩, ⟨a3, a3'⟩⟩ :=
    lapRows_range blkDst blk vbCTUHeight vbPos i
  unfold lapCellAt
  apply lapCell_flat src _ _ _ _ _ v d hv0 hv1 <;> intro x g1 g2 <;> apply hflat <;> omega

theorem lapStep_frame (src : Plane) (blkDst blk : Area) (vbCTUHeight vbPos : Int)
    (alfBryList : Nat → Int) (i j : Nat) (lap : Laplacian) (d : Direction) (i' j' : Nat)
    (h : i' ≠ i) :
    lapStep src blkDst blk vbCTUHeight vbPos alfBryList i j lap d i' j' = lap d i' j' := by
  unfold lapStep
  dsimp only
  split_ifs <;> simp [setLap, h]

theorem setLap_apply (lap : Laplacian) (i j : Nat) (v : Direction → Int) (d : Direction)
    (i' j' : Nat) :
    setLap lap i j v d i' j' = if i' = i ∧ j' = j then v d else lap d i' j' := rfl

theorem lapStep_zero (src : Plane) (blkDst blk : Area) (vbCTUHeight vbPos : Int)
    (alfBryList : Nat → Int) (i m : Nat) (lap : Laplacian)
    (hcell : ∀ d, lapCellAt src blkDst blk vbCTUHeight vbPos i (m * 2) d = 0)
    (hprev : ∀ d k, k < m → lap d i (k * 2) = 0) :
    ∀ d k, k < m + 1 →
      lapStep src blkDst blk vbCTUHeight vbPos alfBryList i (m * 2) lap d i (k * 2) = 0 := by
  have h1 : ∀ d k, k < m + 1 →
      setLap lap i (m * 2) (lapCellAt src blkDst blk vbCTUHeight vbPos i (m * 2)) d i (k * 2)
        = 0 := by
    intro d k hk
    rw [setLap_apply]
    split_ifs with h
    · exact hcell d
    · have hne : k ≠ m := by
        rintro rfl
        exact h ⟨rfl, rfl⟩
      exact hprev d k (by omega)
  intro d k hk
  unfold lapStep
  dsimp only
  generalize setLap lap i (m * 2) (lapCellAt src blkDst blk vbCTUHeight vbPos i (m * 2)) = L1
    at h1 ⊢
  have e6 : m * 2 - 6 = (m - 3) * 2 := by omega
  have e4 : m * 2 - 4 = (m - 2) * 2 := by omega
  have e2 : m * 2 - 2 = (m - 1) * 2 := by omega
  split_ifs with c1 c2 c3
  · rw [setLap_apply]
    split_ifs
    · rw [e6, e4, e2, h1 d _ (by omega), h1 d _ (by omega), h1 d _ (by omega)]
      rfl
    · exact h1 d k hk
  · rw [setLap_apply]
    split_ifs
    · rw [e4, e2, h1 d _ (by omega), h1 d _ (by omega), h1 d m (by omega)]
      rfl
    · exact h1 d k hk
  · rw [setLap_apply]
    split_ifs
    · rw [e6, e4, e2, h1 d _ (by omega), h1 d _ (by omega), h1 d _ (by omega),
        h1 d m (by omega)]
      rfl
    · exact h1 d k hk
  · exact h1 d k hk

theorem lapRow_zero (src : Plane) (blkDst blk : Area) (vbCTUHeight vbPos : Int)
    (alfBryList : Nat → Int) (i n : Nat) (lap : Laplacian)
    (hcell : ∀ m, m < n → ∀ d, lapCellAt src blkDst blk vbCTUHeight vbPos i (m * 2) d = 0) :
    (∀ d k, k < n → loopN n (fun m lap =>
        lapStep src blkDst blk vbCTUHeight vbPos alfBryList i (m * 2) lap) lap d i (k * 2) = 0) ∧
    (∀ d i' j', i' ≠ i → loopN n (fun m lap =>
        lapStep src blkDst blk vbCTUHeight vbPos alfBryList i (m * 2) lap) lap d i' j'
      = lap d i' j') := by
  induction n with
  | zero =>
    exact ⟨fun d k hk => absurd hk (by omega), fun _ _ _ _ => rfl⟩
  | succ n ih =>
    obtain ⟨ih1, ih2⟩ := ih (fun m hm => hcell m (by omega))
    constructor
    · intro d k hk
      exact lapStep_zero src blkDst blk vbCTUHeight vbPos alfBryList i n _
        (hcell n (by omega)) ih1 d k hk
    · intro d i' j' hne
      show lapStep src blkDst blk vbCTUHeight vbPos alfBryList i (n * 2) _ d i' j' = _
      rw [lapStep_frame _ _ _ _ _ _ _ _ _ _ _ _ hne]
      exact ih2 d i' j' hne

theorem lapPass_zero_aux (src : Plane) (blkDst blk : Area) (vbCTUHeight vbPos : Int)
    (alfBryList : Nat → Int) (nw nh : Nat) (lap : Laplacian)
    (hcell : ∀ a m, a < nh → m < nw → ∀ d,
      lapCellAt src blkDst blk vbCTUHeight vbPos (a * 2) (m * 2) d = 0) :
    ∀ d a k, a < nh → k < nw →
      loopN nh (fun a lap => loopN nw (fun m lap =>
        lapStep src blkDst blk vbCTUHeight vbPos alfBryList (a * 2) (m * 2) lap) lap) lap
        d (a * 2) (k * 2) = 0 := by
  induction nh with
  | zero => intro d a k ha; omega
  | succ nh ih =>
    intro d a k ha hk
    obtain ⟨r1, r2⟩ := lapRow_zero src blkDst blk vbCTUHeight vbPos alfBryList (nh * 2) nw
      (loopN nh (fun a lap => loopN nw (fun m lap =>
        lapStep src blkDst blk vbCTUHeight vbPos alfBryList (a * 2) (m * 2) lap) lap) lap)
      (fun m hm => hcell nh m (by omega) hm)
    show loopN nw (fun m lap =>
        lapStep src blkDst blk vbCTUHeight vbPos alfBryList (nh * 2) (m * 2) lap) _ d (a * 2)
        (k * 2) = 0
    by_cases hq : a = nh
    · subst hq
      exact r1 d k hk
    · rw [r2 d (a * 2) (k * 2) (by omega)]
      exact ih (fun a m ha hm => hcell a m (by omega) hm) d a k (by omega) hk

/-- On a source that is flat on the rectangle and its halo, the first pass leaves zero in
every scratch entry the second pass reads. -/
theorem lapPass_flat (src : Plane) (blkDst blk : Area) (vbCTUHeight vbPos : Int)
    (alfBryList : Nat → Int) (lap : Laplacian) (v : Int) (hv0 : -16384 ≤ v) (hv1 : v < 16384)
    (hh : blk.height % 4 = 0) (hw : blk.width % 4 = 0)
    (hflat : ∀ y x, blk.y - 3 ≤ y → y < blk.y + blk.height + 3 → blk.x - 3 ≤ x →
      x < blk.x + blk.width + 3 → src y x = v)
    (d : Direction) (i j : Nat) (hi : i % 2 = 0) (hj : j % 2 = 0) (hi' : i ≤ blk.height + 2)
    (hj' : j ≤ blk.width + 2) :
    lapPass src blkDst blk vbCTUHeight vbPos alfBryList lap d i j = 0 := by
  have := lapPass_zero_aux src blkDst blk vbCTUHeight vbPos alfBryList
    ((blk.width + 4 + 2 - 1) / 2) ((blk.height + 4 + 2 - 1) / 2) lap
    (fun a m ha hm d => lapCellAt_flat src blkDst blk vbCTUHeight vbPos (a * 2) (m * 2) d v
      hv0 hv1 (by omega) (by omega) hflat)
    d (i / 2) (j / 2) (by omega) (by omega)
  have ei : i / 2 * 2 = i := by omega
  have ej : j / 2 * 2 = j := by omega
  rw [ei, ej] at this
  exact this

theorem blockSum_zero (lap : Laplacian) (rows : Bool × Bool × Bool × Bool) (i j : Nat)
    (d : Direction) (h0 : lap d i j = 0) (h2 : lap d (i + 2) j = 0)
    (h4 : lap d (i + 4) j = 0) (h6 : lap d (i + 6) j = 0) : blockSum lap rows i j d = 0 := by
  unfold blockSum
  split <;> simp only [h0, h2, h4, h6, add_zero]

theorem blockActivity_zero (alfArea : Int) (shift : Nat) : blockActivity alfArea 0 shift = 0 := by
  have key : ∀ c : Int, toPel (Clip3 0 15 (shr (0 * c) shift)) = 0 := by
    intro c
    rw [zero_mul, shr_eq_div, Int.zero_ediv]
    decide
  unfold blockActivity
  dsimp only
  split_ifs <;> first | exact key _ | rfl

theorem blockClassifier_flat (NB : Int) (lap : Laplacian) (blkDst : Area) (shift : Nat)
    (vbCTUHeight vbPos : Int) (alfBryList : Nat → Int) (i j : Nat)
    (hz : ∀ d, lap d i j = 0 ∧ lap d (i + 2) j = 0 ∧ lap d (i + 4) j = 0
      ∧ lap d (i + 6) j = 0) :
    blockClassifier NB lap blkDst shift vbCTUHeight vbPos alfBryList i j = ⟨0, 3⟩ := by
  have hs : ∀ d, blockSum lap (verRows NB blkDst vbCTUHeight vbPos alfBryList i).1 i j d = 0 :=
    fun d => blockSum_zero lap _ i j d (hz d).1 (hz d).2.1 (hz d).2.2.1 (hz d).2.2.2
  simp only [blockClassifier, hs, add_zero, blockActivity_zero]
  decide

/-- C2. For a luma source that is constant, with a value `v` in `-2^14 <= v < 2^14`, over
the rectangle and a halo of three samples around it, `deriveClassificationBlk` on a
rectangle made of 4x4 blocks (width and height multiples of 4) succeeds and stores
class index 0 at every position of the rectangle, for every boundary list, every
`vbPos`, every shift and every content of the scratch buffer. -/
theorem deriveClassificationBlk_flat_class_zero (NB : Int) (classifier : ClassMap)
    (laplacian : Laplacian) (srcLuma : Plane) (blkDst blk : Area) (shift : Nat)
    (vbCTUHeight vbPos : Int) (alfBryList : Nat → Int) (k : Nat) (v : Int)
    (hvb : vbCTUHeight = 2 ^ k) (hh : blk.height % 4 = 0) (hw : blk.width % 4 = 0)
    (hv0 : -16384 ≤ v) (hv1 : v < 16384)
    (hflat : ∀ y x, blk.y - 3 ≤ y → y < blk.y + blk.height + 3 → blk.x - 3 ≤ x →
      x < blk.x + blk.width + 3 → srcLuma y x = v) :
    ∃ out, deriveClassificationBlk NB classifier laplacian srcLuma blkDst blk shift
        vbCTUHeight vbPos alfBryList = Except.ok out ∧
      ∀ dy dx : Nat, dy < blk.height → dx < blk.width →
        (out.1 (blkDst.y + dy) (blkDst.x + dx)).classIdx = 0 := by
  obtain ⟨out, hout, hfill⟩ := deriveClassificationBlk_blocks NB classifier laplacian
    srcLuma blkDst blk shift vbCTUHeight vbPos alfBryList k hvb hh hw
  refine ⟨out, hout, ?_⟩
  intro dy dx hdy hdx
  rw [hfill dy dx hdy hdx]
  have hlap : out.2 = lapPass srcLuma blkDst blk vbCTUHeight vbPos alfBryList laplacian := by
    have h := deriveClassificationBlk_ok NB classifier laplacian srcLuma blkDst blk shift
      vbCTUHeight vbPos alfBryList k hvb
    rw [hout] at h
    injection h with h
    rw [h]
  rw [hlap, blockClassifier_flat]
  intro d
  refine ⟨?_, ?_, ?_, ?_⟩ <;>
    exact lapPass_flat srcLuma blkDst blk vbCTUHeight vbPos alfBryList laplacian v hv0 hv1 hh hw
      hflat d _ _ (by omega) (by omega) (by omega) (by omega)

/-- C2, witness: a 32x32 tile of value 512 with stale scratch content. -/
theorem deriveClassificationBlk_flat_class_zero_witness :
    ∃ out, deriveClassificationBlk (-128) (fun _ _ => ⟨255, 255⟩) (fun _ _ _ => 9)
        (fun _ _ => 512) ⟨32, 32, 32, 32⟩ ⟨32, 32, 32, 32⟩ 14 64 60
        (mkBryList (-128) 64 (-128) 64) = Except.ok out ∧
      ∀ dy dx : Nat, dy < 32 → dx < 32 →
        (out.1 ((32 : Int) + dy) ((32 : Int) + dx)).classIdx = 0 :=
  deriveClassificationBlk_flat_class_zero (-128) (fun _ _ => ⟨255, 255⟩) (fun _ _ _ => 9)
    (fun _ _ => 512) ⟨32, 32, 32, 32⟩ ⟨32, 32, 32, 32⟩ 14 64 60
    (mkBryList (-128) 64 (-128) 64) 6 512 (by norm_num) (by decide) (by decide)
    (by decide) (by decide) (fun _ _ _ _ _ _ => rfl)

/-! ## `reconstructCoeff`: closed forms of the loops -/

theorem loopN_succ {σ : Type} (n : Nat) (body : Nat → σ → σ) (s : σ) :
    loopN (n + 1) body s = body n (loopN n body s) := rfl

theorem loopN_zero {σ : Type} (body : Nat → σ → σ) (s : σ) : loopN 0 body s = s := rfl

theorem coeffLoop_closed (row k : Nat) (w : Nat → Int) (t : AlfTables) :
    loopN k (fun c t => { t with m_coeffFinal := setAtN t.m_coeffFinal (row + c) (w c) }) t
    = { t with m_coeffFinal := fun n =>
          if row ≤ n ∧ n < row + k then w (n - row) else t.m_coeffFinal n } := by
  induction k with
  | zero =>
    rw [loopN_zero]
    cases t
    simp only [AlfTables.mk.injEq, and_true, true_and]
    funext n
    have h : ¬ (row ≤ n ∧ n < row + 0) := by omega
    rw [if_neg h]
  | succ k ih =>
    rw [loopN_succ, ih]
    simp only [AlfTables.mk.injEq, and_true, true_and]
    funext n
    simp only [setAtN]
    by_cases h1 : n = row + k
    · have h3 : row ≤ n ∧ n < row + (k + 1) := by omega
      have h4 : n - row = k := by omega
      rw [if_pos h1, if_pos h3, h4]
    · rw [if_neg h1]
      by_cases h2 : row ≤ n ∧ n < row + k
      · have h3 : row ≤ n ∧ n < row + (k + 1) := by omega
        rw [if_pos h2, if_pos h3]
      · have h3 : ¬ (row ≤ n ∧ n < row + (k + 1)) := by omega
        rw [if_neg h2, if_neg h3]

theorem clippLoop_closed (row k : Nat) (w : Nat → Int) (t : AlfTables) :
    loopN k (fun c t => { t with m_clippFinal := setAtN t.m_clippFinal (row + c) (w c) }) t
    = { t with m_clippFinal := fun n =>
          if row ≤ n ∧ n < row + k then w (n - row) else t.m_clippFinal n } := by
  induction k with
  | zero =>
    rw [loopN_zero]
    cases t
    simp only [AlfTables.mk.injEq, and_true, true_and]
    funext n
    have h : ¬ (row ≤ n ∧ n < row + 0) := by omega
    rw [if_neg h]
  | succ k ih =>
    rw [loopN_succ, ih]
    simp only [AlfTables.mk.injEq, and_true, true_and]
    funext n
    simp only [setAtN]
    by_cases h1 : n = row + k
    · have h3 : row ≤ n ∧ n < row + (k + 1) := by omega
      have h4 : n - row = k := by omega
      rw [if_pos h1, if_pos h3, h4]
    · rw [if_neg h1]
      by_cases h2 : row ≤ n ∧ n < row + k
      · have h3 : row ≤ n ∧ n < row + (k + 1) := by omega
        rw [if_pos h2, if_pos h3]
      · have h3 : ¬ (row ≤ n ∧ n < row + (k + 1)) := by omega
        rw [if_neg h2, if_neg h3]

theorem lumaCoeff_of_coeff (q : AlfParam) (altIdx : Nat) (n : Int) :
    q.coeff ChannelType.CHANNEL_TYPE_LUMA altIdx n = q.lumaCoeff n := rfl

theorem lumaClipp_of_clipp (q : AlfParam) (altIdx : Nat) (n : Int) :
    q.clipp ChannelType.CHANNEL_TYPE_LUMA altIdx n = q.lumaClipp n := rfl

/-- Closed form of the rows one class stores (luma, alternative 0). -/
theorem classRow_closed (cv : ChannelType → Int → Int) (q : AlfParam) (isRdo : Bool)
    (factor : Int) (classIdx : Nat) (t : AlfTables) :
    classRow cv q ChannelType.CHANNEL_TYPE_LUMA isRdo 0 12 factor classIdx t
    = { t with
        m_coeffFinal := fun n =>
          if classIdx * 13 ≤ n ∧ n < classIdx * 13 + 13 then lumaCoeffEntry q factor n
          else t.m_coeffFinal n
        m_clippFinal := fun n =>
          if classIdx * 13 ≤ n ∧ n < classIdx * 13 + 13 then lumaClippEntry cv q isRdo n
          else t.m_clippFinal n } := by
  unfold classRow
  simp only [lumaCoeff_of_coeff, lumaClipp_of_clipp, MAX_NUM_ALF_LUMA_COEFF]
  rw [coeffLoop_closed (classIdx * 13) 12
    (fun c => q.lumaCoeff (q.filterCoeffDeltaIdx classIdx * ↑(13 : Nat) + ↑c)) t]
  rw [clippLoop_closed (classIdx * 13) 12
    (fun c => if isRdo = true then
        (if q.nonLinearFlag ChannelType.CHANNEL_TYPE_LUMA 0 = true
          then q.lumaClipp (q.filterCoeffDeltaIdx classIdx * ↑(13 : Nat) + ↑c) else 0)
      else cv ChannelType.CHANNEL_TYPE_LUMA
        (if q.nonLinearFlag ChannelType.CHANNEL_TYPE_LUMA 0 = true
          then q.lumaClipp (q.filterCoeffDeltaIdx classIdx * ↑(13 : Nat) + ↑c) else 0))]
  simp only [AlfTables.mk.injEq, and_true, true_and]
  constructor
  · funext n
    simp only [setAtN, lumaCoeffEntry, MAX_NUM_ALF_LUMA_COEFF]
    by_cases h1 : n = classIdx * 13 + 12
    · have e : n % 13 = 12 := by omega
      have h3 : classIdx * 13 ≤ n ∧ n < classIdx * 13 + 13 := by omega
      rw [if_pos h1, if_pos h3, if_pos e]
    · rw [if_neg h1]
      by_cases h2 : classIdx * 13 ≤ n ∧ n < classIdx * 13 + 12
      · have e1 : n % 13 = n - classIdx * 13 := by omega
        have e2 : n / 13 = classIdx := by omega
        have h3 : classIdx * 13 ≤ n ∧ n < classIdx * 13 + 13 := by omega
        have h4 : ¬ (n - classIdx * 13 = 12) := by omega
        rw [if_pos h2, if_pos h3, e1, e2, if_neg h4]
      · have h3 : ¬ (classIdx * 13 ≤ n ∧ n < classIdx * 13 + 13) := by omega
        rw [if_neg h2, if_neg h3]
  · funext n
    simp only [setAtN, lumaClippEntry, MAX_NUM_ALF_LUMA_COEFF]
    by_cases h1 : n = classIdx * 13 + 12
    · have e : n % 13 = 12 := by omega
      have h3 : classIdx * 13 ≤ n ∧ n < classIdx * 13 + 13 := by omega
      rw [if_pos h1, if_pos h3, if_pos e]
    · rw [if_neg h1]
      by_cases h2 : classIdx * 13 ≤ n ∧ n < classIdx * 13 + 12
      · have e1 : n % 13 = n - classIdx * 13 := by omega
        have e2 : n / 13 = classIdx := by omega
        have h3 : classIdx * 13 ≤ n ∧ n < classIdx * 13 + 13 := by omega
        have h4 : ¬ (n - classIdx * 13 = 12) := by omega
        rw [if_pos h2, if_pos h3, e1, e2, if_neg h4]
      · have h3 : ¬ (classIdx * 13 ≤ n ∧ n < classIdx * 13 + 13) := by omega
        rw [if_neg h2, if_neg h3, if_neg h1]

/-- Closed form of the loop over the classes. -/
theorem classLoop_closed (cv : ChannelType → Int → Int) (q : AlfParam) (isRdo : Bool)
    (factor : Int) (m : Nat) (t : AlfTables) :
    loopN m (fun classIdx t =>
      classRow cv q ChannelType.CHANNEL_TYPE_LUMA isRdo 0 12 factor classIdx t) t
    = { t with
        m_coeffFinal := fun n => if n < m * 13 then lumaCoeffEntry q factor n
          else t.m_coeffFinal n
        m_clippFinal := fun n => if n < m * 13 then lumaClippEntry cv q isRdo n
          else t.m_clippFinal n } := by
  induction m with
  | zero =>
    rw [loopN_zero]
    cases t
    simp only [AlfTables.mk.injEq, and_true, true_and]
    constructor <;> funext n <;> simp
  | succ m ih =>
    rw [loopN_succ, ih, classRow_closed]
    simp only [AlfTables.mk.injEq, and_true, true_and]
    constructor <;> funext n
    · by_cases h1 : m * 13 ≤ n ∧ n < m * 13 + 13
      · have h3 : n < (m + 1) * 13 := by omega
        rw [if_pos h1, if_pos h3]
      · rw [if_neg h1]
        by_cases h2 : n < m * 13
        · have h3 : n < (m + 1) * 13 := by omega
          rw [if_pos h2, if_pos h3]
        · have h3 : ¬ (n < (m + 1) * 13) := by omega
          rw [if_neg h2, if_neg h3]
    · by_cases h1 : m * 13 ≤ n ∧ n < m * 13 + 13
      · have h3 : n < (m + 1) * 13 := by omega
        rw [if_pos h1, if_pos h3]
      · rw [if_neg h1]
        by_cases h2 : n < m * 13
        · have h3 : n < (m + 1) * 13 := by omega
          rw [if_pos h2, if_pos h3]
        · have h3 : ¬ (n < (m + 1) * 13) := by omega
          rw [if_neg h2, if_neg h3]

theorem storeFactor_luma_loop (p : AlfParam) (altIdx : Nat) (factor : Int) (k : Nat) :
    loopN k (fun filterIdx alfParam =>
      AlfParam.setCoeff alfParam ChannelType.CHANNEL_TYPE_LUMA altIdx
        ((filterIdx : Int) * MAX_NUM_ALF_LUMA_COEFF + (12 : Nat)) factor) p
    = { p with lumaCoeff := fun n =>
          if 0 ≤ n ∧ n % 13 = 12 ∧ n / 13 < k then factor else p.lumaCoeff n } := by
  induction k with
  | zero =>
    rw [loopN_zero]
    cases p
    simp only [AlfParam.mk.injEq, and_true, true_and]
    funext n
    have h : ¬ (0 ≤ n ∧ n % 13 = 12 ∧ n / 13 < ((0 : Nat) : Int)) := by omega
    rw [if_neg h]
  | succ k ih =>
    rw [loopN_succ, ih]
    have hl : ChannelType.isLuma ChannelType.CHANNEL_TYPE_LUMA = true := rfl
    simp only [AlfParam.setCoeff, hl, if_true, AlfParam.mk.injEq, and_true, true_and,
      MAX_NUM_ALF_LUMA_COEFF]
    funext n
    simp only [setAtI]
    by_cases h1 : n = (k : Int) * (13 : Nat) + (12 : Nat)
    · have h3 : 0 ≤ n ∧ n % 13 = 12 ∧ n / 13 < ((k + 1 : Nat) : Int) := by omega
      rw [if_pos h1, if_pos h3]
    · rw [if_neg h1]
      by_cases h2 : 0 ≤ n ∧ n % 13 = 12 ∧ n / 13 < (k : Int)
      · have h3 : 0 ≤ n ∧ n % 13 = 12 ∧ n / 13 < ((k + 1 : Nat) : Int) := by omega
        rw [if_pos h2, if_pos h3]
      · have h3 : ¬ (0 ≤ n ∧ n % 13 = 12 ∧ n / 13 < ((k + 1 : Nat) : Int)) := by omega
        rw [if_neg h2, if_neg h3]

/-- Closed form of a luma run of `reconstructCoeff`. -/
theorem reconstructCoeff_luma (cv : ChannelType → Int → Int) (t : AlfTables) (p : AlfParam)
    (isRdo isRedo : Bool) :
    reconstructCoeff cv t p ChannelType.CHANNEL_TYPE_LUMA isRdo isRedo
    = (lumaParamAfter p (coeffFactor isRdo),
       { t with
          m_coeffFinal := fun n =>
            if n < 25 * 13 then lumaCoeffEntry (lumaParamAfter p (coeffFactor isRdo))
              (coeffFactor isRdo) n
            else t.m_coeffFinal n
          m_clippFinal := fun n =>
            if n < 25 * 13 then lumaClippEntry cv (lumaParamAfter p (coeffFactor isRdo)) isRdo n
            else t.m_clippFinal n }) := by
  have h0 : reconstructCoeff cv t p ChannelType.CHANNEL_TYPE_LUMA isRdo isRedo
      = (storeFactor p ChannelType.CHANNEL_TYPE_LUMA 0 p.numLumaFilters 12 (coeffFactor isRdo),
         loopN 25 (fun classIdx t =>
          classRow cv
            (storeFactor p ChannelType.CHANNEL_TYPE_LUMA 0 p.numLumaFilters 12
              (coeffFactor isRdo))
            ChannelType.CHANNEL_TYPE_LUMA isRdo 0 12 (coeffFactor isRdo) classIdx t) t) := rfl
  have h1 : storeFactor p ChannelType.CHANNEL_TYPE_LUMA 0 p.numLumaFilters 12
      (coeffFactor isRdo) = lumaParamAfter p (coeffFactor isRdo) :=
    storeFactor_luma_loop p 0 _ p.numLumaFilters.toNat
  rw [h0, h1, classLoop_closed]

theorem chromaLoop_closed (alt k : Nat) (wc wq : Nat → Int) (t : AlfTables) :
    loopN k (fun c t =>
      { ({ t with m_chromaCoeffFinal := setAt2 t.m_chromaCoeffFinal alt c (wc c) } : AlfTables)
        with m_chromaClippFinal := setAt2 t.m_chromaClippFinal alt c (wq c) }) t
    = { t with
        m_chromaCoeffFinal := fun a j =>
          if a = alt ∧ j < k then wc j else t.m_chromaCoeffFinal a j
        m_chromaClippFinal := fun a j =>
          if a = alt ∧ j < k then wq j else t.m_chromaClippFinal a j } := by
  induction k with
  | zero =>
    rw [loopN_zero]
    cases t
    simp only [AlfTables.mk.injEq, and_true, true_and]
    constructor <;> funext a j <;> simp
  | succ k ih =>
    rw [loopN_succ, ih]
    simp only [AlfTables.mk.injEq, and_true, true_and]
    constructor <;> funext a j <;> simp only [setAt2]
    · by_cases h1 : a = alt ∧ j = k
      · have h3 : a = alt ∧ j < k + 1 := by omega
        rw [if_pos h1, if_pos h3, h1.2]
      · rw [if_neg h1]
        by_cases h2 : a = alt ∧ j < k
        · have h3 : a = alt ∧ j < k + 1 := by omega
          rw [if_pos h2, if_pos h3]
        · have h3 : ¬ (a = alt ∧ j < k + 1) := by omega
          rw [if_neg h2, if_neg h3]
    · by_cases h1 : a = alt ∧ j = k
      · have h3 : a = alt ∧ j < k + 1 := by omega
        rw [if_pos h1, if_pos h3, h1.2]
      · rw [if_neg h1]
        by_cases h2 : a = alt ∧ j < k
        · have h3 : a = alt ∧ j < k + 1 := by omega
          rw [if_pos h2, if_pos h3]
        · have h3 : ¬ (a = alt ∧ j < k + 1) := by omega
          rw [if_neg h2, if_neg h3]

/-- Closed form of the row one chroma alternative stores. -/
theorem chromaRow_closed (cv : ChannelType → Int → Int) (q : AlfParam) (isRdo : Bool)
    (factor : Int) (alt : Nat) (t : AlfTables) :
    chromaRow cv q ChannelType.CHANNEL_TYPE_CHROMA isRdo alt 6 factor t
    = { t with
        m_chromaCoeffFinal := fun a k =>
          if a = alt ∧ k ≤ 6 then chromaCoeffEntry q factor a k else t.m_chromaCoeffFinal a k
        m_chromaClippFinal := fun a k =>
          if a = alt ∧ k ≤ 6 then chromaClippEntry cv q isRdo a k
          else t.m_chromaClippFinal a k } := by
  have hcf : ∀ n, q.coeff ChannelType.CHANNEL_TYPE_CHROMA alt n = q.chromaCoeff alt n :=
    fun _ => rfl
  have hcq : ∀ n, q.clipp ChannelType.CHANNEL_TYPE_CHROMA alt n = q.chromaClipp alt n :=
    fun _ => rfl
  unfold chromaRow
  simp only [hcf, hcq]
  rw [chromaLoop_closed alt 6 (fun c => q.chromaCoeff alt ↑c)
    (fun c => if isRdo = true then
        (if q.nonLinearFlag ChannelType.CHANNEL_TYPE_CHROMA alt = true
          then q.chromaClipp alt ↑c else 0)
      else cv ChannelType.CHANNEL_TYPE_CHROMA
        (if q.nonLinearFlag ChannelType.CHANNEL_TYPE_CHROMA alt = true
          then q.chromaClipp alt ↑c else 0)) t]
  simp only [AlfTables.mk.injEq, and_true, true_and]
  constructor <;> funext a k
  · simp only [setAt2, chromaCoeffEntry]
    by_cases h1 : a = alt ∧ k = 6
    · have h3 : a = alt ∧ k ≤ 6 := by omega
      rw [if_pos h1, if_pos h3, if_pos h1.2]
    · rw [if_neg h1]
      by_cases h2 : a = alt ∧ k < 6
      · have h3 : a = alt ∧ k ≤ 6 := by omega
        have h4 : ¬ (k = 6) := by omega
        rw [if_pos h2, if_pos h3, if_neg h4, h2.1]
      · have h3 : ¬ (a = alt ∧ k ≤ 6) := by omega
        rw [if_neg h2, if_neg h3]
  · simp only [setAt2, chromaClippEntry]
    by_cases h1 : a = alt ∧ k = 6
    · have h3 : a = alt ∧ k ≤ 6 := by omega
      rw [if_pos h1, if_pos h3, if_pos h1.2]
    · rw [if_neg h1]
      by_cases h2 : a = alt ∧ k < 6
      · have h3 : a = alt ∧ k ≤ 6 := by omega
        have h4 : ¬ (k = 6) := by omega
        rw [if_pos h2, if_pos h3, if_neg h4, h2.1]
      · have h3 : ¬ (a = alt ∧ k ≤ 6) := by omega
        rw [if_neg h2, if_neg h3]

theorem chromaParamAfter_succ (p : AlfParam) (factor : Int) (m : Nat) :
    AlfParam.setCoeff (chromaParamAfter p factor m) ChannelType.CHANNEL_TYPE_CHROMA m
      (((0 : Nat) : Int) * MAX_NUM_ALF_LUMA_COEFF + (6 : Nat)) factor
    = chromaParamAfter p factor (m + 1) := by
  have hl : ChannelType.isLuma ChannelType.CHANNEL_TYPE_CHROMA = false := rfl
  simp only [AlfParam.setCoeff, hl, Bool.false_eq_true, if_false, chromaParamAfter,
    AlfParam.mk.injEq, and_true, true_and]
  funext a n
  have e : ((0 : Nat) : Int) * ↑MAX_NUM_ALF_LUMA_COEFF + ((6 : Nat) : Int) = 6 := by
    simp
  rw [e]
  by_cases h1 : a = m
  · subst h1
    rw [if_pos rfl]
    show (if n = 6 then factor else if a < a ∧ n = 6 then factor else p.chromaCoeff a n) = _
    by_cases h2 : n = 6
    · have h3 : a < a + 1 ∧ n = 6 := ⟨by omega, h2⟩
      rw [if_pos h2, if_pos h3]
    · have h3 : ¬ (a < a + 1 ∧ n = 6) := fun h => h2 h.2
      have h4 : ¬ (a < a ∧ n = 6) := fun h => h2 h.2
      rw [if_neg h2, if_neg h3, if_neg h4]
  · rw [if_neg h1]
    show (if a < m ∧ n = 6 then factor else p.chromaCoeff a n) = _
    by_cases h2 : a < m ∧ n = 6
    · have h3 : a < m + 1 ∧ n = 6 := ⟨by omega, h2.2⟩
      rw [if_pos h2, if_pos h3]
    · have h3 : ¬ (a < m + 1 ∧ n = 6) := by
        rintro ⟨g1, g2⟩
        exact h2 ⟨by omega, g2⟩
      rw [if_neg h2, if_neg h3]

theorem chromaEntries_after (cv : ChannelType → Int → Int) (p : AlfParam) (factor : Int)
    (isRdo : Bool) (m a k : Nat) :
    chromaCoeffEntry (chromaParamAfter p factor m) factor a k = chromaCoeffEntry p factor a k ∧
    chromaClippEntry cv (chromaParamAfter p factor m) isRdo a k
      = chromaClippEntry cv p isRdo a k := by
  constructor
  · simp only [chromaCoeffEntry, chromaParamAfter]
    by_cases h : k = 6
    · rw [if_pos h, if_pos h]
    · have h3 : ¬ (a < m ∧ (k : Int) = 6) := by omega
      rw [if_neg h, if_neg h, if_neg h3]
  · rfl

/-- Closed form of the loop over the chroma alternatives. -/
theorem altLoop_closed (cv : ChannelType → Int → Int) (p : AlfParam) (isRdo : Bool)
    (factor : Int) (m : Nat) (t : AlfTables) :
    loopN m (fun altIdx s =>
      reconstructAlt cv ChannelType.CHANNEL_TYPE_CHROMA isRdo 1 6 factor altIdx s) (p, t)
    = (chromaParamAfter p factor m,
       { t with
          m_chromaCoeffFinal := fun a k =>
            if a < m ∧ k ≤ 6 then chromaCoeffEntry p factor a k else t.m_chromaCoeffFinal a k
          m_chromaClippFinal := fun a k =>
            if a < m ∧ k ≤ 6 then chromaClippEntry cv p isRdo a k
            else t.m_chromaClippFinal a k }) := by
  induction m with
  | zero =>
    rw [loopN_zero]
    cases t
    cases p
    simp only [chromaParamAfter, Prod.mk.injEq, AlfParam.mk.injEq, AlfTables.mk.injEq, and_true,
      true_and]
    refine ⟨?_, ?_, ?_⟩ <;> funext a k <;> simp
  | succ m ih =>
    rw [loopN_succ, ih]
    have hstep : ∀ (q : AlfParam) (u : AlfTables),
        reconstructAlt cv ChannelType.CHANNEL_TYPE_CHROMA isRdo 1 6 factor m (q, u)
        = (AlfParam.setCoeff q ChannelType.CHANNEL_TYPE_CHROMA m
            (((0 : Nat) : Int) * MAX_NUM_ALF_LUMA_COEFF + (6 : Nat)) factor,
           chromaRow cv (AlfParam.setCoeff q ChannelType.CHANNEL_TYPE_CHROMA m
            (((0 : Nat) : Int) * MAX_NUM_ALF_LUMA_COEFF + (6 : Nat)) factor)
            ChannelType.CHANNEL_TYPE_CHROMA isRdo m 6 factor u) := fun _ _ => rfl
    rw [hstep, chromaParamAfter_succ, chromaRow_closed]
    simp only [Prod.mk.injEq, AlfTables.mk.injEq, and_true, true_and]
    refine ⟨?_, ?_⟩ <;> funext a k
    · rw [(chromaEntries_after cv p factor isRdo (m + 1) a k).1]
      by_cases h1 : a = m ∧ k ≤ 6
      · have h3 : a < m + 1 ∧ k ≤ 6 := by omega
        rw [if_pos h1, if_pos h3]
      · rw [if_neg h1]
        by_cases h2 : a < m ∧ k ≤ 6
        · have h3 : a < m + 1 ∧ k ≤ 6 := by omega
          rw [if_pos h2, if_pos h3]
        · have h3 : ¬ (a < m + 1 ∧ k ≤ 6) := by omega
          rw [if_neg h2, if_neg h3]
    · rw [(chromaEntries_after cv p factor isRdo (m + 1) a k).2]
      by_cases h1 : a = m ∧ k ≤ 6
      · have h3 : a < m + 1 ∧ k ≤ 6 := by omega
        rw [if_pos h1, if_pos h3]
      · rw [if_neg h1]
        by_cases h2 : a < m ∧ k ≤ 6
        · have h3 : a < m + 1 ∧ k ≤ 6 := by omega
          rw [if_pos h2, if_pos h3]
        · have h3 : ¬ (a < m + 1 ∧ k ≤ 6) := by omega
          rw [if_neg h2, if_neg h3]

/-- Closed form of a chroma run of `reconstructCoeff`. -/
theorem reconstructCoeff_chroma (cv : ChannelType → Int → Int) (t : AlfTables) (p : AlfParam)
    (isRdo isRedo : Bool) :
    reconstructCoeff cv t p ChannelType.CHANNEL_TYPE_CHROMA isRdo isRedo
    = (chromaParamAfter p (coeffFactor isRdo) p.numAlternativesChroma.toNat,
       { t with
          m_chromaCoeffFinal := fun a k =>
            if a < p.numAlternativesChroma.toNat ∧ k ≤ 6
            then chromaCoeffEntry p (coeffFactor isRdo) a k else t.m_chromaCoeffFinal a k
          m_chromaClippFinal := fun a k =>
            if a < p.numAlternativesChroma.toNat ∧ k ≤ 6
            then chromaClippEntry cv p isRdo a k else t.m_chromaClippFinal a k }) := by
  have h0 : reconstructCoeff cv t p ChannelType.CHANNEL_TYPE_CHROMA isRdo isRedo
      = loopN p.numAlternativesChroma.toNat (fun altIdx s =>
          reconstructAlt cv ChannelType.CHANNEL_TYPE_CHROMA isRdo 1 6 (coeffFactor isRdo)
            altIdx s) (p, t) := rfl
  rw [h0, altLoop_closed]

theorem lumaParamAfter_idem (p : AlfParam) (f : Int) :
    lumaParamAfter (lumaParamAfter p f) f = lumaParamAfter p f := by
  simp only [lumaParamAfter, AlfParam.mk.injEq, and_true, true_and]
  funext n
  by_cases h : 0 ≤ n ∧ n % 13 = 12 ∧ n / 13 < ↑p.numLumaFilters.toNat
  · simp only [if_pos h]
  · simp only [if_neg h]

theorem chromaParamAfter_idem (p : AlfParam) (f : Int) (m : Nat) :
    chromaParamAfter (chromaParamAfter p f m) f m = chromaParamAfter p f m := by
  simp only [chromaParamAfter, AlfParam.mk.injEq, and_true, true_and]
  funext a n
  by_cases h : a < m ∧ n = 6
  · simp only [if_pos h]
  · simp only [if_neg h]

/-- C10. Running `reconstructCoeff` a second time, on the parameter object and the tables
as the first run left them, with the same channel and the same `isRdo` flag (whatever
the two `isRedo` flags are), leaves everything as it was after the first run: the
parameter object and the four tables `m_coeffFinal`, `m_clippFinal`,
`m_chromaCoeffFinal` and `m_chromaClippFinal` are those of the first run. -/
theorem reconstructCoeff_twice_same_tables (m_alfClippingValues : ChannelType → Int → Int)
    (t : AlfTables) (alfParam : AlfParam) (channel : ChannelType)
    (isRdo isRedo isRedo' : Bool) :
    reconstructCoeff m_alfClippingValues
      (reconstructCoeff m_alfClippingValues t alfParam channel isRdo isRedo).2
      (reconstructCoeff m_alfClippingValues t alfParam channel isRdo isRedo).1
      channel isRdo isRedo'
    = reconstructCoeff m_alfClippingValues t alfParam channel isRdo isRedo := by
  cases channel with
  | CHANNEL_TYPE_LUMA =>
    rw [reconstructCoeff_luma m_alfClippingValues t alfParam isRdo isRedo,
      reconstructCoeff_luma, lumaParamAfter_idem]
    simp only [Prod.mk.injEq, AlfTables.mk.injEq, and_true, true_and]
    refine ⟨?_, ?_⟩ <;> funext n
    · by_cases h : n < 25 * 13
      · simp only [if_pos h]
      · simp only [if_neg h]
    · by_cases h : n < 25 * 13
      · simp only [if_pos h]
      · simp only [if_neg h]
  | CHANNEL_TYPE_CHROMA =>
    rw [reconstructCoeff_chroma m_alfClippingValues t alfParam isRdo isRedo,
      reconstructCoeff_chroma]
    have hn : (chromaParamAfter alfParam (coeffFactor isRdo)
        alfParam.numAlternativesChroma.toNat).numAlternativesChroma
        = alfParam.numAlternativesChroma := rfl
    simp only [hn]
    rw [chromaParamAfter_idem]
    simp only [Prod.mk.injEq, AlfTables.mk.injEq, and_true, true_and]
    refine ⟨?_, ?_⟩ <;> funext a k
    · rw [(chromaEntries_after m_alfClippingValues alfParam (coeffFactor isRdo) isRdo
        alfParam.numAlternativesChroma.toNat a k).1]
      by_cases h : a < alfParam.numAlternativesChroma.toNat ∧ k ≤ 6
      · simp only [if_pos h]
      · simp only [if_neg h]
    · rw [(chromaEntries_after m_alfClippingValues alfParam (coeffFactor isRdo) isRdo
        alfParam.numAlternativesChroma.toNat a k).2]
      by_cases h : a < alfParam.numAlternativesChroma.toNat ∧ k ≤ 6
      · simp only [if_pos h]
      · simp only [if_neg h]

/-! ## The tables `reconstructCoeff` builds -/

theorem coeffFactor_eq (isRdo : Bool) : coeffFactor isRdo = if isRdo then 0 else 128 := by
  cases isRdo <;> rfl

/-- C11. After `reconstructCoeff` on the luma channel, for every class `c < 25` and tap
`k < 12`, `m_coeffFinal[c*13+k]` is `lumaCoeff[filterCoeffDeltaIdx[c]*13+k]` (of the
parameter object as it was passed, and also as the call leaves it), and
`m_coeffFinal[c*13+12]` is 128 when `isRdo` is false and 0 when it is true. -/
theorem reconstructCoeff_luma_coeff (m_alfClippingValues : ChannelType → Int → Int)
    (t : AlfTables) (alfParam : AlfParam) (isRdo isRedo : Bool) (c k : Nat)
    (hc : c < 25) (hk : k < 12) :
    (reconstructCoeff m_alfClippingValues t alfParam ChannelType.CHANNEL_TYPE_LUMA isRdo
        isRedo).2.m_coeffFinal (c * 13 + k)
      = alfParam.lumaCoeff (alfParam.filterCoeffDeltaIdx c * 13 + k) ∧
    (reconstructCoeff m_alfClippingValues t alfParam ChannelType.CHANNEL_TYPE_LUMA isRdo
        isRedo).2.m_coeffFinal (c * 13 + k)
      = (reconstructCoeff m_alfClippingValues t alfParam ChannelType.CHANNEL_TYPE_LUMA isRdo
          isRedo).1.lumaCoeff
        ((reconstructCoeff m_alfClippingValues t alfParam ChannelType.CHANNEL_TYPE_LUMA isRdo
          isRedo).1.filterCoeffDeltaIdx c * 13 + k) ∧
    (reconstructCoeff m_alfClippingValues t alfParam ChannelType.CHANNEL_TYPE_LUMA isRdo
        isRedo).2.m_coeffFinal (c * 13 + 12)
      = (if isRdo then 0 else 128) := by
  rw [reconstructCoeff_luma]
  have h1 : c * 13 + k < 25 * 13 := by omega
  have h2 : c * 13 + 12 < 25 * 13 := by omega
  have h3 : ¬ ((c * 13 + k) % 13 = 12) := by omega
  have h4 : (c * 13 + 12) % 13 = 12 := by omega
  have h5 : (c * 13 + k) / 13 = c := by omega
  have h6 : (c * 13 + k) % 13 = k := by omega
  have e : ∀ z : Int, ¬ (0 ≤ z * 13 + (k : Int) ∧ (z * 13 + (k : Int)) % 13 = 12 ∧
      (z * 13 + (k : Int)) / 13 < ↑alfParam.numLumaFilters.toNat) := by
    intro z h
    have := h.2.1
    omega
  have hm : (MAX_NUM_ALF_LUMA_COEFF : Int) = 13 := rfl
  have h7 : ¬ (k = 12) := by omega
  simp only [if_pos h1, if_pos h2, lumaCoeffEntry, if_neg h3, if_pos h4, h5, h6, lumaParamAfter,
    hm, if_neg (e _), coeffFactor_eq, if_neg h7, and_self]

/-- C11, witness: class 7 and tap 5 of the sample parameter object (three filters; class
7 selects filter 1). -/
theorem reconstructCoeff_luma_coeff_witness :
    (reconstructCoeff exampleClippingValues zeroTables exampleAlfParam
        ChannelType.CHANNEL_TYPE_LUMA false true).2.m_coeffFinal (7 * 13 + 5)
      = exampleAlfParam.lumaCoeff (exampleAlfParam.filterCoeffDeltaIdx 7 * 13 + (5 : Nat)) ∧
    (reconstructCoeff exampleClippingValues zeroTables exampleAlfParam
        ChannelType.CHANNEL_TYPE_LUMA false true).2.m_coeffFinal (7 * 13 + 5)
      = (reconstructCoeff exampleClippingValues zeroTables exampleAlfParam
          ChannelType.CHANNEL_TYPE_LUMA false true).1.lumaCoeff
        ((reconstructCoeff exampleClippingValues zeroTables exampleAlfParam
          ChannelType.CHANNEL_TYPE_LUMA false true).1.filterCoeffDeltaIdx 7 * 13 + (5 : Nat)) ∧
    (reconstructCoeff exampleClippingValues zeroTables exampleAlfParam
        ChannelType.CHANNEL_TYPE_LUMA false true).2.m_coeffFinal (7 * 13 + 12)
      = (if false = true then 0 else 128) :=
  reconstructCoeff_luma_coeff exampleClippingValues zeroTables exampleAlfParam false true 7 5
    (by decide) (by decide)

/-- C12. After `reconstructCoeff` on the luma channel with `isRdo` false, for every class
`c < 25` and tap `k < 12`: when non-linear clipping is enabled for luma,
`m_clippFinal[c*13+k]` is `m_alfClippingValues[LUMA][lumaClipp[filterCoeffDeltaIdx[c]*13+k]]`;
when it is disabled, `m_clippFinal[c*13+k]` and the last entry `m_clippFinal[c*13+12]`
are `m_alfClippingValues[LUMA][0]`, whatever the signalled clip indices are. -/
theorem reconstructCoeff_luma_clipp (m_alfClippingValues : ChannelType → Int → Int)
    (t : AlfTables) (alfParam : AlfParam) (isRedo : Bool) (c k : Nat)
    (hc : c < 25) (hk : k < 12) :
    (alfParam.nonLinearFlag ChannelType.CHANNEL_TYPE_LUMA 0 = true →
      (reconstructCoeff m_alfClippingValues t alfParam ChannelType.CHANNEL_TYPE_LUMA false
          isRedo).2.m_clippFinal (c * 13 + k)
        = m_alfClippingValues ChannelType.CHANNEL_TYPE_LUMA
            (alfParam.lumaClipp (alfParam.filterCoeffDeltaIdx c * 13 + k))) ∧
    (alfParam.nonLinearFlag ChannelType.CHANNEL_TYPE_LUMA 0 = false →
      (reconstructCoeff m_alfClippingValues t alfParam ChannelType.CHANNEL_TYPE_LUMA false
          isRedo).2.m_clippFinal (c * 13 + k)
        = m_alfClippingValues ChannelType.CHANNEL_TYPE_LUMA 0 ∧
      (reconstructCoeff m_alfClippingValues t alfParam ChannelType.CHANNEL_TYPE_LUMA false
          isRedo).2.m_clippFinal (c * 13 + 12)
        = m_alfClippingValues ChannelType.CHANNEL_TYPE_LUMA 0) := by
  rw [reconstructCoeff_luma]
  have h1 : c * 13 + k < 25 * 13 := by omega
  have h2 : c * 13 + 12 < 25 * 13 := by omega
  have h3 : ¬ ((c * 13 + k) % 13 = 12) := by omega
  have h4 : (c * 13 + 12) % 13 = 12 := by omega
  have h5 : (c * 13 + k) / 13 = c := by omega
  have h6 : (c * 13 + k) % 13 = k := by omega
  have hm : (MAX_NUM_ALF_LUMA_COEFF : Int) = 13 := rfl
  have hq : (lumaParamAfter alfParam (coeffFactor false)).nonLinearFlag
      = alfParam.nonLinearFlag := rfl
  have hq2 : (lumaParamAfter alfParam (coeffFactor false)).lumaClipp
      = alfParam.lumaClipp := rfl
  have hq3 : (lumaParamAfter alfParam (coeffFactor false)).filterCoeffDeltaIdx
      = alfParam.filterCoeffDeltaIdx := rfl
  have h7 : ¬ (k = 12) := by omega
  constructor
  · intro hnl
    simp only [if_pos h1, lumaClippEntry, if_neg h3, h5, h6, hm, hq, hq2, hq3, hnl, if_true,
      Bool.false_eq_true, if_false, if_neg h7]
  · intro hnl
    simp only [if_pos h1, if_pos h2, lumaClippEntry, if_neg h3, if_pos h4, hm, hq, hnl,
      Bool.false_eq_true, if_false, h6, if_neg h7, and_self]

/-- C12, witness: class 7 and tap 5 of the sample parameter object (non-linear clipping
enabled) with the clipping values of a 10-bit picture. -/
theorem reconstructCoeff_luma_clipp_witness :
    (exampleAlfParam.nonLinearFlag ChannelType.CHANNEL_TYPE_LUMA 0 = true →
      (reconstructCoeff exampleClippingValues zeroTables exampleAlfParam
          ChannelType.CHANNEL_TYPE_LUMA false true).2.m_clippFinal (7 * 13 + 5)
        = exampleClippingValues ChannelType.CHANNEL_TYPE_LUMA
            (exampleAlfParam.lumaClipp
              (exampleAlfParam.filterCoeffDeltaIdx 7 * 13 + (5 : Nat)))) ∧
    (exampleAlfParam.nonLinearFlag ChannelType.CHANNEL_TYPE_LUMA 0 = false →
      (reconstructCoeff exampleClippingValues zeroTables exampleAlfParam
          ChannelType.CHANNEL_TYPE_LUMA false true).2.m_clippFinal (7 * 13 + 5)
        = exampleClippingValues ChannelType.CHANNEL_TYPE_LUMA 0 ∧
      (reconstructCoeff exampleClippingValues zeroTables exampleAlfParam
          ChannelType.CHANNEL_TYPE_LUMA false true).2.m_clippFinal (7 * 13 + 12)
        = exampleClippingValues ChannelType.CHANNEL_TYPE_LUMA 0) :=
  reconstructCoeff_luma_clipp exampleClippingValues zeroTables exampleAlfParam true 7 5
    (by decide) (by decide)

/-- C13. After `reconstructCoeff` on the chroma channel with `isRdo` false: for every
alternative `a < numAlternativesChroma` and tap `k < 6`,
`m_chromaCoeffFinal[a][k] = chromaCoeff[a][k]` and
`m_chromaClippFinal[a][k] = m_alfClippingValues[CHROMA][nonLinearFlag[CHROMA][a] ? chromaClipp[a][k] : 0]`;
`m_chromaCoeffFinal[a][6] = 128` and `m_chromaClippFinal[a][6] = m_alfClippingValues[CHROMA][0]`;
the rows of the alternatives `a >= numAlternativesChroma` are as before the call. -/
theorem reconstructCoeff_chroma_tables (m_alfClippingValues : ChannelType → Int → Int)
    (t : AlfTables) (alfParam : AlfParam) (isRedo : Bool) (a k : Nat) (hk : k < 6) :
    ((a : Int) < alfParam.numAlternativesChroma →
      (reconstructCoeff m_alfClippingValues t alfParam ChannelType.CHANNEL_TYPE_CHROMA false
          isRedo).2.m_chromaCoeffFinal a k = alfParam.chromaCoeff a k ∧
      (reconstructCoeff m_alfClippingValues t alfParam ChannelType.CHANNEL_TYPE_CHROMA false
          isRedo).2.m_chromaClippFinal a k
        = m_alfClippingValues ChannelType.CHANNEL_TYPE_CHROMA
            (if alfParam.nonLinearFlag ChannelType.CHANNEL_TYPE_CHROMA a
              then alfParam.chromaClipp a k else 0) ∧
      (reconstructCoeff m_alfClippingValues t alfParam ChannelType.CHANNEL_TYPE_CHROMA false
          isRedo).2.m_chromaCoeffFinal a 6 = 128 ∧
      (reconstructCoeff m_alfClippingValues t alfParam ChannelType.CHANNEL_TYPE_CHROMA false
          isRedo).2.m_chromaClippFinal a 6
        = m_alfClippingValues ChannelType.CHANNEL_TYPE_CHROMA 0) ∧
    (alfParam.numAlternativesChroma ≤ (a : Int) → ∀ j : Nat,
      (reconstructCoeff m_alfClippingValues t alfParam ChannelType.CHANNEL_TYPE_CHROMA false
          isRedo).2.m_chromaCoeffFinal a j = t.m_chromaCoeffFinal a j ∧
      (reconstructCoeff m_alfClippingValues t alfParam ChannelType.CHANNEL_TYPE_CHROMA false
          isRedo).2.m_chromaClippFinal a j = t.m_chromaClippFinal a j) := by
  rw [reconstructCoeff_chroma]
  constructor
  · intro ha
    have h1 : a < alfParam.numAlternativesChroma.toNat ∧ k ≤ 6 := by omega
    have h2 : a < alfParam.numAlternativesChroma.toNat ∧ 6 ≤ 6 := by omega
    have h3 : ¬ (k = 6) := by omega
    simp only [if_pos h1, if_pos h2, chromaCoeffEntry, chromaClippEntry, if_neg h3, if_true,
      Bool.false_eq_true, if_false, coeffFactor_eq, and_self]
  · intro ha j
    have h1 : ¬ (a < alfParam.numAlternativesChroma.toNat ∧ j ≤ 6) := by omega
    simp only [if_neg h1, and_self]

/-- C13, witness: alternative 1 and tap 4 of the sample parameter object (two
alternatives). -/
theorem reconstructCoeff_chroma_tables_witness :
    (((1 : Nat) : Int) < exampleAlfParam.numAlternativesChroma →
      (reconstructCoeff exampleClippingValues zeroTables exampleAlfParam
          ChannelType.CHANNEL_TYPE_CHROMA false true).2.m_chromaCoeffFinal 1 4
        = exampleAlfParam.chromaCoeff 1 (4 : Nat) ∧
      (reconstructCoeff exampleClippingValues zeroTables exampleAlfParam
          ChannelType.CHANNEL_TYPE_CHROMA false true).2.m_chromaClippFinal 1 4
        = exampleClippingValues ChannelType.CHANNEL_TYPE_CHROMA
            (if exampleAlfParam.nonLinearFlag ChannelType.CHANNEL_TYPE_CHROMA 1
              then exampleAlfParam.chromaClipp 1 (4 : Nat) else 0) ∧
      (reconstructCoeff exampleClippingValues zeroTables exampleAlfParam
          ChannelType.CHANNEL_TYPE_CHROMA false true).2.m_chromaCoeffFinal 1 6 = 128 ∧
      (reconstructCoeff exampleClippingValues zeroTables exampleAlfParam
          ChannelType.CHANNEL_TYPE_CHROMA false true).2.m_chromaClippFinal 1 6
        = exampleClippingValues ChannelType.CHANNEL_TYPE_CHROMA 0) ∧
    (exampleAlfParam.numAlternativesChroma ≤ ((1 : Nat) : Int) → ∀ j : Nat,
      (reconstructCoeff exampleClippingValues zeroTables exampleAlfParam
          ChannelType.CHANNEL_TYPE_CHROMA false true).2.m_chromaCoeffFinal 1 j
        = zeroTables.m_chromaCoeffFinal 1 j ∧
      (reconstructCoeff exampleClippingValues zeroTables exampleAlfParam
          ChannelType.CHANNEL_TYPE_CHROMA false true).2.m_chromaClippFinal 1 j
        = zeroTables.m_chromaClippFinal 1 j) :=
  reconstructCoeff_chroma_tables exampleClippingValues zeroTables exampleAlfParam true 1 4
    (by decide)

/-! ## The expansion of the fixed filter bank -/

set_option maxRecDepth 1000000 in
set_option maxHeartbeats 4000000 in
theorem classToFilterMapping_range :
    ∀ s, s < 16 → ∀ c, c < 25 →
      0 ≤ tableAt m_classToFilterMapping s c ∧ tableAt m_classToFilterMapping s c < 64 := by
  decide

theorem tapLoop_closed (s base n : Nat) (w : Nat → Int) (dec : Nat → Nat → Int) :
    loopN n (fun i dec => setAt2 dec s (base + i) (w i)) dec
    = fun a b => if a = s ∧ base ≤ b ∧ b < base + n then w (b - base) else dec a b := by
  induction n with
  | zero =>
    rw [loopN_zero]
    funext a b
    have h : ¬ (a = s ∧ base ≤ b ∧ b < base + 0) := by omega
    rw [if_neg h]
  | succ n ih =>
    rw [loopN_succ, ih]
    funext a b
    simp only [setAt2]
    by_cases h1 : a = s ∧ b = base + n
    · have h3 : a = s ∧ base ≤ b ∧ b < base + (n + 1) := by omega
      have h4 : b - base = n := by omega
      rw [if_pos h1, if_pos h3, h4]
    · rw [if_neg h1]
      by_cases h2 : a = s ∧ base ≤ b ∧ b < base + n
      · have h3 : a = s ∧ base ≤ b ∧ b < base + (n + 1) := by omega
        rw [if_pos h2, if_pos h3]
      · have h3 : ¬ (a = s ∧ base ≤ b ∧ b < base + (n + 1)) := by omega
        rw [if_neg h2, if_neg h3]

/-- Closed form of the loop over the classes in the expansion of one fixed filter set. -/
theorem fixedClassLoop_closed (s m : Nat) (dec : Nat → Nat → Int) :
    loopN m (fun classIdx dec =>
      let fixedFilterIdx := tableAt m_classToFilterMapping s classIdx
      let dec := loopN (MAX_NUM_ALF_LUMA_COEFF - 1) (fun i dec =>
        setAt2 dec s (classIdx * MAX_NUM_ALF_LUMA_COEFF + i)
          (tableAt m_fixedFilterSetCoeff fixedFilterIdx.toNat i)) dec
      setAt2 dec s (classIdx * MAX_NUM_ALF_LUMA_COEFF + MAX_NUM_ALF_LUMA_COEFF - 1)
        (shl 1 (m_NUM_BITS - 1))) dec
    = fun a b => if a = s ∧ b < m * 13 then fixedFilterEntry s b else dec a b := by
  induction m with
  | zero =>
    rw [loopN_zero]
    funext a b
    have h : ¬ (a = s ∧ b < 0 * 13) := by omega
    rw [if_neg h]
  | succ m ih =>
    rw [loopN_succ, ih]
    have hm : MAX_NUM_ALF_LUMA_COEFF = 13 := rfl
    have h128 : shl 1 (m_NUM_BITS - 1) = 128 := rfl
    simp only [hm, h128]
    rw [tapLoop_closed s (m * 13) (13 - 1)
      (fun i => tableAt m_fixedFilterSetCoeff (tableAt m_classToFilterMapping s m).toNat i)]
    funext a b
    simp only [setAt2, fixedFilterEntry]
    by_cases h1 : a = s ∧ b = m * 13 + 13 - 1
    · have h3 : a = s ∧ b < (m + 1) * 13 := by omega
      have h4 : b % 13 = 12 := by omega
      rw [if_pos h1, if_pos h3, if_pos h4]
    · rw [if_neg h1]
      by_cases h2 : a = s ∧ m * 13 ≤ b ∧ b < m * 13 + (13 - 1)
      · have h3 : a = s ∧ b < (m + 1) * 13 := by omega
        have h4 : ¬ (b % 13 = 12) := by omega
        have h5 : b / 13 = m := by omega
        have h6 : b - m * 13 = b % 13 := by omega
        rw [if_pos h2, if_pos h3, if_neg h4, h5, h6]
      · rw [if_neg h2]
        by_cases h3 : a = s ∧ b < m * 13
        · have h4 : a = s ∧ b < (m + 1) * 13 := by omega
          rw [if_pos h3, if_pos h4]
        · have h4 : ¬ (a = s ∧ b < (m + 1) * 13) := by omega
          rw [if_neg h3, if_neg h4]

/-- Closed form of the loop over the fixed filter sets. -/
theorem fixedSetLoop_closed (n : Nat) (dec : Nat → Nat → Int) :
    loopN n (fun filterSetIndex dec =>
      loopN MAX_NUM_ALF_CLASSES (fun classIdx dec =>
        let fixedFilterIdx := tableAt m_classToFilterMapping filterSetIndex classIdx
        let dec := loopN (MAX_NUM_ALF_LUMA_COEFF - 1) (fun i dec =>
          setAt2 dec filterSetIndex (classIdx * MAX_NUM_ALF_LUMA_COEFF + i)
            (tableAt m_fixedFilterSetCoeff fixedFilterIdx.toNat i)) dec
        setAt2 dec filterSetIndex
          (classIdx * MAX_NUM_ALF_LUMA_COEFF + MAX_NUM_ALF_LUMA_COEFF - 1)
          (shl 1 (m_NUM_BITS - 1))) dec) dec
    = fun a b => if a < n ∧ b < 25 * 13 then fixedFilterEntry a b else dec a b := by
  induction n with
  | zero =>
    rw [loopN_zero]
    funext a b
    have h : ¬ (a < 0 ∧ b < 25 * 13) := by omega
    rw [if_neg h]
  | succ n ih =>
    rw [loopN_succ, ih]
    have hc : MAX_NUM_ALF_CLASSES = 25 := rfl
    rw [hc, fixedClassLoop_closed]
    funext a b
    by_cases h1 : a = n ∧ b < 25 * 13
    · have h3 : a < n + 1 ∧ b < 25 * 13 := by omega
      rw [if_pos h1, if_pos h3, h1.1]
    · rw [if_neg h1]
      by_cases h2 : a < n ∧ b < 25 * 13
      · have h3 : a < n + 1 ∧ b < 25 * 13 := by omega
        rw [if_pos h2, if_pos h3]
      · have h3 : ¬ (a < n + 1 ∧ b < 25 * 13) := by omega
        rw [if_neg h2, if_neg h3]

/-- Closed form of the expansion of the fixed filter bank. -/
theorem createFixedFilterSets_closed (dec : Nat → Nat → Int) :
    createFixedFilterSets dec
    = fun a b => if a < 16 ∧ b < 25 * 13 then fixedFilterEntry a b else dec a b := by
  unfold createFixedFilterSets
  have hs : NUM_FIXED_FILTER_SETS = 16 := rfl
  rw [hs, fixedSetLoop_closed]

/-- C14. After `create` (the tables being already expanded in case the object was marked
as created before), for every fixed set `s < 16`, class `c < 25` and tap `k < 12`:
`m_fixedFilterSetCoeffDec[s][c*13+k] = m_fixedFilterSetCoeff[m_classToFilterMapping[s][c]][k]`
and `m_fixedFilterSetCoeffDec[s][c*13+12] = 128`; the entry `m_classToFilterMapping[s][c]`
is a filter index in 0..63, so the expansion stays inside the bank of 64 filters. -/
theorem create_expands_fixed_filters (m_created : Bool) (lumaClip0 : Int)
    (m_fixedFilterSetCoeffDec : Nat → Nat → Int) (m_clipDefault : Nat → Int)
    (hinv : m_created = true → ∀ s n, s < 16 → n < 25 * 13 →
      m_fixedFilterSetCoeffDec s n = fixedFilterEntry s n)
    (s c k : Nat) (hs : s < 16) (hc : c < 25) (hk : k < 12) :
    (createTables m_created lumaClip0 m_fixedFilterSetCoeffDec m_clipDefault).2.1 s (c * 13 + k)
      = tableAt m_fixedFilterSetCoeff (tableAt m_classToFilterMapping s c).toNat k ∧
    (createTables m_created lumaClip0 m_fixedFilterSetCoeffDec m_clipDefault).2.1 s (c * 13 + 12)
      = 128 ∧
    0 ≤ tableAt m_classToFilterMapping s c ∧ tableAt m_classToFilterMapping s c < 64 ∧
    (tableAt m_classToFilterMapping s c).toNat < ALF_FIXED_FILTER_NUM := by
  have hr := classToFilterMapping_range s hs c hc
  have hA : ALF_FIXED_FILTER_NUM = 64 := rfl
  have key : ∀ n, n < 25 * 13 →
      (createTables m_created lumaClip0 m_fixedFilterSetCoeffDec m_clipDefault).2.1 s n
        = fixedFilterEntry s n := by
    intro n hn
    unfold createTables
    cases m_created with
    | true => exact hinv rfl s n hs hn
    | false =>
      have h : s < 16 ∧ n < 25 * 13 := ⟨hs, hn⟩
      simp only [Bool.false_eq_true, if_false, createFixedFilterSets_closed, if_pos h]
  have h3 : ¬ ((c * 13 + k) % 13 = 12) := by omega
  have h4 : (c * 13 + 12) % 13 = 12 := by omega
  have h5 : (c * 13 + k) / 13 = c := by omega
  have h6 : (c * 13 + k) % 13 = k := by omega
  refine ⟨?_, ?_, hr.1, hr.2, by omega⟩
  · rw [key _ (by omega)]
    unfold fixedFilterEntry
    rw [if_neg h3, h5, h6]
  · rw [key _ (by omega)]
    unfold fixedFilterEntry
    rw [if_pos h4]

/-- C14, witness: a fresh object (not created, tables zero); set 2, class 3, tap 4. -/
theorem create_expands_fixed_filters_witness :
    (createTables false 1024 (fun _ _ => 0) (fun _ => 0)).2.1 2 (3 * 13 + 4)
      = tableAt m_fixedFilterSetCoeff (tableAt m_classToFilterMapping 2 3).toNat 4 ∧
    (createTables false 1024 (fun _ _ => 0) (fun _ => 0)).2.1 2 (3 * 13 + 12) = 128 ∧
    0 ≤ tableAt m_classToFilterMapping 2 3 ∧ tableAt m_classToFilterMapping 2 3 < 64 ∧
    (tableAt m_classToFilterMapping 2 3).toNat < ALF_FIXED_FILTER_NUM :=
  create_expands_fixed_filters false 1024 (fun _ _ => 0) (fun _ => 0)
    (fun h => absurd h (by decide)) 2 3 4 (by decide) (by decide) (by decide)

/-! ## Virtual boundaries inside a CTU -/

theorem interiorPositions_succ (n : Nat) (pos : Nat → Int) (lo len : Int) :
    interiorPositions (n + 1) pos lo len
    = interiorPositions n pos lo len
      ++ (if lo < pos n ∧ pos n < lo + len then [pos n] else []) := by
  unfold interiorPositions
  rw [List.range_succ, List.map_append, List.filter_append]
  congr 1
  by_cases h : lo < pos n ∧ pos n < lo + len
  · simp [h]
  · simp [h]

theorem interiorPositions_length_le (n : Nat) (pos : Nat → Int) (lo len : Int) :
    (interiorPositions n pos lo len).length ≤ n := by
  unfold interiorPositions
  calc (((List.range n).map pos).filter _).length
      ≤ ((List.range n).map pos).length := List.length_filter_le _ _
    _ = n := by simp

/-- Closed form of the collecting loop: the count is the number of interior positions and
the array holds them at its first entries, the other entries being unchanged. -/
theorem collectVirBndry_closed (n : Nat) (pos : Nat → Int) (lo len : Int) (arr : Nat → Int) :
    collectVirBndry n pos lo len arr
    = ((interiorPositions n pos lo len).length,
       fun i => (interiorPositions n pos lo len).getD i (arr i)) := by
  unfold collectVirBndry
  induction n with
  | zero =>
    rw [loopN_zero]
    rfl
  | succ n ih =>
    rw [loopN_succ, ih, interiorPositions_succ]
    by_cases h : lo < pos n ∧ pos n < lo + len
    · simp only [if_pos h, List.length_append, List.length_singleton, Prod.mk.injEq, true_and]
      funext i
      simp only [setAtN]
      by_cases hi : i = (interiorPositions n pos lo len).length
      · rw [if_pos hi, hi, List.getD_append_right _ _ _ _ (le_refl _)]
        simp
      · rw [if_neg hi]
        by_cases hlt : i < (interiorPositions n pos lo len).length
        · rw [List.getD_append _ _ _ _ hlt]
        · have h1 : (interiorPositions n pos lo len).length ≤ i := by omega
          have h2 : (interiorPositions n pos lo len ++ [pos n]).length ≤ i := by
            rw [List.length_append, List.length_singleton]; omega
          rw [List.getD_eq_default _ _ h1, List.getD_eq_default _ _ h2]
    · simp only [if_neg h, List.append_nil]

theorem firstEntries_getD (l : List Int) (arr : Nat → Int) :
    firstEntries l.length (fun i => l.getD i (arr i)) = l := by
  unfold firstEntries
  apply List.ext_getElem
  · simp
  · intro i h1 h2
    simp only [List.getElem_map, List.getElem_range]
    exact List.getD_eq_getElem _ _ h2

/-- C15. When filtering across virtual boundaries is disabled,
`isCrossedByVirtualBoundaries` returns in `horVirBndryPos[0..numHorVirBndry)` exactly the
signalled horizontal positions `p` with `yPos < p < yPos + height`, in the signalled
order, and in `verVirBndryPos[0..numVerVirBndry)` the signalled vertical positions `p`
with `xPos < p < xPos + width`; when it is not disabled both counts are 0. A count is at
most the number of signalled boundaries of its axis, so at most 3 when at most 3 are
signalled. -/
theorem isCrossedByVirtualBoundaries_collects (NB : Int) (cs : CodingStructure)
    (xPos yPos width height : Int) (horVirBndryPos verVirBndryPos : Nat → Int) (pps : PPS) :
    (pps.loopFilterAcrossVirtualBoundariesDisabledFlag = true →
      firstEntries
          (isCrossedByVirtualBoundaries NB cs xPos yPos width height horVirBndryPos
            verVirBndryPos pps).numHorVirBndry
          (isCrossedByVirtualBoundaries NB cs xPos yPos width height horVirBndryPos
            verVirBndryPos pps).horVirBndryPos
        = interiorPositions pps.numHorVirtualBoundaries pps.virtualBoundariesPosY yPos height ∧
      firstEntries
          (isCrossedByVirtualBoundaries NB cs xPos yPos width height horVirBndryPos
            verVirBndryPos pps).numVerVirBndry
          (isCrossedByVirtualBoundaries NB cs xPos yPos width height horVirBndryPos
            verVirBndryPos pps).verVirBndryPos
        = interiorPositions pps.numVerVirtualBoundaries pps.virtualBoundariesPosX xPos width) ∧
    (pps.loopFilterAcrossVirtualBoundariesDisabledFlag = false →
      (isCrossedByVirtualBoundaries NB cs xPos yPos width height horVirBndryPos
        verVirBndryPos pps).numHorVirBndry = 0 ∧
      (isCrossedByVirtualBoundaries NB cs xPos yPos width height horVirBndryPos
        verVirBndryPos pps).numVerVirBndry = 0) ∧
    (isCrossedByVirtualBoundaries NB cs xPos yPos width height horVirBndryPos
      verVirBndryPos pps).numHorVirBndry ≤ pps.numHorVirtualBoundaries ∧
    (isCrossedByVirtualBoundaries NB cs xPos yPos width height horVirBndryPos
      verVirBndryPos pps).numVerVirBndry ≤ pps.numVerVirtualBoundaries ∧
    (pps.numHorVirtualBoundaries ≤ 3 →
      (isCrossedByVirtualBoundaries NB cs xPos yPos width height horVirBndryPos
        verVirBndryPos pps).numHorVirBndry ≤ 3) ∧
    (pps.numVerVirtualBoundaries ≤ 3 →
      (isCrossedByVirtualBoundaries NB cs xPos yPos width height horVirBndryPos
        verVirBndryPos pps).numVerVirBndry ≤ 3) := by
  have hH := interiorPositions_length_le pps.numHorVirtualBoundaries pps.virtualBoundariesPosY
    yPos height
  have hV := interiorPositions_length_le pps.numVerVirtualBoundaries pps.virtualBoundariesPosX
    xPos width
  have e1 : pps.loopFilterAcrossVirtualBoundariesDisabledFlag = true →
      (isCrossedByVirtualBoundaries NB cs xPos yPos width height horVirBndryPos
        verVirBndryPos pps).numHorVirBndry
        = (interiorPositions pps.numHorVirtualBoundaries pps.virtualBoundariesPosY yPos
            height).length ∧
      (isCrossedByVirtualBoundaries NB cs xPos yPos width height horVirBndryPos
        verVirBndryPos pps).horVirBndryPos
        = (fun i => (interiorPositions pps.numHorVirtualBoundaries pps.virtualBoundariesPosY
            yPos height).getD i (horVirBndryPos i)) ∧
      (isCrossedByVirtualBoundaries NB cs xPos yPos width height horVirBndryPos
        verVirBndryPos pps).numVerVirBndry
        = (interiorPositions pps.numVerVirtualBoundaries pps.virtualBoundariesPosX xPos
            width).length ∧
      (isCrossedByVirtualBoundaries NB cs xPos yPos width height horVirBndryPos
        verVirBndryPos pps).verVirBndryPos
        = (fun i => (interiorPositions pps.numVerVirtualBoundaries pps.virtualBoundariesPosX
            xPos width).getD i (verVirBndryPos i)) := by
    intro hf
    unfold isCrossedByVirtualBoundaries
    simp only [hf, if_true, collectVirBndry_closed, and_self]
  have e0 : pps.loopFilterAcrossVirtualBoundariesDisabledFlag = false →
      (isCrossedByVirtualBoundaries NB cs xPos yPos width height horVirBndryPos
        verVirBndryPos pps).numHorVirBndry = 0 ∧
      (isCrossedByVirtualBoundaries NB cs xPos yPos width height horVirBndryPos
        verVirBndryPos pps).numVerVirBndry = 0 := by
    intro hf
    unfold isCrossedByVirtualBoundaries
    simp only [hf, Bool.false_eq_true, if_false, and_self]
  have hle : (isCrossedByVirtualBoundaries NB cs xPos yPos width height horVirBndryPos
        verVirBndryPos pps).numHorVirBndry ≤ pps.numHorVirtualBoundaries ∧
      (isCrossedByVirtualBoundaries NB cs xPos yPos width height horVirBndryPos
        verVirBndryPos pps).numVerVirBndry ≤ pps.numVerVirtualBoundaries := by
    cases hf : pps.loopFilterAcrossVirtualBoundariesDisabledFlag with
    | false =>
      rw [(e0 hf).1, (e0 hf).2]
      exact ⟨Nat.zero_le _, Nat.zero_le _⟩
    | true =>
      rw [(e1 hf).1, (e1 hf).2.2.1]
      exact ⟨hH, hV⟩
  refine ⟨fun hf => ?_, e0, hle.1, hle.2, fun h => le_trans hle.1 h, fun h => le_trans hle.2 h⟩
  obtain ⟨a1, a2, a3, a4⟩ := e1 hf
  rw [a1, a2, a3, a4]
  exact ⟨firstEntries_getD _ _, firstEntries_getD _ _⟩

/-- C15, witness: the CTU at (0, 0) of `virtualBoundaryPicture`, 128x128: of the
horizontal boundaries 8, 200, 64 the call collects 8 and 64, in this order. -/
theorem isCrossedByVirtualBoundaries_collects_witness :
    firstEntries
        (isCrossedByVirtualBoundaries (-128) virtualBoundaryPicture 0 0 128 128 (fun _ => 0)
          (fun _ => 0) examplePPS).numHorVirBndry
        (isCrossedByVirtualBoundaries (-128) virtualBoundaryPicture 0 0 128 128 (fun _ => 0)
          (fun _ => 0) examplePPS).horVirBndryPos
      = [8, 64] ∧
    (isCrossedByVirtualBoundaries (-128) virtualBoundaryPicture 0 0 128 128 (fun _ => 0)
      (fun _ => 0) examplePPS).numHorVirBndry ≤ 3 := by
  have h := isCrossedByVirtualBoundaries_collects (-128) virtualBoundaryPicture 0 0 128 128
    (fun _ => 0) (fun _ => 0) examplePPS
  refine ⟨?_, h.2.2.2.2.1 (by decide)⟩
  rw [(h.1 rfl).1]
  decide

/-- C16. The flag `isCrossedByVirtualBoundaries` returns is true if and only if a
virtual boundary inside the rectangle was collected or one of the four sides that
`getAlfBoundary` returns differs from `ALF_NONE_BOUNDARY`; and `ALFProcess` filters the
CTU in one piece exactly when this flag is false or the CTU is disabled for the three
components. -/
theorem isCrossedByVirtualBoundaries_iff (NB : Int) (cs : CodingStructure)
    (xPos yPos width height : Int) (horVirBndryPos verVirBndryPos : Nat → Int) (pps : PPS)
    (enY enCb enCr : Nat) :
    ((isCrossedByVirtualBoundaries NB cs xPos yPos width height horVirBndryPos verVirBndryPos
        pps).crossed = true ↔
      (0 < (isCrossedByVirtualBoundaries NB cs xPos yPos width height horVirBndryPos
          verVirBndryPos pps).numHorVirBndry ∨
       0 < (isCrossedByVirtualBoundaries NB cs xPos yPos width height horVirBndryPos
          verVirBndryPos pps).numVerVirBndry ∨
       (getAlfBoundary NB cs xPos yPos).topBry ≠ NB ∨
       (getAlfBoundary NB cs xPos yPos).botBry ≠ NB ∨
       (getAlfBoundary NB cs xPos yPos).leftBry ≠ NB ∨
       (getAlfBoundary NB cs xPos yPos).rightBry ≠ NB)) ∧
    (isCrossedByVirtualBoundaries NB cs xPos yPos width height horVirBndryPos verVirBndryPos
        pps).bry = getAlfBoundary NB cs xPos yPos ∧
    (ctuIsSplit NB cs enY enCb enCr xPos yPos width height horVirBndryPos verVirBndryPos
        = false ↔
      ((isCrossedByVirtualBoundaries NB cs xPos yPos width height horVirBndryPos
          verVirBndryPos cs.pps).crossed = false ∨
       (enY = 0 ∧ enCb = 0 ∧ enCr = 0))) := by
  refine ⟨?_, rfl, ?_⟩
  · simp only [isCrossedByVirtualBoundaries, Bool.or_eq_true, decide_eq_true_eq, gt_iff_lt]
    tauto
  · unfold ctuIsSplit ctuEnableFlag
    generalize (isCrossedByVirtualBoundaries NB cs xPos yPos width height horVirBndryPos
      verVirBndryPos cs.pps).crossed = r
    cases r
    · simp
    · simp only [Bool.and_true, Bool.or_eq_false_iff, decide_eq_false_iff_not, ne_eq,
        not_not, gt_iff_lt, not_lt, Nat.le_zero, Bool.true_eq_false, false_or, and_assoc]

/-! ## The sides `getAlfBoundary` marks -/

theorem horVirtualBoundaryLoop_fields (pps : PPS) (posY ctuSize : Int) (b : AlfBry) :
    (horVirtualBoundaryLoop pps posY ctuSize b).leftBry = b.leftBry ∧
    (horVirtualBoundaryLoop pps posY ctuSize b).rightBry = b.rightBry ∧
    (b.topBry = posY → (horVirtualBoundaryLoop pps posY ctuSize b).topBry = posY) ∧
    (b.botBry = posY + ctuSize →
      (horVirtualBoundaryLoop pps posY ctuSize b).botBry = posY + ctuSize) ∧
    ((∀ i, i < pps.numHorVirtualBoundaries → pps.virtualBoundariesPosY i ≠ posY) →
      (horVirtualBoundaryLoop pps posY ctuSize b).topBry = b.topBry) ∧
    ((∀ i, i < pps.numHorVirtualBoundaries → pps.virtualBoundariesPosY i ≠ posY + ctuSize) →
      (horVirtualBoundaryLoop pps posY ctuSize b).botBry = b.botBry) := by
  unfold horVirtualBoundaryLoop
  induction pps.numHorVirtualBoundaries with
  | zero =>
    rw [loopN_zero]
    exact ⟨rfl, rfl, fun h => h, fun h => h, fun _ => rfl, fun _ => rfl⟩
  | succ n ih =>
    rw [loopN_succ]
    obtain ⟨i1, i2, i3, i4, i5, i6⟩ := ih
    by_cases h1 : pps.virtualBoundariesPosY n = posY
    · rw [if_pos h1]
      refine ⟨i1, i2, fun _ => rfl, i4, fun h => ?_, fun h => ?_⟩
      · exact absurd h1 (h n (Nat.lt_succ_self n))
      · exact i6 (fun i hi => h i (Nat.lt_succ_of_lt hi))
    · rw [if_neg h1]
      by_cases h2 : pps.virtualBoundariesPosY n = posY + ctuSize
      · rw [if_pos h2]
        refine ⟨i1, i2, i3, fun _ => rfl, fun h => ?_, fun h => ?_⟩
        · exact i5 (fun i hi => h i (Nat.lt_succ_of_lt hi))
        · exact absurd h2 (h n (Nat.lt_succ_self n))
      · rw [if_neg h2]
        exact ⟨i1, i2, i3, i4, fun h => i5 (fun i hi => h i (Nat.lt_succ_of_lt hi)),
          fun h => i6 (fun i hi => h i (Nat.lt_succ_of_lt hi))⟩

theorem verVirtualBoundaryLoop_fields (pps : PPS) (posX ctuSize : Int) (b : AlfBry) :
    (verVirtualBoundaryLoop pps posX ctuSize b).topBry = b.topBry ∧
    (verVirtualBoundaryLoop pps posX ctuSize b).botBry = b.botBry ∧
    (b.leftBry = posX → (verVirtualBoundaryLoop pps posX ctuSize b).leftBry = posX) ∧
    (b.rightBry = posX + ctuSize →
      (verVirtualBoundaryLoop pps posX ctuSize b).rightBry = posX + ctuSize) ∧
    ((∀ i, i < pps.numVerVirtualBoundaries → pps.virtualBoundariesPosX i ≠ posX) →
      (verVirtualBoundaryLoop pps posX ctuSize b).leftBry = b.leftBry) ∧
    ((∀ i, i < pps.numVerVirtualBoundaries → pps.virtualBoundariesPosX i ≠ posX + ctuSize) →
      (verVirtualBoundaryLoop pps posX ctuSize b).rightBry = b.rightBry) := by
  unfold verVirtualBoundaryLoop
  induction pps.numVerVirtualBoundaries with
  | zero =>
    rw [loopN_zero]
    exact ⟨rfl, rfl, fun h => h, fun h => h, fun _ => rfl, fun _ => rfl⟩
  | succ n ih =>
    rw [loopN_succ]
    obtain ⟨i1, i2, i3, i4, i5, i6⟩ := ih
    by_cases h1 : pps.virtualBoundariesPosX n = posX
    · rw [if_pos h1]
      refine ⟨i1, i2, fun _ => rfl, i4, fun h => ?_, fun h => ?_⟩
      · exact absurd h1 (h n (Nat.lt_succ_self n))
      · exact i6 (fun i hi => h i (Nat.lt_succ_of_lt hi))
    · rw [if_neg h1]
      by_cases h2 : pps.virtualBoundariesPosX n = posX + ctuSize
      · rw [if_pos h2]
        refine ⟨i1, i2, i3, fun _ => rfl, fun h => ?_, fun h => ?_⟩
        · exact i5 (fun i hi => h i (Nat.lt_succ_of_lt hi))
        · exact absurd h2 (h n (Nat.lt_succ_self n))
      · rw [if_neg h2]
        exact ⟨i1, i2, i3, i4, fun h => i5 (fun i hi => h i (Nat.lt_succ_of_lt hi)),
          fun h => i6 (fun i hi => h i (Nat.lt_succ_of_lt hi))⟩

theorem sideTests_hit (cs : CodingStructure) (posX posY nx ny v bry : Int)
    (h : (cs.lfCrossSliceBoundaryFlag = false ∧ cs.isSameSlice posX posY nx ny = false) ∨
      (cs.pps.loopFilterAcrossBricksEnabledFlag = false ∧
        cs.isSameBrick posX posY nx ny = false)) :
    sideTests cs posX posY nx ny v bry = v := by
  unfold sideTests
  rcases h with ⟨h1, h2⟩ | ⟨h1, h2⟩
  · rw [h1, h2]
    simp
  · rw [h1, h2]
    simp

/-- The sides before the loops over the virtual boundaries (lines 87-156). -/
theorem getAlfBoundary_eq (NB : Int) (cs : CodingStructure) (posX posY : Int) :
    getAlfBoundary NB cs posX posY
    = if cs.pps.loopFilterAcrossVirtualBoundariesDisabledFlag = true then
        verVirtualBoundaryLoop cs.pps posX cs.ctuSize
          (horVirtualBoundaryLoop cs.pps posY cs.ctuSize
            ⟨if posY > cs.ctuSize then sideTests cs posX posY posX (posY - cs.ctuSize) posY NB
              else NB,
             if posY + cs.ctuSize < cs.lumaHeight then
               sideTests cs posX posY posX (posY + cs.ctuSize) (posY + cs.ctuSize) NB
              else NB,
             if posX > cs.ctuSize then sideTests cs posX posY (posX - cs.ctuSize) posY posX NB
              else NB,
             if posX + cs.ctuSize < cs.lumaWidth then
               sideTests cs posX posY (posX + cs.ctuSize) posY (posX + cs.ctuSize) NB
              else NB⟩)
      else
        ⟨if posY > cs.ctuSize then sideTests cs posX posY posX (posY - cs.ctuSize) posY NB
          else NB,
         if posY + cs.ctuSize < cs.lumaHeight then
           sideTests cs posX posY posX (posY + cs.ctuSize) (posY + cs.ctuSize) NB
          else NB,
         if posX > cs.ctuSize then sideTests cs posX posY (posX - cs.ctuSize) posY posX NB
          else NB,
         if posX + cs.ctuSize < cs.lumaWidth then
           sideTests cs posX posY (posX + cs.ctuSize) posY (posX + cs.ctuSize) NB
          else NB⟩ := rfl

theorem virtualBoundaryLoops_fields (pps : PPS) (posX posY ctuSize : Int) (b : AlfBry) :
    (b.topBry = posY →
      (if pps.loopFilterAcrossVirtualBoundariesDisabledFlag = true then
        verVirtualBoundaryLoop pps posX ctuSize (horVirtualBoundaryLoop pps posY ctuSize b)
       else b).topBry = posY) ∧
    (b.leftBry = posX →
      (if pps.loopFilterAcrossVirtualBoundariesDisabledFlag = true then
        verVirtualBoundaryLoop pps posX ctuSize (horVirtualBoundaryLoop pps posY ctuSize b)
       else b).leftBry = posX) ∧
    ((pps.loopFilterAcrossVirtualBoundariesDisabledFlag = false ∨
        ∀ i, i < pps.numHorVirtualBoundaries → pps.virtualBoundariesPosY i ≠ posY) →
      (if pps.loopFilterAcrossVirtualBoundariesDisabledFlag = true then
        verVirtualBoundaryLoop pps posX ctuSize (horVirtualBoundaryLoop pps posY ctuSize b)
       else b).topBry = b.topBry) ∧
    ((pps.loopFilterAcrossVirtualBoundariesDisabledFlag = false ∨
        ∀ i, i < pps.numHorVirtualBoundaries →
          pps.virtualBoundariesPosY i ≠ posY + ctuSize) →
      (if pps.loopFilterAcrossVirtualBoundariesDisabledFlag = true then
        verVirtualBoundaryLoop pps posX ctuSize (horVirtualBoundaryLoop pps posY ctuSize b)
       else b).botBry = b.botBry) ∧
    ((pps.loopFilterAcrossVirtualBoundariesDisabledFlag = false ∨
        ∀ i, i < pps.numVerVirtualBoundaries → pps.virtualBoundariesPosX i ≠ posX) →
      (if pps.loopFilterAcrossVirtualBoundariesDisabledFlag = true then
        verVirtualBoundaryLoop pps posX ctuSize (horVirtualBoundaryLoop pps posY ctuSize b)
       else b).leftBry = b.leftBry) ∧
    ((pps.loopFilterAcrossVirtualBoundariesDisabledFlag = false ∨
        ∀ i, i < pps.numVerVirtualBoundaries →
          pps.virtualBoundariesPosX i ≠ posX + ctuSize) →
      (if pps.loopFilterAcrossVirtualBoundariesDisabledFlag = true then
        verVirtualBoundaryLoop pps posX ctuSize (horVirtualBoundaryLoop pps posY ctuSize b)
       else b).rightBry = b.rightBry) := by
  have hH := horVirtualBoundaryLoop_fields pps posY ctuSize b
  have hV := verVirtualBoundaryLoop_fields pps posX ctuSize
    (horVirtualBoundaryLoop pps posY ctuSize b)
  obtain ⟨a1, a2, a3, a4, a5, a6⟩ := hH
  obtain ⟨c1, c2, c3, c4, c5, c6⟩ := hV
  cases hf : pps.loopFilterAcrossVirtualBoundariesDisabledFlag with
  | false =>
    simp only [Bool.false_eq_true, if_false]
    exact ⟨fun h => h, fun h => h, fun _ => trivial, fun _ => trivial, fun _ => trivial,
      fun _ => trivial⟩
  | true =>
    simp only [if_true]
    have nf : ¬ (true = false) := by decide
    refine ⟨fun h => ?_, fun h => ?_, fun h => ?_, fun h => ?_, fun h => ?_, fun h => ?_⟩
    · rw [c1]; exact a3 h
    · exact c3 (a1.trans h)
    · rw [c1]; exact a5 (h.resolve_left nf)
    · rw [c2]; exact a6 (h.resolve_left nf)
    · rw [c5 (h.resolve_left nf)]; exact a1
    · rw [c6 (h.resolve_left nf)]; exact a2

/-- Where the test of the neighbour above (to the left) is made, that is for
`posY > ctuSize` (`posX > ctuSize`), a slice or brick boundary that must not be crossed
is marked. -/
theorem getAlfBoundary_marks_beyond_second (NB : Int) (cs : CodingStructure) (posX posY : Int) :
    (posY > cs.ctuSize →
      ((cs.lfCrossSliceBoundaryFlag = false ∧
          cs.isSameSlice posX posY posX (posY - cs.ctuSize) = false) ∨
        (cs.pps.loopFilterAcrossBricksEnabledFlag = false ∧
          cs.isSameBrick posX posY posX (posY - cs.ctuSize) = false)) →
      (getAlfBoundary NB cs posX posY).topBry = posY) ∧
    (posX > cs.ctuSize →
      ((cs.lfCrossSliceBoundaryFlag = false ∧
          cs.isSameSlice posX posY (posX - cs.ctuSize) posY = false) ∨
        (cs.pps.loopFilterAcrossBricksEnabledFlag = false ∧
          cs.isSameBrick posX posY (posX - cs.ctuSize) posY = false)) →
      (getAlfBoundary NB cs posX posY).leftBry = posX) := by
  rw [getAlfBoundary_eq]
  constructor
  · intro hp h
    apply (virtualBoundaryLoops_fields cs.pps posX posY cs.ctuSize _).1
    show (if posY > cs.ctuSize then _ else _) = _
    rw [if_pos hp, sideTests_hit cs posX posY posX (posY - cs.ctuSize) posY NB h]
  · intro hp h
    apply (virtualBoundaryLoops_fields cs.pps posX posY cs.ctuSize _).2.1
    show (if posX > cs.ctuSize then _ else _) = _
    rw [if_pos hp, sideTests_hit cs posX posY (posX - cs.ctuSize) posY posX NB h]

/-- Where the test of a neighbour is not made, the side is marked only by a virtual
boundary. -/
theorem getAlfBoundary_untested_side (NB : Int) (cs : CodingStructure) (posX posY : Int) :
    (posY ≤ cs.ctuSize →
      (cs.pps.loopFilterAcrossVirtualBoundariesDisabledFlag = false ∨
        ∀ i, i < cs.pps.numHorVirtualBoundaries → cs.pps.virtualBoundariesPosY i ≠ posY) →
      (getAlfBoundary NB cs posX posY).topBry = NB) ∧
    (cs.lumaHeight ≤ posY + cs.ctuSize →
      (cs.pps.loopFilterAcrossVirtualBoundariesDisabledFlag = false ∨
        ∀ i, i < cs.pps.numHorVirtualBoundaries →
          cs.pps.virtualBoundariesPosY i ≠ posY + cs.ctuSize) →
      (getAlfBoundary NB cs posX posY).botBry = NB) ∧
    (posX ≤ cs.ctuSize →
      (cs.pps.loopFilterAcrossVirtualBoundariesDisabledFlag = false ∨
        ∀ i, i < cs.pps.numVerVirtualBoundaries → cs.pps.virtualBoundariesPosX i ≠ posX) →
      (getAlfBoundary NB cs posX posY).leftBry = NB) ∧
    (cs.lumaWidth ≤ posX + cs.ctuSize →
      (cs.pps.loopFilterAcrossVirtualBoundariesDisabledFlag = false ∨
        ∀ i, i < cs.pps.numVerVirtualBoundaries →
          cs.pps.virtualBoundariesPosX i ≠ posX + cs.ctuSize) →
      (getAlfBoundary NB cs posX posY).rightBry = NB) := by
  rw [getAlfBoundary_eq]
  refine ⟨?_, ?_, ?_, ?_⟩
  · intro hp h
    have hp' : ¬ (posY > cs.ctuSize) := by omega
    rw [(virtualBoundaryLoops_fields cs.pps posX posY cs.ctuSize _).2.2.1 h]
    show (if posY > cs.ctuSize then _ else _) = _
    rw [if_neg hp']
  · intro hp h
    have hp' : ¬ (posY + cs.ctuSize < cs.lumaHeight) := by omega
    rw [(virtualBoundaryLoops_fields cs.pps posX posY cs.ctuSize _).2.2.2.1 h]
    show (if posY + cs.ctuSize < cs.lumaHeight then _ else _) = _
    rw [if_neg hp']
  · intro hp h
    have hp' : ¬ (posX > cs.ctuSize) := by omega
    rw [(virtualBoundaryLoops_fields cs.pps posX posY cs.ctuSize _).2.2.2.2.1 h]
    show (if posX > cs.ctuSize then _ else _) = _
    rw [if_neg hp']
  · intro hp h
    have hp' : ¬ (posX + cs.ctuSize < cs.lumaWidth) := by omega
    rw [(virtualBoundaryLoops_fields cs.pps posX posY cs.ctuSize _).2.2.2.2.2 h]
    show (if posX + cs.ctuSize < cs.lumaWidth then _ else _) = _
    rw [if_neg hp']

/-- C17, the code at the failing input. In `fourCtuPicture` the CTU at (128, 128) has a
CTU above it in another slice and a CTU to its left in another brick, and neither slices
nor bricks may be crossed; `getAlfBoundary` leaves `topBry` and `leftBry` at
`ALF_NONE_BOUNDARY` (-128) there, because it tests the neighbours only for
`posY > ctuSize` and `posX > ctuSize`. The CTU at (0, 0) has the same two boundaries
below it and to its right, and they are marked. -/
theorem getAlfBoundary_second_row_unmarked :
    fourCtuPicture.lfCrossSliceBoundaryFlag = false ∧
    fourCtuPicture.isSameSlice 128 128 128 0 = false ∧
    fourCtuPicture.pps.loopFilterAcrossBricksEnabledFlag = false ∧
    fourCtuPicture.isSameBrick 128 128 0 128 = false ∧
    (128 : Int) ≥ fourCtuPicture.ctuSize ∧
    getAlfBoundary (-128) fourCtuPicture 128 128 = ⟨-128, -128, -128, -128⟩ ∧
    getAlfBoundary (-128) fourCtuPicture 0 0 = ⟨-128, 128, -128, 128⟩ := by
  decide

/-- C18, counterexample: in `fourCtuPicture` (no virtual boundary) the CTU at (0, 0) has
its top and left sides on the picture edge and the CTU at (128, 128) its bottom and
right sides; `getAlfBoundary` leaves these four entries at `ALF_NONE_BOUNDARY` (-128). -/
theorem picture_edge_sides_left_unmarked :
    (128 : Int) + fourCtuPicture.ctuSize ≥ fourCtuPicture.lumaHeight ∧
    (128 : Int) + fourCtuPicture.ctuSize ≥ fourCtuPicture.lumaWidth ∧
    ¬ ((getAlfBoundary (-128) fourCtuPicture 0 0).topBry ≠ -128) ∧
    ¬ ((getAlfBoundary (-128) fourCtuPicture 0 0).leftBry ≠ -128) ∧
    ¬ ((getAlfBoundary (-128) fourCtuPicture 128 128).botBry ≠ -128) ∧
    ¬ ((getAlfBoundary (-128) fourCtuPicture 128 128).rightBry ≠ -128) := by
  decide

/-- C18, amended. For a CTU one of whose sides lies on the picture edge (`posY = 0`,
`posX = 0`, `posY + ctuSize >= lumaHeight`, `posX + ctuSize >= lumaWidth`),
`getAlfBoundary` does not mark that side on account of the picture edge: the entry of
the side is `ALF_NONE_BOUNDARY`, unless filtering across virtual boundaries is disabled
and a signalled virtual boundary lies at the position of that side. -/
theorem getAlfBoundary_picture_edge (NB : Int) (cs : CodingStructure) (posX posY : Int)
    (hctu : 0 ≤ cs.ctuSize) :
    (posY = 0 →
      (cs.pps.loopFilterAcrossVirtualBoundariesDisabledFlag = false ∨
        ∀ i, i < cs.pps.numHorVirtualBoundaries → cs.pps.virtualBoundariesPosY i ≠ posY) →
      (getAlfBoundary NB cs posX posY).topBry = NB) ∧
    (posX = 0 →
      (cs.pps.loopFilterAcrossVirtualBoundariesDisabledFlag = false ∨
        ∀ i, i < cs.pps.numVerVirtualBoundaries → cs.pps.virtualBoundariesPosX i ≠ posX) →
      (getAlfBoundary NB cs posX posY).leftBry = NB) ∧
    (posY + cs.ctuSize ≥ cs.lumaHeight →
      (cs.pps.loopFilterAcrossVirtualBoundariesDisabledFlag = false ∨
        ∀ i, i < cs.pps.numHorVirtualBoundaries →
          cs.pps.virtualBoundariesPosY i ≠ posY + cs.ctuSize) →
      (getAlfBoundary NB cs posX posY).botBry = NB) ∧
    (posX + cs.ctuSize ≥ cs.lumaWidth →
      (cs.pps.loopFilterAcrossVirtualBoundariesDisabledFlag = false ∨
        ∀ i, i < cs.pps.numVerVirtualBoundaries →
          cs.pps.virtualBoundariesPosX i ≠ posX + cs.ctuSize) →
      (getAlfBoundary NB cs posX posY).rightBry = NB) := by
  obtain ⟨h1, h2, h3, h4⟩ := getAlfBoundary_untested_side NB cs posX posY
  exact ⟨fun hp => h1 (by omega), fun hp => h3 (by omega), fun hp => h2 (by omega),
    fun hp => h4 (by omega)⟩

/-- C18, witness: the CTU at (0, 128) of `virtualBoundaryPicture`, whose left and bottom
sides are on the picture edge; virtual boundaries are signalled, none at these sides. -/
theorem getAlfBoundary_picture_edge_witness :
    (getAlfBoundary (-128) virtualBoundaryPicture 0 128).leftBry = -128 ∧
    (getAlfBoundary (-128) virtualBoundaryPicture 0 128).botBry = -128 :=
  ⟨(getAlfBoundary_picture_edge (-128) virtualBoundaryPicture 0 128 (by decide)).2.1 rfl
      (Or.inr (by decide)),
    (getAlfBoundary_picture_edge (-128) virtualBoundaryPicture 0 128 (by decide)).2.2.1
      (by decide) (Or.inr (by decide))⟩

/-! ## The check of the CTU height -/

theorem testBit_two_pow_add (k r : Nat) (hr : r < 2 ^ k) : (2 ^ k + r).testBit k = true := by
  rw [Nat.testBit_two_pow_add_eq, Nat.testBit_lt_two_pow hr]
  rfl

theorem land_pred_eq_zero (n : Nat) (h : (n + 1) &&& n = 0) : ∃ k, n + 1 = 2 ^ k := by
  have h1 : 2 ^ Nat.log 2 (n + 1) ≤ n + 1 := Nat.pow_log_le_self 2 (by omega)
  have h2 : n + 1 < 2 ^ (Nat.log 2 (n + 1) + 1) := Nat.lt_pow_succ_log_self (by decide) _
  generalize Nat.log 2 (n + 1) = k at h1 h2
  have h3 : 2 ^ (k + 1) = 2 * 2 ^ k := by ring
  by_cases hr : n + 1 = 2 ^ k
  · exact ⟨k, hr⟩
  · exfalso
    have e1 : n + 1 = 2 ^ k + (n + 1 - 2 ^ k) := by omega
    have e2 : n = 2 ^ k + (n - 2 ^ k) := by omega
    have b1 : (n + 1).testBit k = true := by
      rw [e1]; exact testBit_two_pow_add k _ (by omega)
    have b2 : n.testBit k = true := by
      rw [e2]; exact testBit_two_pow_add k _ (by omega)
    have b3 : ((n + 1) &&& n).testBit k = true := by
      rw [Nat.testBit_and, b1, b2]; rfl
    rw [h] at b3
    simp at b3

theorem bitAnd_zero_pred : bitAnd 0 (0 - 1) = 0 := by
  show ((Nat.ldiff 0 0 : Nat) : Int) = 0
  rw [Nat.ldiff]
  simp

/-- The test `(v & (v - 1)) != 0` of the two functions lets through zero and the powers
of two, and nothing else. -/
theorem bitAnd_pred_eq_zero_iff (v : Int) :
    bitAnd v (v - 1) = 0 ↔ v = 0 ∨ ∃ k : Nat, v = 2 ^ k := by
  constructor
  · intro h
    cases v with
    | ofNat n =>
      cases n with
      | zero => exact Or.inl rfl
      | succ n =>
        right
        have e : (Int.ofNat (n + 1) - 1) = Int.ofNat n := by
          show ((n + 1 : Nat) : Int) - 1 = (n : Int)
          push_cast; ring
        rw [e] at h
        have h' : (((n + 1) &&& n : Nat) : Int) = 0 := h
        obtain ⟨k, hk⟩ := land_pred_eq_zero n (by exact_mod_cast h')
        refine ⟨k, ?_⟩
        show ((n + 1 : Nat) : Int) = 2 ^ k
        rw [hk]; push_cast; rfl
    | negSucc m =>
      exfalso
      have e : Int.negSucc m - 1 = Int.negSucc (m + 1) := by
        rw [Int.negSucc_eq, Int.negSucc_eq]; push_cast; ring
      rw [e] at h
      have h' : Int.negSucc (m ||| (m + 1)) = 0 := h
      exact absurd h' (by simp)
  · rintro (h | ⟨k, h⟩)
    · rw [h]; exact bitAnd_zero_pred
    · rw [h]; exact bitAnd_pow_two_self k

/-- The check of `filterBlk` fires exactly for the heights that are neither zero nor a
power of two. -/
theorem filterBlk_check_iff (NB : Int) (filtType : AlfFilterType) (classifier : ClassMap)
    (recDst recSrc : PelUnitBuf) (blkDst blk : Area) (compId : ComponentID)
    (filterSet fClipSet : Nat → Int) (clpRng : ClpRng) (fmt : ChromaFormat)
    (vbCTUHeight vbPos : Int) (alfBryList : Nat → Int) :
    filterBlk NB filtType classifier recDst recSrc blkDst blk compId filterSet fClipSet clpRng
        fmt vbCTUHeight vbPos alfBryList = Except.error "vbCTUHeight must be a power of 2"
      ↔ (vbCTUHeight ≠ 0 ∧ ¬ ∃ k : Nat, vbCTUHeight = 2 ^ k) := by
  have hz := bitAnd_pred_eq_zero_iff vbCTUHeight
  unfold filterBlk
  by_cases h : bitAnd vbCTUHeight (vbCTUHeight - 1) = 0
  · have h' : ¬ (bitAnd vbCTUHeight (vbCTUHeight - 1) ≠ 0) := fun g => g h
    rw [if_neg h']
    have hr := hz.mp h
    constructor
    · intro g
      exfalso
      split_ifs at g <;> simp at g
    · rintro ⟨g1, g2⟩
      rcases hr with hr | hr
      · exact absurd hr g1
      · exact absurd hr g2
  · rw [if_pos h]
    refine ⟨fun _ => ⟨fun g => h (hz.mpr (Or.inl g)), fun g => h (hz.mpr (Or.inr g))⟩,
      fun _ => rfl⟩

/-- The check of `deriveClassificationBlk` fires exactly for the heights that are
neither zero nor a power of two. -/
theorem deriveClassificationBlk_check_iff (NB : Int) (classifier : ClassMap)
    (laplacian : Laplacian) (srcLuma : Plane) (blkDst blk : Area) (shift : Nat)
    (vbCTUHeight vbPos : Int) (alfBryList : Nat → Int) :
    deriveClassificationBlk NB classifier laplacian srcLuma blkDst blk shift vbCTUHeight vbPos
        alfBryList = Except.error "vbCTUHeight must be a power of 2"
      ↔ (vbCTUHeight ≠ 0 ∧ ¬ ∃ k : Nat, vbCTUHeight = 2 ^ k) := by
  have hz := bitAnd_pred_eq_zero_iff vbCTUHeight
  unfold deriveClassificationBlk
  by_cases h : bitAnd vbCTUHeight (vbCTUHeight - 1) = 0
  · have h' : ¬ (bitAnd vbCTUHeight (vbCTUHeight - 1) ≠ 0) := fun g => g h
    rw [if_neg h']
    have hr := hz.mp h
    constructor
    · intro g
      exfalso
      split_ifs at g
      simp at g
    · rintro ⟨g1, g2⟩
      rcases hr with hr | hr
      · exact absurd hr g1
      · exact absurd hr g2
  · rw [if_pos h]
    refine ⟨fun _ => ⟨fun g => h (hz.mpr (Or.inl g)), fun g => h (hz.mpr (Or.inr g))⟩,
      fun _ => rfl⟩

/-- With the height zero the check of `filterBlk` passes, and the call reaches the
`% vbCTUHeight` of line 1368 whenever the other checks pass. -/
theorem filterBlk_zero_height (NB : Int) (filtType : AlfFilterType) (classifier : ClassMap)
    (recDst recSrc : PelUnitBuf) (blkDst blk : Area) (compId : ComponentID)
    (filterSet fClipSet : Nat → Int) (clpRng : ClpRng) (fmt : ChromaFormat)
    (vbPos : Int) (alfBryList : Nat → Int)
    (hc : isChroma compId = true → filtType = AlfFilterType.ALF_FILTER_5)
    (hy : blk.y % 4 = 0) (hx : blk.x % 4 = 0) (hh : blk.height % 4 = 0)
    (hw : blk.width % 4 = 0) :
    filterBlk NB filtType classifier recDst recSrc blkDst blk compId filterSet fClipSet clpRng
        fmt 0 vbPos alfBryList = Except.error "division by zero" := by
  unfold filterBlk
  have h1 : ¬ (bitAnd 0 (0 - 1) ≠ 0) := fun g => g bitAnd_zero_pred
  have h2 : ¬ (isChroma compId = true ∧ filtType ≠ AlfFilterType.ALF_FILTER_5) :=
    fun g => g.2 (hc g.1)
  have h3 : ¬ (cRem blk.y 4 ≠ 0) := fun g => g ((cRem_four_eq_zero_iff _).mpr hy)
  have h4 : ¬ (cRem blk.x 4 ≠ 0) := fun g => g ((cRem_four_eq_zero_iff _).mpr hx)
  have h5 : ¬ (blk.height % 4 ≠ 0) := fun g => g hh
  have h6 : ¬ (blk.width % 4 ≠ 0) := fun g => g hw
  rw [if_neg h1, if_neg h2, if_neg h3, if_neg h4, if_neg h5, if_neg h6, if_pos rfl]

/-- With the height zero the check of `deriveClassificationBlk` passes, and the call
reaches a `% vbCTUHeight` whenever the second pass visits a block that does not start at
the top boundary. -/
theorem deriveClassificationBlk_zero_height (NB : Int) (classifier : ClassMap)
    (laplacian : Laplacian) (srcLuma : Plane) (blkDst blk : Area) (shift : Nat)
    (vbPos : Int) (alfBryList : Nat → Int)
    (hu : usesVbRem NB blkDst blk alfBryList = true) :
    deriveClassificationBlk NB classifier laplacian srcLuma blkDst blk shift 0 vbPos
        alfBryList = Except.error "division by zero" := by
  unfold deriveClassificationBlk
  have h1 : ¬ (bitAnd 0 (0 - 1) ≠ 0) := fun g => g bitAnd_zero_pred
  rw [if_neg h1, if_pos ⟨rfl, hu⟩]

/-- C19, the code at the failing input. Zero is not a power of two, yet with
`vbCTUHeight = 0` neither function fails with 'vbCTUHeight must be a power of 2': on an
8x8 luma block at the picture origin with no boundary flagged, `filterBlk` goes on to
the `% vbCTUHeight` of its boundary set-up and `deriveClassificationBlk` to the
`% vbCTUHeight` of its second pass, a division by zero in both. -/
theorem vbCTUHeight_zero_passes_check :
    (¬ ∃ k : Nat, (0 : Int) = 2 ^ k) ∧
    filterBlk (-128) AlfFilterType.ALF_FILTER_7 (fun _ _ => ⟨0, 0⟩) (fun _ _ _ => 0)
        (fun _ _ _ => 512) ⟨0, 0, 8, 8⟩ ⟨0, 0, 8, 8⟩ ComponentID.COMPONENT_Y (fun _ => 0)
        (fun _ => 0) ⟨0, 1023⟩ ChromaFormat.CHROMA_420 0 0 (fun _ => -128)
      = Except.error "division by zero" ∧
    deriveClassificationBlk (-128) (fun _ _ => ⟨0, 0⟩) (fun _ _ _ => 0) (fun _ _ => 512)
        ⟨0, 0, 8, 8⟩ ⟨0, 0, 8, 8⟩ 14 0 0 (fun _ => -128)
      = Except.error "division by zero" := by
  refine ⟨?_, ?_, ?_⟩
  · rintro ⟨k, h⟩
    have : (0 : Int) < 2 ^ k := by positivity
    omega
  · exact filterBlk_zero_height _ _ _ _ _ _ _ _ _ _ _ _ _ _ (fun h => absurd h (by decide))
      (by decide) (by decide) (by decide) (by decide)
  · exact deriveClassificationBlk_zero_height _ _ _ _ _ _ _ _ _ (by decide)

/-! ## Absent APSs -/

/-- The loop over the luma APSs ends in the failure 'invalid APS' when one of the first
`n` ids selects an empty slot, else it returns. -/
theorem lumaApsLoop_spec (cv : ChannelType → Int → Int) (slice : SliceAps) (isRdo : Bool)
    (n : Nat) (s : ApsTables) :
    ((∃ i, i < n ∧ slice.alfAPSs (slice.tileGroupApsIdLuma i) = none) →
      lumaApsLoop cv slice isRdo n s = Except.error (Failure.check "invalid APS")) ∧
    ((¬ ∃ i, i < n ∧ slice.alfAPSs (slice.tileGroupApsIdLuma i) = none) →
      ∃ s', lumaApsLoop cv slice isRdo n s = Except.ok s') := by
  induction n with
  | zero =>
    refine ⟨?_, fun _ => ⟨s, rfl⟩⟩
    rintro ⟨i, hi, _⟩
    omega
  | succ n ih =>
    obtain ⟨ih1, ih2⟩ := ih
    by_cases hprev : ∃ i, i < n ∧ slice.alfAPSs (slice.tileGroupApsIdLuma i) = none
    · have e := ih1 hprev
      constructor
      · intro _
        show (match lumaApsLoop cv slice isRdo n s with
          | Except.error e => Except.error e
          | Except.ok s => lumaApsStep cv slice isRdo n s) = _
        rw [e]
      · intro h
        obtain ⟨i, hi, hn⟩ := hprev
        exact absurd ⟨i, by omega, hn⟩ h
    · obtain ⟨s', hs'⟩ := ih2 hprev
      have e : lumaApsLoop cv slice isRdo (n + 1) s = lumaApsStep cv slice isRdo n s' := by
        show (match lumaApsLoop cv slice isRdo n s with
          | Except.error e => Except.error e
          | Except.ok s => lumaApsStep cv slice isRdo n s) = _
        rw [hs']
      rw [e]
      cases hn : slice.alfAPSs (slice.tileGroupApsIdLuma n) with
      | none =>
        constructor
        · intro _
          unfold lumaApsStep
          simp only [hn]
        · intro h
          exact absurd ⟨n, by omega, hn⟩ h
      | some q =>
        constructor
        · rintro ⟨i, hi, hi'⟩
          rcases Nat.lt_succ_iff_lt_or_eq.mp hi with h | h
          · exact absurd ⟨i, h, hi'⟩ hprev
          · subst h
            rw [hn] at hi'
            exact absurd hi' (by simp)
        · intro _
          unfold lumaApsStep
          simp only [hn]
          exact ⟨_, rfl⟩

/-- The luma part of `reconstructCoeffAPSs` does stop with the failure 'invalid APS' when
a luma APS id of the slice selects an empty slot. -/
theorem reconstructCoeffAPSs_luma_absent (cv : ChannelType → Int → Int) (slice : SliceAps)
    (s : ApsTables) (chroma isRdo : Bool)
    (h : ∃ i : Nat, (i : Int) < slice.tileGroupNumAps ∧
      slice.alfAPSs (slice.tileGroupApsIdLuma i) = none) :
    reconstructCoeffAPSs cv slice s true chroma isRdo
      = Except.error (Failure.check "invalid APS") := by
  obtain ⟨i, hi, hn⟩ := h
  have e := (lumaApsLoop_spec cv slice isRdo slice.tileGroupNumAps.toNat s).1
    ⟨i, by omega, hn⟩
  unfold reconstructCoeffAPSs
  simp only [if_true, e]

/-- C20, the code at the failing input. The chroma APS id 3 of `sliceWithAbsentAps`
selects an empty slot: the chroma part of `reconstructCoeffAPSs` (called for chroma
only) dereferences the null pointer, it does not end in a `CHECK` failure. The luma part
of the same function, called on the same slice (whose second luma APS id selects an
empty slot), ends in the failure 'invalid APS'. -/
theorem reconstructCoeffAPSs_chroma_absent_unchecked :
    sliceWithAbsentAps.alfAPSs sliceWithAbsentAps.tileGroupApsIdChroma = none ∧
    (∀ out, reconstructCoeffAPSs exampleClippingValues sliceWithAbsentAps zeroApsTables false
      true false ≠ Except.ok out) ∧
    (∀ msg, reconstructCoeffAPSs exampleClippingValues sliceWithAbsentAps zeroApsTables false
      true false ≠ Except.error (Failure.check msg)) ∧
    reconstructCoeffAPSs exampleClippingValues sliceWithAbsentAps zeroApsTables false true
      false = Except.error Failure.nullDereference ∧
    reconstructCoeffAPSs exampleClippingValues sliceWithAbsentAps zeroApsTables true false
      false = Except.error (Failure.check "invalid APS") := by
  have e : reconstructCoeffAPSs exampleClippingValues sliceWithAbsentAps zeroApsTables false
      true false = Except.error Failure.nullDereference := rfl
  refine ⟨rfl, ?_, ?_, e, ?_⟩
  · intro out
    rw [e]
    simp
  · intro msg
    rw [e]
    simp
  · exact reconstructCoeffAPSs_luma_absent _ _ _ _ _ ⟨1, by decide, rfl⟩

/-! ## The escaped payload of a NAL unit -/

theorem escapeInv_init : EscapeInv ⟨[], 0⟩ := by
  simp [EscapeInv]

theorem escapeInv_step (s : EscapeState) (v : Nat) (h : EscapeInv s) :
    EscapeInv (escapeByte s v) := by
  obtain ⟨ha, hb, hz, h1, h2, h3⟩ := h
  by_cases c : s.zeroCount = 2 ∧ v ≤ 3
  · have e : escapeByte s v
        = ⟨s.outputBuffer ++ [3] ++ [v], if v = 0 then 1 else 0⟩ := by
      simp [escapeByte, c, emulation_prevention_three_byte]
    rw [e]
    refine ⟨?_, ?_, ?_, ?_, ?_, ?_⟩
    · intro x hx
      simp only [List.reverse_append, List.reverse_cons, List.reverse_nil, List.nil_append,
        List.singleton_append, List.infix_cons_iff, List.cons_prefix_cons] at hx
      rcases hx with hx | hx | hx
      · omega
      · omega
      · exact ha x hx
    · intro y hy
      simp only [List.reverse_append, List.reverse_cons, List.reverse_nil, List.nil_append,
        List.singleton_append, List.infix_cons_iff, List.cons_prefix_cons] at hy
      rcases hy with hy | hy | hy
      · omega
      · omega
      · exact hb y hy
    · dsimp only
      split_ifs <;> omega
    · simp only [List.reverse_append, List.reverse_cons, List.reverse_nil, List.nil_append,
        List.singleton_append, List.cons_prefix_cons, List.nil_prefix, and_true]
      split_ifs with hv <;> omega
    · simp only [List.reverse_append, List.reverse_cons, List.reverse_nil, List.nil_append,
        List.singleton_append, List.cons_prefix_cons]
      constructor
      · rintro ⟨-, g, -⟩
        omega
      · intro g
        split_ifs at g
        omega
    · simp only [List.reverse_append, List.reverse_cons, List.reverse_nil, List.nil_append,
        List.singleton_append, List.cons_prefix_cons]
      omega
  · have e : escapeByte s v
        = ⟨s.outputBuffer ++ [v], if v = 0 then s.zeroCount + 1 else 0⟩ := by
      simp only [escapeByte, if_neg c]
    rw [e]
    refine ⟨?_, ?_, ?_, ?_, ?_, ?_⟩
    · intro x hx
      simp only [List.reverse_append, List.reverse_cons, List.reverse_nil, List.nil_append,
        List.singleton_append, List.infix_cons_iff, List.cons_prefix_cons] at hx
      rcases hx with ⟨hx, hx'⟩ | hx
      · have := h2.mp hx'
        omega
      · exact ha x hx
    · intro y hy
      simp only [List.reverse_append, List.reverse_cons, List.reverse_nil, List.nil_append,
        List.singleton_append, List.infix_cons_iff, List.cons_prefix_cons] at hy
      rcases hy with ⟨-, hy'⟩ | hy
      · exact absurd hy' h3
      · exact hb y hy
    · dsimp only
      split_ifs <;> omega
    · simp only [List.reverse_append, List.reverse_cons, List.reverse_nil, List.nil_append,
        List.singleton_append, List.cons_prefix_cons, List.nil_prefix, and_true]
      split_ifs with hv <;> omega
    · simp only [List.reverse_append, List.reverse_cons, List.reverse_nil, List.nil_append,
        List.singleton_append, List.cons_prefix_cons]
      split_ifs with hv
      · constructor
        · rintro ⟨-, g⟩
          have := h1.mp g
          omega
        · intro g
          exact ⟨hv.symm, h1.mpr (by omega)⟩
      · constructor
        · rintro ⟨g, -⟩
          exact absurd g.symm hv
        · intro g
          exact absurd g (by simp)
    · simp only [List.reverse_append, List.reverse_cons, List.reverse_nil, List.nil_append,
        List.singleton_append, List.cons_prefix_cons]
      rintro ⟨g, g'⟩
      have := h2.mp g'
      omega

theorem escapeInv_foldl (l : List Nat) :
    ∀ s, EscapeInv s → EscapeInv (l.foldl escapeByte s) := by
  induction l with
  | nil => exact fun s h => h
  | cons v l ih => exact fun s h => ih _ (escapeInv_step s v h)

theorem escapeLoop_inv (rbsp : List Nat) : EscapeInv (escapeLoop rbsp) :=
  escapeInv_foldl rbsp _ escapeInv_init

/-- The two properties of the stored bytes, on the escaped payload read backwards. -/
theorem escapedPayload_rev (rbsp : List Nat) :
    (∀ x, [x, 0, 0] <:+: (escapedPayload rbsp).reverse → 3 ≤ x) ∧
    (∀ y, [y, 3, 0, 0] <:+: (escapedPayload rbsp).reverse → y ≤ 3) := by
  obtain ⟨ha, hb, hz, h1, h2, h3⟩ := escapeLoop_inv rbsp
  unfold escapedPayload
  dsimp only
  split_ifs with hc
  · constructor
    · intro x hx
      simp only [emulation_prevention_three_byte, List.reverse_append, List.reverse_cons,
        List.reverse_nil, List.nil_append, List.singleton_append, List.infix_cons_iff,
        List.cons_prefix_cons] at hx
      rcases hx with hx | hx
      · omega
      · exact ha x hx
    · intro y hy
      simp only [emulation_prevention_three_byte, List.reverse_append, List.reverse_cons,
        List.reverse_nil, List.nil_append, List.singleton_append, List.infix_cons_iff,
        List.cons_prefix_cons] at hy
      rcases hy with hy | hy
      · omega
      · exact hb y hy
  · exact ⟨ha, hb⟩

/-- C21. For every RBSP byte sequence the escaped payload `write` emits contains none of
the three-byte sequences 00 00 00, 00 00 01, 00 00 02 at any position, and a byte that
follows a sequence 00 00 03 of the payload is at most 3 (so every 00 00 03 is at the end
or followed by 00, 01, 02 or 03). -/
theorem write_payload_has_no_start_code (rbsp : List Nat) :
    (∀ x, x ≤ 2 → ¬ [0, 0, x] <:+: escapedPayload rbsp) ∧
    (∀ y, [0, 0, 3, y] <:+: escapedPayload rbsp → y ≤ 3) := by
  obtain ⟨ha, hb⟩ := escapedPayload_rev rbsp
  constructor
  · intro x hx hin
    have h := ha x (by
      have := List.reverse_infix.mpr hin
      simpa using this)
    omega
  · intro y hin
    exact hb y (by
      have := List.reverse_infix.mpr hin
      simpa using this)

theorem escapeByte_last (s : EscapeState) (v : Nat) :
    (escapeByte s v).outputBuffer.getLast? = some v ∧
    (0 < (escapeByte s v).zeroCount ↔ v = 0) := by
  unfold escapeByte
  dsimp only
  constructor
  · exact List.getLast?_concat _
  · split_ifs <;> omega

theorem escapeLoop_concat (l : List Nat) (v : Nat) :
    escapeLoop (l ++ [v]) = escapeByte (escapeLoop l) v := by
  unfold escapeLoop
  rw [List.foldl_append]
  rfl

/-- C22. For every non-empty RBSP byte sequence the last byte of the escaped payload
`write` emits is not zero: if the RBSP ends in a zero byte, the payload is the buffer
of the loop followed by a final byte 3; otherwise the payload ends in the last byte of
the RBSP. -/
theorem write_payload_last_byte (rbsp : List Nat) (v : Nat)
    (hlast : rbsp.getLast? = some v) :
    (∃ b, (escapedPayload rbsp).getLast? = some b ∧ b ≠ 0) ∧
    (v = 0 → escapedPayload rbsp = (escapeLoop rbsp).outputBuffer ++ [3] ∧
      (escapedPayload rbsp).getLast? = some 3) ∧
    (v ≠ 0 → (escapedPayload rbsp).getLast? = some v) := by
  rcases List.eq_nil_or_concat rbsp with h | ⟨l, w, h⟩
  · rw [h] at hlast
    simp at hlast
  · rw [List.concat_eq_append] at h
    rw [h, List.getLast?_concat] at hlast
    have hw : w = v := by simpa using hlast
    subst hw
    rw [h]
    obtain ⟨g1, g2⟩ := escapeByte_last (escapeLoop l) w
    have key : (w = 0 → escapedPayload (l ++ [w])
          = (escapeLoop (l ++ [w])).outputBuffer ++ [3]) ∧
        (w ≠ 0 → escapedPayload (l ++ [w]) = (escapeLoop (l ++ [w])).outputBuffer) := by
      unfold escapedPayload
      dsimp only
      rw [escapeLoop_concat]
      constructor
      · intro hw
        rw [if_pos (g2.mpr hw)]
        rfl
      · intro hw
        rw [if_neg (fun g => hw (g2.mp g))]
    by_cases hw : w = 0
    · refine ⟨⟨3, ?_, by decide⟩, fun _ => ⟨key.1 hw, ?_⟩, fun g => absurd hw g⟩
      · rw [key.1 hw]; exact List.getLast?_concat _
      · rw [key.1 hw]; exact List.getLast?_concat _
    · have e : (escapedPayload (l ++ [w])).getLast? = some w := by
        rw [key.2 hw, escapeLoop_concat]
        exact g1
      exact ⟨⟨w, e, hw⟩, fun g => absurd g hw, fun _ => e⟩

/-- C22, witness: an RBSP that ends in two zero bytes. -/
theorem write_payload_last_byte_witness :
    (∃ b, (escapedPayload [1, 0, 0]).getLast? = some b ∧ b ≠ 0) ∧
    ((0 : Nat) = 0 → escapedPayload [1, 0, 0] = (escapeLoop [1, 0, 0]).outputBuffer ++ [3] ∧
      (escapedPayload [1, 0, 0]).getLast? = some 3) ∧
    ((0 : Nat) ≠ 0 → (escapedPayload [1, 0, 0]).getLast? = some 0) :=
  write_payload_last_byte [1, 0, 0] 0 (by decide)

theorem escapeByte_length (s : EscapeState) (v : Nat) :
    (escapeByte s v).outputBuffer.length ≤ s.outputBuffer.length + 2 := by
  unfold escapeByte
  dsimp only
  split_ifs <;> simp only [List.length_append, List.length_singleton] <;> omega

theorem escapeFoldl_length (l : List Nat) :
    ∀ s, (l.foldl escapeByte s).outputBuffer.length ≤ s.outputBuffer.length + 2 * l.length := by
  induction l with
  | nil => intro s; simp
  | cons v l ih =>
    intro s
    have h1 := ih (escapeByte s v)
    have h2 := escapeByte_length s v
    simp only [List.foldl_cons, List.length_cons]
    omega

/-- C23. For every RBSP of `n` bytes the number of bytes `write` stores into
`outputBuffer` (the bytes of the RBSP and the inserted and appended bytes 3) is at most
`2 * n + 1`, the size the buffer was resized to; the stores go to the indices
`0, 1, ...` in turn, so none is past the end of the buffer. -/
theorem write_stores_within_buffer (rbsp : List Nat) :
    (escapedPayload rbsp).length ≤ outputBufferSize rbsp ∧
    outputBufferSize rbsp = 2 * rbsp.length + 1 ∧
    (escapeLoop rbsp).outputBuffer.length ≤ 2 * rbsp.length := by
  have h := escapeFoldl_length rbsp ⟨[], 0⟩
  have h' : (escapeLoop rbsp).outputBuffer.length ≤ 2 * rbsp.length := by
    unfold escapeLoop
    simpa using h
  refine ⟨?_, by unfold outputBufferSize; omega, h'⟩
  unfold escapedPayload outputBufferSize
  dsimp only
  split_ifs
  · rw [List.length_append, List.length_singleton]
    omega
  · omega

/-! ## The classifier: direction strength, activity and transpose index -/

theorem dirInfo_strength (sumV sumH sumD0 sumD1 : Int) :
    (dirInfo sumV sumH sumD0 sumD1).directionStrength
    = if (dirInfo sumV sumH sumD0 sumD1).hvd1 * 2 > 9 * (dirInfo sumV sumH sumD0 sumD1).hvd0
      then 2
      else if (dirInfo sumV sumH sumD0 sumD1).hvd1 > 2 * (dirInfo sumV sumH sumD0 sumD1).hvd0
      then 1 else 0 := rfl

theorem classOf_fst (activity sumV sumH sumD0 sumD1 : Int) :
    (classOf activity sumV sumH sumD0 sumD1).1
    = if (dirInfo sumV sumH sumD0 sumD1).directionStrength ≠ 0 then
        th.getD activity.toNat 0
          + (shl (bitAnd (dirInfo sumV sumH sumD0 sumD1).mainDirection 1) 1
              + (dirInfo sumV sumH sumD0 sumD1).directionStrength) * 5
      else th.getD activity.toNat 0 := rfl

/-- C24. In `deriveClassificationBlk` the main direction family is the diagonal one when
`(uint32_t)d1 * (uint32_t)hv0 > (uint32_t)hv1 * (uint32_t)d0`, with `d1`, `d0` the larger
and the smaller of `sumD0`, `sumD1` and `hv1`, `hv0` the larger and the smaller of `sumV`,
`sumH`, and the horizontal/vertical one otherwise; `hvd1` is the larger and `hvd0` the
smaller sum of that family, and `mainDirection` is the direction of the larger sum
(0 for `sumD0`, 2 for `sumD1`, 1 for `sumV`, 3 for `sumH`, the second of a family on a
tie). With these, the direction strength is 2 iff `2 * hvd1 > 9 * hvd0`, 1 iff
`hvd1 > 2 * hvd0` and `2 * hvd1 <= 9 * hvd0`, and 0 otherwise; `classIdx` is
`th[activity]` when the strength is 0 and
`th[activity] + 5 * (2 * (mainDirection & 1) + strength)` otherwise, so `classIdx mod 5`
is the base class `th[activity]`. -/
theorem classIdx_from_strength (activity sumV sumH sumD0 sumD1 : Int) :
    ((dirInfo sumV sumH sumD0 sumD1).hvd1
      = if toUInt32 (toUInt32 (max sumD0 sumD1) * toUInt32 (min sumV sumH))
          > toUInt32 (toUInt32 (max sumV sumH) * toUInt32 (min sumD0 sumD1))
        then max sumD0 sumD1 else max sumV sumH) ∧
    ((dirInfo sumV sumH sumD0 sumD1).hvd0
      = if toUInt32 (toUInt32 (max sumD0 sumD1) * toUInt32 (min sumV sumH))
          > toUInt32 (toUInt32 (max sumV sumH) * toUInt32 (min sumD0 sumD1))
        then min sumD0 sumD1 else min sumV sumH) ∧
    ((dirInfo sumV sumH sumD0 sumD1).mainDirection
      = if toUInt32 (toUInt32 (max sumD0 sumD1) * toUInt32 (min sumV sumH))
          > toUInt32 (toUInt32 (max sumV sumH) * toUInt32 (min sumD0 sumD1))
        then (if sumD0 > sumD1 then 0 else 2) else (if sumV > sumH then 1 else 3)) ∧
    ((dirInfo sumV sumH sumD0 sumD1).directionStrength = 2 ↔
      2 * (dirInfo sumV sumH sumD0 sumD1).hvd1 > 9 * (dirInfo sumV sumH sumD0 sumD1).hvd0) ∧
    ((dirInfo sumV sumH sumD0 sumD1).directionStrength = 1 ↔
      ((dirInfo sumV sumH sumD0 sumD1).hvd1 > 2 * (dirInfo sumV sumH sumD0 sumD1).hvd0 ∧
        2 * (dirInfo sumV sumH sumD0 sumD1).hvd1
          ≤ 9 * (dirInfo sumV sumH sumD0 sumD1).hvd0)) ∧
    ((dirInfo sumV sumH sumD0 sumD1).directionStrength = 0 ↔
      (¬ 2 * (dirInfo sumV sumH sumD0 sumD1).hvd1 > 9 * (dirInfo sumV sumH sumD0 sumD1).hvd0 ∧
        ¬ (dirInfo sumV sumH sumD0 sumD1).hvd1
          > 2 * (dirInfo sumV sumH sumD0 sumD1).hvd0)) ∧
    ((dirInfo sumV sumH sumD0 sumD1).directionStrength = 0 →
      (classOf activity sumV sumH sumD0 sumD1).1 = th.getD activity.toNat 0) ∧
    ((dirInfo sumV sumH sumD0 sumD1).directionStrength ≠ 0 →
      (classOf activity sumV sumH sumD0 sumD1).1
        = th.getD activity.toNat 0
          + 5 * (2 * bitAnd (dirInfo sumV sumH sumD0 sumD1).mainDirection 1
              + (dirInfo sumV sumH sumD0 sumD1).directionStrength)) ∧
    (classOf activity sumV sumH sumD0 sumD1).1 % 5 = th.getD activity.toNat 0 := by
  have m1 : (if sumV > sumH then sumV else sumH) = max sumV sumH := by
    split_ifs <;> omega
  have m2 : (if sumV > sumH then sumH else sumV) = min sumV sumH := by
    split_ifs <;> omega
  have m3 : (if sumD0 > sumD1 then sumD0 else sumD1) = max sumD0 sumD1 := by
    split_ifs <;> omega
  have m4 : (if sumD0 > sumD1 then sumD1 else sumD0) = min sumD0 sumD1 := by
    split_ifs <;> omega
  have f1 : (dirInfo sumV sumH sumD0 sumD1).hvd1
      = if toUInt32 (toUInt32 (max sumD0 sumD1) * toUInt32 (min sumV sumH))
          > toUInt32 (toUInt32 (max sumV sumH) * toUInt32 (min sumD0 sumD1))
        then max sumD0 sumD1 else max sumV sumH := by
    simp only [dirInfo, m1, m2, m3, m4]
  have f2 : (dirInfo sumV sumH sumD0 sumD1).hvd0
      = if toUInt32 (toUInt32 (max sumD0 sumD1) * toUInt32 (min sumV sumH))
          > toUInt32 (toUInt32 (max sumV sumH) * toUInt32 (min sumD0 sumD1))
        then min sumD0 sumD1 else min sumV sumH := by
    simp only [dirInfo, m1, m2, m3, m4]
  have f3 : (dirInfo sumV sumH sumD0 sumD1).mainDirection
      = if toUInt32 (toUInt32 (max sumD0 sumD1) * toUInt32 (min sumV sumH))
          > toUInt32 (toUInt32 (max sumV sumH) * toUInt32 (min sumD0 sumD1))
        then (if sumD0 > sumD1 then 0 else 2) else (if sumV > sumH then 1 else 3) := by
    simp only [dirInfo, m1, m2, m3, m4]
  refine ⟨f1, f2, f3, ?_⟩
  have hs := dirInfo_strength sumV sumH sumD0 sumD1
  have hc := classOf_fst activity sumV sumH sumD0 sumD1
  obtain ⟨t0, t1⟩ := th_range activity.toNat
  generalize (dirInfo sumV sumH sumD0 sumD1).directionStrength = ds at hs hc
  generalize (dirInfo sumV sumH sumD0 sumD1).hvd1 = a at hs
  generalize (dirInfo sumV sumH sumD0 sumD1).hvd0 = b at hs
  generalize (classOf activity sumV sumH sumD0 sumD1).1 = cls at hc
  generalize bitAnd (dirInfo sumV sumH sumD0 sumD1).mainDirection 1 = m at hc
  generalize th.getD activity.toNat 0 = t at hc t0 t1
  have hshl : shl m 1 = 2 * m := by
    unfold shl
    ring
  rw [hshl] at hc
  refine ⟨?_, ?_, ?_, ?_, ?_, ?_⟩
  · rw [hs]; split_ifs <;> omega
  · rw [hs]; split_ifs <;> omega
  · rw [hs]; split_ifs <;> omega
  · intro h
    rw [hc, if_neg (fun g => g h)]
  · intro h
    rw [hc, if_pos h]
    ring
  · rw [hc]
    split_ifs <;> omega

/-- C26. The transpose index `deriveClassificationBlk` assigns is
`(sumV > sumH ? 0 : 1) + (sumD0 > sumD1 ? 0 : 2)`, whichever family is chosen as main
direction, for all sums. -/
theorem transposeIdx_from_dominance (activity sumV sumH sumD0 sumD1 : Int) :
    (classOf activity sumV sumH sumD0 sumD1).2
      = (if sumV > sumH then 0 else 1) + (if sumD0 > sumD1 then 0 else 2) := by
  have e : (classOf activity sumV sumH sumD0 sumD1).2
      = transposeTable.getD (transposeTableIdx (dirInfo sumV sumH sumD0 sumD1)).toNat 0 := rfl
  rw [e]
  unfold transposeTableIdx
  rw [shr_eq_div]
  simp only [dirInfo]
  by_cases hd : toUInt32 (toUInt32 (if sumD0 > sumD1 then sumD0 else sumD1)
        * toUInt32 (if sumV > sumH then sumH else sumV))
        > toUInt32 (toUInt32 (if sumV > sumH then sumV else sumH)
        * toUInt32 (if sumD0 > sumD1 then sumD1 else sumD0))
  · simp only [hd, if_true]
    by_cases h1 : sumV > sumH <;> by_cases h2 : sumD0 > sumD1 <;>
      simp only [h1, h2, if_true, if_false] <;> decide
  · simp only [hd, if_false]
    by_cases h1 : sumV > sumH <;> by_cases h2 : sumD0 > sumD1 <;>
      simp only [h1, h2, if_true, if_false] <;> decide

/-- C24, witness: the sums `sumV = 10`, `sumH = 1`, `sumD0 = 3`, `sumD1 = 2` and the
activity 7, for which `th[7] = 3`: the products `3 * 1` and `10 * 2` choose the
horizontal/vertical family, so `hvd1 = 10`, `hvd0 = 1`, the main direction is 1, the
strength is 2 and the class index is `3 + 5 * (2 * 1 + 2) = 23`, which is 3 modulo 5. -/
theorem classIdx_from_strength_witness :
    (dirInfo 10 1 3 2).hvd1 = 10 ∧ (dirInfo 10 1 3 2).hvd0 = 1 ∧
    (dirInfo 10 1 3 2).mainDirection = 1 ∧ (dirInfo 10 1 3 2).directionStrength = 2 ∧
    (classOf 7 10 1 3 2).1 = 23 ∧ (classOf 7 10 1 3 2).1 % 5 = 3 := by
  obtain ⟨h1, h2, h3, h4, -, -, -, h8, h9⟩ := classIdx_from_strength 7 10 1 3 2
  have e1 : (dirInfo 10 1 3 2).hvd1 = 10 := h1.trans (by decide)
  have e2 : (dirInfo 10 1 3 2).hvd0 = 1 := h2.trans (by decide)
  have e3 : (dirInfo 10 1 3 2).mainDirection = 1 := h3.trans (by decide)
  have e4 : (dirInfo 10 1 3 2).directionStrength = 2 := h4.mpr (by rw [e1, e2]; decide)
  have e5 : (classOf 7 10 1 3 2).1 = 23 := by
    rw [h8 (by rw [e4]; decide), e3, e4]
    decide
  exact ⟨e1, e2, e3, e4, e5, h9.trans (by decide)⟩

theorem padRows_none_within (r : Int) : RowsWithin r 3 (padRows r false false false) := by
  simp only [RowsWithin, padRows, Bool.false_eq_true, if_false]
  refine ⟨trivial, ?_, ?_, ?_, ?_, ?_, ?_, ?_, ?_, ?_, ?_, ?_, ?_⟩ <;> omega

/-- Luma rows without top and bottom boundary: the rows read for the picture row `y` stay
on the side of the virtual boundary row on which `y` lies. -/
theorem rowPtrs_virtual_boundary (NB : Int) (k : Nat) (vbPos : Int) (b : BryPos) (y r : Int)
    (hbT : b.alfTopBryPos = NB) (hbB : b.alfBotBryPos = NB) :
    ∃ d, RowsWithin r d (rowPtrs NB false (2 ^ k) vbPos b y r) ∧ 0 ≤ d ∧
      (y % 2 ^ k < vbPos → y % 2 ^ k + d < vbPos) ∧
      (vbPos ≤ y % 2 ^ k → vbPos ≤ y % 2 ^ k - d) := by
  unfold rowPtrs
  simp only [Bool.false_eq_true, if_false, bitAnd_pow_two, hbT, hbB, ne_eq, not_true_eq_false,
    false_and]
  generalize y % 2 ^ k = yVb at *
  split_ifs
  · exact ⟨vbPos - 1 - yVb, padRows_within r _ (by omega) _ _ _ (by omega) (by omega)
      (by omega), by omega, fun _ => by omega, fun _ => by omega⟩
  · exact ⟨yVb - vbPos, padRows_within r _ (by omega) _ _ _ (by omega) (by omega)
      (by omega), by omega, fun _ => by omega, fun _ => by omega⟩
  · exact ⟨3, padRows_none_within r, by omega, fun _ => by omega, fun _ => by omega⟩

/-- C28. Luma `filterBlk` with no top and no bottom boundary flagged and
`vbCTUHeight = 2 ^ k`: for a pixel of the rectangle in picture row `y`, with
`yVb = y mod vbCTUHeight` and `V = y - yVb + vbPos` the virtual boundary row of its CTU,
the stored sample is the same for two sources that agree on all picture rows below `V`
when `yVb < vbPos`, and for two sources that agree on all picture rows from `V` on when
`yVb >= vbPos` (the picture row `y'` is the source row `y' - blkDst.y + blk.y`). -/
theorem filterBlk_never_reads_across_virtual_boundary (NB : Int) (filtType : AlfFilterType)
    (classifier : ClassMap) (recDst recSrc1 recSrc2 : PelUnitBuf) (blkDst blk : Area)
    (filterSet fClipSet : Nat → Int) (clpRng : ClpRng) (fmt : ChromaFormat)
    (alfBryList : Nat → Int) (k : Nat) (vbPos : Int)
    (hy : blk.y % 4 = 0) (hx : blk.x % 4 = 0) (hh : blk.height % 4 = 0)
    (hw : blk.width % 4 = 0)
    (hT : alfBryList 0 = NB) (hB : alfBryList 1 = NB) (y x : Int)
    (h1 : blkDst.y ≤ y) (h2 : y < blkDst.y + blk.height) (h3 : blkDst.x ≤ x)
    (h4 : x < blkDst.x + blk.width)
    (hagree : ∀ y' x', (y % 2 ^ k < vbPos → y' < y - y % 2 ^ k + vbPos) →
      (vbPos ≤ y % 2 ^ k → y - y % 2 ^ k + vbPos ≤ y') →
      recSrc1 ComponentID.COMPONENT_Y (y' - blkDst.y + blk.y) x'
        = recSrc2 ComponentID.COMPONENT_Y (y' - blkDst.y + blk.y) x') :
    ∃ out1 out2,
      filterBlk NB filtType classifier recDst recSrc1 blkDst blk ComponentID.COMPONENT_Y
        filterSet fClipSet clpRng fmt (2 ^ k) vbPos alfBryList = Except.ok out1 ∧
      filterBlk NB filtType classifier recDst recSrc2 blkDst blk ComponentID.COMPONENT_Y
        filterSet fClipSet clpRng fmt (2 ^ k) vbPos alfBryList = Except.ok out2 ∧
      out1 ComponentID.COMPONENT_Y y x = out2 ComponentID.COMPONENT_Y y x := by
  obtain ⟨out1, hout1, hin1, -, -⟩ := filterBlk_apply NB filtType classifier recDst recSrc1
    blkDst blk ComponentID.COMPONENT_Y filterSet fClipSet clpRng fmt (2 ^ k) vbPos
    alfBryList k rfl (by intro h; exact absurd h (by decide)) hy hx hh hw
  obtain ⟨out2, hout2, hin2, -, -⟩ := filterBlk_apply NB filtType classifier recDst recSrc2
    blkDst blk ComponentID.COMPONENT_Y filterSet fClipSet clpRng fmt (2 ^ k) vbPos
    alfBryList k rfl (by intro h; exact absurd h (by decide)) hy hx hh hw
  refine ⟨out1, out2, hout1, hout2, ?_⟩
  rw [hin1 y x h1 h2 h3 h4, hin2 y x h1 h2 h3 h4]
  have hchr : isChroma ComponentID.COMPONENT_Y = false := by decide
  rw [hchr]
  obtain ⟨bT, bB, -, -, -, -⟩ := bryPos_luma NB fmt (2 ^ k) vbPos alfBryList
  have e1 : blkDst.y + ↑((y - blkDst.y).toNat / 4 * 4) + ↑((y - blkDst.y).toNat % 4) = y := by
    omega
  have e3 : blk.y + ↑((y - blkDst.y).toNat / 4 * 4) + ↑((y - blkDst.y).toNat % 4)
      = y - blkDst.y + blk.y := by omega
  unfold filterVal filterPixel
  rw [e1, e3]
  obtain ⟨d, hd, hd0, hdA, hdB⟩ := rowPtrs_virtual_boundary NB k vbPos
    (bryPos NB false fmt (2 ^ k) vbPos alfBryList) y (y - blkDst.y + blk.y)
    (bT.trans hT) (bB.trans hB)
  have hrow : ∀ row x', y - blkDst.y + blk.y - d ≤ row → row ≤ y - blkDst.y + blk.y + d →
      recSrc1 ComponentID.COMPONENT_Y row x' = recSrc2 ComponentID.COMPONENT_Y row x' := by
    intro row x' g1 g2
    have := hagree (row - blk.y + blkDst.y) x' (fun h => by have := hdA h; omega)
      (fun h => by have := hdB h; omega)
    have e : row - blk.y + blkDst.y - blkDst.y + blk.y = row := by ring
    rw [e] at this
    exact this
  obtain ⟨r0, r1, r1', r2, r2', r3, r3', r4, r4', r5, r5', r6, r6'⟩ := hd
  simp only [pixelValue]
  rw [tapSum_congr filtType (recSrc1 ComponentID.COMPONENT_Y) (recSrc2 ComponentID.COMPONENT_Y)
    _ _ _ _ _ (fun x' => hrow _ x' (by omega) (by omega)) (fun x' => hrow _ x' r1 r1')
    (fun x' => hrow _ x' r2 r2') (fun x' => hrow _ x' r3 r3') (fun x' => hrow _ x' r4 r4')
    (fun x' => hrow _ x' r5 r5') (fun x' => hrow _ x' r6 r6'),
    hrow _ _ (by omega) (by omega)]

/-- C28, witness: CTU height 64 with the virtual boundary at row 60; the pixel (58, 3)
of the rectangle of rows 56..63; the two sources differ only from row 60 on. -/
theorem filterBlk_never_reads_across_virtual_boundary_witness :
    ∃ out1 out2,
      filterBlk (-128) AlfFilterType.ALF_FILTER_7 (fun _ _ => ⟨0, 0⟩) (fun _ _ _ => 0)
        (fun _ y x => if y < 60 then 3 * y + x else 0) ⟨0, 56, 8, 8⟩ ⟨0, 56, 8, 8⟩
        ComponentID.COMPONENT_Y (fun _ => 20) (fun _ => 1024) ⟨0, 1023⟩
        ChromaFormat.CHROMA_420 (2 ^ 6) 60 (fun _ => -128) = Except.ok out1 ∧
      filterBlk (-128) AlfFilterType.ALF_FILTER_7 (fun _ _ => ⟨0, 0⟩) (fun _ _ _ => 0)
        (fun _ y x => if y < 60 then 3 * y + x else 1023) ⟨0, 56, 8, 8⟩ ⟨0, 56, 8, 8⟩
        ComponentID.COMPONENT_Y (fun _ => 20) (fun _ => 1024) ⟨0, 1023⟩
        ChromaFormat.CHROMA_420 (2 ^ 6) 60 (fun _ => -128) = Except.ok out2 ∧
      out1 ComponentID.COMPONENT_Y 58 3 = out2 ComponentID.COMPONENT_Y 58 3 :=
  filterBlk_never_reads_across_virtual_boundary (-128) AlfFilterType.ALF_FILTER_7
    (fun _ _ => ⟨0, 0⟩) (fun _ _ _ => 0) (fun _ y x => if y < 60 then 3 * y + x else 0)
    (fun _ y x => if y < 60 then 3 * y + x else 1023) ⟨0, 56, 8, 8⟩ ⟨0, 56, 8, 8⟩
    (fun _ => 20) (fun _ => 1024) ⟨0, 1023⟩ ChromaFormat.CHROMA_420 (fun _ => -128) 6 60
    (by decide) (by decide) (by decide) (by decide) rfl rfl 58 3
    (by decide) (by decide) (by decide) (by decide)
    (by
      intro y' x' g1 _
      have h60 : y' < 60 := by
        have := g1 (by decide)
        norm_num at this
        exact this
      have e : y' - 56 + 56 = y' := by ring
      show (if y' - 56 + 56 < 60 then 3 * (y' - 56 + 56) + x' else (0 : Int))
        = (if y' - 56 + 56 < 60 then 3 * (y' - 56 + 56) + x' else (1023 : Int))
      rw [e, if_pos h60, if_pos h60])

/-! ## Columns read next to a left or right boundary -/

theorem padCols_within (d : Int) (hd : 0 ≤ d) (P1 P2 P3 : Prop) [Decidable P1]
    [Decidable P2] [Decidable P3] (h1 : P1 ↔ d = 0) (h2 : P2 ↔ d ≤ 1) (h3 : P3 ↔ d ≤ 2) :
    0 ≤ (padCols (decide P1) (decide P2) (decide P3)).idx1 ∧
    (padCols (decide P1) (decide P2) (decide P3)).idx1 ≤ d ∧
    0 ≤ (padCols (decide P1) (decide P2) (decide P3)).idx2 ∧
    (padCols (decide P1) (decide P2) (decide P3)).idx2 ≤ d ∧
    0 ≤ (padCols (decide P1) (decide P2) (decide P3)).idx3 ∧
    (padCols (decide P1) (decide P2) (decide P3)).idx3 ≤ d := by
  by_cases g1 : P1 <;> by_cases g2 : P2 <;> by_cases g3 : P3 <;>
    simp only [padCols, g1, g2, g3, decide_True, decide_False, if_true,
      Bool.false_eq_true, if_false] <;>
    simp only [g1, g2, g3, true_iff, false_iff] at h1 h2 h3 <;>
    refine ⟨?_, ?_, ?_, ?_, ?_, ?_⟩ <;> omega

/-- Luma columns: the column offsets of the pixel in picture column `x`, which lies
between the flagged left and right boundaries, do not reach across them. -/
theorem colIdx_within (NB : Int) (b : BryPos) (x L R : Int)
    (hbL : b.alfLeftBryPos = L) (hbR : b.alfRightBryPos = R)
    (hL : L ≠ NB → L ≤ x) (hR : R ≠ NB → x < R) (hLR : L ≠ NB → R ≠ NB → L + 5 ≤ R) :
    ∃ d, 0 ≤ d ∧
      0 ≤ (colIdx NB false b x).idx1 ∧ (colIdx NB false b x).idx1 ≤ d ∧
      0 ≤ (colIdx NB false b x).idx2 ∧ (colIdx NB false b x).idx2 ≤ d ∧
      0 ≤ (colIdx NB false b x).idx3 ∧ (colIdx NB false b x).idx3 ≤ d ∧
      (L ≠ NB → L ≤ x - d) ∧ (R ≠ NB → x + d < R) := by
  have hL' : L = NB ∨ L ≤ x := by
    by_cases h : L = NB
    · exact Or.inl h
    · exact Or.inr (hL h)
  have hR' : R = NB ∨ x < R := by
    by_cases h : R = NB
    · exact Or.inl h
    · exact Or.inr (hR h)
  have hLR' : L = NB ∨ R = NB ∨ L + 5 ≤ R := by
    by_cases h : L = NB
    · exact Or.inl h
    · by_cases g : R = NB
      · exact Or.inr (Or.inl g)
      · exact Or.inr (Or.inr (hLR h g))
  clear hL hR hLR
  unfold colIdx
  simp only [Bool.false_eq_true, if_false, hbL, hbR]
  split_ifs with c1 c2
  · obtain ⟨a1, a2, a3, a4, a5, a6⟩ := padCols_within (x - L) (by omega) (x = L) (x ≤ L + 1)
      (x ≤ L + 2) (by omega) (by omega) (by omega)
    exact ⟨x - L, by omega, a1, a2, a3, a4, a5, a6, fun _ => by omega, fun _ => by omega⟩
  · obtain ⟨a1, a2, a3, a4, a5, a6⟩ := padCols_within (R - 1 - x) (by omega) (x = R - 1)
      (x ≥ R - 2) (x ≥ R - 3) (by omega) (by omega) (by omega)
    exact ⟨R - 1 - x, by omega, a1, a2, a3, a4, a5, a6, fun _ => by omega, fun _ => by omega⟩
  · refine ⟨3, by omega, ?_, ?_, ?_, ?_, ?_, ?_, fun _ => by omega, fun _ => by omega⟩ <;>
      simp [padCols]

theorem tapSum_congr_cols (filtType : AlfFilterType) (src1 src2 : Plane) (fC fQ : List Int)
    (p : RowPtrs) (c d : Int) (ix : ColIdx)
    (i1 : 0 ≤ ix.idx1) (i1' : ix.idx1 ≤ d) (i2 : 0 ≤ ix.idx2) (i2' : ix.idx2 ≤ d)
    (i3 : 0 ≤ ix.idx3) (i3' : ix.idx3 ≤ d)
    (h : ∀ row x, c - d ≤ x → x ≤ c + d → src1 row x = src2 row x) :
    tapSum filtType src1 fC fQ p c ix = tapSum filtType src2 fC fQ p c ix := by
  cases filtType <;> simp (disch := omega) only [tapSum, h]

/-- C29. Luma `filterBlk` with a left boundary `L = alfBryList[2]` and/or a right boundary
`R = alfBryList[3]` (`R - L >= 5`, in particular `R - L >= 8`, when both are set): if
two source planes agree on all picture columns between the flagged boundaries (columns
`x` with `L <= x` when the left one is set, `x < R` when the right one is set; the
picture column `x` is the source column `x - blkDst.x + blk.x`), then both calls
succeed and store the same sample at every pixel of the rectangle in those columns. -/
theorem filterBlk_never_reads_across_columns (NB : Int) (filtType : AlfFilterType)
    (classifier : ClassMap) (recDst recSrc1 recSrc2 : PelUnitBuf) (blkDst blk : Area)
    (filterSet fClipSet : Nat → Int) (clpRng : ClpRng) (fmt : ChromaFormat)
    (alfBryList : Nat → Int) (k : Nat) (vbPos : Int)
    (hy : blk.y % 4 = 0) (hx : blk.x % 4 = 0) (hh : blk.height % 4 = 0)
    (hw : blk.width % 4 = 0)
    (hLR : alfBryList 2 ≠ NB → alfBryList 3 ≠ NB → alfBryList 2 + 5 ≤ alfBryList 3)
    (hagree : ∀ y x, (alfBryList 2 ≠ NB → alfBryList 2 ≤ x) →
      (alfBryList 3 ≠ NB → x < alfBryList 3) →
      recSrc1 ComponentID.COMPONENT_Y y (x - blkDst.x + blk.x)
        = recSrc2 ComponentID.COMPONENT_Y y (x - blkDst.x + blk.x)) :
    ∃ out1 out2,
      filterBlk NB filtType classifier recDst recSrc1 blkDst blk ComponentID.COMPONENT_Y
        filterSet fClipSet clpRng fmt (2 ^ k) vbPos alfBryList = Except.ok out1 ∧
      filterBlk NB filtType classifier recDst recSrc2 blkDst blk ComponentID.COMPONENT_Y
        filterSet fClipSet clpRng fmt (2 ^ k) vbPos alfBryList = Except.ok out2 ∧
      ∀ y x, blkDst.y ≤ y → y < blkDst.y + blk.height → blkDst.x ≤ x →
        x < blkDst.x + blk.width → (alfBryList 2 ≠ NB → alfBryList 2 ≤ x) →
        (alfBryList 3 ≠ NB → x < alfBryList 3) →
        out1 ComponentID.COMPONENT_Y y x = out2 ComponentID.COMPONENT_Y y x := by
  obtain ⟨out1, hout1, hin1, -, -⟩ := filterBlk_apply NB filtType classifier recDst recSrc1
    blkDst blk ComponentID.COMPONENT_Y filterSet fClipSet clpRng fmt (2 ^ k) vbPos
    alfBryList k rfl (by intro h; exact absurd h (by decide)) hy hx hh hw
  obtain ⟨out2, hout2, hin2, -, -⟩ := filterBlk_apply NB filtType classifier recDst recSrc2
    blkDst blk ComponentID.COMPONENT_Y filterSet fClipSet clpRng fmt (2 ^ k) vbPos
    alfBryList k rfl (by intro h; exact absurd h (by decide)) hy hx hh hw
  refine ⟨out1, out2, hout1, hout2, ?_⟩
  intro y x h1 h2 h3 h4 hxL hxR
  rw [hin1 y x h1 h2 h3 h4, hin2 y x h1 h2 h3 h4]
  have hchr : isChroma ComponentID.COMPONENT_Y = false := by decide
  rw [hchr]
  obtain ⟨-, -, bL, bR, -, -⟩ := bryPos_luma NB fmt (2 ^ k) vbPos alfBryList
  have e2 : blkDst.x + ↑((x - blkDst.x).toNat / 4 * 4) + ↑((x - blkDst.x).toNat % 4) = x := by
    omega
  have e4 : blk.x + ↑((x - blkDst.x).toNat / 4 * 4) + ↑((x - blkDst.x).toNat % 4)
      = x - blkDst.x + blk.x := by omega
  unfold filterVal filterPixel
  rw [e2, e4]
  obtain ⟨d, hd0, a1, a2, a3, a4, a5, a6, hdL, hdR⟩ := colIdx_within NB
    (bryPos NB false fmt (2 ^ k) vbPos alfBryList) x (alfBryList 2) (alfBryList 3) bL bR
    hxL hxR hLR
  have hcol : ∀ row x', x - blkDst.x + blk.x - d ≤ x' → x' ≤ x - blkDst.x + blk.x + d →
      recSrc1 ComponentID.COMPONENT_Y row x' = recSrc2 ComponentID.COMPONENT_Y row x' := by
    intro row x' g1 g2
    have := hagree row (x' - blk.x + blkDst.x) (fun h => by have := hdL h; omega)
      (fun h => by have := hdR h; omega)
    have e : x' - blk.x + blkDst.x - blkDst.x + blk.x = x' := by ring
    rw [e] at this
    exact this
  simp only [pixelValue]
  rw [tapSum_congr_cols filtType (recSrc1 ComponentID.COMPONENT_Y)
    (recSrc2 ComponentID.COMPONENT_Y) _ _ _ _ d _ a1 a2 a3 a4 a5 a6 hcol,
    hcol _ _ (by omega) (by omega)]

/-- C29, witness: an 8x8 rectangle at column 64 with the left boundary at column 64 and
the right boundary at column 128; the two sources differ only left of column 64. -/
theorem filterBlk_never_reads_across_columns_witness :
    ∃ out1 out2,
      filterBlk (-128) AlfFilterType.ALF_FILTER_7 (fun _ _ => ⟨0, 0⟩) (fun _ _ _ => 0)
        (fun _ y x => if x < 64 then 0 else 3 * y + x) ⟨64, 0, 8, 8⟩ ⟨64, 0, 8, 8⟩
        ComponentID.COMPONENT_Y (fun _ => 20) (fun _ => 1024) ⟨0, 1023⟩
        ChromaFormat.CHROMA_420 (2 ^ 6) 60 (mkBryList (-128) (-128) 64 128)
        = Except.ok out1 ∧
      filterBlk (-128) AlfFilterType.ALF_FILTER_7 (fun _ _ => ⟨0, 0⟩) (fun _ _ _ => 0)
        (fun _ y x => if x < 64 then 1023 else 3 * y + x) ⟨64, 0, 8, 8⟩ ⟨64, 0, 8, 8⟩
        ComponentID.COMPONENT_Y (fun _ => 20) (fun _ => 1024) ⟨0, 1023⟩
        ChromaFormat.CHROMA_420 (2 ^ 6) 60 (mkBryList (-128) (-128) 64 128)
        = Except.ok out2 ∧
      ∀ y x, (0 : Int) ≤ y → y < (0 : Int) + (8 : Nat) → (64 : Int) ≤ x →
        x < (64 : Int) + (8 : Nat) →
        (mkBryList (-128) (-128) 64 128 2 ≠ -128 → mkBryList (-128) (-128) 64 128 2 ≤ x) →
        (mkBryList (-128) (-128) 64 128 3 ≠ -128 → x < mkBryList (-128) (-128) 64 128 3) →
        out1 ComponentID.COMPONENT_Y y x = out2 ComponentID.COMPONENT_Y y x :=
  filterBlk_never_reads_across_columns (-128) AlfFilterType.ALF_FILTER_7 (fun _ _ => ⟨0, 0⟩)
    (fun _ _ _ => 0) (fun _ y x => if x < 64 then 0 else 3 * y + x)
    (fun _ y x => if x < 64 then 1023 else 3 * y + x) ⟨64, 0, 8, 8⟩ ⟨64, 0, 8, 8⟩
    (fun _ => 20) (fun _ => 1024) ⟨0, 1023⟩ ChromaFormat.CHROMA_420
    (mkBryList (-128) (-128) 64 128) 6 60 (by decide) (by decide) (by decide) (by decide)
    (fun _ _ => by decide)
    (by
      intro y x h1 _
      have h64 : (64 : Int) ≤ x := h1 (by decide)
      have e : x - 64 + 64 = x := by ring
      show (if x - 64 + 64 < 64 then (0 : Int) else 3 * y + (x - 64 + 64))
        = (if x - 64 + 64 < 64 then (1023 : Int) else 3 * y + (x - 64 + 64))
      rw [e, if_neg (by omega), if_neg (by omega)])

/-! ## Closed form of the first pass of the classifier -/

theorem lapRowEntry_raw (blkDst : Area) (alfBryList : Nat → Int) (cell : Nat → Int)
    (n k : Nat) (h : ¬ (k % 2 = 0 ∧ k + 3 < n)) :
    lapRowEntry blkDst alfBryList cell n k = cell k := by
  unfold lapRowEntry
  rw [if_neg h]

theorem lapRowEntry_succ (blkDst : Area) (alfBryList : Nat → Int) (cell : Nat → Int)
    (n k : Nat) (h : ¬ (k % 2 = 0 ∧ k + 3 = n)) :
    lapRowEntry blkDst alfBryList cell (n + 1) k = lapRowEntry blkDst alfBryList cell n k := by
  unfold lapRowEntry
  by_cases c : k % 2 = 0 ∧ k + 3 < n
  · have c' : k % 2 = 0 ∧ k + 3 < n + 1 := ⟨c.1, by omega⟩
    rw [if_pos c, if_pos c']
  · have c' : ¬ (k % 2 = 0 ∧ k + 3 < n + 1) := by
      rintro ⟨g1, g2⟩
      by_cases e : k + 3 = n
      · exact h ⟨g1, e⟩
      · exact c ⟨g1, by omega⟩
    rw [if_neg c, if_neg c']

/-- One step of the inner loop of the first pass keeps the closed form of the row. -/
theorem lapStep_closed (src : Plane) (blkDst blk : Area) (vbCTUHeight vbPos : Int)
    (alfBryList : Nat → Int) (i m : Nat) (lap : Laplacian)
    (hprev : ∀ d k, k < m → lap d i (k * 2)
      = lapRowEntry blkDst alfBryList
          (fun q => lapCellAt src blkDst blk vbCTUHeight vbPos i (q * 2) d) m k) :
    ∀ d k, k < m + 1 →
      lapStep src blkDst blk vbCTUHeight vbPos alfBryList i (m * 2) lap d i (k * 2)
        = lapRowEntry blkDst alfBryList
            (fun q => lapCellAt src blkDst blk vbCTUHeight vbPos i (q * 2) d) (m + 1) k := by
  have h1 : ∀ d k, k < m + 1 →
      setLap lap i (m * 2) (lapCellAt src blkDst blk vbCTUHeight vbPos i (m * 2)) d i (k * 2)
        = if k = m then lapCellAt src blkDst blk vbCTUHeight vbPos i (m * 2) d
          else lapRowEntry blkDst alfBryList
            (fun q => lapCellAt src blkDst blk vbCTUHeight vbPos i (q * 2) d) m k := by
    intro d k hk
    rw [setLap_apply]
    by_cases h : k = m
    · rw [if_pos ⟨rfl, by rw [h]⟩, if_pos h]
    · have hne : ¬ (i = i ∧ k * 2 = m * 2) := by
        rintro ⟨-, g⟩
        exact h (by omega)
      rw [if_neg hne, if_neg h]
      exact hprev d k (by omega)
  intro d k hk
  unfold lapStep
  dsimp only
  generalize setLap lap i (m * 2) (lapCellAt src blkDst blk vbCTUHeight vbPos i (m * 2)) = L1
    at h1 ⊢
  by_cases c1 : m * 2 > 4 ∧ cRem (((m * 2 : Nat) : Int) - 6) 4 = 0
  · rw [if_pos c1]
    have hm3 : 3 ≤ m := by omega
    have hodd : m % 2 = 1 := by
      have := (cRem_four_eq_zero_iff _).mp c1.2
      omega
    by_cases hk3 : k + 3 = m
    · subst hk3
      have hkk : (k + 3) * 2 - 6 = k * 2 := by omega
      have e4 : (k + 3) * 2 - 4 = (k + 1) * 2 := by omega
      have e2 : (k + 3) * 2 - 2 = (k + 2) * 2 := by omega
      have hk0 : k % 2 = 0 := by omega
      have v0 : L1 d i (k * 2) = lapCellAt src blkDst blk vbCTUHeight vbPos i (k * 2) d := by
        rw [h1 d k (by omega), if_neg (by omega), lapRowEntry_raw _ _ _ _ _ (by omega)]
      have v1 : L1 d i ((k + 1) * 2)
          = lapCellAt src blkDst blk vbCTUHeight vbPos i ((k + 1) * 2) d := by
        rw [h1 d (k + 1) (by omega), if_neg (by omega), lapRowEntry_raw _ _ _ _ _ (by omega)]
      have v2 : L1 d i ((k + 2) * 2)
          = lapCellAt src blkDst blk vbCTUHeight vbPos i ((k + 2) * 2) d := by
        rw [h1 d (k + 2) (by omega), if_neg (by omega), lapRowEntry_raw _ _ _ _ _ (by omega)]
      have v3 : L1 d i ((k + 3) * 2)
          = lapCellAt src blkDst blk vbCTUHeight vbPos i ((k + 3) * 2) d := by
        rw [h1 d (k + 3) (by omega), if_pos rfl]
      have hc : k % 2 = 0 ∧ k + 3 < k + 3 + 1 := ⟨hk0, by omega⟩
      unfold lapRowEntry
      rw [if_pos hc]
      dsimp only
      split_ifs with c2 c3
      · rw [setLap_apply, if_pos ⟨rfl, hkk.symm⟩, hkk, e4, e2, v0, v1, v2]
      · rw [setLap_apply, if_pos ⟨rfl, hkk.symm⟩, e4, e2, v1, v2, v3]
      · rw [setLap_apply, if_pos ⟨rfl, hkk.symm⟩, hkk, e4, e2, v0, v1, v2, v3]
    · have hne : ¬ (i = i ∧ k * 2 = m * 2 - 6) := by
        rintro ⟨-, g⟩
        exact hk3 (by omega)
      have hfin : L1 d i (k * 2) = lapRowEntry blkDst alfBryList
          (fun q => lapCellAt src blkDst blk vbCTUHeight vbPos i (q * 2) d) (m + 1) k := by
        rw [h1 d k hk]
        by_cases hkm : k = m
        · rw [if_pos hkm, lapRowEntry_raw _ _ _ _ _ (by omega), hkm]
        · rw [if_neg hkm, lapRowEntry_succ _ _ _ _ _ (fun g => hk3 g.2)]
      split_ifs <;> rw [setLap_apply, if_neg hne] <;> exact hfin
  · rw [if_neg c1]
    rw [h1 d k hk]
    by_cases hkm : k = m
    · rw [if_pos hkm, lapRowEntry_raw _ _ _ _ _ (by omega), hkm]
    · rw [if_neg hkm, lapRowEntry_succ]
      rintro ⟨g1, g2⟩
      apply c1
      refine ⟨by omega, (cRem_four_eq_zero_iff _).mpr ?_⟩
      omega

theorem lapRow_closed (src : Plane) (blkDst blk : Area) (vbCTUHeight vbPos : Int)
    (alfBryList : Nat → Int) (i n : Nat) (lap : Laplacian) :
    (∀ d k, k < n → loopN n (fun m lap =>
        lapStep src blkDst blk vbCTUHeight vbPos alfBryList i (m * 2) lap) lap d i (k * 2)
      = lapRowEntry blkDst alfBryList
          (fun q => lapCellAt src blkDst blk vbCTUHeight vbPos i (q * 2) d) n k) ∧
    (∀ d i' j', i' ≠ i → loopN n (fun m lap =>
        lapStep src blkDst blk vbCTUHeight vbPos alfBryList i (m * 2) lap) lap d i' j'
      = lap d i' j') := by
  induction n with
  | zero =>
    exact ⟨fun d k hk => absurd hk (by omega), fun _ _ _ _ => rfl⟩
  | succ n ih =>
    obtain ⟨ih1, ih2⟩ := ih
    constructor
    · intro d k hk
      exact lapStep_closed src blkDst blk vbCTUHeight vbPos alfBryList i n _ ih1 d k hk
    · intro d i' j' hne
      show lapStep src blkDst blk vbCTUHeight vbPos alfBryList i (n * 2) _ d i' j' = _
      rw [lapStep_frame _ _ _ _ _ _ _ _ _ _ _ _ hne]
      exact ih2 d i' j' hne

theorem lapPass_closed_aux (src : Plane) (blkDst blk : Area) (vbCTUHeight vbPos : Int)
    (alfBryList : Nat → Int) (nw nh : Nat) (lap : Laplacian) :
    ∀ d a k, a < nh → k < nw →
      loopN nh (fun a lap => loopN nw (fun m lap =>
        lapStep src blkDst blk vbCTUHeight vbPos alfBryList (a * 2) (m * 2) lap) lap) lap
        d (a * 2) (k * 2)
      = lapRowEntry blkDst alfBryList
          (fun q => lapCellAt src blkDst blk vbCTUHeight vbPos (a * 2) (q * 2) d) nw k := by
  induction nh with
  | zero => intro d a k ha; omega
  | succ nh ih =>
    intro d a k ha hk
    obtain ⟨r1, r2⟩ := lapRow_closed src blkDst blk vbCTUHeight vbPos alfBryList (nh * 2) nw
      (loopN nh (fun a lap => loopN nw (fun m lap =>
        lapStep src blkDst blk vbCTUHeight vbPos alfBryList (a * 2) (m * 2) lap) lap) lap)
    show loopN nw (fun m lap =>
        lapStep src blkDst blk vbCTUHeight vbPos alfBryList (nh * 2) (m * 2) lap) _ d (a * 2)
        (k * 2) = _
    by_cases hq : a = nh
    · subst hq
      exact r1 d k hk
    · rw [r2 d (a * 2) (k * 2) (by omega)]
      exact ih d a k (by omega) hk

/-- Closed form of the scratch buffer after the first pass, at the even rows and columns
the pass visits. -/
theorem lapPass_closed (src : Plane) (blkDst blk : Area) (vbCTUHeight vbPos : Int)
    (alfBryList : Nat → Int) (lap : Laplacian) (d : Direction) (i j : Nat)
    (hi : i % 2 = 0) (hj : j % 2 = 0) (hi' : i < blk.height + 4) (hj' : j < blk.width + 4) :
    lapPass src blkDst blk vbCTUHeight vbPos alfBryList lap d i j
      = lapRowEntry blkDst alfBryList
          (fun q => lapCellAt src blkDst blk vbCTUHeight vbPos i (q * 2) d)
          ((blk.width + 4 + 2 - 1) / 2) (j / 2) := by
  have := lapPass_closed_aux src blkDst blk vbCTUHeight vbPos alfBryList
    ((blk.width + 4 + 2 - 1) / 2) ((blk.height + 4 + 2 - 1) / 2) lap
    d (i / 2) (j / 2) (by omega) (by omega)
  have ei : i / 2 * 2 = i := by omega
  have ej : j / 2 * 2 = j := by omega
  rw [ei, ej] at this
  exact this

/-- The scratch entries the second pass reads for a block depend on the source only
through the magnitudes of their row. -/
theorem lapPass_congr (src1 src2 : Plane) (blkDst blk : Area) (vbCTUHeight vbPos : Int)
    (alfBryList : Nat → Int) (lap1 lap2 : Laplacian) (d : Direction) (i j : Nat)
    (hi : i % 2 = 0) (hj : j % 2 = 0) (hi' : i < blk.height + 4) (hj' : j < blk.width + 4)
    (h : ∀ q, lapCellAt src1 blkDst blk vbCTUHeight vbPos i q d
      = lapCellAt src2 blkDst blk vbCTUHeight vbPos i q d) :
    lapPass src1 blkDst blk vbCTUHeight vbPos alfBryList lap1 d i j
      = lapPass src2 blkDst blk vbCTUHeight vbPos alfBryList lap2 d i j := by
  rw [lapPass_closed _ _ _ _ _ _ _ _ _ _ hi hj hi' hj',
    lapPass_closed _ _ _ _ _ _ _ _ _ _ hi hj hi' hj']
  congr 1
  funext q
  exact h _

/-! ## The classifier next to the virtual boundary -/

theorem lapCell_congr (src1 src2 : Plane) (r0 r1 r2 r3 c : Int) (d : Direction)
    (h0 : ∀ x, src1 r0 x = src2 r0 x) (h1 : ∀ x, src1 r1 x = src2 r1 x)
    (h2 : ∀ x, src1 r2 x = src2 r2 x) (h3 : ∀ x, src1 r3 x = src2 r3 x) :
    lapCell src1 r0 r1 r2 r3 c d = lapCell src2 r0 r1 r2 r3 c d := by
  unfold lapCell
  simp only [h0, h1, h2, h3]

/-- The source rows of a scratch row: the rows `ys - 1 .. ys + 2` around the source row
`ys` of the picture row `y = blkDst.y - 2 + i`, without the row `ys + 2` when `y` is the
row `vbPos - 2` of its CTU and without the row `ys - 1` when it is the row `vbPos`. -/
theorem lapRows_span (blkDst blk : Area) (k : Nat) (vbPos : Int) (i : Nat) (lo hi : Int)
    (hlo : lo ≤ blk.y + i - 2) (hhi : blk.y + i - 2 + 1 ≤ hi)
    (hlo' : lo ≤ blk.y + i - 2 - 1 ∨
      (blkDst.y - 2 + i > 0 ∧ (blkDst.y - 2 + i) % 2 ^ k = vbPos))
    (hhi' : blk.y + i - 2 + 2 ≤ hi ∨
      (blkDst.y - 2 + i > 0 ∧ (blkDst.y - 2 + i) % 2 ^ k = vbPos - 2)) :
    (lo ≤ (lapRows blkDst blk (2 ^ k) vbPos i).1 ∧
      (lapRows blkDst blk (2 ^ k) vbPos i).1 ≤ hi) ∧
    (lo ≤ (lapRows blkDst blk (2 ^ k) vbPos i).2.1 ∧
      (lapRows blkDst blk (2 ^ k) vbPos i).2.1 ≤ hi) ∧
    (lo ≤ (lapRows blkDst blk (2 ^ k) vbPos i).2.2.1 ∧
      (lapRows blkDst blk (2 ^ k) vbPos i).2.2.1 ≤ hi) ∧
    (lo ≤ (lapRows blkDst blk (2 ^ k) vbPos i).2.2.2 ∧
      (lapRows blkDst blk (2 ^ k) vbPos i).2.2.2 ≤ hi) := by
  unfold lapRows
  simp only [bitAnd_pow_two]
  generalize (blkDst.y - 2 + ↑i) % 2 ^ k = m at *
  split_ifs with c1 c2 <;> dsimp only <;>
    refine ⟨⟨?_, ?_⟩, ⟨?_, ?_⟩, ⟨?_, ?_⟩, ⟨?_, ?_⟩⟩ <;> omega

theorem lapCellAt_congr (src1 src2 : Plane) (blkDst blk : Area) (k : Nat) (vbPos : Int)
    (i : Nat) (lo hi : Int)
    (hlo : lo ≤ blk.y + i - 2) (hhi : blk.y + i - 2 + 1 ≤ hi)
    (hlo' : lo ≤ blk.y + i - 2 - 1 ∨
      (blkDst.y - 2 + i > 0 ∧ (blkDst.y - 2 + i) % 2 ^ k = vbPos))
    (hhi' : blk.y + i - 2 + 2 ≤ hi ∨
      (blkDst.y - 2 + i > 0 ∧ (blkDst.y - 2 + i) % 2 ^ k = vbPos - 2))
    (h : ∀ r x, lo ≤ r → r ≤ hi → src1 r x = src2 r x) (q : Nat) (d : Direction) :
    lapCellAt src1 blkDst blk (2 ^ k) vbPos i q d
      = lapCellAt src2 blkDst blk (2 ^ k) vbPos i q d := by
  obtain ⟨⟨a0, a0'⟩, ⟨a1, a1'⟩, ⟨a2, a2'⟩, ⟨a3, a3'⟩⟩ :=
    lapRows_span blkDst blk k vbPos i lo hi hlo hhi hlo' hhi'
  unfold lapCellAt
  exact lapCell_congr src1 src2 _ _ _ _ _ d (fun x => h _ x a0 a0') (fun x => h _ x a1 a1')
    (fun x => h _ x a2 a2') (fun x => h _ x a3 a3')

theorem emod_add_small (a H c : Int) (h0 : 0 ≤ a % H + c) (h1 : a % H + c < H) :
    (a + c) % H = a % H + c := by
  have e : a + c = a % H + c + H * (a / H) := by
    have := Int.emod_add_ediv a H
    omega
  rw [e, Int.add_mul_emod_self_left]
  exact Int.emod_eq_of_lt h0 h1

theorem cRem_of_nonneg (a b : Int) (ha : 0 ≤ a) (hb : 0 ≤ b) : cRem a b = a % b := by
  unfold cRem
  exact Int.tmod_eq_emod ha hb

theorem emod_four_of_pow (a : Int) (k : Nat) (hk : 2 ≤ k) : (a % 2 ^ k) % 4 = a % 4 := by
  have hd : (4 : Int) ∣ 2 ^ k := by
    have e : (2 : Int) ^ k = 4 * 2 ^ (k - 2) := by
      have : k = 2 + (k - 2) := by omega
      rw [this, pow_add]
      norm_num
    exact ⟨2 ^ (k - 2), e⟩
  exact Int.emod_emod_of_dvd a hd

/-- The map `deriveClassificationBlk` returns, in terms of the scratch buffer of its
first pass. -/
theorem deriveClassificationBlk_blocks_lap (NB : Int) (classifier : ClassMap)
    (laplacian : Laplacian) (srcLuma : Plane) (blkDst blk : Area) (shift : Nat)
    (vbCTUHeight vbPos : Int) (alfBryList : Nat → Int) (k : Nat)
    (hvb : vbCTUHeight = 2 ^ k) (hh : blk.height % 4 = 0) (hw : blk.width % 4 = 0) :
    ∃ out, deriveClassificationBlk NB classifier laplacian srcLuma blkDst blk shift
        vbCTUHeight vbPos alfBryList = Except.ok out ∧
      ∀ dy dx : Nat, dy < blk.height → dx < blk.width →
        out.1 (blkDst.y + dy) (blkDst.x + dx)
          = blockClassifier NB
              (lapPass srcLuma blkDst blk vbCTUHeight vbPos alfBryList laplacian) blkDst shift
              vbCTUHeight vbPos alfBryList (dy / 4 * 4) (dx / 4 * 4) := by
  refine ⟨_, deriveClassificationBlk_ok NB classifier laplacian srcLuma blkDst blk shift
    vbCTUHeight vbPos alfBryList k hvb, ?_⟩
  intro dy dx hdy hdx
  have := (classPass_spec NB (lapPass srcLuma blkDst blk vbCTUHeight vbPos alfBryList laplacian)
    blkDst blk shift vbCTUHeight vbPos alfBryList classifier (blkDst.y + dy) (blkDst.x + dx)).1
  rw [round_up_four _ hh, round_up_four _ hw] at this
  have e1 : (blkDst.y + (dy : Int) - blkDst.y).toNat = dy := by omega
  have e2 : (blkDst.x + (dx : Int) - blkDst.x).toNat = dx := by omega
  rw [e1, e2] at this
  exact this ⟨by omega, by omega, by omega, by omega⟩

/-- The rows of the scratch buffer added up for a block when no top and no bottom
boundary is flagged. -/
theorem verRows_unflagged (NB : Int) (blkDst : Area) (vbCTUHeight vbPos : Int)
    (alfBryList : Nat → Int) (i : Nat) (hT : alfBryList 0 = NB) (hB : alfBryList 1 = NB) :
    verRows NB blkDst vbCTUHeight vbPos alfBryList i
    = if cRem (i + blkDst.y) vbCTUHeight = vbPos - 4 then ((true, true, true, false), 6)
      else if cRem (i + blkDst.y) vbCTUHeight = vbPos then ((false, true, true, true), 6)
      else ((true, true, true, true), 8) := by
  unfold verRows atTopBry
  have h1 : ¬ (alfBryList 0 ≠ NB ∧ ↑i + blkDst.y = alfBryList 0) := fun g => g.1 hT
  have h2 : ¬ (alfBryList 1 ≠ NB ∧ ↑i + blkDst.y = alfBryList 1 - 4) := fun g => g.1 hB
  rw [if_neg h1, if_neg h2]

theorem blockClassifier_congr (NB : Int) (lap1 lap2 : Laplacian) (blkDst : Area) (shift : Nat)
    (vbCTUHeight vbPos : Int) (alfBryList : Nat → Int) (i j : Nat)
    (h : ∀ d, blockSum lap1 (verRows NB blkDst vbCTUHeight vbPos alfBryList i).1 i j d
      = blockSum lap2 (verRows NB blkDst vbCTUHeight vbPos alfBryList i).1 i j d) :
    blockClassifier NB lap1 blkDst shift vbCTUHeight vbPos alfBryList i j
      = blockClassifier NB lap2 blkDst shift vbCTUHeight vbPos alfBryList i j := by
  simp only [blockClassifier, h]

theorem lapPass_row_agree (src1 src2 : Plane) (blkDst blk : Area) (k : Nat) (vbPos : Int)
    (alfBryList : Nat → Int) (lap1 lap2 : Laplacian) (i j : Nat) (lo hi : Int)
    (hi2 : i % 2 = 0) (hj2 : j % 2 = 0) (hib : i < blk.height + 4) (hjb : j < blk.width + 4)
    (hlo : lo ≤ blk.y + i - 2) (hhi : blk.y + i - 2 + 1 ≤ hi)
    (hlo' : lo ≤ blk.y + i - 2 - 1 ∨
      (blkDst.y - 2 + i > 0 ∧ (blkDst.y - 2 + i) % 2 ^ k = vbPos))
    (hhi' : blk.y + i - 2 + 2 ≤ hi ∨
      (blkDst.y - 2 + i > 0 ∧ (blkDst.y - 2 + i) % 2 ^ k = vbPos - 2))
    (h : ∀ r x, lo ≤ r → r ≤ hi → src1 r x = src2 r x) (d : Direction) :
    lapPass src1 blkDst blk (2 ^ k) vbPos alfBryList lap1 d i j
      = lapPass src2 blkDst blk (2 ^ k) vbPos alfBryList lap2 d i j :=
  lapPass_congr src1 src2 blkDst blk (2 ^ k) vbPos alfBryList lap1 lap2 d i j hi2 hj2 hib hjb
    (fun q => lapCellAt_congr src1 src2 blkDst blk k vbPos i lo hi hlo hhi hlo' hhi' h q d)

theorem pow_two_ge_eight (k : Nat) (hk : 3 ≤ k) : (8 : Int) ≤ 2 ^ k := by
  have h : (2 : Int) ^ 3 ≤ 2 ^ k := pow_le_pow_right₀ (by norm_num) hk
  norm_num at h
  exact h

/-- The sums of a block above the virtual boundary row do not depend on the rows from
that row on, the sums of a block at the virtual boundary row do not depend on the rows
above it. -/
theorem blockSum_virtual_boundary (NB : Int) (lap1 lap2 : Laplacian) (src1 src2 : Plane)
    (blkDst blk : Area) (alfBryList : Nat → Int) (k : Nat) (hk : 3 ≤ k)
    (hT : alfBryList 0 = NB) (hB : alfBryList 1 = NB)
    (hy0 : 0 ≤ blkDst.y) (hy4 : blkDst.y % 4 = 0)
    (hh : blk.height % 4 = 0) (hw : blk.width % 4 = 0)
    (i j : Nat) (hi : i % 4 = 0) (hi' : i < blk.height) (hj : j % 4 = 0) (hj' : j < blk.width)
    (hagree : ∀ y' x',
      ((blkDst.y + i) % 2 ^ k < 2 ^ k - 4 →
        y' < blkDst.y + i - (blkDst.y + i) % 2 ^ k + (2 ^ k - 4)) →
      (2 ^ k - 4 ≤ (blkDst.y + i) % 2 ^ k →
        blkDst.y + i - (blkDst.y + i) % 2 ^ k + (2 ^ k - 4) ≤ y') →
      src1 (y' - blkDst.y + blk.y) x' = src2 (y' - blkDst.y + blk.y) x')
    (d : Direction) :
    blockSum (lapPass src1 blkDst blk (2 ^ k) (2 ^ k - 4) alfBryList lap1)
        (verRows NB blkDst (2 ^ k) (2 ^ k - 4) alfBryList i).1 i j d
      = blockSum (lapPass src2 blkDst blk (2 ^ k) (2 ^ k - 4) alfBryList lap2)
        (verRows NB blkDst (2 ^ k) (2 ^ k - 4) alfBryList i).1 i j d := by
  have hH8 := pow_two_ge_eight k hk
  have hpos : (0 : Int) < 2 ^ k := by omega
  have hH4 : (2 : Int) ^ k % 4 = 0 := by
    have := emod_four_of_pow (2 ^ k) k (by omega)
    rw [Int.emod_self] at this
    omega
  have hyb0 : 0 ≤ (blkDst.y + i) % 2 ^ k := Int.emod_nonneg _ (ne_of_gt hpos)
  have hyb1 : (blkDst.y + i) % 2 ^ k < 2 ^ k := Int.emod_lt_of_pos _ hpos
  have hyb4 : ((blkDst.y + i) % 2 ^ k) % 4 = 0 := by
    rw [emod_four_of_pow _ k (by omega)]
    omega
  have hc : cRem (↑i + blkDst.y) (2 ^ k) = (blkDst.y + i) % 2 ^ k := by
    rw [cRem_of_nonneg _ _ (by omega) (by omega), add_comm]
  rw [verRows_unflagged NB blkDst _ _ alfBryList i hT hB, hc]
  have hpar : ∀ m : Nat, (i + m * 2) % 2 = 0 := fun m => by omega
  by_cases hab : (blkDst.y + i) % 2 ^ k < 2 ^ k - 4
  · -- the block lies above the virtual boundary row
    have hsrc : ∀ r x, blk.y + i - 3 ≤ r →
        r ≤ i - (blkDst.y + i) % 2 ^ k + (2 ^ k - 4) - 1 + blk.y → src1 r x = src2 r x := by
      intro r x _ g2
      have := hagree (r - blk.y + blkDst.y) x (fun _ => by omega) (fun g => by omega)
      have e : r - blk.y + blkDst.y - blkDst.y + blk.y = r := by ring
      rw [e] at this
      exact this
    have row0 := lapPass_row_agree src1 src2 blkDst blk k (2 ^ k - 4) alfBryList lap1 lap2
      i j _ _ (by omega) (by omega) (by omega) (by omega) (by omega) (by omega)
      (Or.inl (by omega)) (Or.inl (by omega)) hsrc d
    have row2 := lapPass_row_agree src1 src2 blkDst blk k (2 ^ k - 4) alfBryList lap1 lap2
      (i + 2) j _ _ (by omega) (by omega) (by omega) (by omega) (by omega) (by omega)
      (Or.inl (by omega)) (Or.inl (by omega)) hsrc d
    by_cases h8 : (blkDst.y + i) % 2 ^ k = 2 ^ k - 4 - 4
    · have e : blkDst.y - 2 + ((i + 4 : Nat) : Int) = blkDst.y + i + 2 := by
        push_cast; ring
      have hm : (blkDst.y - 2 + ((i + 4 : Nat) : Int)) % 2 ^ k = 2 ^ k - 4 - 2 := by
        rw [e, emod_add_small _ _ 2 (by omega) (by omega)]
        omega
      have row4 := lapPass_row_agree src1 src2 blkDst blk k (2 ^ k - 4) alfBryList lap1 lap2
        (i + 4) j _ _ (by omega) (by omega) (by omega) (by omega) (by omega) (by omega)
        (Or.inl (by omega)) (Or.inr ⟨by omega, hm⟩) hsrc d
      rw [if_pos h8]
      simp only [blockSum, row0, row2, row4]
    · have h12 : (blkDst.y + i) % 2 ^ k ≤ 2 ^ k - 4 - 8 := by omega
      have row4 := lapPass_row_agree src1 src2 blkDst blk k (2 ^ k - 4) alfBryList lap1 lap2
        (i + 4) j _ _ (by omega) (by omega) (by omega) (by omega) (by omega) (by omega)
        (Or.inl (by omega)) (Or.inl (by omega)) hsrc d
      have row6 := lapPass_row_agree src1 src2 blkDst blk k (2 ^ k - 4) alfBryList lap1 lap2
        (i + 6) j _ _ (by omega) (by omega) (by omega) (by omega) (by omega) (by omega)
        (Or.inl (by omega)) (Or.inl (by omega)) hsrc d
      rw [if_neg h8, if_neg (by omega)]
      simp only [blockSum, row0, row2, row4, row6]
  · -- the block lies at the virtual boundary row
    have hvb : (blkDst.y + i) % 2 ^ k = 2 ^ k - 4 := by omega
    have hsrc : ∀ r x, blk.y + i ≤ r → r ≤ blk.y + i + 10 → src1 r x = src2 r x := by
      intro r x g1 _
      have := hagree (r - blk.y + blkDst.y) x (fun g => by omega) (fun _ => by omega)
      have e : r - blk.y + blkDst.y - blkDst.y + blk.y = r := by ring
      rw [e] at this
      exact this
    have hy0pos : 0 < blkDst.y + i := by
      by_contra hneg
      have hz : blkDst.y + (i : Int) = 0 := by omega
      rw [hz] at hvb
      simp at hvb
      omega
    have e : blkDst.y - 2 + ((i + 2 : Nat) : Int) = blkDst.y + i := by
      push_cast; ring
    have hm : (blkDst.y - 2 + ((i + 2 : Nat) : Int)) % 2 ^ k = 2 ^ k - 4 := by
      rw [e, hvb]
    have row2 := lapPass_row_agree src1 src2 blkDst blk k (2 ^ k - 4) alfBryList lap1 lap2
      (i + 2) j _ _ (by omega) (by omega) (by omega) (by omega) (by omega) (by omega)
      (Or.inr ⟨by omega, hm⟩) (Or.inl (by omega)) hsrc d
    have row4 := lapPass_row_agree src1 src2 blkDst blk k (2 ^ k - 4) alfBryList lap1 lap2
      (i + 4) j _ _ (by omega) (by omega) (by omega) (by omega) (by omega) (by omega)
      (Or.inl (by omega)) (Or.inl (by omega)) hsrc d
    have row6 := lapPass_row_agree src1 src2 blkDst blk k (2 ^ k - 4) alfBryList lap1 lap2
      (i + 6) j _ _ (by omega) (by omega) (by omega) (by omega) (by omega) (by omega)
      (Or.inl (by omega)) (Or.inl (by omega)) hsrc d
    rw [if_neg (by omega), if_pos hvb]
    simp only [blockSum, row2, row4, row6]

/-- C30. The classifier entries (class index, transpose index) that
`deriveClassificationBlk` writes for a 4x4 block do not depend on a luma sample on the
other side of the virtual boundary row of the block's CTU: with no top and no bottom
boundary flagged, `vbCTUHeight = 2 ^ k` at least 8, `vbPos = 2 ^ k - 4` and the destination
origin a non-negative multiple of 4, two source planes that agree on the block's side of
the row `V = y0 - y0 % 2 ^ k + (2 ^ k - 4)` (the rows `< V` for a block above it, the rows
`≥ V` for a block at or below it), `y0 = blkDst.y + i` the block's top row, give the same
entries on all 16 positions of the block, whatever the previous classifier maps and
scratch buffers are. -/
theorem deriveClassificationBlk_never_reads_across_virtual_boundary (NB : Int)
    (classifier1 classifier2 : ClassMap) (laplacian1 laplacian2 : Laplacian)
    (src1 src2 : Plane) (blkDst blk : Area) (shift : Nat) (alfBryList : Nat → Int) (k : Nat)
    (hk : 3 ≤ k) (hT : alfBryList 0 = NB) (hB : alfBryList 1 = NB)
    (hy0 : 0 ≤ blkDst.y) (hy4 : blkDst.y % 4 = 0)
    (hh : blk.height % 4 = 0) (hw : blk.width % 4 = 0)
    (i j : Nat) (hi : i % 4 = 0) (hi' : i < blk.height) (hj : j % 4 = 0) (hj' : j < blk.width)
    (hagree : ∀ y' x',
      ((blkDst.y + i) % 2 ^ k < 2 ^ k - 4 →
        y' < blkDst.y + i - (blkDst.y + i) % 2 ^ k + (2 ^ k - 4)) →
      (2 ^ k - 4 ≤ (blkDst.y + i) % 2 ^ k →
        blkDst.y + i - (blkDst.y + i) % 2 ^ k + (2 ^ k - 4) ≤ y') →
      src1 (y' - blkDst.y + blk.y) x' = src2 (y' - blkDst.y + blk.y) x') :
    ∃ out1 out2,
      deriveClassificationBlk NB classifier1 laplacian1 src1 blkDst blk shift (2 ^ k)
        (2 ^ k - 4) alfBryList = Except.ok out1 ∧
      deriveClassificationBlk NB classifier2 laplacian2 src2 blkDst blk shift (2 ^ k)
        (2 ^ k - 4) alfBryList = Except.ok out2 ∧
      ∀ ii jj : Nat, ii < 4 → jj < 4 →
        out1.1 (blkDst.y + i + ii) (blkDst.x + j + jj)
          = out2.1 (blkDst.y + i + ii) (blkDst.x + j + jj) := by
  obtain ⟨out1, h1, g1⟩ := deriveClassificationBlk_blocks_lap NB classifier1 laplacian1 src1
    blkDst blk shift (2 ^ k) (2 ^ k - 4) alfBryList k rfl hh hw
  obtain ⟨out2, h2, g2⟩ := deriveClassificationBlk_blocks_lap NB classifier2 laplacian2 src2
    blkDst blk shift (2 ^ k) (2 ^ k - 4) alfBryList k rfl hh hw
  refine ⟨out1, out2, h1, h2, ?_⟩
  intro ii jj hii hjj
  have a1 := g1 (i + ii) (j + jj) (by omega) (by omega)
  have a2 := g2 (i + ii) (j + jj) (by omega) (by omega)
  have ei : (i + ii) / 4 * 4 = i := by omega
  have ej : (j + jj) / 4 * 4 = j := by omega
  have py : blkDst.y + ((i + ii : Nat) : Int) = blkDst.y + i + ii := by push_cast; ring
  have px : blkDst.x + ((j + jj : Nat) : Int) = blkDst.x + j + jj := by push_cast; ring
  rw [ei, ej, py, px] at a1 a2
  rw [a1, a2]
  exact blockClassifier_congr NB _ _ blkDst shift _ _ alfBryList i j
    (fun d => blockSum_virtual_boundary NB laplacian1 laplacian2 src1 src2 blkDst blk
      alfBryList k hk hT hB hy0 hy4 hh hw i j hi hi' hj hj' hagree d)

/-- C30, witness: CTU height 8 with the virtual boundary at row 4; the block of rows
0..3 of an 8x8 rectangle at the origin; the two sources differ only from row 4 on. -/
theorem deriveClassificationBlk_never_reads_across_virtual_boundary_witness :
    ∃ out1 out2,
      deriveClassificationBlk (-128) (fun _ _ => ⟨0, 0⟩) (fun _ _ _ => 0)
        (fun y x => if y < 4 then 3 * y + x else 0) ⟨0, 0, 8, 8⟩ ⟨0, 0, 8, 8⟩ 8 (2 ^ 3)
        (2 ^ 3 - 4) (fun _ => -128) = Except.ok out1 ∧
      deriveClassificationBlk (-128) (fun _ _ => ⟨0, 0⟩) (fun _ _ _ => 0)
        (fun y x => if y < 4 then 3 * y + x else 1023) ⟨0, 0, 8, 8⟩ ⟨0, 0, 8, 8⟩ 8 (2 ^ 3)
        (2 ^ 3 - 4) (fun _ => -128) = Except.ok out2 ∧
      ∀ ii jj : Nat, ii < 4 → jj < 4 →
        out1.1 ((0 : Int) + (0 : Nat) + ii) ((0 : Int) + (4 : Nat) + jj)
          = out2.1 ((0 : Int) + (0 : Nat) + ii) ((0 : Int) + (4 : Nat) + jj) :=
  deriveClassificationBlk_never_reads_across_virtual_boundary (-128) (fun _ _ => ⟨0, 0⟩)
    (fun _ _ => ⟨0, 0⟩) (fun _ _ _ => 0) (fun _ _ _ => 0)
    (fun y x => if y < 4 then 3 * y + x else 0) (fun y x => if y < 4 then 3 * y + x else 1023)
    ⟨0, 0, 8, 8⟩ ⟨0, 0, 8, 8⟩ 8 (fun _ => -128) 3
    (by decide) rfl rfl (by decide) (by decide) (by decide) (by decide) 0 4
    (by decide) (by decide) (by decide) (by decide)
    (by
      intro y' x' g1 _
      have h4 : y' < 4 := by
        have := g1 (by decide)
        norm_num at this
        exact this
      have e : y' - 0 + 0 = y' := by ring
      show (if y' - 0 + 0 < 4 then 3 * (y' - 0 + 0) + x' else (0 : Int))
        = (if y' - 0 + 0 < 4 then 3 * (y' - 0 + 0) + x' else (1023 : Int))
      rw [e, if_pos h4, if_pos h4])

/-! ## The sums of a block away from every boundary -/

theorem lapRows_plain (blkDst blk : Area) (k : Nat) (vbPos : Int) (i : Nat)
    (h1 : ¬ (blkDst.y - 2 + i > 0 ∧ (blkDst.y - 2 + i) % 2 ^ k = vbPos - 2))
    (h2 : ¬ (blkDst.y - 2 + i > 0 ∧ (blkDst.y - 2 + i) % 2 ^ k = vbPos)) :
    lapRows blkDst blk (2 ^ k) vbPos i
      = (blk.y + i - 2 - 1, blk.y + i - 2, blk.y + i - 2 + 1, blk.y + i - 2 + 2) := by
  unfold lapRows
  simp only [bitAnd_pow_two]
  rw [if_neg h1, if_neg h2]
  simp only [Prod.mk.injEq]
  refine ⟨?_, ?_, ?_, ?_⟩ <;> ring

theorem emod_shift (y c H e : Int) (h : y % H = c) : (y + e) % H = (c + e) % H := by
  rw [← h, Int.emod_add_emod]

/-- No row of the window of a block is replaced in the first pass when the block is not
at the offset `vbPos - 4` or `vbPos` of its CTU. -/
theorem window_rows_plain (blkDst : Area) (k : Nat) (hk : 2 ≤ k) (vbPos : Int) (i : Nat)
    (hy4 : blkDst.y % 4 = 0) (hi : i % 4 = 0) (hvb4 : vbPos % 4 = 0)
    (hv1 : (blkDst.y + i) % 2 ^ k ≠ (vbPos - 4) % 2 ^ k)
    (hv2 : (blkDst.y + i) % 2 ^ k ≠ vbPos % 2 ^ k) (m : Nat) (hm : m < 4) :
    ¬ (blkDst.y - 2 + ((i + 2 * m : Nat) : Int) > 0 ∧
        (blkDst.y - 2 + ((i + 2 * m : Nat) : Int)) % 2 ^ k = vbPos - 2) ∧
    ¬ (blkDst.y - 2 + ((i + 2 * m : Nat) : Int) > 0 ∧
        (blkDst.y - 2 + ((i + 2 * m : Nat) : Int)) % 2 ^ k = vbPos) := by
  have four : ∀ y c : Int, y % 2 ^ k = c → y % 4 = c % 4 := by
    intro y c h
    rw [← h, emod_four_of_pow _ k hk]
  have e : blkDst.y - 2 + ((i + 2 * m : Nat) : Int) = blkDst.y + i + (2 * m - 2) := by
    push_cast; ring
  rw [e]
  constructor
  · rintro ⟨-, g⟩
    have g4 := four _ _ g
    have gs := emod_shift _ _ _ (2 - 2 * (m : Int)) g
    have e1 : blkDst.y + i + (2 * (m : Int) - 2) + (2 - 2 * m) = blkDst.y + i := by ring
    rw [e1] at gs
    interval_cases m
    · exact hv2 (by rw [gs]; congr 1; all_goals (push_cast; ring))
    · omega
    · exact hv1 (by rw [gs]; congr 1; all_goals (push_cast; ring))
    · omega
  · rintro ⟨-, g⟩
    have g4 := four _ _ g
    have gs := emod_shift _ _ _ (2 - 2 * (m : Int)) g
    have e1 : blkDst.y + i + (2 * (m : Int) - 2) + (2 - 2 * m) = blkDst.y + i := by ring
    rw [e1] at gs
    interval_cases m
    · omega
    · exact hv2 (by rw [gs]; congr 1; all_goals (push_cast; ring))
    · omega
    · exact hv1 (by rw [gs]; congr 1)

/-- The magnitudes stored for a scratch position whose rows are not replaced. -/
theorem lapCellAt_plain (src : Plane) (blkDst blk : Area) (k : Nat) (vbPos : Int) (i j : Nat)
    (d : Direction)
    (h1 : ¬ (blkDst.y - 2 + i > 0 ∧ (blkDst.y - 2 + i) % 2 ^ k = vbPos - 2))
    (h2 : ¬ (blkDst.y - 2 + i > 0 ∧ (blkDst.y - 2 + i) % 2 ^ k = vbPos)) :
    lapCellAt src blkDst blk (2 ^ k) vbPos i j d
      = lapCell src (blk.y + i - 2 - 1) (blk.y + i - 2) (blk.y + i - 2 + 1) (blk.y + i - 2 + 2)
          (blk.x + j - 2) d := by
  unfold lapCellAt
  rw [lapRows_plain blkDst blk k vbPos i h1 h2]
  have e : (j : Int) + 1 + blk.x - 3 = blk.x + j - 2 := by ring
  dsimp only
  rw [e]

/-- The entry the first pass leaves at the first column of a block that touches neither
the left nor the right boundary: the sum of the four magnitudes of its row. -/
theorem lapPass_plain_entry (src : Plane) (blkDst blk : Area) (vbCTUHeight vbPos : Int)
    (alfBryList : Nat → Int) (lap : Laplacian) (d : Direction) (i j : Nat)
    (hi : i % 2 = 0) (hi' : i < blk.height + 4) (hw : blk.width % 4 = 0)
    (hj : j % 4 = 0) (hj' : j < blk.width)
    (hL : blkDst.x + j ≠ alfBryList 2) (hR : blkDst.x + j + 4 ≠ alfBryList 3) :
    lapPass src blkDst blk vbCTUHeight vbPos alfBryList lap d i j
      = lapCellAt src blkDst blk vbCTUHeight vbPos i j d
        + (lapCellAt src blkDst blk vbCTUHeight vbPos i (j + 2) d
          + lapCellAt src blkDst blk vbCTUHeight vbPos i (j + 4) d
          + lapCellAt src blkDst blk vbCTUHeight vbPos i (j + 6) d) := by
  rw [lapPass_closed src blkDst blk vbCTUHeight vbPos alfBryList lap d i j hi (by omega) hi'
    (by omega)]
  unfold lapRowEntry
  have c : j / 2 % 2 = 0 ∧ j / 2 + 3 < (blk.width + 4 + 2 - 1) / 2 := by omega
  have cR : ¬ (blkDst.x + (((j / 2 + 3) * 2 : Nat) : Int) - 2 > 0 ∧
      blkDst.x + (((j / 2 + 3) * 2 : Nat) : Int) - 2 = alfBryList 3) := by
    rintro ⟨-, g⟩
    have : (((j / 2 + 3) * 2 : Nat) : Int) = j + 6 := by omega
    rw [this] at g
    exact hR (by omega)
  have cL : ¬ (blkDst.x + (((j / 2 + 3) * 2 - 6 : Nat) : Int) > 0 ∧
      blkDst.x + (((j / 2 + 3) * 2 - 6 : Nat) : Int) = alfBryList 2) := by
    rintro ⟨-, g⟩
    have : (((j / 2 + 3) * 2 - 6 : Nat) : Int) = j := by omega
    rw [this] at g
    exact hL g
  rw [if_pos c]
  dsimp only
  rw [if_neg cR, if_neg cL]
  have e0 : j / 2 * 2 = j := by omega
  have e1 : (j / 2 + 1) * 2 = j + 2 := by omega
  have e2 : (j / 2 + 2) * 2 = j + 4 := by omega
  have e3 : (j / 2 + 3) * 2 = j + 6 := by omega
  rw [e0, e1, e2, e3]

/-- The rows added up for a block that touches neither the top nor the bottom boundary
and is not at the offset `vbPos - 4` or `vbPos` of its CTU: all four. -/
theorem verRows_plain (NB : Int) (blkDst : Area) (k : Nat) (vbPos : Int)
    (alfBryList : Nat → Int) (i : Nat) (hy0 : 0 ≤ blkDst.y)
    (hT : blkDst.y + i ≠ alfBryList 0) (hB : blkDst.y + i + 4 ≠ alfBryList 1)
    (hv1 : (blkDst.y + i) % 2 ^ k ≠ (vbPos - 4) % 2 ^ k)
    (hv2 : (blkDst.y + i) % 2 ^ k ≠ vbPos % 2 ^ k) :
    verRows NB blkDst (2 ^ k) vbPos alfBryList i = ((true, true, true, true), 8) := by
  have hpos : (0 : Int) < 2 ^ k := by positivity
  have hc : cRem (↑i + blkDst.y) (2 ^ k) = (blkDst.y + i) % 2 ^ k := by
    rw [cRem_of_nonneg _ _ (by omega) (by omega), add_comm]
  unfold verRows atTopBry
  have c1 : ¬ (alfBryList 0 ≠ NB ∧ ↑i + blkDst.y = alfBryList 0) :=
    fun g => hT (by omega)
  have c2 : ¬ (alfBryList 1 ≠ NB ∧ ↑i + blkDst.y = alfBryList 1 - 4) :=
    fun g => hB (by omega)
  have c3 : ¬ (blkDst.y + i) % 2 ^ k = vbPos - 4 := by
    intro g
    apply hv1
    rw [← g, Int.emod_emod_of_dvd _ (dvd_refl _)]
  have c4 : ¬ (blkDst.y + i) % 2 ^ k = vbPos := by
    intro g
    apply hv2
    rw [← g, Int.emod_emod_of_dvd _ (dvd_refl _)]
  rw [if_neg c1, if_neg c2, hc, if_neg c3, if_neg c4]

/-- The sums of a block away from every boundary, in terms of the magnitudes the first
pass computes: the sixteen cells of the 8x8 window, none of its rows replaced. -/
theorem blockSum_plain (NB : Int) (src : Plane) (blkDst blk : Area) (k : Nat) (hk : 2 ≤ k)
    (vbPos : Int) (alfBryList : Nat → Int) (lap : Laplacian) (d : Direction) (i j : Nat)
    (hy0 : 0 ≤ blkDst.y) (hy4 : blkDst.y % 4 = 0) (hvb4 : vbPos % 4 = 0)
    (hh : blk.height % 4 = 0) (hw : blk.width % 4 = 0)
    (hi : i % 4 = 0) (hi' : i < blk.height) (hj : j % 4 = 0) (hj' : j < blk.width)
    (hT : blkDst.y + i ≠ alfBryList 0) (hB : blkDst.y + i + 4 ≠ alfBryList 1)
    (hL : blkDst.x + j ≠ alfBryList 2) (hR : blkDst.x + j + 4 ≠ alfBryList 3)
    (hv1 : (blkDst.y + i) % 2 ^ k ≠ (vbPos - 4) % 2 ^ k)
    (hv2 : (blkDst.y + i) % 2 ^ k ≠ vbPos % 2 ^ k) :
    blockSum (lapPass src blkDst blk (2 ^ k) vbPos alfBryList lap)
        (verRows NB blkDst (2 ^ k) vbPos alfBryList i).1 i j d
      = Finset.sum (Finset.range 4) (fun m =>
          Finset.sum (Finset.range 4) (fun n =>
            lapCell src (blk.y + i - 2 + 2 * (m : Int) - 1) (blk.y + i - 2 + 2 * (m : Int))
              (blk.y + i - 2 + 2 * (m : Int) + 1) (blk.y + i - 2 + 2 * (m : Int) + 2)
              (blk.x + j - 2 + 2 * (n : Int)) d)) := by
  rw [verRows_plain NB blkDst k vbPos alfBryList i hy0 hT hB hv1 hv2]
  have w := window_rows_plain blkDst k hk vbPos i hy4 hi hvb4 hv1 hv2
  have row : ∀ m : Nat, m < 4 →
      lapPass src blkDst blk (2 ^ k) vbPos alfBryList lap d (i + 2 * m) j
        = Finset.sum (Finset.range 4) (fun n =>
            lapCell src (blk.y + i - 2 + 2 * (m : Int) - 1) (blk.y + i - 2 + 2 * (m : Int))
              (blk.y + i - 2 + 2 * (m : Int) + 1) (blk.y + i - 2 + 2 * (m : Int) + 2)
              (blk.x + j - 2 + 2 * (n : Int)) d) := by
    intro m hm
    obtain ⟨h1, h2⟩ := w m hm
    rw [lapPass_plain_entry src blkDst blk (2 ^ k) vbPos alfBryList lap d (i + 2 * m) j
      (by omega) (by omega) hw hj hj' hL hR]
    rw [lapCellAt_plain src blkDst blk k vbPos (i + 2 * m) j d h1 h2,
      lapCellAt_plain src blkDst blk k vbPos (i + 2 * m) (j + 2) d h1 h2,
      lapCellAt_plain src blkDst blk k vbPos (i + 2 * m) (j + 4) d h1 h2,
      lapCellAt_plain src blkDst blk k vbPos (i + 2 * m) (j + 6) d h1 h2]
    simp only [Finset.sum_range_succ, Finset.sum_range_zero]
    have ey : blk.y + ((i + 2 * m : Nat) : Int) - 2 = blk.y + i - 2 + 2 * (m : Int) := by
      push_cast; ring
    have x0 : blk.x + (j : Int) - 2 = blk.x + j - 2 + 2 * ((0 : Nat) : Int) := by
      push_cast; ring
    have x1 : blk.x + ((j + 2 : Nat) : Int) - 2 = blk.x + j - 2 + 2 * ((1 : Nat) : Int) := by
      push_cast; ring
    have x2 : blk.x + ((j + 4 : Nat) : Int) - 2 = blk.x + j - 2 + 2 * ((2 : Nat) : Int) := by
      push_cast; ring
    have x3 : blk.x + ((j + 6 : Nat) : Int) - 2 = blk.x + j - 2 + 2 * ((3 : Nat) : Int) := by
      push_cast; ring
    rw [ey, x0, x1, x2, x3]
    ring_nf
  have r0 := row 0 (by omega)
  have r1 := row 1 (by omega)
  have r2 := row 2 (by omega)
  have r3 := row 3 (by omega)
  rw [Finset.sum_range_succ, Finset.sum_range_succ, Finset.sum_range_succ,
    Finset.sum_range_succ, Finset.sum_range_zero, ← r0, ← r1, ← r2, ← r3]
  show lapPass src blkDst blk (2 ^ k) vbPos alfBryList lap d i j
      + lapPass src blkDst blk (2 ^ k) vbPos alfBryList lap d (i + 2) j
      + lapPass src blkDst blk (2 ^ k) vbPos alfBryList lap d (i + 4) j
      + lapPass src blkDst blk (2 ^ k) vbPos alfBryList lap d (i + 6) j = _
  ring_nf

/-- The magnitude the first pass computes equals the one of the specification when the
two doubled samples fit the 16-bit `Pel`. -/
theorem lapCell_eq_specCell (src : Plane) (x y : Int) (d : Direction)
    (h0 : -16384 ≤ src y x ∧ src y x < 16384)
    (h1 : -16384 ≤ src (y + 1) (x + 1) ∧ src (y + 1) (x + 1) < 16384) :
    lapCell src (y - 1) y (y + 1) (y + 2) x d = specCell src d x y := by
  have e0 : toPel (shl (src y x) 1) = 2 * src y x := by
    unfold shl
    rw [toPel_of_small _ (by omega) (by omega)]
    ring
  have e1 : toPel (shl (src (y + 1) (x + 1)) 1) = 2 * src (y + 1) (x + 1) := by
    unfold shl
    rw [toPel_of_small _ (by omega) (by omega)]
    ring
  unfold lapCell specCell
  cases d <;> simp only [e0, e1]

/-- C27, counterexample: on a flat picture of sample value 16384 the doubled sample
does not fit the 16-bit `Pel` it is stored in, and the sum `sumV` of an interior block is
2097152 where the naive sum of the 16 cells is 0. -/
theorem naive_sum_fails_for_large_samples :
    blockSum (lapPass (fun _ _ => 16384) ⟨4, 4, 4, 4⟩ ⟨4, 4, 4, 4⟩ (2 ^ 4) 12 (fun _ => -128)
        (fun _ _ _ => 0))
      (verRows (-128) ⟨4, 4, 4, 4⟩ (2 ^ 4) 12 (fun _ => -128) 0).1 0 0 Direction.VER = 2097152 ∧
    specBlockSum (fun _ _ => 16384) Direction.VER 4 4 = 0 := by
  constructor
  · rw [blockSum_plain (-128) (fun _ _ => 16384) ⟨4, 4, 4, 4⟩ ⟨4, 4, 4, 4⟩ 4 (by decide) 12
      (fun _ => -128) (fun _ _ _ => 0) Direction.VER 0 0 (by decide) (by decide) (by decide)
      (by decide) (by decide) (by decide) (by decide) (by decide) (by decide) (by decide)
      (by decide) (by decide) (by decide) (by decide) (by decide)]
    have e : toPel (shl 16384 1) = -32768 := by
      unfold toPel shl
      norm_num
    simp only [lapCell, e, Finset.sum_range_succ, Finset.sum_range_zero]
    norm_num
  · simp only [specBlockSum, specCell, Finset.sum_range_succ, Finset.sum_range_zero]
    norm_num

/-- C27. For a 4x4 block at the offset `(i, j)` of the rectangle, with top-left luma
position `(x0, y0) = (blkDst.x + j, blkDst.y + i)`, that touches no hard boundary (its
edges `y0`, `y0 + 4`, `x0`, `x0 + 4` are not the top, bottom, left, right entry of
`alfBryList`), that is not at the offset `vbPos - 4` or `vbPos` of its CTU (offsets taken
modulo `vbCTUHeight = 2 ^ k`, `vbPos` a multiple of 4) and whose 8x8 window holds only
samples `p` with `-2^14 ≤ p < 2^14`, each of the four sums that the two passes of
`deriveClassificationBlk` accumulate in place for the block is the naive sum of the 16
two-sample Laplacian cells of the window: `Σ m n < 4, specCell (x - 2 + 2 n) (y - 2 + 2 m)`
with `(x, y)` the block's position in the source plane. -/
theorem blockSum_eq_naive_sum (NB : Int) (src : Plane) (blkDst blk : Area) (k : Nat)
    (hk : 2 ≤ k) (vbPos : Int) (alfBryList : Nat → Int) (lap : Laplacian) (d : Direction)
    (i j : Nat) (hy0 : 0 ≤ blkDst.y) (hy4 : blkDst.y % 4 = 0) (hvb4 : vbPos % 4 = 0)
    (hh : blk.height % 4 = 0) (hw : blk.width % 4 = 0)
    (hi : i % 4 = 0) (hi' : i < blk.height) (hj : j % 4 = 0) (hj' : j < blk.width)
    (hT : blkDst.y + i ≠ alfBryList 0) (hB : blkDst.y + i + 4 ≠ alfBryList 1)
    (hL : blkDst.x + j ≠ alfBryList 2) (hR : blkDst.x + j + 4 ≠ alfBryList 3)
    (hv1 : (blkDst.y + i) % 2 ^ k ≠ (vbPos - 4) % 2 ^ k)
    (hv2 : (blkDst.y + i) % 2 ^ k ≠ vbPos % 2 ^ k)
    (hrange : ∀ y x, blk.y + i - 2 ≤ y → y ≤ blk.y + i + 5 → blk.x + j - 2 ≤ x →
      x ≤ blk.x + j + 5 → -16384 ≤ src y x ∧ src y x < 16384) :
    blockSum (lapPass src blkDst blk (2 ^ k) vbPos alfBryList lap)
        (verRows NB blkDst (2 ^ k) vbPos alfBryList i).1 i j d
      = specBlockSum src d (blk.x + j) (blk.y + i) := by
  rw [blockSum_plain NB src blkDst blk k hk vbPos alfBryList lap d i j hy0 hy4 hvb4 hh hw
    hi hi' hj hj' hT hB hL hR hv1 hv2]
  unfold specBlockSum
  refine Finset.sum_congr rfl (fun m hm => Finset.sum_congr rfl (fun n hn => ?_))
  have hm' : m < 4 := Finset.mem_range.mp hm
  have hn' : n < 4 := Finset.mem_range.mp hn
  exact lapCell_eq_specCell src _ _ d
    (hrange _ _ (by omega) (by omega) (by omega) (by omega))
    (hrange _ _ (by omega) (by omega) (by omega) (by omega))

/-- C27, witness: the block at the origin of the rectangle of size 8x8 at (4, 4), CTU
height 16 with the virtual boundary at row 12, no boundary flagged, on the plane
`p(x, y) = 3 y + x` cut to the range 0..1023. -/
theorem blockSum_eq_naive_sum_witness :
    blockSum (lapPass (fun y x => max 0 (min 1023 (3 * y + x))) ⟨4, 4, 8, 8⟩ ⟨4, 4, 8, 8⟩
        (2 ^ 4) 12 (fun _ => -128) (fun _ _ _ => 0))
      (verRows (-128) ⟨4, 4, 8, 8⟩ (2 ^ 4) 12 (fun _ => -128) 0).1 0 4 Direction.DIAG0
      = specBlockSum (fun y x => max 0 (min 1023 (3 * y + x))) Direction.DIAG0
          ((4 : Int) + (4 : Nat)) ((4 : Int) + (0 : Nat)) :=
  blockSum_eq_naive_sum (-128) (fun y x => max 0 (min 1023 (3 * y + x))) ⟨4, 4, 8, 8⟩
    ⟨4, 4, 8, 8⟩ 4 (by decide) 12 (fun _ => -128) (fun _ _ _ => 0) Direction.DIAG0 0 4
    (by decide) (by decide) (by decide) (by decide) (by decide) (by decide) (by decide)
    (by decide) (by decide) (by decide) (by decide) (by decide) (by decide) (by decide)
    (by decide)
    (fun y x _ _ _ _ => by
      show -16384 ≤ max 0 (min 1023 (3 * y + x)) ∧ max 0 (min 1023 (3 * y + x)) < 16384
      omega)

/-- C21, witness: the payload 00 00 01, whose escaped form is 00 00 03 01. -/
theorem write_payload_has_no_start_code_witness :
    (∀ x, x ≤ 2 → ¬ [0, 0, x] <:+: escapedPayload [0, 0, 1]) ∧
    (∀ y, [0, 0, 3, y] <:+: escapedPayload [0, 0, 1] → y ≤ 3) :=
  write_payload_has_no_start_code [0, 0, 1]

/-! ## The maximum clip value -/

theorem Clip3_of_mem (c d : Int) (h0 : -c ≤ d) (h1 : d ≤ c) : Clip3 (-c) c d = d := by
  unfold Clip3
  rw [max_eq_right h0, min_eq_left h1]

theorem clipALF_of_abs_le (c ref v0 v1 : Int) (h0 : |v0 - ref| ≤ c) (h1 : |v1 - ref| ≤ c) :
    clipALF c ref v0 v1 = v0 + v1 - 2 * ref := by
  unfold clipALF
  rw [Clip3_of_mem c _ (neg_le_of_abs_le h0) (le_of_abs_le h0),
    Clip3_of_mem c _ (neg_le_of_abs_le h1) (le_of_abs_le h1)]
  ring

theorem clipALF_of_range (C : Int) (src : Plane) (hsrc : ∀ y x, 0 ≤ src y x ∧ src y x < C)
    (r0 c0 r1 c1 r2 c2 : Int) :
    clipALF C (src r0 c0) (src r1 c1) (src r2 c2)
      = src r1 c1 + src r2 c2 - 2 * src r0 c0 := by
  have a0 := hsrc r0 c0
  have a1 := hsrc r1 c1
  have a2 := hsrc r2 c2
  exact clipALF_of_abs_le _ _ _ _ (abs_le.mpr ⟨by omega, by omega⟩)
    (abs_le.mpr ⟨by omega, by omega⟩)

theorem transposeRow_const (filtType : AlfFilterType) (t : Nat) (C : Int) :
    transposeRow filtType t (fun _ => C)
      = match filtType with
        | AlfFilterType.ALF_FILTER_7 => List.replicate 13 C
        | AlfFilterType.ALF_FILTER_5 => List.replicate 7 C := by
  unfold transposeRow
  cases filtType
  · dsimp only
    split_ifs <;> rfl
  · dsimp only
    split_ifs <;> rfl

theorem pixelValue_max_clip (NB : Int) (filtType : AlfFilterType) (src : Plane)
    (bChroma : Bool) (filterSet : Nat → Int) (clpRng : ClpRng) (vbCTUHeight vbPos : Int)
    (b : BryPos) (cls : Nat × Nat) (pixYPos pixXPos r c C : Int)
    (hsrc : ∀ y x, 0 ≤ src y x ∧ src y x < C)
    (hfit0 : -2147483648 ≤ linearSumAt NB filtType src bChroma filterSet vbCTUHeight vbPos b
      cls pixYPos pixXPos r c)
    (hfit1 : linearSumAt NB filtType src bChroma filterSet vbCTUHeight vbPos b cls pixYPos
      pixXPos r c + 64 < 2147483648) :
    pixelValue NB filtType src bChroma filterSet (fun _ => C) clpRng vbCTUHeight vbPos b cls
        pixYPos pixXPos r c
      = linearPixelValue NB filtType src bChroma filterSet clpRng vbCTUHeight vbPos b cls
        pixYPos pixXPos r c := by
  have h64 : shl 1 (m_NUM_BITS - 1 - 1) = 64 := by decide
  have h7 : m_NUM_BITS - 1 = 7 := by decide
  have key : tapProducts filtType src
      (transposeRow filtType cls.1 (fun k => filterSet (cls.2 + k)))
      (transposeRow filtType cls.1 (fun _ => C))
      (rowPtrs NB bChroma vbCTUHeight vbPos b pixYPos r) c (colIdx NB bChroma b pixXPos)
      = linearSumAt NB filtType src bChroma filterSet vbCTUHeight vbPos b cls pixYPos
        pixXPos r c := by
    unfold linearSumAt
    rw [transposeRow_const]
    cases filtType
    · simp only [tapProducts, linearTapSum, arrayAt, List.replicate, List.getD_cons_zero,
        List.getD_cons_succ, clipALF_of_range C src hsrc]
    · simp only [tapProducts, linearTapSum, arrayAt, List.replicate, List.getD_cons_zero,
        List.getD_cons_succ, clipALF_of_range C src hsrc]
  show ClipPel (shr (toInt32 (tapSum filtType src
      (transposeRow filtType cls.1 (fun k => filterSet (cls.2 + k)))
      (transposeRow filtType cls.1 (fun _ => C))
      (rowPtrs NB bChroma vbCTUHeight vbPos b pixYPos r) c (colIdx NB bChroma b pixXPos)
      + shl 1 (m_NUM_BITS - 1 - 1))) (m_NUM_BITS - 1)
      + src (rowPtrs NB bChroma vbCTUHeight vbPos b pixYPos r).pImg0 c) clpRng = _
  rw [h64, h7, tapSum_eq_toInt32, key, toInt32_of_fits _ hfit0 (by omega),
    toInt32_of_fits _ (by omega) hfit1]
  rfl

theorem createClipDefault_loop (C : Int) (m : Nat → Int) (n : Nat) :
    loopN n (fun i (clip : Nat → Int) => fun k => if k = i then C else clip k) m
      = fun k => if k < n then C else m k := by
  induction n with
  | zero =>
    funext k
    simp [loopN]
  | succ n ih =>
    funext k
    show (if k = n then C else
      loopN n (fun i (clip : Nat → Int) => fun k => if k = i then C else clip k) m k) = _
    rw [ih]
    by_cases h : k = n
    · rw [if_pos h, if_pos (by omega)]
    · rw [if_neg h]
      show (if k < n then C else m k) = _
      by_cases h' : k < n
      · rw [if_pos h', if_pos (by omega)]
      · rw [if_neg h', if_neg (by omega)]

theorem linearSumAt_interior (NB : Int) (src : Plane) (filterSet : Nat → Int)
    (fmt : ChromaFormat) (vbCTUHeight vbPos : Int) (alfBryList : Nat → Int)
    (cls : Nat × Nat) (y x r c : Int)
    (hVB : bitAnd y (vbCTUHeight - 1) ≤ vbPos - 4 ∨ vbPos + 3 ≤ bitAnd y (vbCTUHeight - 1))
    (hT : alfBryList 0 = NB) (hB : alfBryList 1 = NB) (hL : alfBryList 2 = NB)
    (hR : alfBryList 3 = NB) :
    linearSumAt NB AlfFilterType.ALF_FILTER_7 src false filterSet vbCTUHeight vbPos
        (bryPos NB false fmt vbCTUHeight vbPos alfBryList) cls y x r c
      = linearTapSum AlfFilterType.ALF_FILTER_7 src
          (transposeRow AlfFilterType.ALF_FILTER_7 cls.1 (fun k => filterSet (cls.2 + k)))
          (padRows r false false false) c (padCols false false false) := by
  have hb := bryPos_luma NB fmt vbCTUHeight vbPos alfBryList
  unfold linearSumAt
  rw [rowPtrs_interior NB vbCTUHeight vbPos _ y r hVB (Or.inl (hb.1.trans hT))
      (Or.inl (hb.2.1.trans hB)),
    colIdx_interior NB _ x (Or.inl (hb.2.2.1.trans hL)) (Or.inl (hb.2.2.2.1.trans hR))]

/-- C31, counterexample. First, at the bit depth 15 the first luma clipping value, and with
it every entry of `m_clipDefault`, is `-32768` and not `2 ^ 15`, which the 16-bit sample
type cannot hold. Second, on a 12-bit picture (all samples in `[0, 2 ^ 12)`, every clip
entry `2 ^ 12`) with the sample 0 at the pixel (4, 4) and 4095 elsewhere and every
coefficient 32767, the unclipped linear sum of the pixel (4, 4) is 3220340760, which the
32-bit `int sum` cannot hold: `filterBlk` stores 0 where the unclipped linear filter sum
gives 4095. -/
theorem max_clip_is_not_linear :
    (createClipDefault (lumaClippingValue0 15) (fun _ => 0) 0 = -32768 ∧
      createClipDefault (lumaClippingValue0 15) (fun _ => 0) 0 ≠ 2 ^ 15) ∧
    (∀ y x : Int, (0 : Int) ≤ (fun y x => if y = 4 ∧ x = 4 then 0 else 4095) y x ∧ (fun y x => if y = 4 ∧ x = 4 then 0 else 4095) y x < 2 ^ 12) ∧
    ∃ out, filterBlk (-128) AlfFilterType.ALF_FILTER_7 (fun _ _ => ⟨0, 0⟩) (fun _ _ _ => 0)
        (fun _ => (fun y x => if y = 4 ∧ x = 4 then 0 else 4095)) ⟨0, 0, 8, 8⟩ ⟨0, 0, 8, 8⟩
        ComponentID.COMPONENT_Y (fun _ => 32767) (fun _ => 2 ^ 12) ⟨0, 4095⟩
        ChromaFormat.CHROMA_420 (2 ^ 6) 60 (fun _ => -128) = Except.ok out ∧
      out ComponentID.COMPONENT_Y 4 4 = 0 ∧
      linearSumAt (-128) AlfFilterType.ALF_FILTER_7 (fun y x => if y = 4 ∧ x = 4 then 0 else 4095) false (fun _ => 32767) (2 ^ 6) 60
        (bryPos (-128) false ChromaFormat.CHROMA_420 (2 ^ 6) 60 (fun _ => -128)) (blockClass (fun _ _ => ⟨0, 0⟩) false 4 4) 4 4 4 4 = 3220340760 ∧
      linearPixelValue (-128) AlfFilterType.ALF_FILTER_7 (fun y x => if y = 4 ∧ x = 4 then 0 else 4095) false (fun _ => 32767)
        ⟨0, 4095⟩ (2 ^ 6) 60 (bryPos (-128) false ChromaFormat.CHROMA_420 (2 ^ 6) 60 (fun _ => -128)) (blockClass (fun _ _ => ⟨0, 0⟩) false 4 4) 4 4 4 4 = 4095 := by
  have hVB : bitAnd 4 ((2 : Int) ^ 6 - 1) ≤ 60 - 4 ∨ 60 + 3 ≤ bitAnd 4 ((2 : Int) ^ 6 - 1) :=
    Or.inl (by rw [bitAnd_pow_two]; decide)
  have hL : linearSumAt (-128) AlfFilterType.ALF_FILTER_7 (fun y x => if y = 4 ∧ x = 4 then 0 else 4095) false (fun _ => 32767) (2 ^ 6)
      60 (bryPos (-128) false ChromaFormat.CHROMA_420 (2 ^ 6) 60 (fun _ => -128)) (blockClass (fun _ _ => ⟨0, 0⟩) false 4 4) 4 4 4 4 = 3220340760 := by
    rw [linearSumAt_interior (-128) (fun y x => if y = 4 ∧ x = 4 then 0 else 4095) (fun _ => 32767) ChromaFormat.CHROMA_420 (2 ^ 6) 60
      (fun _ => -128) (blockClass (fun _ _ => ⟨0, 0⟩) false 4 4) 4 4 4 4 hVB rfl rfl rfl rfl]
    decide
  have hS : interiorSum (fun y x => if y = 4 ∧ x = 4 then 0 else 4095)
      (arrayAt (transposeRow AlfFilterType.ALF_FILTER_7 0 (fun _ => 32767)))
      (arrayAt (transposeRow AlfFilterType.ALF_FILTER_7 0 (fun _ => 2 ^ 12))) 4 4
      = 3220340760 := by
    decide
  have hC : createClipDefault (lumaClippingValue0 15) (fun _ => 0) 0 = -32768 := by
    unfold createClipDefault
    rw [createClipDefault_loop]
    decide
  refine ⟨⟨hC, by rw [hC]; decide⟩, ?_, ?_⟩
  · intro y x
    dsimp only
    split_ifs <;> norm_num
  obtain ⟨out, hout, hv⟩ := filterBlk_interior_value (-128) (fun _ _ => ⟨0, 0⟩)
    (fun _ _ _ => 0) (fun _ => (fun y x => if y = 4 ∧ x = 4 then 0 else 4095)) ⟨0, 0, 8, 8⟩ ⟨0, 0, 8, 8⟩ (fun _ => 32767)
    (fun _ => 2 ^ 12) ⟨0, 4095⟩ ChromaFormat.CHROMA_420 (2 ^ 6) 60 (fun _ => -128) 6 4 4 rfl
    (by decide) (by decide) (by decide) (by decide) (by decide) (by decide) (by decide)
    (by decide) hVB (Or.inl rfl) (Or.inl rfl) (Or.inl rfl) (Or.inl rfl)
  refine ⟨out, hout, ?_, hL, ?_⟩
  · rw [hv, tapSum_interior]
    simp only [sub_zero, add_zero]
    rw [hS]
    decide
  · have hr : rowPtrs (-128) false (2 ^ 6) 60 (bryPos (-128) false ChromaFormat.CHROMA_420 (2 ^ 6) 60 (fun _ => -128)) 4 4 = padRows 4 false false false := by
      have hb := bryPos_luma (-128) ChromaFormat.CHROMA_420 (2 ^ 6) 60 (fun _ => -128)
      exact rowPtrs_interior (-128) (2 ^ 6) 60 _ 4 4 hVB (Or.inl hb.1) (Or.inl hb.2.1)
    unfold linearPixelValue
    rw [hL, hr]
    decide

/-- C31. The maximum clip value is a no-op for the clipping: for every clip
`c >= 0` and samples with `|v0 - ref| <= c` and `|v1 - ref| <= c`,
`clipALF(c, ref, v0, v1) = v0 + v1 - 2 * ref`. After `create` every entry of
`m_clipDefault` holds the first luma clipping value, which is `2 ^ bitDepth` for the bit
depths up to 14. And when every entry of the clip table is `2 ^ bitDepth` and all samples
of the source plane lie in `[0, 2 ^ bitDepth)`, `filterBlk` returns and, at each pixel of
the rectangle whose unclipped linear filter sum `L` satisfies `-2^31 <= L` and
`L + 64 < 2^31` (it fits the 32-bit `int sum`), the sample it stores is the one of the
unclipped linear filter sum. -/
theorem clipALF_max_clip_is_noop (NB : Int) (filtType : AlfFilterType) (classifier : ClassMap)
    (recDst recSrc : PelUnitBuf) (blkDst blk : Area) (compId : ComponentID)
    (filterSet fClipSet : Nat → Int) (clpRng : ClpRng) (fmt : ChromaFormat)
    (vbCTUHeight vbPos : Int) (alfBryList : Nat → Int) (k bitDepth : Nat)
    (m_clipDefault : Nat → Int) (hvb : vbCTUHeight = 2 ^ k)
    (hc : isChroma compId = true → filtType = AlfFilterType.ALF_FILTER_5)
    (hy : blk.y % 4 = 0) (hx : blk.x % 4 = 0) (hh : blk.height % 4 = 0)
    (hw : blk.width % 4 = 0)
    (hclip : ∀ n, fClipSet n = 2 ^ bitDepth)
    (hsrc : ∀ y x, 0 ≤ recSrc compId y x ∧ recSrc compId y x < 2 ^ bitDepth) :
    (∀ c ref v0 v1 : Int, 0 ≤ c → |v0 - ref| ≤ c → |v1 - ref| ≤ c →
      clipALF c ref v0 v1 = v0 + v1 - 2 * ref) ∧
    (∀ i, i < MAX_NUM_ALF_LUMA_COEFF * MAX_NUM_ALF_CLASSES →
      createClipDefault (lumaClippingValue0 bitDepth) m_clipDefault i
        = lumaClippingValue0 bitDepth) ∧
    (bitDepth ≤ 14 → lumaClippingValue0 bitDepth = 2 ^ bitDepth) ∧
    ∃ out, filterBlk NB filtType classifier recDst recSrc blkDst blk compId filterSet fClipSet
        clpRng fmt vbCTUHeight vbPos alfBryList = Except.ok out ∧
      ∀ y x, blkDst.y ≤ y → y < blkDst.y + blk.height → blkDst.x ≤ x →
        x < blkDst.x + blk.width →
        -2147483648 ≤ linearSumAt NB filtType (recSrc compId) (isChroma compId) filterSet
            vbCTUHeight vbPos (bryPos NB (isChroma compId) fmt vbCTUHeight vbPos alfBryList)
            (blockClass classifier (isChroma compId)
              (blkDst.y + ((y - blkDst.y).toNat / 4 * 4 : Nat))
              (blkDst.x + ((x - blkDst.x).toNat / 4 * 4 : Nat)))
            y x (y - blkDst.y + blk.y) (x - blkDst.x + blk.x) →
        linearSumAt NB filtType (recSrc compId) (isChroma compId) filterSet
            vbCTUHeight vbPos (bryPos NB (isChroma compId) fmt vbCTUHeight vbPos alfBryList)
            (blockClass classifier (isChroma compId)
              (blkDst.y + ((y - blkDst.y).toNat / 4 * 4 : Nat))
              (blkDst.x + ((x - blkDst.x).toNat / 4 * 4 : Nat)))
            y x (y - blkDst.y + blk.y) (x - blkDst.x + blk.x) + 64 < 2147483648 →
        out compId y x
          = linearPixelValue NB filtType (recSrc compId) (isChroma compId) filterSet clpRng
              vbCTUHeight vbPos (bryPos NB (isChroma compId) fmt vbCTUHeight vbPos alfBryList)
              (blockClass classifier (isChroma compId)
                (blkDst.y + ((y - blkDst.y).toNat / 4 * 4 : Nat))
                (blkDst.x + ((x - blkDst.x).toNat / 4 * 4 : Nat)))
              y x (y - blkDst.y + blk.y) (x - blkDst.x + blk.x) := by
  refine ⟨fun c ref v0 v1 _ h0 h1 => clipALF_of_abs_le c ref v0 v1 h0 h1, ?_, ?_, ?_⟩
  · intro i hi
    unfold createClipDefault
    rw [createClipDefault_loop]
    exact if_pos hi
  · intro hb
    have h1 : (2 : Int) ^ bitDepth ≤ 2 ^ 14 := pow_le_pow_right₀ (by norm_num) hb
    have h2 : (0 : Int) < 2 ^ bitDepth := by positivity
    unfold lumaClippingValue0 toPel
    norm_num at h1
    omega
  · obtain ⟨out, hout, hin, -, -⟩ := filterBlk_apply NB filtType classifier recDst recSrc
      blkDst blk compId filterSet fClipSet clpRng fmt vbCTUHeight vbPos alfBryList k hvb hc
      hy hx hh hw
    refine ⟨out, hout, ?_⟩
    intro y x hy1 hy2 hx1 hx2 hfit0 hfit1
    rw [hin y x hy1 hy2 hx1 hx2]
    have e1 : blkDst.y + ↑((y - blkDst.y).toNat / 4 * 4) + ↑((y - blkDst.y).toNat % 4) = y := by
      omega
    have e2 : blkDst.x + ↑((x - blkDst.x).toNat / 4 * 4) + ↑((x - blkDst.x).toNat % 4) = x := by
      omega
    have e3 : blk.y + ↑((y - blkDst.y).toNat / 4 * 4) + ↑((y - blkDst.y).toNat % 4)
        = y - blkDst.y + blk.y := by omega
    have e4 : blk.x + ↑((x - blkDst.x).toNat / 4 * 4) + ↑((x - blkDst.x).toNat % 4)
        = x - blkDst.x + blk.x := by omega
    have hq : fClipSet = fun _ => (2 : Int) ^ bitDepth := funext hclip
    unfold filterVal filterPixel
    rw [e1, e2, e3, e4, hq]
    exact pixelValue_max_clip NB filtType (recSrc compId) (isChroma compId) filterSet clpRng
      vbCTUHeight vbPos _ _ y x _ _ (2 ^ bitDepth) hsrc hfit0 hfit1

/-- C31, witness: the pixel (4, 4) of the luma rectangle of size 8x8 at the origin of a
10-bit picture with the samples `(y * y + 3 * x) mod 1024`, every clip entry 1024 and the
coefficients `n mod 7 - 3`. -/
theorem clipALF_max_clip_is_noop_witness :
    ∃ out, filterBlk (-128) AlfFilterType.ALF_FILTER_7 (fun _ _ => ⟨0, 0⟩) (fun _ _ _ => 0)
        (fun _ y x => (y * y + 3 * x) % 1024) ⟨0, 0, 8, 8⟩ ⟨0, 0, 8, 8⟩
        ComponentID.COMPONENT_Y (fun n => (n : Int) % 7 - 3) (fun _ => 1024) ⟨0, 1023⟩
        ChromaFormat.CHROMA_420 (2 ^ 6) 60 (fun _ => -128) = Except.ok out ∧
      out ComponentID.COMPONENT_Y 4 4
        = linearPixelValue (-128) AlfFilterType.ALF_FILTER_7
            (fun y x => (y * y + 3 * x) % 1024) false (fun n => (n : Int) % 7 - 3) ⟨0, 1023⟩
            (2 ^ 6) 60 (bryPos (-128) false ChromaFormat.CHROMA_420 (2 ^ 6) 60 (fun _ => -128)) (blockClass (fun _ _ => ⟨0, 0⟩) false 4 4) 4 4 4 4 := by
  have hVB : bitAnd 4 ((2 : Int) ^ 6 - 1) ≤ 60 - 4 ∨ 60 + 3 ≤ bitAnd 4 ((2 : Int) ^ 6 - 1) :=
    Or.inl (by rw [bitAnd_pow_two]; decide)
  have hL : linearSumAt (-128) AlfFilterType.ALF_FILTER_7 (fun y x => (y * y + 3 * x) % 1024)
      false (fun n => (n : Int) % 7 - 3) (2 ^ 6) 60 (bryPos (-128) false ChromaFormat.CHROMA_420 (2 ^ 6) 60 (fun _ => -128)) (blockClass (fun _ _ => ⟨0, 0⟩) false 4 4) 4 4 4 4 = -76 := by
    rw [linearSumAt_interior (-128) (fun y x => (y * y + 3 * x) % 1024)
      (fun n => (n : Int) % 7 - 3) ChromaFormat.CHROMA_420 (2 ^ 6) 60 (fun _ => -128) (blockClass (fun _ _ => ⟨0, 0⟩) false 4 4) 4 4
      4 4 hVB rfl rfl rfl rfl]
    decide
  obtain ⟨out, hout, hp⟩ := (clipALF_max_clip_is_noop (-128) AlfFilterType.ALF_FILTER_7
    (fun _ _ => ⟨0, 0⟩) (fun _ _ _ => 0) (fun _ y x => (y * y + 3 * x) % 1024) ⟨0, 0, 8, 8⟩
    ⟨0, 0, 8, 8⟩ ComponentID.COMPONENT_Y (fun n => (n : Int) % 7 - 3) (fun _ => 1024)
    ⟨0, 1023⟩ ChromaFormat.CHROMA_420 (2 ^ 6) 60 (fun _ => -128) 6 10 (fun _ => 0) rfl
    (by decide) (by decide) (by decide) (by decide) (by decide) (fun _ => by norm_num)
    (fun y x => by
      show 0 ≤ (y * y + 3 * x) % 1024 ∧ (y * y + 3 * x) % 1024 < 2 ^ 10
      omega)).2.2.2
  exact ⟨out, hout, hp 4 4 (by decide) (by decide) (by decide) (by decide)
    (hL.symm ▸ (by decide)) (hL.symm ▸ (by decide))⟩

/-! ## Two-sided padding -/

theorem padRows_two_sided (r : Int) (c1 c2 c3 : Bool) :
    ∃ a b c : Int,
      padRows r c1 c2 c3 = ⟨r, r + a, r - a, r + b, r - b, r + c, r - c⟩ ∧
      0 ≤ a ∧ a ≤ b ∧ b ≤ c ∧ a ≤ 1 ∧ b ≤ 2 ∧ c ≤ 3 := by
  cases c1 <;> cases c2 <;> cases c3
  · exact ⟨1, 2, 3, by simp [padRows], by decide⟩
  · exact ⟨1, 2, 2, by simp [padRows], by decide⟩
  · exact ⟨1, 1, 3, by simp [padRows], by decide⟩
  · exact ⟨1, 1, 1, by simp [padRows], by decide⟩
  · exact ⟨0, 2, 3, by simp [padRows], by decide⟩
  · exact ⟨0, 2, 2, by simp [padRows], by decide⟩
  · exact ⟨0, 0, 3, by simp [padRows], by decide⟩
  · exact ⟨0, 0, 0, by simp [padRows], by decide⟩

theorem rowPtrs_two_sided (NB : Int) (bChroma : Bool) (vbCTUHeight vbPos : Int) (b : BryPos)
    (pixYPos r : Int) :
    ∃ a b' c : Int,
      rowPtrs NB bChroma vbCTUHeight vbPos b pixYPos r
        = ⟨r, r + a, r - a, r + b', r - b', r + c, r - c⟩ ∧
      0 ≤ a ∧ a ≤ b' ∧ b' ≤ c ∧ a ≤ 1 ∧ b' ≤ 2 ∧ c ≤ 3 := by
  unfold rowPtrs
  dsimp only
  split_ifs <;> exact padRows_two_sided r _ _ _

theorem padCols_monotone (c1 c2 c3 : Bool) :
    0 ≤ (padCols c1 c2 c3).idx1 ∧ (padCols c1 c2 c3).idx1 ≤ (padCols c1 c2 c3).idx2 ∧
    (padCols c1 c2 c3).idx2 ≤ (padCols c1 c2 c3).idx3 ∧ (padCols c1 c2 c3).idx1 ≤ 1 ∧
    (padCols c1 c2 c3).idx2 ≤ 2 ∧ (padCols c1 c2 c3).idx3 ≤ 3 := by
  cases c1 <;> cases c2 <;> cases c3 <;> simp [padCols]

theorem colIdx_monotone (NB : Int) (bChroma : Bool) (b : BryPos) (pixXPos : Int) :
    0 ≤ (colIdx NB bChroma b pixXPos).idx1 ∧
    (colIdx NB bChroma b pixXPos).idx1 ≤ (colIdx NB bChroma b pixXPos).idx2 ∧
    (colIdx NB bChroma b pixXPos).idx2 ≤ (colIdx NB bChroma b pixXPos).idx3 ∧
    (colIdx NB bChroma b pixXPos).idx1 ≤ 1 ∧ (colIdx NB bChroma b pixXPos).idx2 ≤ 2 ∧
    (colIdx NB bChroma b pixXPos).idx3 ≤ 3 := by
  unfold colIdx
  split_ifs <;> exact padCols_monotone _ _ _

theorem clipALF_comm (q ref v0 v1 : Int) : clipALF q ref v0 v1 = clipALF q ref v1 v0 := by
  unfold clipALF
  ring

/-- With row pointers placed symmetrically around the centre row, the filter sum of a
pixel is the same on the picture reflected through the pixel: each tap reads two
samples that are opposite to each other with respect to the centre. -/
theorem tapSum_reflect (filtType : AlfFilterType) (src : Plane) (fC fQ : List Int)
    (r a b c col : Int) (ix : ColIdx) :
    tapSum filtType src fC fQ ⟨r, r + a, r - a, r + b, r - b, r + c, r - c⟩ col ix
      = tapSum filtType (fun y x => src (2 * r - y) (2 * col - x)) fC fQ
          ⟨r, r + a, r - a, r + b, r - b, r + c, r - c⟩ col ix := by
  have y0 : 2 * r - r = r := by ring
  have ya : 2 * r - (r + a) = r - a := by ring
  have ya' : 2 * r - (r - a) = r + a := by ring
  have yb : 2 * r - (r + b) = r - b := by ring
  have yb' : 2 * r - (r - b) = r + b := by ring
  have yc : 2 * r - (r + c) = r - c := by ring
  have yc' : 2 * r - (r - c) = r + c := by ring
  have x0 : 2 * col - col = col := by ring
  have x1 : 2 * col - (col + ix.idx1) = col - ix.idx1 := by ring
  have x1' : 2 * col - (col - ix.idx1) = col + ix.idx1 := by ring
  have x2 : 2 * col - (col + ix.idx2) = col - ix.idx2 := by ring
  have x2' : 2 * col - (col - ix.idx2) = col + ix.idx2 := by ring
  have x3 : 2 * col - (col + ix.idx3) = col - ix.idx3 := by ring
  have x3' : 2 * col - (col - ix.idx3) = col + ix.idx3 := by ring
  rw [tapSum_eq_toInt32, tapSum_eq_toInt32]
  congr 1
  cases filtType
  · simp only [tapProducts, y0, ya, ya', yb, yb', yc, yc', x0, x1, x1', x2, x2', x3, x3',
      clipALF]
    ring
  · simp only [tapProducts, y0, ya, ya', yb, yb', yc, yc', x0, x1, x1', x2, x2', x3, x3',
      clipALF]
    ring

/-- C40. Boundary padding in `filterBlk` is two-sided and monotone. For every pixel row
the row pointers are `pImg0 = r`, `(pImg1, pImg2) = (r + a, r - a)`,
`(pImg3, pImg4) = (r + b, r - b)`, `(pImg5, pImg6) = (r + c, r - c)` with
`0 <= a <= b <= c`, `a <= 1`, `b <= 2`, `c <= 3`; for every pixel column the offsets
satisfy `0 <= idx1 <= idx2 <= idx3`, `idx1 <= 1`, `idx2 <= 2`, `idx3 <= 3`; and the two
samples of every tap are opposite to each other with respect to the centre (the filter
sum is unchanged when the picture is reflected through the pixel), so a tap pulled in
on one side has its partner pulled in by the same amount. -/
theorem filterBlk_padding_two_sided (NB : Int) (bChroma : Bool) (vbCTUHeight vbPos : Int)
    (b : BryPos) (pixYPos pixXPos r : Int) :
    (∃ a b' c : Int,
      rowPtrs NB bChroma vbCTUHeight vbPos b pixYPos r
        = ⟨r, r + a, r - a, r + b', r - b', r + c, r - c⟩ ∧
      0 ≤ a ∧ a ≤ b' ∧ b' ≤ c ∧ a ≤ 1 ∧ b' ≤ 2 ∧ c ≤ 3) ∧
    (0 ≤ (colIdx NB bChroma b pixXPos).idx1 ∧
      (colIdx NB bChroma b pixXPos).idx1 ≤ (colIdx NB bChroma b pixXPos).idx2 ∧
      (colIdx NB bChroma b pixXPos).idx2 ≤ (colIdx NB bChroma b pixXPos).idx3 ∧
      (colIdx NB bChroma b pixXPos).idx1 ≤ 1 ∧ (colIdx NB bChroma b pixXPos).idx2 ≤ 2 ∧
      (colIdx NB bChroma b pixXPos).idx3 ≤ 3) ∧
    (∀ (filtType : AlfFilterType) (src : Plane) (fC fQ : List Int) (col : Int),
      tapSum filtType src fC fQ (rowPtrs NB bChroma vbCTUHeight vbPos b pixYPos r) col
          (colIdx NB bChroma b pixXPos)
        = tapSum filtType (fun y x => src (2 * r - y) (2 * col - x)) fC fQ
            (rowPtrs NB bChroma vbCTUHeight vbPos b pixYPos r) col
            (colIdx NB bChroma b pixXPos)) := by
  obtain ⟨a, b', c, hp, hr⟩ := rowPtrs_two_sided NB bChroma vbCTUHeight vbPos b pixYPos r
  refine ⟨⟨a, b', c, hp, hr⟩, colIdx_monotone NB bChroma b pixXPos, ?_⟩
  intro filtType src fC fQ col
  rw [hp]
  exact tapSum_reflect filtType src fC fQ r a b' c col _

/-! ## The last entry of a coefficient row -/

theorem tapSum_rows_congr_7 (src : Plane) (t : Nat) (coef1 coef2 clip1 clip2 : Nat → Int)
    (p : RowPtrs) (c : Int) (ix : ColIdx)
    (hcoef : ∀ k, k < 12 → coef1 k = coef2 k) (hclip : ∀ k, k < 12 → clip1 k = clip2 k) :
    tapSum AlfFilterType.ALF_FILTER_7 src (transposeRow AlfFilterType.ALF_FILTER_7 t coef1)
        (transposeRow AlfFilterType.ALF_FILTER_7 t clip1) p c ix
      = tapSum AlfFilterType.ALF_FILTER_7 src (transposeRow AlfFilterType.ALF_FILTER_7 t coef2)
        (transposeRow AlfFilterType.ALF_FILTER_7 t clip2) p c ix := by
  simp only [tapSum, transposeRow, arrayAt]
  split_ifs <;>
    simp (disch := omega) only [List.getD_cons_zero, List.getD_cons_succ, hcoef, hclip]

theorem tapSum_rows_congr_5 (src : Plane) (t : Nat) (coef1 coef2 clip1 clip2 : Nat → Int)
    (p : RowPtrs) (c : Int) (ix : ColIdx)
    (hcoef : ∀ k, k < 6 → coef1 k = coef2 k) (hclip : ∀ k, k < 6 → clip1 k = clip2 k) :
    tapSum AlfFilterType.ALF_FILTER_5 src (transposeRow AlfFilterType.ALF_FILTER_5 t coef1)
        (transposeRow AlfFilterType.ALF_FILTER_5 t clip1) p c ix
      = tapSum AlfFilterType.ALF_FILTER_5 src (transposeRow AlfFilterType.ALF_FILTER_5 t coef2)
        (transposeRow AlfFilterType.ALF_FILTER_5 t clip2) p c ix := by
  simp only [tapSum, transposeRow, arrayAt]
  split_ifs <;>
    simp (disch := omega) only [List.getD_cons_zero, List.getD_cons_succ, hcoef, hclip]

/-- The sample of a pixel does not change when the two tables are replaced by tables
that agree with them on all entries but the last of each row. -/
theorem filterVal_last_entry (NB : Int) (filtType : AlfFilterType) (classifier : ClassMap)
    (src : Plane) (blkDst blk : Area) (bChroma : Bool)
    (filterSet1 fClipSet1 filterSet2 fClipSet2 : Nat → Int) (clpRng : ClpRng)
    (vbCTUHeight vbPos : Int) (b : BryPos) (y x : Int)
    (hft : filtType = if bChroma = true then AlfFilterType.ALF_FILTER_5
      else AlfFilterType.ALF_FILTER_7)
    (hcoef : ∀ n, (if bChroma = true then n ≠ 6 else n % 13 ≠ 12) →
      filterSet1 n = filterSet2 n)
    (hclip : ∀ n, (if bChroma = true then n ≠ 6 else n % 13 ≠ 12) →
      fClipSet1 n = fClipSet2 n) :
    filterVal NB filtType classifier src blkDst blk bChroma filterSet1 fClipSet1 clpRng
        vbCTUHeight vbPos b y x
      = filterVal NB filtType classifier src blkDst blk bChroma filterSet2 fClipSet2 clpRng
        vbCTUHeight vbPos b y x := by
  unfold filterVal filterPixel pixelValue
  dsimp only
  cases bChroma
  · simp only [Bool.false_eq_true, if_false] at hft hcoef hclip
    subst hft
    have e : ∀ k, k < 12 → ∀ m : Nat, (m * MAX_NUM_ALF_LUMA_COEFF + k) % 13 ≠ 12 := by
      intro k hk m
      have : MAX_NUM_ALF_LUMA_COEFF = 13 := rfl
      rw [this]
      omega
    rw [tapSum_rows_congr_7 _ _ _ (fun k => filterSet2 (_ + k)) _ (fun k => fClipSet2 (_ + k)) _ _ _
      (fun k hk => hcoef _ (by simp only [blockClass, Bool.false_eq_true, if_false]; exact e k hk _))
      (fun k hk => hclip _ (by simp only [blockClass, Bool.false_eq_true, if_false]; exact e k hk _))]
  · simp only [if_true] at hft hcoef hclip
    subst hft
    rw [tapSum_rows_congr_5 _ _ _ (fun k => filterSet2 (_ + k)) _ (fun k => fClipSet2 (_ + k)) _ _ _
      (fun k hk => hcoef _ (by simp only [blockClass, if_true]; omega))
      (fun k hk => hclip _ (by simp only [blockClass, if_true]; omega))]

/-- C35. The output of `filterBlk` does not depend on the last entry of any coefficient
or clip row (index 12 of a luma row, index 6 of the chroma row): two calls (luma with the
7x7 filter, chroma with the 5x5 filter) whose tables differ only in those entries both
return and leave identical samples in all planes. -/
theorem filterBlk_ignores_last_entry (NB : Int) (filtType : AlfFilterType)
    (classifier : ClassMap) (recDst recSrc : PelUnitBuf) (blkDst blk : Area)
    (compId : ComponentID) (filterSet1 fClipSet1 filterSet2 fClipSet2 : Nat → Int)
    (clpRng : ClpRng) (fmt : ChromaFormat) (vbCTUHeight vbPos : Int)
    (alfBryList : Nat → Int) (k : Nat) (hvb : vbCTUHeight = 2 ^ k)
    (hft : filtType = if isChroma compId = true then AlfFilterType.ALF_FILTER_5
      else AlfFilterType.ALF_FILTER_7)
    (hy : blk.y % 4 = 0) (hx : blk.x % 4 = 0) (hh : blk.height % 4 = 0)
    (hw : blk.width % 4 = 0)
    (hcoef : ∀ n, (if isChroma compId = true then n ≠ 6 else n % 13 ≠ 12) →
      filterSet1 n = filterSet2 n)
    (hclip : ∀ n, (if isChroma compId = true then n ≠ 6 else n % 13 ≠ 12) →
      fClipSet1 n = fClipSet2 n) :
    ∃ out1 out2,
      filterBlk NB filtType classifier recDst recSrc blkDst blk compId filterSet1 fClipSet1
        clpRng fmt vbCTUHeight vbPos alfBryList = Except.ok out1 ∧
      filterBlk NB filtType classifier recDst recSrc blkDst blk compId filterSet2 fClipSet2
        clpRng fmt vbCTUHeight vbPos alfBryList = Except.ok out2 ∧
      out1 = out2 := by
  have hc : isChroma compId = true → filtType = AlfFilterType.ALF_FILTER_5 := by
    intro h
    rw [hft, if_pos h]
  obtain ⟨out1, hout1, hin1, hex1, hoth1⟩ := filterBlk_apply NB filtType classifier recDst
    recSrc blkDst blk compId filterSet1 fClipSet1 clpRng fmt vbCTUHeight vbPos alfBryList k
    hvb hc hy hx hh hw
  obtain ⟨out2, hout2, hin2, hex2, hoth2⟩ := filterBlk_apply NB filtType classifier recDst
    recSrc blkDst blk compId filterSet2 fClipSet2 clpRng fmt vbCTUHeight vbPos alfBryList k
    hvb hc hy hx hh hw
  refine ⟨out1, out2, hout1, hout2, ?_⟩
  funext c
  by_cases hcc : c = compId
  · subst hcc
    funext y x
    by_cases hin : blkDst.y ≤ y ∧ y < blkDst.y + blk.height ∧ blkDst.x ≤ x ∧
        x < blkDst.x + blk.width
    · rw [hin1 y x hin.1 hin.2.1 hin.2.2.1 hin.2.2.2, hin2 y x hin.1 hin.2.1 hin.2.2.1 hin.2.2.2]
      exact filterVal_last_entry NB filtType classifier (recSrc c) blkDst blk (isChroma c)
        filterSet1 fClipSet1 filterSet2 fClipSet2 clpRng vbCTUHeight vbPos _ y x hft hcoef hclip
    · rw [hex1 y x hin, hex2 y x hin]
  · rw [hoth1 c hcc, hoth2 c hcc]

/-- C35, witness: two luma tables that hold 128 and 0 at the last entry of every row. -/
theorem filterBlk_ignores_last_entry_witness :
    ∃ out1 out2,
      filterBlk (-128) AlfFilterType.ALF_FILTER_7 (fun _ _ => ⟨3, 1⟩) (fun _ _ _ => 0)
        (fun _ y x => 3 * y + x) ⟨0, 0, 8, 8⟩ ⟨0, 0, 8, 8⟩ ComponentID.COMPONENT_Y
        (fun n => if n % 13 = 12 then 128 else 5) (fun n => if n % 13 = 12 then 1 else 1024)
        ⟨0, 1023⟩ ChromaFormat.CHROMA_420 (2 ^ 6) 60 (fun _ => -128) = Except.ok out1 ∧
      filterBlk (-128) AlfFilterType.ALF_FILTER_7 (fun _ _ => ⟨3, 1⟩) (fun _ _ _ => 0)
        (fun _ y x => 3 * y + x) ⟨0, 0, 8, 8⟩ ⟨0, 0, 8, 8⟩ ComponentID.COMPONENT_Y
        (fun n => if n % 13 = 12 then 0 else 5) (fun n => if n % 13 = 12 then 7 else 1024)
        ⟨0, 1023⟩ ChromaFormat.CHROMA_420 (2 ^ 6) 60 (fun _ => -128) = Except.ok out2 ∧
      out1 = out2 :=
  filterBlk_ignores_last_entry (-128) AlfFilterType.ALF_FILTER_7 (fun _ _ => ⟨3, 1⟩)
    (fun _ _ _ => 0) (fun _ y x => 3 * y + x) ⟨0, 0, 8, 8⟩ ⟨0, 0, 8, 8⟩
    ComponentID.COMPONENT_Y (fun n => if n % 13 = 12 then 128 else 5)
    (fun n => if n % 13 = 12 then 1 else 1024) (fun n => if n % 13 = 12 then 0 else 5)
    (fun n => if n % 13 = 12 then 7 else 1024) ⟨0, 1023⟩ ChromaFormat.CHROMA_420 (2 ^ 6) 60
    (fun _ => -128) 6 rfl (by decide) (by decide) (by decide) (by decide) (by decide)
    (fun n hn => by
      have h : n % 13 ≠ 12 := hn
      show (if n % 13 = 12 then (128 : Int) else 5) = (if n % 13 = 12 then 0 else 5)
      rw [if_neg h, if_neg h])
    (fun n hn => by
      have h : n % 13 ≠ 12 := hn
      show (if n % 13 = 12 then (1 : Int) else 1024) = (if n % 13 = 12 then 7 else 1024)
      rw [if_neg h, if_neg h])

/-! ## What `filterBlk` writes -/

/-- C37. `filterBlk` writes exactly the destination samples of the component `compId` at
the positions `(x, y)` with `blkDst.x <= x < blkDst.x + blk.width` and
`blkDst.y <= y < blkDst.y + blk.height`: there the returned plane holds the filtered
sample, every other sample of that plane and the planes of the other components are as
before. The source planes and the classifier map are only read (they are arguments, not
results, of the function). -/
theorem filterBlk_writes_only_rectangle (NB : Int) (filtType : AlfFilterType)
    (classifier : ClassMap) (recDst recSrc : PelUnitBuf) (blkDst blk : Area)
    (compId : ComponentID) (filterSet fClipSet : Nat → Int) (clpRng : ClpRng)
    (fmt : ChromaFormat) (vbCTUHeight vbPos : Int) (alfBryList : Nat → Int) (k : Nat)
    (hvb : vbCTUHeight = 2 ^ k)
    (hc : isChroma compId = true → filtType = AlfFilterType.ALF_FILTER_5)
    (hy : blk.y % 4 = 0) (hx : blk.x % 4 = 0) (hh : blk.height % 4 = 0)
    (hw : blk.width % 4 = 0) :
    ∃ out, filterBlk NB filtType classifier recDst recSrc blkDst blk compId filterSet fClipSet
        clpRng fmt vbCTUHeight vbPos alfBryList = Except.ok out ∧
      (∀ y x, blkDst.y ≤ y → y < blkDst.y + blk.height → blkDst.x ≤ x →
        x < blkDst.x + blk.width →
        out compId y x = filterVal NB filtType classifier (recSrc compId) blkDst blk
          (isChroma compId) filterSet fClipSet clpRng vbCTUHeight vbPos
          (bryPos NB (isChroma compId) fmt vbCTUHeight vbPos alfBryList) y x) ∧
      (∀ y x, ¬ (blkDst.y ≤ y ∧ y < blkDst.y + blk.height ∧ blkDst.x ≤ x ∧
        x < blkDst.x + blk.width) → out compId y x = recDst compId y x) ∧
      (∀ c, c ≠ compId → out c = recDst c) :=
  filterBlk_apply NB filtType classifier recDst recSrc blkDst blk compId filterSet fClipSet
    clpRng fmt vbCTUHeight vbPos alfBryList k hvb hc hy hx hh hw

/-- C37, witness: the chroma rectangle of size 4x8 at (8, 4). -/
theorem filterBlk_writes_only_rectangle_witness :
    ∃ out, filterBlk (-128) AlfFilterType.ALF_FILTER_5 (fun _ _ => ⟨0, 0⟩) (fun _ _ _ => 7)
        (fun _ y x => 3 * y + x) ⟨8, 4, 4, 8⟩ ⟨8, 4, 4, 8⟩ ComponentID.COMPONENT_Cb
        (fun _ => 20) (fun _ => 1024) ⟨0, 1023⟩ ChromaFormat.CHROMA_420 (2 ^ 5) 30
        (fun _ => -128) = Except.ok out ∧
      (∀ y x, ¬ ((4 : Int) ≤ y ∧ y < 4 + (8 : Nat) ∧ (8 : Int) ≤ x ∧ x < 8 + (4 : Nat)) →
        out ComponentID.COMPONENT_Cb y x = 7) ∧
      (∀ c, c ≠ ComponentID.COMPONENT_Cb → out c = fun _ _ => 7) := by
  obtain ⟨out, h1, -, h3, h4⟩ := filterBlk_writes_only_rectangle (-128)
    AlfFilterType.ALF_FILTER_5 (fun _ _ => ⟨0, 0⟩) (fun _ _ _ => 7) (fun _ y x => 3 * y + x)
    ⟨8, 4, 4, 8⟩ ⟨8, 4, 4, 8⟩ ComponentID.COMPONENT_Cb (fun _ => 20) (fun _ => 1024)
    ⟨0, 1023⟩ ChromaFormat.CHROMA_420 (2 ^ 5) 30 (fun _ => -128) 5 rfl (fun _ => rfl)
    (by decide) (by decide) (by decide) (by decide)
  exact ⟨out, h1, h3, h4⟩

/-! ## The tap reorderings as permutations -/

theorem transposeRow_eq_map (filtType : AlfFilterType) (t : Nat) (row : Nat → Int) :
    transposeRow filtType t row = (tapOrder filtType t).map row := by
  unfold transposeRow tapOrder
  cases filtType
  · dsimp only
    split_ifs <;> rfl
  · dsimp only
    split_ifs <;> rfl

theorem tapOrder_cases (filtType : AlfFilterType) (t : Nat) :
    tapOrder filtType t = tapOrder filtType 0 ∨ tapOrder filtType t = tapOrder filtType 1 ∨
    tapOrder filtType t = tapOrder filtType 2 ∨ tapOrder filtType t = tapOrder filtType 3 := by
  by_cases h1 : t = 1
  · subst h1; exact Or.inr (Or.inl rfl)
  · by_cases h2 : t = 2
    · subst h2; exact Or.inr (Or.inr (Or.inl rfl))
    · by_cases h3 : t = 3
      · subst h3; exact Or.inr (Or.inr (Or.inr rfl))
      · left
        unfold tapOrder
        cases filtType
        · dsimp only
          rw [if_neg h1, if_neg h2, if_neg h3]
          rfl
        · dsimp only
          rw [if_neg h1, if_neg h2, if_neg h3]
          rfl

theorem tapOrder_perm (filtType : AlfFilterType) (t : Nat) :
    (tapOrder filtType t).Perm (List.range (tapRowLength filtType)) ∧
    (tapOrder filtType t).length = tapRowLength filtType ∧
    (∀ k, k < tapRowLength filtType →
      (tapOrder filtType t).getD k 0 < tapRowLength filtType ∧
      (tapOrder filtType t).getD ((tapOrder filtType t).getD k 0) 0 = k) ∧
    (tapOrder filtType t).getD (tapRowLength filtType - 1) 0 = tapRowLength filtType - 1 := by
  rcases tapOrder_cases filtType t with h | h | h | h <;> rw [h] <;> cases filtType <;> decide

/-- C34. Each tap reordering of `filterBlk` (any transpose index; 13 entries for the 7x7
filter, 7 for the 5x5 filter) is a permutation of the row: position `k` of the reordered
row holds the entry `tapOrder[k]` of the row, where `tapOrder` is a permutation of the
indices that is its own inverse and fixes the last index; the reordered row is a
permutation of the row in its own order and reordering twice gives the row back. The
reordering of index 3 is the one of index 1 after the one of index 2 and the one of index
2 after the one of index 1. The positions do not depend on the row, so the coefficient row
and the clip row are reordered alike and each coefficient keeps its own clip bound. -/
theorem transposeRow_is_involution (filtType : AlfFilterType) (t : Nat)
    (coef clip : Nat → Int) :
    (tapOrder filtType t).Perm (List.range (tapRowLength filtType)) ∧
    (∀ k, k < tapRowLength filtType →
      (tapOrder filtType t).getD k 0 < tapRowLength filtType ∧
      (tapOrder filtType t).getD ((tapOrder filtType t).getD k 0) 0 = k) ∧
    (tapOrder filtType t).getD (tapRowLength filtType - 1) 0 = tapRowLength filtType - 1 ∧
    (∀ k, k < tapRowLength filtType →
      arrayAt (transposeRow filtType t coef) k = coef ((tapOrder filtType t).getD k 0) ∧
      arrayAt (transposeRow filtType t clip) k = clip ((tapOrder filtType t).getD k 0)) ∧
    arrayAt (transposeRow filtType t coef) (tapRowLength filtType - 1)
      = coef (tapRowLength filtType - 1) ∧
    (transposeRow filtType t coef).Perm (transposeRow filtType 0 coef) ∧
    transposeRow filtType t (arrayAt (transposeRow filtType t coef))
      = transposeRow filtType 0 coef ∧
    transposeRow filtType 1 (arrayAt (transposeRow filtType 2 coef))
      = transposeRow filtType 3 coef ∧
    transposeRow filtType 2 (arrayAt (transposeRow filtType 1 coef))
      = transposeRow filtType 3 coef := by
  obtain ⟨hperm, hlen, hinv, hlast⟩ := tapOrder_perm filtType t
  have hat : ∀ (row : Nat → Int) k, k < tapRowLength filtType →
      arrayAt (transposeRow filtType t row) k = row ((tapOrder filtType t).getD k 0) := by
    intro row k hk
    unfold arrayAt
    rw [transposeRow_eq_map, List.getD_eq_getElem?_getD, List.getD_eq_getElem?_getD,
      List.getElem?_map, List.getElem?_eq_getElem (by rw [hlen]; exact hk)]
    rfl
  have hpos : 0 < tapRowLength filtType := by cases filtType <;> decide
  refine ⟨hperm, hinv, hlast, fun k hk => ⟨hat coef k hk, hat clip k hk⟩, ?_, ?_, ?_, ?_, ?_⟩
  · rw [hat coef _ (by omega), hlast]
  · rw [transposeRow_eq_map, transposeRow_eq_map]
    exact (hperm.trans (tapOrder_perm filtType 0).1.symm).map coef
  · rcases tapOrder_cases filtType t with h | h | h | h <;>
      simp only [transposeRow_eq_map, h] <;> cases filtType <;> rfl
  · cases filtType <;> rfl
  · cases filtType <;> rfl

/-! ## The tap reorderings as geometric transforms -/

/-- On an interior pixel, the 7x7 filter sum with the rows reordered for the transpose
index `t` equals the filter sum with the rows in their own order on the transformed
picture at the transformed position. -/
theorem tapSum_geom (t : Nat) (ht : t = 1 ∨ t = 2 ∨ t = 3) (m : Int) (I : Plane)
    (coef clip : Nat → Int) (r x : Int) :
    tapSum AlfFilterType.ALF_FILTER_7 I (transposeRow AlfFilterType.ALF_FILTER_7 t coef)
        (transposeRow AlfFilterType.ALF_FILTER_7 t clip) (padRows r false false false) x
        (padCols false false false)
      = tapSum AlfFilterType.ALF_FILTER_7 (geomImage t m I)
          (transposeRow AlfFilterType.ALF_FILTER_7 0 coef)
          (transposeRow AlfFilterType.ALF_FILTER_7 0 clip)
          (padRows (geomPos t m r x).1 false false false) (geomPos t m r x).2
          (padCols false false false) := by
  have a0 : m - (m - x) = x := by ring
  have a1 : m - (m - x + 1) = x - 1 := by ring
  have a2 : m - (m - x + 2) = x - 2 := by ring
  have a3 : m - (m - x + 3) = x - 3 := by ring
  have a1' : m - (m - x - 1) = x + 1 := by ring
  have a2' : m - (m - x - 2) = x + 2 := by ring
  have a3' : m - (m - x - 3) = x + 3 := by ring
  have b0 : m - (m - r) = r := by ring
  have b1 : m - (m - r + 1) = r - 1 := by ring
  have b2 : m - (m - r + 2) = r - 2 := by ring
  have b3 : m - (m - r + 3) = r - 3 := by ring
  have b1' : m - (m - r - 1) = r + 1 := by ring
  have b2' : m - (m - r - 2) = r + 2 := by ring
  have b3' : m - (m - r - 3) = r + 3 := by ring
  have tr0 : ∀ row : Nat → Int, transposeRow AlfFilterType.ALF_FILTER_7 0 row
      = [row 0, row 1, row 2, row 3, row 4, row 5, row 6, row 7, row 8, row 9, row 10,
          row 11, row 12] := fun _ => rfl
  have tr1 : ∀ row : Nat → Int, transposeRow AlfFilterType.ALF_FILTER_7 1 row
      = [row 9, row 4, row 10, row 8, row 1, row 5, row 11, row 7, row 3, row 0, row 2,
          row 6, row 12] := fun _ => rfl
  have tr2 : ∀ row : Nat → Int, transposeRow AlfFilterType.ALF_FILTER_7 2 row
      = [row 0, row 3, row 2, row 1, row 8, row 7, row 6, row 5, row 4, row 9, row 10,
          row 11, row 12] := fun _ => rfl
  have tr3 : ∀ row : Nat → Int, transposeRow AlfFilterType.ALF_FILTER_7 3 row
      = [row 9, row 8, row 10, row 4, row 3, row 7, row 11, row 5, row 1, row 0, row 2,
          row 6, row 12] := fun _ => rfl
  have g1 : geomImage 1 m I = fun a b => I b a := rfl
  have g2 : geomImage 2 m I = fun a b => I a (m - b) := rfl
  have g3 : geomImage 3 m I = fun a b => I (m - b) a := rfl
  have q1 : geomPos 1 m r x = (x, r) := rfl
  have q2 : geomPos 2 m r x = (r, m - x) := rfl
  have q3 : geomPos 3 m r x = (x, m - r) := rfl
  have pr : ∀ y : Int, padRows y false false false
      = ⟨y, y + 1, y - 1, y + 2, y - 2, y + 3, y - 3⟩ := fun _ => rfl
  have pc : padCols false false false = ⟨1, 2, 3⟩ := rfl
  rw [tapSum_eq_toInt32, tapSum_eq_toInt32]
  congr 1
  rcases ht with h | h | h <;> subst h
  · rw [tr1, tr1, tr0, tr0, g1, q1, pr, pr, pc]
    simp only [tapProducts, arrayAt, List.getD_cons_zero, List.getD_cons_succ, clipALF]
    ring
  · rw [tr2, tr2, tr0, tr0, g2, q2, pr, pc]
    simp only [tapProducts, arrayAt, List.getD_cons_zero, List.getD_cons_succ, clipALF,
      a0, a1, a2, a3, a1', a2', a3']
    ring
  · rw [tr3, tr3, tr0, tr0, g3, q3, pr, pr, pc]
    simp only [tapProducts, arrayAt, List.getD_cons_zero, List.getD_cons_succ, clipALF,
      b0, b1, b2, b3, b1', b2', b3']
    ring

theorem geomImage_at_geomPos (t : Nat) (ht : t = 1 ∨ t = 2 ∨ t = 3) (m : Int) (I : Plane)
    (r x : Int) : geomImage t m I (geomPos t m r x).1 (geomPos t m r x).2 = I r x := by
  have b0 : m - (m - r) = r := by ring
  have a0 : m - (m - x) = x := by ring
  rcases ht with h | h | h <;> subst h
  · rfl
  · show I r (m - (m - x)) = I r x
    rw [a0]
  · show I (m - (m - r)) x = I r x
    rw [b0]

/-- C33. The tap reorderings realise geometric transforms of the filter. For a luma pixel
`(r, x)` at which no boundary handling is active (no boundary flagged, the row not within
three rows of the virtual boundary row), in a block whose classifier entry has the class
`cI` and the transpose index `t` in 1..3, `filterBlk<ALF_FILTER_7>` on the picture `I`
stores the same sample as `filterBlk<ALF_FILTER_7>` stores, for a block of the same class
and transpose index 0, at the transformed position of the transformed picture: the
transposed picture at `(x, r)` for `t = 1`, the horizontally mirrored picture (columns
`b -> m - b`) at `(r, m - x)` for `t = 2`, and the picture transposed and then mirrored
at `(x, m - r)` for `t = 3`. Both calls return. -/
theorem filterBlk_transpose_is_geometric (NB : Int) (classifier1 classifier2 : ClassMap)
    (recDst1 recDst2 recSrc1 recSrc2 : PelUnitBuf) (blk1 blk2 : Area)
    (filterSet fClipSet : Nat → Int) (clpRng : ClpRng) (fmt : ChromaFormat) (vbPos : Int)
    (k t : Nat) (m r x : Int) (cI : Nat) (ht : t = 1 ∨ t = 2 ∨ t = 3)
    (hy1 : blk1.y % 4 = 0) (hx1 : blk1.x % 4 = 0) (hh1 : blk1.height % 4 = 0)
    (hw1 : blk1.width % 4 = 0)
    (hy2 : blk2.y % 4 = 0) (hx2 : blk2.x % 4 = 0) (hh2 : blk2.height % 4 = 0)
    (hw2 : blk2.width % 4 = 0)
    (hr1 : blk1.y ≤ r) (hr2 : r < blk1.y + blk1.height)
    (hc1 : blk1.x ≤ x) (hc2 : x < blk1.x + blk1.width)
    (hr1' : blk2.y ≤ (geomPos t m r x).1)
    (hr2' : (geomPos t m r x).1 < blk2.y + blk2.height)
    (hc1' : blk2.x ≤ (geomPos t m r x).2)
    (hc2' : (geomPos t m r x).2 < blk2.x + blk2.width)
    (hVB1 : r % 2 ^ k ≤ vbPos - 4 ∨ vbPos + 3 ≤ r % 2 ^ k)
    (hVB2 : (geomPos t m r x).1 % 2 ^ k ≤ vbPos - 4 ∨ vbPos + 3 ≤ (geomPos t m r x).1 % 2 ^ k)
    (hcl1 : classifier1 (r - ↑((r - blk1.y).toNat % 4)) (x - ↑((x - blk1.x).toNat % 4))
      = ⟨cI, t⟩)
    (hcl2 : classifier2
        ((geomPos t m r x).1 - ↑(((geomPos t m r x).1 - blk2.y).toNat % 4))
        ((geomPos t m r x).2 - ↑(((geomPos t m r x).2 - blk2.x).toNat % 4))
      = ⟨cI, 0⟩)
    (himg : recSrc2 ComponentID.COMPONENT_Y = geomImage t m (recSrc1 ComponentID.COMPONENT_Y)) :
    ∃ out1 out2,
      filterBlk NB AlfFilterType.ALF_FILTER_7 classifier1 recDst1 recSrc1 blk1 blk1
        ComponentID.COMPONENT_Y filterSet fClipSet clpRng fmt (2 ^ k) vbPos (fun _ => NB)
        = Except.ok out1 ∧
      filterBlk NB AlfFilterType.ALF_FILTER_7 classifier2 recDst2 recSrc2 blk2 blk2
        ComponentID.COMPONENT_Y filterSet fClipSet clpRng fmt (2 ^ k) vbPos (fun _ => NB)
        = Except.ok out2 ∧
      out1 ComponentID.COMPONENT_Y r x
        = out2 ComponentID.COMPONENT_Y (geomPos t m r x).1 (geomPos t m r x).2 := by
  obtain ⟨out1, hout1, hv1⟩ := filterBlk_interior_value NB classifier1 recDst1 recSrc1 blk1
    blk1 filterSet fClipSet clpRng fmt (2 ^ k) vbPos (fun _ => NB) k r x rfl hy1 hx1 hh1 hw1
    hr1 hr2 hc1 hc2 (by rw [bitAnd_pow_two]; exact hVB1) (Or.inl rfl) (Or.inl rfl)
    (Or.inl rfl) (Or.inl rfl)
  obtain ⟨out2, hout2, hv2⟩ := filterBlk_interior_value NB classifier2 recDst2 recSrc2 blk2
    blk2 filterSet fClipSet clpRng fmt (2 ^ k) vbPos (fun _ => NB) k (geomPos t m r x).1
    (geomPos t m r x).2 rfl hy2 hx2 hh2 hw2 hr1' hr2' hc1' hc2'
    (by rw [bitAnd_pow_two]; exact hVB2) (Or.inl rfl) (Or.inl rfl) (Or.inl rfl) (Or.inl rfl)
  refine ⟨out1, out2, hout1, hout2, ?_⟩
  rw [hv1, hv2, hcl1, hcl2, himg]
  simp only [sub_add_cancel]
  rw [tapSum_geom t ht m (recSrc1 ComponentID.COMPONENT_Y) _ _ r x,
    geomImage_at_geomPos t ht m (recSrc1 ComponentID.COMPONENT_Y) r x]

/-- C33, witness: transpose index 1; the pixel (row 9, column 18) of the rectangle of size
32x32 at the origin and the pixel (row 18, column 9) of the transposed picture; CTU height
64 with the virtual boundary at row 60. -/
theorem filterBlk_transpose_is_geometric_witness :
    ∃ out1 out2,
      filterBlk (-128) AlfFilterType.ALF_FILTER_7 (fun _ _ => ⟨3, 1⟩) (fun _ _ _ => 0)
        (fun _ y x => 5 * y + x) ⟨0, 0, 32, 32⟩ ⟨0, 0, 32, 32⟩ ComponentID.COMPONENT_Y
        (fun n => n) (fun n => 2 * n) ⟨0, 1023⟩ ChromaFormat.CHROMA_420 (2 ^ 6) 60
        (fun _ => -128) = Except.ok out1 ∧
      filterBlk (-128) AlfFilterType.ALF_FILTER_7 (fun _ _ => ⟨3, 0⟩) (fun _ _ _ => 0)
        (fun _ => geomImage 1 0 (fun y x => 5 * y + x)) ⟨0, 0, 32, 32⟩ ⟨0, 0, 32, 32⟩
        ComponentID.COMPONENT_Y (fun n => n) (fun n => 2 * n) ⟨0, 1023⟩
        ChromaFormat.CHROMA_420 (2 ^ 6) 60 (fun _ => -128) = Except.ok out2 ∧
      out1 ComponentID.COMPONENT_Y 9 18
        = out2 ComponentID.COMPONENT_Y (geomPos 1 0 9 18).1 (geomPos 1 0 9 18).2 :=
  filterBlk_transpose_is_geometric (-128) (fun _ _ => ⟨3, 1⟩) (fun _ _ => ⟨3, 0⟩)
    (fun _ _ _ => 0) (fun _ _ _ => 0) (fun _ y x => 5 * y + x)
    (fun _ => geomImage 1 0 (fun y x => 5 * y + x)) ⟨0, 0, 32, 32⟩ ⟨0, 0, 32, 32⟩
    (fun n => n) (fun n => 2 * n) ⟨0, 1023⟩ ChromaFormat.CHROMA_420 60 6 1 0 9 18 3
    (Or.inl rfl) (by decide) (by decide) (by decide) (by decide) (by decide) (by decide)
    (by decide) (by decide) (by decide) (by decide) (by decide) (by decide) (by decide)
    (by decide) (by decide) (by decide) (by decide) (by decide) rfl rfl rfl

/-! ## Size of the block sums -/

theorem abs_second_difference_le (p a b : Int) (hp : 0 ≤ p ∧ p ≤ 1023)
    (ha : 0 ≤ a ∧ a ≤ 1023) (hb : 0 ≤ b ∧ b ≤ 1023) :
    0 ≤ |2 * p - a - b| ∧ |2 * p - a - b| ≤ 2046 :=
  ⟨abs_nonneg _, abs_le.mpr ⟨by omega, by omega⟩⟩

theorem lapCell_bound (src : Plane) (hsrc : ∀ y x, 0 ≤ src y x ∧ src y x ≤ 1023)
    (r0 r1 r2 r3 c : Int) (d : Direction) :
    0 ≤ lapCell src r0 r1 r2 r3 c d ∧ lapCell src r0 r1 r2 r3 c d ≤ 4092 := by
  have e : ∀ y x, toPel (shl (src y x) 1) = 2 * src y x := by
    intro y x
    have := hsrc y x
    unfold shl
    rw [toPel_of_small _ (by omega) (by omega)]
    ring
  unfold lapCell
  simp only [e]
  cases d
  · have h1 := abs_second_difference_le (src r1 c) (src r1 (c + 1)) (src r1 (c - 1))
      (hsrc _ _) (hsrc _ _) (hsrc _ _)
    have h2 := abs_second_difference_le (src r2 (c + 1)) (src r2 (c + 2)) (src r2 c)
      (hsrc _ _) (hsrc _ _) (hsrc _ _)
    dsimp only
    omega
  · have h1 := abs_second_difference_le (src r1 c) (src r0 c) (src r2 c)
      (hsrc _ _) (hsrc _ _) (hsrc _ _)
    have h2 := abs_second_difference_le (src r2 (c + 1)) (src r1 (c + 1)) (src r3 (c + 1))
      (hsrc _ _) (hsrc _ _) (hsrc _ _)
    dsimp only
    omega
  · have h1 := abs_second_difference_le (src r1 c) (src r0 (c - 1)) (src r2 (c + 1))
      (hsrc _ _) (hsrc _ _) (hsrc _ _)
    have h2 := abs_second_difference_le (src r2 (c + 1)) (src r1 c) (src r3 (c + 2))
      (hsrc _ _) (hsrc _ _) (hsrc _ _)
    dsimp only
    omega
  · have h1 := abs_second_difference_le (src r1 c) (src r2 (c - 1)) (src r0 (c + 1))
      (hsrc _ _) (hsrc _ _) (hsrc _ _)
    have h2 := abs_second_difference_le (src r2 (c + 1)) (src r3 c) (src r1 (c + 2))
      (hsrc _ _) (hsrc _ _) (hsrc _ _)
    dsimp only
    omega

theorem lapRowEntry_bound (blkDst : Area) (alfBryList : Nat → Int) (cell : Nat → Int)
    (hcell : ∀ q, 0 ≤ cell q ∧ cell q ≤ 4092) (n k : Nat) :
    0 ≤ lapRowEntry blkDst alfBryList cell n k ∧
      lapRowEntry blkDst alfBryList cell n k ≤ 16368 := by
  have h0 := hcell k
  have h1 := hcell (k + 1)
  have h2 := hcell (k + 2)
  have h3 := hcell (k + 3)
  unfold lapRowEntry
  dsimp only
  split_ifs <;> omega

theorem lapPass_bound (src : Plane) (hsrc : ∀ y x, 0 ≤ src y x ∧ src y x ≤ 1023)
    (blkDst blk : Area) (vbCTUHeight vbPos : Int) (alfBryList : Nat → Int) (lap : Laplacian)
    (d : Direction) (i j : Nat) (hi : i % 2 = 0) (hj : j % 2 = 0) (hi' : i < blk.height + 4)
    (hj' : j < blk.width + 4) :
    0 ≤ lapPass src blkDst blk vbCTUHeight vbPos alfBryList lap d i j ∧
      lapPass src blkDst blk vbCTUHeight vbPos alfBryList lap d i j ≤ 16368 := by
  rw [lapPass_closed src blkDst blk vbCTUHeight vbPos alfBryList lap d i j hi hj hi' hj']
  apply lapRowEntry_bound
  intro q
  unfold lapCellAt
  exact lapCell_bound src hsrc _ _ _ _ _ d

theorem blockSum_bound (lap : Laplacian) (rows : Bool × Bool × Bool × Bool) (i j : Nat)
    (d : Direction)
    (h0 : 0 ≤ lap d i j ∧ lap d i j ≤ 16368)
    (h2 : 0 ≤ lap d (i + 2) j ∧ lap d (i + 2) j ≤ 16368)
    (h4 : 0 ≤ lap d (i + 4) j ∧ lap d (i + 4) j ≤ 16368)
    (h6 : 0 ≤ lap d (i + 6) j ∧ lap d (i + 6) j ≤ 16368) :
    0 ≤ blockSum lap rows i j d ∧ blockSum lap rows i j d ≤ 65472 := by
  obtain ⟨a, b, c, e⟩ := rows
  cases a <;> cases b <;> cases c <;> cases e <;> simp only [blockSum] <;> omega

theorem toUInt32_of_range (a : Int) (h0 : 0 ≤ a) (h1 : a < 4294967296) : toUInt32 a = a := by
  unfold toUInt32
  omega

theorem uint32_product (a b : Int) (ha : 0 ≤ a ∧ a ≤ 65472) (hb : 0 ≤ b ∧ b ≤ 65472) :
    toUInt32 (toUInt32 a * toUInt32 b) = a * b ∧ 0 ≤ a * b ∧ a * b < 4294967296 := by
  have h1 : 0 ≤ a * b := Int.mul_nonneg ha.1 hb.1
  have h2 : a * b ≤ 65472 * 65472 := Int.mul_le_mul ha.2 hb.2 hb.1 (by norm_num)
  have h3 : a * b < 4294967296 := lt_of_le_of_lt h2 (by norm_num)
  rw [toUInt32_of_range a ha.1 (by omega), toUInt32_of_range b hb.1 (by omega),
    toUInt32_of_range _ h1 h3]
  exact ⟨rfl, h1, h3⟩

/-- C36. For luma samples in `[0, 1023]` every block sum `sumV`, `sumH`, `sumD0`, `sumD1`
of `deriveClassificationBlk` lies in `[0, 65472]`; so the two unsigned 32-bit products
`d1 * hv0` and `hv1 * d0` do not wrap (they are below `2 ^ 32` and the converted product
is the product of the integers), the diagonal family is the main direction exactly when
`d1 * hv0 > hv1 * d0` over the integers, and `(sumV + sumH) * 192` lies in the range of a
signed 32-bit `int`. -/
theorem deriveClassificationBlk_sums_fit (NB : Int) (src : Plane) (blkDst blk : Area)
    (vbCTUHeight vbPos : Int) (alfBryList : Nat → Int) (lap : Laplacian) (i j : Nat)
    (sumV sumH sumD0 sumD1 hv1 hv0 d1 d0 : Int)
    (hh : blk.height % 4 = 0) (hw : blk.width % 4 = 0)
    (hi : i % 4 = 0) (hi' : i < blk.height) (hj : j % 4 = 0) (hj' : j < blk.width)
    (hsrc : ∀ y x, 0 ≤ src y x ∧ src y x ≤ 1023)
    (hV : sumV = blockSum (lapPass src blkDst blk vbCTUHeight vbPos alfBryList lap)
      (verRows NB blkDst vbCTUHeight vbPos alfBryList i).1 i j Direction.VER)
    (hH : sumH = blockSum (lapPass src blkDst blk vbCTUHeight vbPos alfBryList lap)
      (verRows NB blkDst vbCTUHeight vbPos alfBryList i).1 i j Direction.HOR)
    (hD0 : sumD0 = blockSum (lapPass src blkDst blk vbCTUHeight vbPos alfBryList lap)
      (verRows NB blkDst vbCTUHeight vbPos alfBryList i).1 i j Direction.DIAG0)
    (hD1 : sumD1 = blockSum (lapPass src blkDst blk vbCTUHeight vbPos alfBryList lap)
      (verRows NB blkDst vbCTUHeight vbPos alfBryList i).1 i j Direction.DIAG1)
    (hhv1 : hv1 = if sumV > sumH then sumV else sumH)
    (hhv0 : hv0 = if sumV > sumH then sumH else sumV)
    (hd1 : d1 = if sumD0 > sumD1 then sumD0 else sumD1)
    (hd0 : d0 = if sumD0 > sumD1 then sumD1 else sumD0) :
    (0 ≤ sumV ∧ sumV ≤ 65472) ∧ (0 ≤ sumH ∧ sumH ≤ 65472) ∧
    (0 ≤ sumD0 ∧ sumD0 ≤ 65472) ∧ (0 ≤ sumD1 ∧ sumD1 ≤ 65472) ∧
    (toUInt32 (toUInt32 d1 * toUInt32 hv0) = d1 * hv0 ∧ d1 * hv0 < 2 ^ 32) ∧
    (toUInt32 (toUInt32 hv1 * toUInt32 d0) = hv1 * d0 ∧ hv1 * d0 < 2 ^ 32) ∧
    (dirInfo sumV sumH sumD0 sumD1).mainDirection
      = (if d1 * hv0 > hv1 * d0 then (if sumD0 > sumD1 then 0 else 2)
          else (if sumV > sumH then 1 else 3)) ∧
    (dirInfo sumV sumH sumD0 sumD1).hvd1 = (if d1 * hv0 > hv1 * d0 then d1 else hv1) ∧
    (dirInfo sumV sumH sumD0 sumD1).hvd0 = (if d1 * hv0 > hv1 * d0 then d0 else hv0) ∧
    -(2 ^ 31) ≤ (sumV + sumH) * 192 ∧ (sumV + sumH) * 192 < 2 ^ 31 := by
  have hb : ∀ d, 0 ≤ blockSum (lapPass src blkDst blk vbCTUHeight vbPos alfBryList lap)
        (verRows NB blkDst vbCTUHeight vbPos alfBryList i).1 i j d ∧
      blockSum (lapPass src blkDst blk vbCTUHeight vbPos alfBryList lap)
        (verRows NB blkDst vbCTUHeight vbPos alfBryList i).1 i j d ≤ 65472 := by
    intro d
    apply blockSum_bound
    · exact lapPass_bound src hsrc blkDst blk vbCTUHeight vbPos alfBryList lap d i j
        (by omega) (by omega) (by omega) (by omega)
    · exact lapPass_bound src hsrc blkDst blk vbCTUHeight vbPos alfBryList lap d (i + 2) j
        (by omega) (by omega) (by omega) (by omega)
    · exact lapPass_bound src hsrc blkDst blk vbCTUHeight vbPos alfBryList lap d (i + 4) j
        (by omega) (by omega) (by omega) (by omega)
    · exact lapPass_bound src hsrc blkDst blk vbCTUHeight vbPos alfBryList lap d (i + 6) j
        (by omega) (by omega) (by omega) (by omega)
  have bV : 0 ≤ sumV ∧ sumV ≤ 65472 := by rw [hV]; exact hb _
  have bH : 0 ≤ sumH ∧ sumH ≤ 65472 := by rw [hH]; exact hb _
  have bD0 : 0 ≤ sumD0 ∧ sumD0 ≤ 65472 := by rw [hD0]; exact hb _
  have bD1 : 0 ≤ sumD1 ∧ sumD1 ≤ 65472 := by rw [hD1]; exact hb _
  have bhv1 : 0 ≤ hv1 ∧ hv1 ≤ 65472 := by rw [hhv1]; split_ifs <;> assumption
  have bhv0 : 0 ≤ hv0 ∧ hv0 ≤ 65472 := by rw [hhv0]; split_ifs <;> assumption
  have bd1 : 0 ≤ d1 ∧ d1 ≤ 65472 := by rw [hd1]; split_ifs <;> assumption
  have bd0 : 0 ≤ d0 ∧ d0 ≤ 65472 := by rw [hd0]; split_ifs <;> assumption
  obtain ⟨p1, -, p1'⟩ := uint32_product d1 hv0 bd1 bhv0
  obtain ⟨p2, -, p2'⟩ := uint32_product hv1 d0 bhv1 bd0
  have key : (toUInt32 (toUInt32 d1 * toUInt32 hv0) > toUInt32 (toUInt32 hv1 * toUInt32 d0))
      ↔ d1 * hv0 > hv1 * d0 := by rw [p1, p2]
  refine ⟨bV, bH, bD0, bD1, ⟨p1, by norm_num; exact p1'⟩, ⟨p2, by norm_num; exact p2'⟩,
    ?_, ?_, ?_, by omega, by omega⟩
  · unfold dirInfo
    simp only [← hhv1, ← hhv0, ← hd1, ← hd0, key]
  · unfold dirInfo
    simp only [← hhv1, ← hhv0, ← hd1, ← hd0, key]
  · unfold dirInfo
    simp only [← hhv1, ← hhv0, ← hd1, ← hd0, key]

/-- C36, witness: the block at the origin of the 8x8 rectangle at (4, 4) on the plane of
samples `(7 y + 3 x) mod 1024`. -/
theorem deriveClassificationBlk_sums_fit_witness :
    -(2 ^ 31 : Int) ≤
      (blockSum (lapPass (fun y x => (7 * y + 3 * x) % 1024) ⟨4, 4, 8, 8⟩ ⟨4, 4, 8, 8⟩ 64 60
          (fun _ => -128) (fun _ _ _ => 0))
          (verRows (-128) ⟨4, 4, 8, 8⟩ 64 60 (fun _ => -128) 0).1 0 0 Direction.VER
        + blockSum (lapPass (fun y x => (7 * y + 3 * x) % 1024) ⟨4, 4, 8, 8⟩ ⟨4, 4, 8, 8⟩ 64 60
          (fun _ => -128) (fun _ _ _ => 0))
          (verRows (-128) ⟨4, 4, 8, 8⟩ 64 60 (fun _ => -128) 0).1 0 0 Direction.HOR) * 192 ∧
    (blockSum (lapPass (fun y x => (7 * y + 3 * x) % 1024) ⟨4, 4, 8, 8⟩ ⟨4, 4, 8, 8⟩ 64 60
          (fun _ => -128) (fun _ _ _ => 0))
          (verRows (-128) ⟨4, 4, 8, 8⟩ 64 60 (fun _ => -128) 0).1 0 0 Direction.VER
        + blockSum (lapPass (fun y x => (7 * y + 3 * x) % 1024) ⟨4, 4, 8, 8⟩ ⟨4, 4, 8, 8⟩ 64 60
          (fun _ => -128) (fun _ _ _ => 0))
          (verRows (-128) ⟨4, 4, 8, 8⟩ 64 60 (fun _ => -128) 0).1 0 0 Direction.HOR) * 192
      < 2 ^ 31 :=
  (deriveClassificationBlk_sums_fit (-128) (fun y x => (7 * y + 3 * x) % 1024) ⟨4, 4, 8, 8⟩
    ⟨4, 4, 8, 8⟩ 64 60 (fun _ => -128) (fun _ _ _ => 0) 0 0 _ _ _ _ _ _ _ _
    (by decide) (by decide) (by decide) (by decide) (by decide) (by decide)
    (fun y x => by
      show 0 ≤ (7 * y + 3 * x) % 1024 ∧ (7 * y + 3 * x) % 1024 ≤ 1023
      omega)
    rfl rfl rfl rfl rfl rfl rfl rfl).2.2.2.2.2.2.2.2.2

/-! ## The escaping can be undone -/

theorem unescapeByte_drop (l : List Nat) (z : Nat) (hz : 2 ≤ z) :
    unescapeByte (l, z) 3 = (l, 0) := by
  unfold unescapeByte
  rw [if_pos ⟨hz, rfl⟩]

theorem unescapeByte_keep (l : List Nat) (z v : Nat) (h : ¬ (2 ≤ z ∧ v = 3)) :
    unescapeByte (l, z) v = (l ++ [v], if v = 0 then z + 1 else 0) := by
  unfold unescapeByte
  rw [if_neg h]

theorem escapeByte_escaped (s : EscapeState) (v : Nat) (h : s.zeroCount = 2 ∧ v ≤ 3) :
    escapeByte s v = ⟨s.outputBuffer ++ [3] ++ [v], if v = 0 then 0 + 1 else 0⟩ := by
  unfold escapeByte
  simp only [if_pos h]
  rfl

theorem escapeByte_plain (s : EscapeState) (v : Nat) (h : ¬ (s.zeroCount = 2 ∧ v ≤ 3)) :
    escapeByte s v = ⟨s.outputBuffer ++ [v], if v = 0 then s.zeroCount + 1 else 0⟩ := by
  unfold escapeByte
  simp only [if_neg h]

/-- The removal of the emulation prevention bytes, run on the buffer of the loop of
`write`, gives the bytes of the RBSP processed so far and the same count of zero bytes. -/
theorem unescape_escapeLoop (l : List Nat) :
    (escapeLoop l).outputBuffer.foldl unescapeByte ([], 0) = (l, (escapeLoop l).zeroCount) ∧
    (escapeLoop l).zeroCount ≤ 2 := by
  induction l using List.reverseRecOn with
  | nil => exact ⟨rfl, by decide⟩
  | append_singleton l v ih =>
    obtain ⟨ih1, ih2⟩ := ih
    rw [escapeLoop_concat]
    by_cases h : (escapeLoop l).zeroCount = 2 ∧ v ≤ 3
    · rw [escapeByte_escaped _ v h]
      dsimp only
      constructor
      · rw [List.foldl_append, List.foldl_append, ih1, List.foldl_cons, List.foldl_nil,
          List.foldl_cons, List.foldl_nil, unescapeByte_drop l _ (by omega),
          unescapeByte_keep l 0 v (by omega)]
      · split_ifs <;> omega
    · rw [escapeByte_plain _ v h]
      dsimp only
      constructor
      · rw [List.foldl_append, ih1, List.foldl_cons, List.foldl_nil,
          unescapeByte_keep l _ v (by rintro ⟨g1, g2⟩; exact h ⟨by omega, by omega⟩)]
      · split_ifs <;> omega

theorem infix_zero_zero_of_last (l : List Nat) (h : l.getLast? = some 0) :
    [0, 0] <:+: l ++ [0] := by
  rcases List.eq_nil_or_concat l with h' | ⟨l', w, h'⟩
  · rw [h'] at h
    simp at h
  · rw [List.concat_eq_append] at h'
    rw [h', List.getLast?_concat] at h
    have hw : w = 0 := by simpa using h
    subst hw
    rw [h']
    exact ⟨l', [], by simp⟩

/-- Without two zero bytes in a row the loop of `write` stores the RBSP unchanged. -/
theorem escapeLoop_of_no_zero_pair (l : List Nat) (h : ¬ [0, 0] <:+: l) :
    (escapeLoop l).outputBuffer = l ∧ (escapeLoop l).zeroCount ≤ 1 ∧
    ((escapeLoop l).zeroCount = 1 → l.getLast? = some 0) := by
  induction l using List.reverseRecOn with
  | nil => exact ⟨rfl, by decide, fun g => absurd g (by decide)⟩
  | append_singleton l v ih =>
    have hl : ¬ [0, 0] <:+: l := fun g => h (g.trans (List.prefix_append l [v]).isInfix)
    obtain ⟨ih1, ih2, ih3⟩ := ih hl
    have hc : ¬ ((escapeLoop l).zeroCount = 2 ∧ v ≤ 3) := by omega
    rw [escapeLoop_concat, escapeByte_plain _ v hc, ih1]
    dsimp only
    refine ⟨rfl, ?_, ?_⟩
    · split_ifs with hv
      · subst hv
        by_contra hgt
        exact h (infix_zero_zero_of_last l (ih3 (by omega)))
      · omega
    · intro g
      split_ifs at g with hv
      subst hv
      exact List.getLast?_concat _

/-- C39. For every RBSP whose last byte is not zero, removing from the escaped payload
that `write` emits each byte 3 that immediately follows two consecutive zero bytes
(resetting the zero count after each removal) yields the RBSP; and for an RBSP with no
two consecutive zero bytes and a non-zero last byte the escaped payload is the RBSP
itself. -/
theorem write_payload_unescapes (rbsp : List Nat) (v : Nat)
    (hlast : rbsp.getLast? = some v) (hv : v ≠ 0) :
    unescape (escapedPayload rbsp) = rbsp ∧
    (¬ [0, 0] <:+: rbsp → escapedPayload rbsp = rbsp) := by
  have hz : (escapeLoop rbsp).zeroCount = 0 := by
    rcases List.eq_nil_or_concat rbsp with h | ⟨l, w, h⟩
    · rw [h]
      rfl
    · rw [List.concat_eq_append] at h
      rw [h, List.getLast?_concat] at hlast
      have hw : w = v := by simpa using hlast
      subst hw
      rw [h, escapeLoop_concat]
      have := (escapeByte_last (escapeLoop l) w).2
      omega
  have hp : escapedPayload rbsp = (escapeLoop rbsp).outputBuffer := by
    unfold escapedPayload
    dsimp only
    rw [if_neg (by omega)]
  constructor
  · unfold unescape
    rw [hp, (unescape_escapeLoop rbsp).1]
  · intro h
    rw [hp]
    exact (escapeLoop_of_no_zero_pair rbsp h).1

/-- C39, witness: the RBSP 00 00 01 00 00 03 07, whose escaped payload is
00 00 03 01 00 00 03 03 07. -/
theorem write_payload_unescapes_witness :
    unescape (escapedPayload [0, 0, 1, 0, 0, 3, 7]) = [0, 0, 1, 0, 0, 3, 7] ∧
    (¬ [0, 0] <:+: [0, 0, 1, 0, 0, 3, 7] →
      escapedPayload [0, 0, 1, 0, 0, 3, 7] = [0, 0, 1, 0, 0, 3, 7]) :=
  write_payload_unescapes [0, 0, 1, 0, 0, 3, 7] 7 (by decide) (by decide)

/-! ## The sub-rectangles of a split CTU -/

theorem splitColumns_loop (NB : Int) (lumaWidth xPos width : Int) (c : CrossedResult)
    (i : Nat) (yStart h : Int) (clipT clipB : Bool) (visited : List SubBlock) (n : Nat) :
    loopN n (fun j (s : Int × List SubBlock) =>
      let xStart := s.1
      let xEnd := if j = c.numVerVirBndry then xPos + width else c.verVirBndryPos j
      let w := xEnd - xStart
      let clipL := decide (j = 0 ∧ c.bry.leftBry ≠ NB) || decide (j > 0) || decide (xStart = 0)
      let clipR := decide (j = c.numVerVirBndry ∧ c.bry.rightBry ≠ NB)
        || decide (j < c.numVerVirBndry) || decide (xEnd = lumaWidth)
      let wBuf := w + (if clipL then 0 else MAX_ALF_PADDING_SIZE)
        + (if clipR then 0 else MAX_ALF_PADDING_SIZE)
      let hBuf := h + (if clipT then 0 else MAX_ALF_PADDING_SIZE)
        + (if clipB then 0 else MAX_ALF_PADDING_SIZE)
      (xEnd, s.2 ++ [⟨i, j, xStart, yStart, w, h, clipL, clipR, clipT, clipB, wBuf, hBuf⟩]))
      (xPos, visited)
    = (segStart xPos width c.numVerVirBndry c.verVirBndryPos n,
        visited ++ (List.range n).map
          (colBlock NB lumaWidth xPos width c i yStart h clipT clipB)) := by
  induction n with
  | zero => simp [loopN, segStart]
  | succ n ih =>
    rw [loopN_succ, ih, List.range_succ, List.map_append, ← List.append_assoc]
    rfl

theorem splitColumns_closed (NB : Int) (lumaWidth xPos width : Int) (c : CrossedResult)
    (i : Nat) (yStart h : Int) (clipT clipB : Bool) (visited : List SubBlock) :
    (splitColumns NB lumaWidth xPos width c i yStart h clipT clipB visited).2
      = visited ++ (List.range (c.numVerVirBndry + 1)).map
          (colBlock NB lumaWidth xPos width c i yStart h clipT clipB) := by
  unfold splitColumns
  rw [splitColumns_loop]

/-- The sub-blocks of the rows `0 .. n - 1`, in the order they are visited. -/
theorem splitCtu_loop (NB : Int) (lumaWidth lumaHeight xPos yPos width height : Int)
    (c : CrossedResult) (n : Nat) :
    loopN n (fun i (s : Int × List SubBlock) =>
      let yStart := s.1
      let yEnd := if i = c.numHorVirBndry then yPos + height else c.horVirBndryPos i
      let h := yEnd - yStart
      let clipT := decide (i = 0 ∧ c.bry.topBry ≠ NB) || decide (i > 0) || decide (yStart = 0)
      let clipB := decide (i = c.numHorVirBndry ∧ c.bry.botBry ≠ NB)
        || decide (i < c.numHorVirBndry) || decide (yEnd = lumaHeight)
      (yEnd, (splitColumns NB lumaWidth xPos width c i yStart h clipT clipB s.2).2))
      (yPos, [])
    = (segStart yPos height c.numHorVirBndry c.horVirBndryPos n,
        (List.range n).foldl (fun acc i => acc ++ (List.range (c.numVerVirBndry + 1)).map
          (subBlockAt NB lumaWidth lumaHeight xPos yPos width height c i)) []) := by
  induction n with
  | zero => simp [loopN, segStart]
  | succ n ih =>
    have e : List.range (n + 1) = List.range n ++ [n] := List.range_succ n
    rw [loopN_succ, ih, e, List.foldl_append]
    dsimp only
    rw [splitColumns_closed]
    rfl

theorem splitCtu_closed (NB : Int) (lumaWidth lumaHeight xPos yPos width height : Int)
    (c : CrossedResult) :
    splitCtu NB lumaWidth lumaHeight xPos yPos width height c
      = (List.range (c.numHorVirBndry + 1)).foldl
          (fun acc i => acc ++ (List.range (c.numVerVirBndry + 1)).map
            (subBlockAt NB lumaWidth lumaHeight xPos yPos width height c i)) [] := by
  unfold splitCtu
  rw [splitCtu_loop]

theorem rows_foldl_length (f : Nat → Nat → SubBlock) (m n : Nat) :
    ((List.range n).foldl (fun acc i => acc ++ (List.range m).map (f i)) []).length
      = n * m := by
  induction n with
  | zero => simp
  | succ n ih =>
    rw [List.range_succ, List.foldl_append, List.foldl_cons, List.foldl_nil, List.length_append,
      ih, List.length_map, List.length_range]
    ring

theorem rows_foldl_mem (f : Nat → Nat → SubBlock) (m n : Nat) (b : SubBlock) :
    b ∈ (List.range n).foldl (fun acc i => acc ++ (List.range m).map (f i)) []
      ↔ ∃ i j, i < n ∧ j < m ∧ b = f i j := by
  induction n with
  | zero => simp
  | succ n ih =>
    rw [List.range_succ, List.foldl_append, List.foldl_cons, List.foldl_nil, List.mem_append, ih]
    constructor
    · rintro (⟨i, j, hi, hj, e⟩ | h)
      · exact ⟨i, j, by omega, hj, e⟩
      · obtain ⟨j, hj, e⟩ := List.mem_map.mp h
        exact ⟨n, j, by omega, List.mem_range.mp hj, e.symm⟩
    · rintro ⟨i, j, hi, hj, e⟩
      by_cases h : i < n
      · exact Or.inl ⟨i, j, h, hj, e⟩
      · have : i = n := by omega
        subst this
        exact Or.inr (List.mem_map.mpr ⟨j, List.mem_range.mpr hj, e.symm⟩)

theorem rows_foldl_pairwise (R : SubBlock → SubBlock → Prop) (f : Nat → Nat → SubBlock)
    (m n : Nat)
    (h : ∀ i j i' j', i' < n → j < m → j' < m → (i < i' ∨ (i = i' ∧ j < j')) →
      R (f i j) (f i' j')) :
    List.Pairwise R
      ((List.range n).foldl (fun acc i => acc ++ (List.range m).map (f i)) []) := by
  induction n with
  | zero => simp
  | succ n ih =>
    rw [List.range_succ, List.foldl_append, List.foldl_cons, List.foldl_nil,
      List.pairwise_append]
    refine ⟨ih (fun i j i' j' hi' hj hj' hlt => h i j i' j' (by omega) hj hj' hlt), ?_, ?_⟩
    · rw [List.pairwise_map]
      exact (List.pairwise_lt_range m).imp_of_mem (fun {a b} ha hb hab =>
        h n a n b (by omega) (List.mem_range.mp ha) (List.mem_range.mp hb) (Or.inr ⟨rfl, hab⟩))
    · intro a ha b hb
      obtain ⟨i, j, hi, hj, e⟩ := (rows_foldl_mem f m n a).mp ha
      obtain ⟨j', hj', e'⟩ := List.mem_map.mp hb
      rw [e, ← e']
      exact h i j n j' (by omega) hj (List.mem_range.mp hj') (Or.inl hi)

theorem segStart_lt_segEnd (lo len : Int) (n : Nat) (pos : Nat → Int) (hlen : 0 < len)
    (hint : ∀ a, a < n → lo < pos a ∧ pos a < lo + len)
    (hinc : ∀ a b, a < b → b < n → pos a < pos b) (k : Nat) (hk : k ≤ n) :
    segStart lo len n pos k < segEnd lo len n pos k ∧
    lo ≤ segStart lo len n pos k ∧ segEnd lo len n pos k ≤ lo + len := by
  have he : segEnd lo len n pos k ≤ lo + len ∧ (k = 0 → lo < segEnd lo len n pos k) := by
    unfold segEnd
    split_ifs with h
    · exact ⟨le_refl _, fun _ => by omega⟩
    · have := hint k (by omega)
      exact ⟨by omega, fun _ => by omega⟩
  cases k with
  | zero => exact ⟨he.2 rfl, le_refl _, he.1⟩
  | succ k =>
    have hs : segStart lo len n pos (k + 1) = pos k := by
      show segEnd lo len n pos k = pos k
      unfold segEnd
      rw [if_neg (by omega)]
    have h1 := hint k (by omega)
    refine ⟨?_, by omega, he.1⟩
    rw [hs]
    unfold segEnd
    split_ifs with h
    · omega
    · exact hinc k (k + 1) (by omega) (by omega)

theorem segEnd_le_segStart (lo len : Int) (n : Nat) (pos : Nat → Int)
    (hinc : ∀ a b, a < b → b < n → pos a < pos b) (k k' : Nat) (hkk : k < k') (hk' : k' ≤ n) :
    segEnd lo len n pos k ≤ segStart lo len n pos k' := by
  cases k' with
  | zero => omega
  | succ k' =>
    show segEnd lo len n pos k ≤ segEnd lo len n pos k'
    unfold segEnd
    rw [if_neg (by omega), if_neg (by omega)]
    by_cases h : k = k'
    · rw [h]
    · exact le_of_lt (hinc k k' (by omega) (by omega))

theorem segment_covers (lo len : Int) (n : Nat) (pos : Nat → Int) (y : Int) (h0 : lo ≤ y)
    (h1 : y < lo + len) :
    ∃ k, k ≤ n ∧ segStart lo len n pos k ≤ y ∧ y < segEnd lo len n pos k := by
  have key : ∀ m, m ≤ n → y < segEnd lo len n pos m →
      ∃ k, k ≤ m ∧ segStart lo len n pos k ≤ y ∧ y < segEnd lo len n pos k := by
    intro m
    induction m with
    | zero => exact fun _ h => ⟨0, le_refl _, h0, h⟩
    | succ m ih =>
      intro hm h
      by_cases g : y < segEnd lo len n pos m
      · obtain ⟨k, hk, a, b⟩ := ih (by omega) g
        exact ⟨k, by omega, a, b⟩
      · exact ⟨m + 1, le_refl _, by show segEnd lo len n pos m ≤ y; omega, h⟩
  obtain ⟨k, hk, a, b⟩ := key n (le_refl _) (by unfold segEnd; rw [if_pos rfl]; exact h1)
  exact ⟨k, hk, a, b⟩

theorem collectVirBndry_interior (n : Nat) (pos : Nat → Int) (lo len : Int) (arr : Nat → Int)
    (a : Nat) (ha : a < (collectVirBndry n pos lo len arr).1) :
    lo < (collectVirBndry n pos lo len arr).2 a ∧
      (collectVirBndry n pos lo len arr).2 a < lo + len := by
  rw [collectVirBndry_closed] at ha ⊢
  dsimp only at ha ⊢
  rw [List.getD_eq_getElem _ _ ha]
  have hm : (interiorPositions n pos lo len)[a] ∈ interiorPositions n pos lo len :=
    List.getElem_mem _
  generalize (interiorPositions n pos lo len)[a] = p at hm ⊢
  unfold interiorPositions at hm
  have := (List.mem_filter.mp hm).2
  simpa using this

theorem collectVirBndry_count_le (n : Nat) (pos : Nat → Int) (lo len : Int) (arr : Nat → Int) :
    (collectVirBndry n pos lo len arr).1 ≤ n := by
  rw [collectVirBndry_closed]
  exact interiorPositions_length_le n pos lo len

/-- The positions `isCrossedByVirtualBoundaries` collects lie strictly inside the CTU, and
there are at most as many as are signalled. -/
theorem isCrossedByVirtualBoundaries_interior (NB : Int) (cs : CodingStructure)
    (xPos yPos width height : Int) (hor0 ver0 : Nat → Int) (pps : PPS) (c : CrossedResult)
    (hc : c = isCrossedByVirtualBoundaries NB cs xPos yPos width height hor0 ver0 pps) :
    (∀ a, a < c.numHorVirBndry →
      yPos < c.horVirBndryPos a ∧ c.horVirBndryPos a < yPos + height) ∧
    (∀ a, a < c.numVerVirBndry →
      xPos < c.verVirBndryPos a ∧ c.verVirBndryPos a < xPos + width) ∧
    c.numHorVirBndry ≤ pps.numHorVirtualBoundaries ∧
    c.numVerVirBndry ≤ pps.numVerVirtualBoundaries := by
  subst hc
  unfold isCrossedByVirtualBoundaries
  dsimp only
  cases pps.loopFilterAcrossVirtualBoundariesDisabledFlag
  · simp only [Bool.false_eq_true, if_false]
    exact ⟨fun a ha => absurd ha (by omega), fun a ha => absurd ha (by omega),
      Nat.zero_le _, Nat.zero_le _⟩
  · simp only [if_true]
    exact ⟨fun a ha => collectVirBndry_interior _ _ _ _ _ a ha,
      fun a ha => collectVirBndry_interior _ _ _ _ _ a ha,
      collectVirBndry_count_le _ _ _ _ _, collectVirBndry_count_le _ _ _ _ _⟩

/-- C32, counterexample: with three horizontal and three vertical virtual boundaries at
8, 16 and 24, the CTU at the origin of a picture with CTUs of 128x128 takes the split
path and is cut into 4 rows by 4 columns, 16 sub-rectangles. -/
theorem split_ctu_has_sixteen_parts :
    ctuIsSplit (-128) threeBoundariesPicture 1 0 0 0 0 128 128 (fun _ => 0) (fun _ => 0) = true ∧
    (isCrossedByVirtualBoundaries (-128) threeBoundariesPicture 0 0 128 128 (fun _ => 0)
      (fun _ => 0) threeBoundariesPicture.pps).numHorVirBndry + 1 = 4 ∧
    (isCrossedByVirtualBoundaries (-128) threeBoundariesPicture 0 0 128 128 (fun _ => 0)
      (fun _ => 0) threeBoundariesPicture.pps).numVerVirBndry + 1 = 4 ∧
    (splitCtu (-128) 256 256 0 0 128 128
      (isCrossedByVirtualBoundaries (-128) threeBoundariesPicture 0 0 128 128 (fun _ => 0)
        (fun _ => 0) threeBoundariesPicture.pps)).length = 16 := by
  refine ⟨by decide, by decide, by decide, ?_⟩
  rw [splitCtu_closed, rows_foldl_length]
  decide

/-- C32, amended. In the split path of `ALFProcess` a CTU is partitioned into at most 4
rows by at most 4 columns of sub-rectangles (at most 16 sub-rectangles) for every set of
virtual boundaries the PPS can signal (up to 3 per axis): the rows are one more than the
collected horizontal positions, the columns one more than the collected vertical ones,
and every pair of a row and a column is visited once. -/
theorem split_ctu_at_most_sixteen_parts (NB : Int) (cs : CodingStructure)
    (xPos yPos width height : Int) (hor0 ver0 : Nat → Int) (c : CrossedResult)
    (hc : c = isCrossedByVirtualBoundaries NB cs xPos yPos width height hor0 ver0 cs.pps)
    (hH : cs.pps.numHorVirtualBoundaries ≤ 3) (hV : cs.pps.numVerVirtualBoundaries ≤ 3) :
    (splitCtu NB cs.lumaWidth cs.lumaHeight xPos yPos width height c).length
      = (c.numHorVirBndry + 1) * (c.numVerVirBndry + 1) ∧
    c.numHorVirBndry + 1 ≤ 4 ∧ c.numVerVirBndry + 1 ≤ 4 ∧
    (splitCtu NB cs.lumaWidth cs.lumaHeight xPos yPos width height c).length ≤ 16 ∧
    (∀ b, b ∈ splitCtu NB cs.lumaWidth cs.lumaHeight xPos yPos width height c →
      b.i < 4 ∧ b.j < 4) := by
  obtain ⟨-, -, h1, h2⟩ := isCrossedByVirtualBoundaries_interior NB cs xPos yPos width height
    hor0 ver0 cs.pps c hc
  have hlen : (splitCtu NB cs.lumaWidth cs.lumaHeight xPos yPos width height c).length
      = (c.numHorVirBndry + 1) * (c.numVerVirBndry + 1) := by
    rw [splitCtu_closed, rows_foldl_length]
  refine ⟨hlen, by omega, by omega, ?_, ?_⟩
  · rw [hlen]
    exact Nat.mul_le_mul (show c.numHorVirBndry + 1 ≤ 4 by omega)
      (show c.numVerVirBndry + 1 ≤ 4 by omega)
  · intro b hb
    rw [splitCtu_closed, rows_foldl_mem] at hb
    obtain ⟨i, j, hi, hj, e⟩ := hb
    rw [e]
    exact ⟨show i < 4 by omega, show j < 4 by omega⟩

/-- C32, witness: the CTU at the origin of the picture with the virtual boundaries 8,
200, 64 (horizontal) and 32 (vertical). -/
theorem split_ctu_at_most_sixteen_parts_witness :
    (splitCtu (-128) virtualBoundaryPicture.lumaWidth virtualBoundaryPicture.lumaHeight 0 0
      128 128 (isCrossedByVirtualBoundaries (-128) virtualBoundaryPicture 0 0 128 128
        (fun _ => 0) (fun _ => 0) virtualBoundaryPicture.pps)).length ≤ 16 :=
  (split_ctu_at_most_sixteen_parts (-128) virtualBoundaryPicture 0 0 128 128 (fun _ => 0)
    (fun _ => 0) _ rfl (by decide) (by decide)).2.2.2.1

/-- C38. In the split path of `ALFProcess`, if the interior virtual-boundary positions
collected for each axis are strictly increasing, the sub-rectangles `(xStart, yStart, w, h)`
visited by the two nested loops all have `w > 0` and `h > 0`, are pairwise disjoint, and
their union is exactly the CTU rectangle `(xPos, yPos, width, height)`; and every local
buffer size satisfies `wBuf <= width + 8` and `hBuf <= height + 8`, which is within the
size `(maxCUWidth + (MAX_ALF_PADDING_SIZE << 1)) x (maxCUHeight + (MAX_ALF_PADDING_SIZE << 1))`
of `m_tempBuf2`, the CTU being at most `maxCUWidth x maxCUHeight`. -/
theorem split_ctu_partitions (NB : Int) (cs : CodingStructure)
    (xPos yPos width height maxCUWidth maxCUHeight : Int) (hor0 ver0 : Nat → Int)
    (c : CrossedResult)
    (hc : c = isCrossedByVirtualBoundaries NB cs xPos yPos width height hor0 ver0 cs.pps)
    (hw : 0 < width) (hh : 0 < height) (hwm : width ≤ maxCUWidth) (hhm : height ≤ maxCUHeight)
    (hincH : ∀ a b, a < b → b < c.numHorVirBndry → c.horVirBndryPos a < c.horVirBndryPos b)
    (hincV : ∀ a b, a < b → b < c.numVerVirBndry → c.verVirBndryPos a < c.verVirBndryPos b) :
    (∀ b, b ∈ splitCtu NB cs.lumaWidth cs.lumaHeight xPos yPos width height c →
      0 < b.w ∧ 0 < b.h ∧ b.wBuf ≤ width + 8 ∧ b.hBuf ≤ height + 8 ∧
      b.wBuf ≤ maxCUWidth + shl MAX_ALF_PADDING_SIZE 1 ∧
      b.hBuf ≤ maxCUHeight + shl MAX_ALF_PADDING_SIZE 1) ∧
    List.Pairwise (fun b b' : SubBlock => ∀ x y, ¬ (b.Contains x y ∧ b'.Contains x y))
      (splitCtu NB cs.lumaWidth cs.lumaHeight xPos yPos width height c) ∧
    (∀ x y, (xPos ≤ x ∧ x < xPos + width ∧ yPos ≤ y ∧ y < yPos + height) ↔
      ∃ b, b ∈ splitCtu NB cs.lumaWidth cs.lumaHeight xPos yPos width height c ∧
        b.Contains x y) := by
  obtain ⟨hintH, hintV, -, -⟩ := isCrossedByVirtualBoundaries_interior NB cs xPos yPos width
    height hor0 ver0 cs.pps c hc
  have sy := segStart_lt_segEnd yPos height c.numHorVirBndry c.horVirBndryPos hh hintH hincH
  have sx := segStart_lt_segEnd xPos width c.numVerVirBndry c.verVirBndryPos hw hintV hincV
  have oy := segEnd_le_segStart yPos height c.numHorVirBndry c.horVirBndryPos hincH
  have ox := segEnd_le_segStart xPos width c.numVerVirBndry c.verVirBndryPos hincV
  have hP : MAX_ALF_PADDING_SIZE = 4 := rfl
  have hP2 : shl MAX_ALF_PADDING_SIZE 1 = 8 := by decide
  have fx : ∀ i j, (subBlockAt NB cs.lumaWidth cs.lumaHeight xPos yPos width height c i j).xStart
      = segStart xPos width c.numVerVirBndry c.verVirBndryPos j := fun _ _ => rfl
  have fy : ∀ i j, (subBlockAt NB cs.lumaWidth cs.lumaHeight xPos yPos width height c i j).yStart
      = segStart yPos height c.numHorVirBndry c.horVirBndryPos i := fun _ _ => rfl
  have fw : ∀ i j, (subBlockAt NB cs.lumaWidth cs.lumaHeight xPos yPos width height c i j).w
      = segEnd xPos width c.numVerVirBndry c.verVirBndryPos j
        - segStart xPos width c.numVerVirBndry c.verVirBndryPos j := fun _ _ => rfl
  have fh : ∀ i j, (subBlockAt NB cs.lumaWidth cs.lumaHeight xPos yPos width height c i j).h
      = segEnd yPos height c.numHorVirBndry c.horVirBndryPos i
        - segStart yPos height c.numHorVirBndry c.horVirBndryPos i := fun _ _ => rfl
  have fwb : ∀ i j,
      (subBlockAt NB cs.lumaWidth cs.lumaHeight xPos yPos width height c i j).wBuf
        ≤ (subBlockAt NB cs.lumaWidth cs.lumaHeight xPos yPos width height c i j).w + 8 := by
    intro i j
    simp only [subBlockAt, colBlock, hP]
    split_ifs <;> omega
  have fhb : ∀ i j,
      (subBlockAt NB cs.lumaWidth cs.lumaHeight xPos yPos width height c i j).hBuf
        ≤ (subBlockAt NB cs.lumaWidth cs.lumaHeight xPos yPos width height c i j).h + 8 := by
    intro i j
    simp only [subBlockAt, colBlock, hP]
    split_ifs <;> omega
  rw [splitCtu_closed]
  refine ⟨?_, ?_, ?_⟩
  · intro b hb
    obtain ⟨i, j, hi, hj, e⟩ := (rows_foldl_mem _ _ _ b).mp hb
    have a1 := sy i (by omega)
    have a2 := sx j (by omega)
    have a3 := fwb i j
    have a4 := fhb i j
    rw [e, hP2]
    rw [fw] at a3 ⊢
    rw [fh] at a4 ⊢
    refine ⟨?_, ?_, ?_, ?_, ?_, ?_⟩ <;> omega
  · apply rows_foldl_pairwise
    intro i j i' j' hi' hj hj' hlt x y
    unfold SubBlock.Contains
    rw [fx, fy, fw, fh, fx, fy, fw, fh]
    rintro ⟨⟨g1, g2, g3, g4⟩, g5, g6, g7, g8⟩
    rcases hlt with h | ⟨-, h⟩
    · have := oy i i' h (by omega)
      omega
    · have := ox j j' h (by omega)
      omega
  · intro x y
    constructor
    · rintro ⟨g1, g2, g3, g4⟩
      obtain ⟨i, hi, a1, a2⟩ := segment_covers yPos height c.numHorVirBndry c.horVirBndryPos
        y g3 g4
      obtain ⟨j, hj, b1, b2⟩ := segment_covers xPos width c.numVerVirBndry c.verVirBndryPos
        x g1 g2
      refine ⟨_, (rows_foldl_mem _ _ _ _).mpr ⟨i, j, by omega, by omega, rfl⟩, ?_⟩
      unfold SubBlock.Contains
      rw [fx, fy, fw, fh]
      exact ⟨b1, by omega, a1, by omega⟩
    · rintro ⟨b, hb, hcont⟩
      obtain ⟨i, j, hi, hj, e⟩ := (rows_foldl_mem _ _ _ b).mp hb
      have a1 := sy i (by omega)
      have a2 := sx j (by omega)
      rw [e] at hcont
      unfold SubBlock.Contains at hcont
      rw [fx, fy, fw, fh] at hcont
      obtain ⟨g1, g2, g3, g4⟩ := hcont
      exact ⟨by omega, by omega, by omega, by omega⟩

/-- C38, witness: the CTU at the origin of the picture with three boundaries per axis;
its sixteen sub-rectangles are pairwise disjoint. -/
theorem split_ctu_partitions_witness :
    List.Pairwise (fun b b' : SubBlock => ∀ x y, ¬ (b.Contains x y ∧ b'.Contains x y))
      (splitCtu (-128) threeBoundariesPicture.lumaWidth threeBoundariesPicture.lumaHeight 0 0
        128 128 (isCrossedByVirtualBoundaries (-128) threeBoundariesPicture 0 0 128 128
          (fun _ => 0) (fun _ => 0) threeBoundariesPicture.pps)) :=
  (split_ctu_partitions (-128) threeBoundariesPicture 0 0 128 128 128 128 (fun _ => 0)
    (fun _ => 0) _ rfl (by decide) (by decide) (by decide) (by decide)
    (by
      have h : ∀ b, b < 3 → ∀ a, a < b →
          (isCrossedByVirtualBoundaries (-128) threeBoundariesPicture 0 0 128 128 (fun _ => 0)
            (fun _ => 0) threeBoundariesPicture.pps).horVirBndryPos a
          < (isCrossedByVirtualBoundaries (-128) threeBoundariesPicture 0 0 128 128
            (fun _ => 0) (fun _ => 0) threeBoundariesPicture.pps).horVirBndryPos b := by
        decide
      exact fun a b hab hb => h b hb a hab)
    (by
      have h : ∀ b, b < 3 → ∀ a, a < b →
          (isCrossedByVirtualBoundaries (-128) threeBoundariesPicture 0 0 128 128 (fun _ => 0)
            (fun _ => 0) threeBoundariesPicture.pps).verVirBndryPos a
          < (isCrossedByVirtualBoundaries (-128) threeBoundariesPicture 0 0 128 128
            (fun _ => 0) (fun _ => 0) threeBoundariesPicture.pps).verVirBndryPos b := by
        decide
      exact fun a b hab hb => h b hb a hab)).2.1

end AdaptiveLoopFilter
